import Mathlib

/-!
# CastAway: scanline compositor and dirty-region renderer

A shallow embedding of `src/CastAway/Blitter.cpp`, `src/CastAway/Render.cpp`, the
palette cache of `src/CastAway/DrawSetup.cpp`, the game logic of
`src/CastAway/GameLogic.cpp`, `CA_Anim::frameAt` of `src/CastAway/Anim.h`,
`src/CastAway/LUT.h` and `fastFormatFishCount` of `src/CastAway/CastAway.cpp`.

Conventions of the embedding
* The target is an 8-bit AVR: `int` is 16 bits wide.  Every `int16_t` value is an `Int`
  and every arithmetic result stored in (or computed as) a 16-bit signed integer goes
  through `wrap16`; unsigned 16-bit values go through `u16`.
* Read-only memory (`PROGMEM` sprite data, palettes, background quadrants) is a function
  from the element offset relative to the pointer passed in to the stored value.
* The shared scanline buffer `s_back` is a function from the element offset relative to
  `s_back` to the 16-bit colour stored there (type `LineBuf`); a store `s_back[dx] = c`
  is `Function.update buf dx c`.  Offsets outside the composed window are part of the
  model so that stores outside the window are observable.
* Loops are structural recursions on their iteration count.
* An array with its count (the draw queues, the dirty boxes, the shimmer samples) is the
  list of its live entries.
* `renderFrame` is a function from the renderer, the statics it reads and what the
  environment supplies (build flag, background asset, clock) to the new renderer, the new
  statics and the list of calls made on the display, in order.
* `CA_Logic::step` is a function from the game state, the statics of `GameLogic.cpp` and
  what the environment supplies (the values `millis()` returns, the touch reading) to the
  new game state and statics.  `uint32_t`, `uint16_t` and `uint8_t` values are natural
  numbers reduced modulo `2^32`, `2^16` and `2^8`.
-/

namespace CastAway

/-! ## Machine integers -/

/-- Conversion to `int16_t` (two's complement wrap-around). -/
def wrap16 (x : Int) : Int := (x + 32768) % 65536 - 32768

/-- Conversion to `uint16_t`. -/
def u16 (x : Int) : Int := x % 65536

/-- The scanline buffer `s_back`, indexed by element offset. -/
abbrev LineBuf := Int → Int

/-- `rd8`: read one byte of read-only memory. -/
def rd8 (p : Int → Int) (i : Int) : Int := p i % 256

/-! ## Plain sprite blits (`Blitter.cpp` lines 17-181) -/

/-- The guarded store shared by every blit:
`if ((uint16_t)dx < (uint16_t)wRegion) { ni = ...; if (<not transparent>) s_back[dx] = pal[ni]; }`.
`skip ni` is the transparency test of the variant. -/
def blitPixel (skip : Int → Bool) (pal : Int → Int) (wRegion dx ni : Int)
    (buf : LineBuf) : LineBuf :=
  if u16 dx < u16 wRegion then
    (if skip ni then buf else Function.update buf dx (pal ni))
  else buf

/-- One iteration of the byte loop of the plain blits (lines 51-70): byte `j` of the
source row holds pixels `sx0 = 2j` (high nibble) and `sx1 = 2j+1` (low nibble). -/
def plainByte (skip : Int → Bool) (pal : Int → Int) (src : Int → Int) (hFlip : Bool)
    (dxBaseN dxBaseF sxStart sxEnd wRegion : Int) (j : Int) (buf : LineBuf) : LineBuf :=
  let b := rd8 src j
  let sx0 := wrap16 (j * 2)
  let sx1 := wrap16 (sx0 + 1)
  let buf1 :=
    if sx0 ≥ sxStart then
      blitPixel skip pal wRegion
        (if hFlip then wrap16 (dxBaseF - sx0) else wrap16 (dxBaseN + sx0)) (b / 16) buf
    else buf
  if sx1 ≤ sxEnd then
    blitPixel skip pal wRegion
      (if hFlip then wrap16 (dxBaseF - sx1) else wrap16 (dxBaseN + sx1)) (b % 16) buf1
  else buf1

/-- The loop `for (int16_t j = jStart; j <= jEnd; ++j)`, run for `n` iterations from `j`. -/
def plainLoop (skip : Int → Bool) (pal : Int → Int) (src : Int → Int) (hFlip : Bool)
    (dxBaseN dxBaseF sxStart sxEnd wRegion : Int) : Nat → Int → LineBuf → LineBuf
  | 0, _, buf => buf
  | n + 1, j, buf =>
    plainLoop skip pal src hFlip dxBaseN dxBaseF sxStart sxEnd wRegion n (j + 1)
      (plainByte skip pal src hFlip dxBaseN dxBaseF sxStart sxEnd wRegion j buf)

/-- The body common to `composeOver4bpp_P`, `composeOver4bppKey_P` and
`composeOver4bppKeyIdx_P`: the three source functions have the same clip computation and
the same byte loop and differ only in the transparency test `skip` applied to a nibble.
`sxEnd >> 1 ≤ 16383`, so the loop counter never wraps and the loop runs
`jEnd - jStart + 1` times. -/
def composePlain (skip : Int → Bool) (data : Int → Int) (w h vx vy : Int) (pal : Int → Int)
    (hFlip : Bool) (y x0 wRegion : Int) (buf : LineBuf) : LineBuf :=
  let row := wrap16 (y - vy)
  if row < 0 ∨ row ≥ wrap16 h then buf else
  let bpr := u16 (w + 1) / 2
  let src : Int → Int := fun i => data (row * bpr + i)
  let dxBaseN := wrap16 (vx - x0)
  let dxBaseF := wrap16 (wrap16 (wrap16 (vx + wrap16 w) - 1) - x0)
  let lo0 := if hFlip then wrap16 (dxBaseF - wrap16 (wRegion - 1)) else wrap16 (-dxBaseN)
  let hi0 := if hFlip then dxBaseF else wrap16 (wrap16 (wRegion - 1) - dxBaseN)
  let lo := if lo0 < 0 then 0 else lo0
  let hi := if hi0 > wrap16 (wrap16 w - 1) then wrap16 (wrap16 w - 1) else hi0
  if hi < lo then buf else
  let jStart := lo / 2
  let jEnd := hi / 2
  plainLoop skip pal src hFlip dxBaseN dxBaseF lo hi wRegion (jEnd - jStart + 1).toNat jStart buf

/-- `composeOver4bpp_P`: index 0 is transparent (`if (ni) ...`). -/
def composeOver4bpp_P (data : Int → Int) (w h vx vy : Int) (pal565 : Int → Int)
    (hFlip : Bool) (y x0 wRegion : Int) (buf : LineBuf) : LineBuf :=
  composePlain (fun ni => decide (ni = 0)) data w h vx vy pal565 hFlip y x0 wRegion buf

/-- `composeOver4bppKey_P`: a pixel whose resolved colour equals `key565` is transparent
(`c = paletteRam[ni]; if (c != key565) ...`). -/
def composeOver4bppKey_P (data : Int → Int) (w h vx vy : Int) (paletteRam : Int → Int)
    (hFlip : Bool) (key565 : Int) (y x0 wRegion : Int) (buf : LineBuf) : LineBuf :=
  composePlain (fun ni => decide (paletteRam ni = key565)) data w h vx vy paletteRam hFlip
    y x0 wRegion buf

/-- `composeOver4bppKeyIdx_P`: palette index `keyIndex` is transparent
(`if (ni != keyIndex) ...`). -/
def composeOver4bppKeyIdx_P (data : Int → Int) (w h vx vy : Int) (paletteRam : Int → Int)
    (hFlip : Bool) (keyIndex : Int) (y x0 wRegion : Int) (buf : LineBuf) : LineBuf :=
  composePlain (fun ni => decide (ni = keyIndex)) data w h vx vy paletteRam hFlip
    y x0 wRegion buf

/-! ## AVR sprite blits, `CA_AVR_AGGR` paths (`Blitter.cpp` lines 458-778)

`Blitter.h` defines `CA_AVR_FAST_BLIT` and `CA_AVR_AGGR` as 1 and remaps the generic names
`composeOver4bpp_P`, `composeOver4bppKey_P`, `composeOver4bppKeyIdx_P` to the `_AVR_P`
functions.  With `CA_AVR_AGGR` enabled both branches of `if (!hFlip) ... else ...` return,
so the checked loop that follows `#endif` in each function is unreachable; the embedding
is of the code that runs. -/

/-- The store of the fast paths, `if (<not transparent>) s_back[dx] = pal[ni];`: there is
no test of `dx` against the window. -/
def storeAVR (skip : Int → Bool) (pal : Int → Int) (dx ni : Int) (buf : LineBuf) : LineBuf :=
  if skip ni then buf else Function.update buf dx (pal ni)

/-- The byte loop of the non-flipped fast path,
`for (; j <= jEnd; ++j) { hi nibble -> s_back[dx]; ++dx; lo nibble -> s_back[dx]; ++dx; }`,
run for `n` iterations. -/
def avrLoopN (skip : Int → Bool) (pal : Int → Int) (src : Int → Int) :
    Nat → Int → Int → LineBuf → LineBuf
  | 0, _, _, buf => buf
  | n + 1, j, dx, buf =>
    let b := rd8 src j
    let buf1 := storeAVR skip pal dx (b / 16) buf
    let dx1 := wrap16 (dx + 1)
    let buf2 := storeAVR skip pal dx1 (b % 16) buf1
    avrLoopN skip pal src n (j + 1) (wrap16 (dx1 + 1)) buf2

/-- The byte loops of the flipped fast path: `while (bytes >= 2) { two bytes, four stores,
--dx after each }` followed by `if (bytes == 1) { one byte, two stores }`. -/
def avrLoopF (skip : Int → Bool) (pal : Int → Int) (src : Int → Int) :
    Nat → Int → Int → LineBuf → LineBuf
  | 0, _, _, buf => buf
  | 1, j, dx, buf =>
    let b := rd8 src j
    let buf1 := storeAVR skip pal dx (b / 16) buf
    let dx1 := wrap16 (dx - 1)
    storeAVR skip pal dx1 (b % 16) buf1
  | n + 2, j, dx, buf =>
    let b0 := rd8 src j
    let b1 := rd8 src (j + 1)
    let buf1 := storeAVR skip pal dx (b0 / 16) buf
    let dx1 := wrap16 (dx - 1)
    let buf2 := storeAVR skip pal dx1 (b0 % 16) buf1
    let dx2 := wrap16 (dx1 - 1)
    let buf3 := storeAVR skip pal dx2 (b1 / 16) buf2
    let dx3 := wrap16 (dx2 - 1)
    let buf4 := storeAVR skip pal dx3 (b1 % 16) buf3
    avrLoopF skip pal src n (j + 2) (wrap16 (dx3 - 1)) buf4

/-- The body common to `composeOver4bpp_AVR_P`, `composeOver4bppKey_AVR_P` and
`composeOver4bppKeyIdx_AVR_P` (they differ only in the transparency test `skip`).
The row test is `(uint16_t)row >= h`; the row offset is `(uint32_t)row * bpr`. -/
def composeAVR (skip : Int → Bool) (data : Int → Int) (w h vx vy : Int) (pal : Int → Int)
    (hFlip : Bool) (y x0 wRegion : Int) (buf : LineBuf) : LineBuf :=
  let row := wrap16 (y - vy)
  if u16 row ≥ u16 h then buf else
  let bpr := u16 (w + 1) / 2
  let src : Int → Int := fun i => data ((row % 4294967296) * bpr % 4294967296 + i)
  let dxBaseN := wrap16 (vx - x0)
  let dxBaseF := wrap16 (wrap16 (wrap16 (vx + wrap16 w) - 1) - x0)
  let lo0 := if hFlip then wrap16 (dxBaseF - wrap16 (wRegion - 1)) else wrap16 (-dxBaseN)
  let hi0 := if hFlip then dxBaseF else wrap16 (wrap16 (wRegion - 1) - dxBaseN)
  let lo := if lo0 < 0 then 0 else lo0
  let hi := if hi0 > wrap16 (wrap16 w - 1) then wrap16 (wrap16 w - 1) else hi0
  if hi < lo then buf else
  let sx := lo
  let dx := if hFlip then wrap16 (dxBaseF - lo) else wrap16 (dxBaseN + lo)
  let j := sx / 2
  let odd : Bool := decide (sx % 2 ≠ 0)
  -- `if (sx & 1) { low nibble of byte j -> s_back[dx]; ++sx; ++dx / --dx; ++j; }`
  let buf1 := if odd then storeAVR skip pal dx (rd8 src j % 16) buf else buf
  let dx1 := if odd then (if hFlip then wrap16 (dx - 1) else wrap16 (dx + 1)) else dx
  let j1 := if odd then j + 1 else j
  let jEnd := hi / 2
  if hFlip then
    avrLoopF skip pal src (wrap16 (jEnd - j1 + 1)).toNat j1 dx1 buf1
  else
    avrLoopN skip pal src (jEnd - j1 + 1).toNat j1 dx1 buf1

/-- `composeOver4bpp_AVR_P`: index 0 is transparent. -/
def composeOver4bpp_AVR_P (data : Int → Int) (w h vx vy : Int) (pal565 : Int → Int)
    (hFlip : Bool) (y x0 wRegion : Int) (buf : LineBuf) : LineBuf :=
  composeAVR (fun ni => decide (ni = 0)) data w h vx vy pal565 hFlip y x0 wRegion buf

/-- `composeOver4bppKey_AVR_P`: the colour `key565` is transparent. -/
def composeOver4bppKey_AVR_P (data : Int → Int) (w h vx vy : Int) (paletteRam : Int → Int)
    (hFlip : Bool) (key565 : Int) (y x0 wRegion : Int) (buf : LineBuf) : LineBuf :=
  composeAVR (fun ni => decide (paletteRam ni = key565)) data w h vx vy paletteRam hFlip
    y x0 wRegion buf

/-- `composeOver4bppKeyIdx_AVR_P`: palette index `keyIndex` is transparent. -/
def composeOver4bppKeyIdx_AVR_P (data : Int → Int) (w h vx vy : Int) (paletteRam : Int → Int)
    (hFlip : Bool) (keyIndex : Int) (y x0 wRegion : Int) (buf : LineBuf) : LineBuf :=
  composeAVR (fun ni => decide (ni = keyIndex)) data w h vx vy paletteRam hFlip
    y x0 wRegion buf

/-! ## Background line composer (`Blitter.cpp` lines 273-439) -/

/-- The running state of the `drawSegment` lambda: the store pointer `dst` (as an offset
into `s_back`), the source index `sxi`, the screen column `x`, the remaining pair count
`pairs` and the line buffer. -/
structure SegState where
  dst : Int
  sxi : Int
  x : Int
  pairs : Int
  buf : LineBuf

/-- The stores `dst[2*i] = c; dst[2*i+1] = c;` with `c = pal[rd8(row + sxi + i)]`. -/
def emitPairAt (pal row : Int → Int) (sxi dst : Int) (i : Int) (buf : LineBuf) : LineBuf :=
  Function.update (Function.update buf (dst + 2 * i) (pal (rd8 row (sxi + i))))
    (dst + 2 * i + 1) (pal (rd8 row (sxi + i)))

/-- Body of `while (pairs >= 8)`: eight source pixels, sixteen stores,
`dst += 16; sxi += 8; x += 16; pairs -= 8`. -/
def segStep8 (pal row : Int → Int) (s : SegState) : SegState :=
  { dst := s.dst + 16
    sxi := wrap16 (s.sxi + 8)
    x := wrap16 (s.x + 16)
    pairs := wrap16 (s.pairs - 8)
    buf := emitPairAt pal row s.sxi s.dst 7 (emitPairAt pal row s.sxi s.dst 6
      (emitPairAt pal row s.sxi s.dst 5 (emitPairAt pal row s.sxi s.dst 4
      (emitPairAt pal row s.sxi s.dst 3 (emitPairAt pal row s.sxi s.dst 2
      (emitPairAt pal row s.sxi s.dst 1 (emitPairAt pal row s.sxi s.dst 0 s.buf))))))) }

/-- Body of `while (pairs >= 4)`. -/
def segStep4 (pal row : Int → Int) (s : SegState) : SegState :=
  { dst := s.dst + 8
    sxi := wrap16 (s.sxi + 4)
    x := wrap16 (s.x + 8)
    pairs := wrap16 (s.pairs - 4)
    buf := emitPairAt pal row s.sxi s.dst 3 (emitPairAt pal row s.sxi s.dst 2
      (emitPairAt pal row s.sxi s.dst 1 (emitPairAt pal row s.sxi s.dst 0 s.buf))) }

/-- Body of `while (pairs >= 2)`. -/
def segStep2 (pal row : Int → Int) (s : SegState) : SegState :=
  { dst := s.dst + 4
    sxi := wrap16 (s.sxi + 2)
    x := wrap16 (s.x + 4)
    pairs := wrap16 (s.pairs - 2)
    buf := emitPairAt pal row s.sxi s.dst 1 (emitPairAt pal row s.sxi s.dst 0 s.buf) }

/-- Body of `if (pairs == 1)`: one source pixel, `x += 2; pairs = 0`. -/
def segStep1 (pal row : Int → Int) (s : SegState) : SegState :=
  { dst := s.dst + 2
    sxi := wrap16 (s.sxi + 1)
    x := wrap16 (s.x + 2)
    pairs := 0
    buf := emitPairAt pal row s.sxi s.dst 0 s.buf }

/-- The loop `while (pairs >= k) body`, with `fuel` bounding the number of iterations. -/
def whilePairs (k : Int) (body : SegState → SegState) : Nat → SegState → SegState
  | 0, s => s
  | fuel + 1, s => if s.pairs ≥ k then whilePairs k body fuel (body s) else s

/-- The pair loops of `drawSegment` in sequence: `while (pairs >= 8)`, `while (pairs >= 4)`
(both under `CA_AVR_AGGR`), `while (pairs >= 2)`, `if (pairs == 1)`.  Every loop is given
`pairs` iterations of fuel, more than it can use since each iteration lowers `pairs`. -/
def segLoops (pal row : Int → Int) (s0 : SegState) : SegState :=
  let s8 := whilePairs 8 (segStep8 pal row) s0.pairs.toNat s0
  let s4 := whilePairs 4 (segStep4 pal row) s0.pairs.toNat s8
  let s2 := whilePairs 2 (segStep2 pal row) s0.pairs.toNat s4
  if s2.pairs = 1 then segStep1 pal row s2 else s2

/-- The `drawSegment` lambda: replicate each source pixel of `row` twice over the screen
columns `[segL, segR)`. -/
def drawSegment (pal : Int → Int) (x0 : Int) (segL segR : Int) (row : Int → Int) (srcX0 : Int)
    (buf : LineBuf) : LineBuf :=
  if segR ≤ segL then buf else
  let dst := wrap16 (segL - x0)
  let x := segL
  let sxi := wrap16 (srcX0 + segL / 2)
  -- leading half pixel when starting on an odd screen column
  let odd : Bool := decide (x % 2 ≠ 0)
  let buf1 := if odd then Function.update buf dst (pal (rd8 row sxi)) else buf
  let dst1 := if odd then dst + 1 else dst
  let x1 := if odd then wrap16 (x + 1) else x
  let sxi1 := if odd then wrap16 (sxi + 1) else sxi
  let pairs := wrap16 (wrap16 (segR - x1) / 2)
  let s1 := segLoops pal row { dst := dst1, sxi := sxi1, x := x1, pairs := pairs, buf := buf1 }
  -- trailing single
  if s1.x < segR then Function.update s1.buf s1.dst (pal (rd8 row s1.sxi)) else s1.buf

/-- `composeBGLine_160to320_quads_P`.  `q0..q3` are the four quadrant buffers, `w160 x h120`
the logical size, `cw x ch` the quadrant size. -/
def composeBGLine_160to320_quads_P (q0 q1 q2 q3 : Int → Int) (w160 h120 cw ch : Int)
    (pal565 : Int → Int) (y x0 w : Int) (buf : LineBuf) : LineBuf :=
  if w ≤ 0 then buf else
  let srcY0 := wrap16 (y / 2)
  let srcY := if srcY0 < 0 then 0
    else if srcY0 ≥ wrap16 h120 then wrap16 (wrap16 h120 - 1) else srcY0
  let leftW := u16 cw
  let rightW := u16 (w160 - cw)
  let topMask : Bool := decide (srcY ≥ wrap16 ch)
  let ly := wrap16 (srcY - (if topMask then wrap16 ch else 0))
  let qL := if topMask then q2 else q0
  let qR := if topMask then q3 else q1
  let rowL : Int → Int := fun i => qL ((ly % 4294967296) * leftW % 4294967296 + i)
  let rowR : Int → Int := fun i => qR ((ly % 4294967296) * rightW % 4294967296 + i)
  let splitX := wrap16 (wrap16 cw * 2)
  let xStart := x0
  let xEnd := wrap16 (x0 + w)
  let L0 := if xStart < 0 then 0 else xStart
  let R0 := if xEnd > splitX then splitX else xEnd
  let buf1 := if R0 > L0 then drawSegment pal565 x0 L0 R0 rowL 0 buf else buf
  let L1 := if xStart < splitX then splitX else xStart
  let screenMax := wrap16 (wrap16 w160 * 2)
  let R1 := if xEnd > screenMax then screenMax else xEnd
  if R1 > L1 then drawSegment pal565 x0 L1 R1 rowR (wrap16 (-(splitX / 2))) buf1 else buf1

/-- The unsplit `W0 x H0` image reassembled from the quadrants, as the spec describes it:
`q0` top-left, `q1` top-right, `q2` bottom-left, `q3` bottom-right, each stored row-major
and contiguous; the left quadrants are `cw` wide, the top quadrants `ch` high. -/
def unsplitImage (q0 q1 q2 q3 : Int → Int) (W0 cw ch : Int) (r c : Int) : Int :=
  if r < ch then
    (if c < cw then q0 (r * cw + c) % 256 else q1 (r * (W0 - cw) + (c - cw)) % 256)
  else
    (if c < cw then q2 ((r - ch) * cw + c) % 256 else q3 ((r - ch) * (W0 - cw) + (c - cw)) % 256)

/-- The background row the spec prescribes: `buffer[dx] = palette[img[y>>1][(x0+dx)>>1]]`
for every `dx` in `[0, w)` whose screen column `x0 + dx` lies in `[0, 2*W0)`; every other
entry unchanged. -/
def refBGLine (q0 q1 q2 q3 : Int → Int) (W0 cw ch : Int) (pal : Int → Int) (y x0 w : Int)
    (buf : LineBuf) : LineBuf := fun dx =>
  if 0 ≤ dx ∧ dx < w ∧ 0 ≤ x0 + dx ∧ x0 + dx < 2 * W0 then
    pal (unsplitImage q0 q1 q2 q3 W0 cw ch (y / 2) ((x0 + dx) / 2))
  else buf dx

/-! ## The naive per-pixel reference (spec section 4.1, "Reference semantics") -/

/-- Nibble of pixel `sx` in row `row` of a packed sprite of width `w`: byte
`row * ceil(w/2) + sx/2`, high nibble for even `sx`, low nibble for odd `sx`. -/
def nibbleAt (data : Int → Int) (w row sx : Int) : Int :=
  let b := data (row * ((w + 1) / 2) + sx / 2) % 256
  if sx % 2 = 0 then b / 16 else b % 16

/-- The three transparency rules of the spec (section 4.1): (a) index 0 is transparent,
(b) a pixel whose resolved colour equals the supplied key colour is transparent, (c) the
supplied palette index is transparent. -/
inductive TransparencyRule where
  | index0 : TransparencyRule
  | colorKey (key565 : Int) : TransparencyRule
  | indexKey (keyIndex : Int) : TransparencyRule

/-- Whether nibble `ni` is transparent under a rule, for the palette `pal`. -/
def TransparencyRule.transparent (pal : Int → Int) : TransparencyRule → Int → Bool
  | .index0, ni => decide (ni = 0)
  | .colorKey key565, ni => decide (pal ni = key565)
  | .indexKey keyIndex, ni => decide (ni = keyIndex)

/-- The reference blit, following the words of the spec: for each `dx` in `[0, wRegion)`,
`sx = dx - (vx - x0)` when not flipped and `sx = vx + w - 1 - x0 - dx` when flipped; if
`0 ≤ y - vy < h`, `0 ≤ sx < w` and the nibble of pixel `sx` is not transparent under the
rule then `buffer[dx] = palette[nibble]`; every other entry is unchanged. -/
def refBlit (rule : TransparencyRule) (data : Int → Int) (w h vx vy : Int) (pal : Int → Int)
    (hFlip : Bool) (y x0 wRegion : Int) (buf : LineBuf) : LineBuf := fun dx =>
  let sx := if hFlip then vx + w - 1 - x0 - dx else dx - (vx - x0)
  let row := y - vy
  if 0 ≤ dx ∧ dx < wRegion ∧ 0 ≤ row ∧ row < h ∧ 0 ≤ sx ∧ sx < w ∧
      rule.transparent pal (nibbleAt data w row sx) = false then
    pal (nibbleAt data w row sx)
  else buf dx

/-- The arithmetic of one blit call stays inside the 16-bit signed range: the arguments
are `int16_t` values, the sprite extents are below 32768, and none of the sums the clip
computation forms overflows. -/
structure NoOverflow (w h vx vy y x0 wRegion : Int) : Prop where
  w_lo : 0 ≤ w
  w_hi : w < 32768
  h_lo : 0 ≤ h
  h_hi : h < 32768
  wr_lo : -32768 < wRegion
  wr_hi : wRegion ≤ 32767
  row_lo : -32768 ≤ y - vy
  row_hi : y - vy ≤ 32767
  baseN_lo : -32768 < vx - x0
  baseN_hi : vx - x0 ≤ 32767
  right_hi : vx + w ≤ 32767
  right_lo : -32768 ≤ vx + w - 1
  baseF_lo : -32768 ≤ vx + w - 1 - x0
  baseF_hi : vx + w - 1 - x0 ≤ 32767
  hiN_lo : -32768 ≤ wRegion - 1 - (vx - x0)
  hiN_hi : wRegion - 1 - (vx - x0) ≤ 32767
  loF_lo : -32768 ≤ vx + w - 1 - x0 - (wRegion - 1)
  loF_hi : vx + w - 1 - x0 - (wRegion - 1) ≤ 32767

/-! ## Dirty-region tracking and the box pipeline of `renderFrame` (`Render.cpp`)

The arrays `wbox[MAX_WB]` / `ui[MAX_UIB]` with their counts `wBoxN` / `uiBoxN` are lists:
the list is the live prefix of the array, appending is `wbox[wBoxN++] = ...`, and entries
past the count are never read. -/

/-- `struct Box { bool valid; int16_t minX, minY, maxX, maxY; }`. -/
structure Box where
  valid : Bool
  minX : Int
  minY : Int
  maxX : Int
  maxY : Int
deriving DecidableEq

/-- Capacity of the world dirty-box array. -/
def MAX_WB : Nat := 28

/-- Capacity of the UI dirty-box array. -/
def MAX_UIB : Nat := 8

/-- The part of `struct Sprite` (with its `CA_Frame4`) the renderer reads. -/
structure Sprite where
  data : Int → Int
  w : Int
  h : Int
  vx : Int
  vy : Int
  hFlip : Bool
  palRam : Int → Int
  keyIdx : Int
  z : Int

/-- `CA_Render::clampBox`. -/
def clampBox (b : Box) (W H : Int) : Box :=
  if b.valid = false then b else
  let x0 := if b.minX < 0 then 0 else b.minX
  let y0 := if b.minY < 0 then 0 else b.minY
  let x1 := if b.maxX > W then W else b.maxX
  let y1 := if b.maxY > H then H else b.maxY
  { valid := if x1 ≤ x0 ∨ y1 ≤ y0 then false else true
    minX := x0, minY := y0, maxX := x1, maxY := y1 }

/-- `CA_Render::intersects`. -/
def intersects (b : Box) (x y w h : Int) : Bool :=
  if b.valid = false then false else
  let x1 := wrap16 (x + w)
  let y1 := wrap16 (y + h)
  !(decide (x1 ≤ b.minX) || decide (y1 ≤ b.minY) || decide (x ≥ b.maxX) || decide (y ≥ b.maxY))

/-- The union assignment used by `addUIRect` and `addWorldRect`:
`b.minX = min(b.minX, x); ...; b.maxX = max(b.maxX, (int16_t)(x+w)); ...`. -/
def unionRect (b : Box) (x y w h : Int) : Box :=
  { b with
    minX := min b.minX x
    minY := min b.minY y
    maxX := max b.maxX (wrap16 (x + w))
    maxY := max b.maxY (wrap16 (y + h)) }

/-- The loop `for (i = 0; i < N; ++i) if (intersects(box[i], ...)) { union; return; }`:
`some` of the updated array when a box intersected, `none` when the loop fell through. -/
def unionFirst : List Box → Int → Int → Int → Int → Option (List Box)
  | [], _, _, _, _ => none
  | b :: bs, x, y, w, h =>
    if intersects b x y w h then some (unionRect b x y w h :: bs)
    else (unionFirst bs x y w h).map (fun r => b :: r)

/-- `CA_Render::addUIRect` (= `addDirtyRect`): on a full array the rectangle is not stored. -/
def addUIRect (ui : List Box) (x y w h : Int) : List Box :=
  if w ≤ 0 ∨ h ≤ 0 then ui else
  match unionFirst ui x y w h with
  | some ui' => ui'
  | none =>
    if ui.length < MAX_UIB then
      ui ++ [{ valid := true, minX := x, minY := y, maxX := wrap16 (x + w), maxY := wrap16 (y + h) }]
    else ui

/-- `CA_Render::addWorldRect` (= `addDirtyWorldRect`): on a full array the rectangle is
unioned into `wbox[0]`. -/
def addWorldRect (wbox : List Box) (x y w h : Int) : List Box :=
  if w ≤ 0 ∨ h ≤ 0 then wbox else
  match unionFirst wbox x y w h with
  | some wbox' => wbox'
  | none =>
    if wbox.length < MAX_WB then
      wbox ++ [{ valid := true, minX := x, minY := y, maxX := wrap16 (x + w),
                 maxY := wrap16 (y + h) }]
    else
      match wbox with
      | [] => []
      | b0 :: rest => unionRect b0 x y w h :: rest

/-- `x & ~1` on a 16-bit signed integer. -/
def evenDown (x : Int) : Int := x - x % 2

/-- Rounding of a box to even boundaries (`renderFrame`, lines 237-240 and 303-306):
`minX &= ~1; minY &= ~1; maxX = (maxX + 1) & ~1; maxY = (maxY + 1) & ~1`. -/
def roundBox (b : Box) : Box :=
  { b with
    minX := evenDown b.minX
    minY := evenDown b.minY
    maxX := evenDown (wrap16 (b.maxX + 1))
    maxY := evenDown (wrap16 (b.maxY + 1)) }

/-- First loop of `renderFrame` over the world boxes (lines 231-243): clamp, then round
the boxes that are still valid. -/
def clampRoundWorld (W H : Int) (wbox : List Box) : List Box :=
  wbox.map (fun b =>
    if b.valid then
      let c := clampBox b W H
      if c.valid then roundBox c else c
    else b)

/-- Clamp loop (lines 244-249 for the UI boxes, line 264 for the world boxes). -/
def clampAll (W H : Int) (boxes : List Box) : List Box :=
  boxes.map (fun b => if b.valid then clampBox b W H else b)

/-- Foreground pass (lines 255-261): `addWorldRect(s.vx, s.vy, s.f.w, s.f.h)` for every
queued foreground sprite; the `uint16_t` extents are converted to `int16_t` parameters. -/
def fgPass (fg : List Sprite) (wbox : List Box) : List Box :=
  fg.foldl (fun wb s => addWorldRect wb s.vx s.vy (wrap16 s.w) (wrap16 s.h)) wbox

/-- The union assignment of the UI merge:
`w.minX = min(w.minX, u.minX); ...; w.maxX = max(w.maxX, u.maxX); ...`. -/
def unionBox (wb u : Box) : Box :=
  { wb with
    minX := min wb.minX u.minX
    minY := min wb.minY u.minY
    maxX := max wb.maxX u.maxX
    maxY := max wb.maxY u.maxY }

/-- Inner loop of the UI merge (lines 271-282): union `u` into the first valid world box
it intersects; `none` when `merged` stays false. -/
def mergeInto : List Box → Box → Option (List Box)
  | [], _ => none
  | b :: bs, u =>
    if intersects b u.minX u.minY (wrap16 (u.maxX - u.minX)) (wrap16 (u.maxY - u.minY)) then
      some (unionBox b u :: bs)
    else (mergeInto bs u).map (fun r => b :: r)

/-- Body of the UI merge loop for one UI box (lines 268-295). -/
def mergeOne (wbox : List Box) (u : Box) : List Box :=
  if u.valid = false then wbox else
  match mergeInto wbox u with
  | some wbox' => wbox'
  | none =>
    if wbox.length < MAX_WB then wbox ++ [u]
    else
      match wbox with
      | [] => []
      | b0 :: rest => unionBox b0 u :: rest

/-- The dirty-box state of the renderer: world boxes and UI boxes. -/
structure DirtyState where
  wbox : List Box
  ui : List Box

/-- The UI merge (lines 267-297): every UI box is merged in turn, then `uiBoxN = 0`. -/
def mergeUI (s : DirtyState) : DirtyState :=
  { wbox := s.ui.foldl mergeOne s.wbox, ui := [] }

/-- Re-rounding loop after the merge (lines 300-308). -/
def reRound (wbox : List Box) : List Box :=
  wbox.map (fun b => if b.valid then roundBox b else b)

/-- The world boxes as they stand after the UI merge and before the re-rounding loop:
clamp and round, clamp the UI boxes, foreground pass when `fgNeedsFullPass` is set, clamp
again, merge. -/
def mergedBoxes (W H : Int) (fgNeedsFullPass : Bool) (fg : List Sprite) (s : DirtyState) :
    List Box :=
  let wb1 := clampRoundWorld W H s.wbox
  let ui1 := clampAll W H s.ui
  let wb2 := if fgNeedsFullPass then fgPass fg wb1 else wb1
  let wb3 := clampAll W H wb2
  (mergeUI { wbox := wb3, ui := ui1 }).wbox

/-- The rectangles for which `renderFrame` opens a display window
(`setAddrWindow(minX, minY, maxX-1, maxY-1)` followed by the rows `minY .. maxY-1`): none
on the early-out (no dirty box and the foreground flag unset), otherwise the re-rounded
valid boxes with `W = (int16_t)(maxX - minX) > 0`. -/
def paintedBoxes (W H : Int) (fgNeedsFullPass : Bool) (fg : List Sprite) (s : DirtyState) :
    List Box :=
  if fgNeedsFullPass = false ∧ s.wbox.length = 0 ∧ s.ui.length = 0 then []
  else
    (reRound (mergedBoxes W H fgNeedsFullPass fg s)).filter
      (fun b => b.valid && decide (wrap16 (b.maxX - b.minX) > 0))

/-- A dirty-rectangle request `(x, y, w, h)`. -/
structure DirtyReq where
  x : Int
  y : Int
  w : Int
  h : Int
deriving DecidableEq

/-- A sequence of `addDirtyWorldRect` calls issued on the world boxes `wbox`. -/
def addWorldRects (wbox : List Box) (rs : List DirtyReq) : List Box :=
  rs.foldl (fun wb r => addWorldRect wb r.x r.y r.w r.h) wbox

/-- A sequence of `addDirtyRect` calls issued on the UI boxes `ui`. -/
def addUIRects (ui : List Box) (rs : List DirtyReq) : List Box :=
  rs.foldl (fun u r => addUIRect u r.x r.y r.w r.h) ui

/-- The box contains the rectangle `[x, x+w) x [y, y+h)`. -/
def Box.containsRect (b : Box) (x y w h : Int) : Prop :=
  b.minX ≤ x ∧ x + w ≤ b.maxX ∧ b.minY ≤ y ∧ y + h ≤ b.maxY

/-- The box contains the pixel `(px, py)`. -/
def Box.containsPt (b : Box) (px py : Int) : Prop :=
  b.minX ≤ px ∧ px < b.maxX ∧ b.minY ≤ py ∧ py < b.maxY

/-- The two boxes share a pixel (geometric intersection of `[min, max)` rectangles). -/
def Box.overlaps (a b : Box) : Prop :=
  a.minX < b.maxX ∧ b.minX < a.maxX ∧ a.minY < b.maxY ∧ b.minY < a.maxY

/-- An on-screen box: valid after `clampBox` on a `W x H` screen. -/
def Box.onScreen (b : Box) (W H : Int) : Prop :=
  b.valid = true ∧ 0 ≤ b.minX ∧ b.minX < b.maxX ∧ b.maxX ≤ W ∧
    0 ≤ b.minY ∧ b.minY < b.maxY ∧ b.maxY ≤ H

/-- A request with positive extents whose far edges fit the 16-bit range. -/
def DirtyReq.wellFormed (r : DirtyReq) : Prop :=
  0 < r.w ∧ 0 < r.h ∧ -32768 ≤ r.x ∧ r.x + r.w ≤ 32767 ∧ -32768 ≤ r.y ∧ r.y + r.h ≤ 32767

/-- Every box of `l'` is the box of `l` at the same index, possibly grown, with the same
validity flag. -/
def Grown (l l' : List Box) : Prop :=
  List.Forall₂ (fun b b' => b'.valid = b.valid ∧ b'.minX ≤ b.minX ∧ b.maxX ≤ b'.maxX ∧
    b'.minY ≤ b.minY ∧ b.maxY ≤ b'.maxY) l l'

/-- Some valid box of the list contains the rectangle. -/
def Covered (l : List Box) (x y w h : Int) : Prop :=
  ∃ b ∈ l, b.valid = true ∧ b.containsRect x y w h

/-- Every valid box of the list is on screen. -/
def ValidOnScreen (W H : Int) (l : List Box) : Prop :=
  ∀ b ∈ l, b.valid = true → b.onScreen W H

/-! ## Solid fill, outline and bar (`Blitter.cpp` lines 183-271) -/

/-- The fill loop `for (i = 0; i < fillLen; ++i) dst[i] = color565;` (the AVR `st Z+` loop
stores the same `fillLen` words). -/
def fillLoop (color565 : Int) : Nat → Int → LineBuf → LineBuf
  | 0, _, buf => buf
  | n + 1, dst, buf => fillLoop color565 n (dst + 1) (Function.update buf dst color565)

/-- `CA_Blit::composeSolidRectLine`. -/
def composeSolidRectLine (y x0 wRegion rx ry rw rh color565 : Int) (buf : LineBuf) : LineBuf :=
  if y < ry ∨ y ≥ wrap16 (ry + rh) then buf else
  let x1 := wrap16 (x0 + wRegion)
  let L := if rx < x0 then x0 else rx
  let R0 := wrap16 (rx + rw)
  let R := if R0 > x1 then x1 else R0
  let fillLen := wrap16 (R - L)
  if fillLen ≤ 0 then buf else
  fillLoop color565 fillLen.toNat (wrap16 (L - x0)) buf

/-- The loop `for (int16_t x = L; x < R; ++x) s_back[x - x0] = color565;` of the outline. -/
def outlineRowLoop (color565 x0 : Int) : Nat → Int → LineBuf → LineBuf
  | 0, _, buf => buf
  | n + 1, x, buf =>
    outlineRowLoop color565 x0 n (x + 1) (Function.update buf (wrap16 (x - x0)) color565)

/-- `CA_Blit::composeRectOutlineLine`. -/
def composeRectOutlineLine (y x0 wRegion rx ry rw rh color565 : Int) (buf : LineBuf) :
    LineBuf :=
  let x1 := wrap16 (x0 + wRegion)
  let r := wrap16 (wrap16 (rx + rw) - 1)
  let bottom := wrap16 (wrap16 (ry + rh) - 1)
  if y = ry ∨ y = bottom then
    let L := if rx < x0 then x0 else rx
    let R0 := wrap16 (r + 1)
    let R := if R0 > x1 then x1 else R0
    outlineRowLoop color565 x0 (R - L).toNat L buf
  else if y > ry ∧ y < bottom then
    let buf1 := if rx ≥ x0 ∧ rx < x1 then Function.update buf (wrap16 (rx - x0)) color565 else buf
    if r ≥ x0 ∧ r < x1 then Function.update buf1 (wrap16 (r - x0)) color565 else buf1
  else buf

/-- `CA_Blit::composeHBarLine` (the bar's `by` is spelled `by_`). -/
def composeHBarLine (y x0 wRegion bx by_ bw bh fillW color565 : Int) (buf : LineBuf) :
    LineBuf :=
  if y < by_ ∨ y ≥ wrap16 (by_ + bh) then buf else
  let fillW1 := if fillW < 0 then 0 else fillW
  let fillW2 := if fillW1 > bw then bw else fillW1
  let x1 := wrap16 (x0 + wRegion)
  let L := if bx < x0 then x0 else bx
  let R0 := wrap16 (bx + fillW2)
  let R := if R0 > x1 then x1 else R0
  let fillLen := wrap16 (R - L)
  if fillLen ≤ 0 then buf else
  fillLoop color565 fillLen.toNat (wrap16 (L - x0)) buf

/-! ## Text (`Render.cpp` lines 388-410 and the font table, lines 482-509) -/

/-- `CA_Render::FONT5x7[96][5]`: the initialiser lists 95 glyphs (0x20..0x7E), the last row
of the array is zero-initialised. -/
def FONT5x7 : List (List Nat) :=
  [[0, 0, 0, 0, 0], [0, 0, 95, 0, 0], [0, 7, 0, 7, 0], [20, 127, 20, 127, 20],
   [36, 42, 127, 42, 18], [35, 19, 8, 100, 98], [54, 73, 85, 34, 80], [0, 5, 3, 0, 0],
   [0, 28, 34, 65, 0], [0, 65, 34, 28, 0], [20, 8, 62, 8, 20], [8, 8, 62, 8, 8],
   [0, 80, 48, 0, 0], [8, 8, 8, 8, 8], [0, 96, 96, 0, 0], [32, 16, 8, 4, 2],
   [62, 81, 73, 69, 62], [0, 66, 127, 64, 0], [66, 97, 81, 73, 70], [33, 65, 69, 75, 49],
   [24, 20, 18, 127, 16], [39, 69, 69, 69, 57], [60, 74, 73, 73, 48], [1, 113, 9, 5, 3],
   [54, 73, 73, 73, 54], [6, 73, 73, 41, 30], [0, 54, 54, 0, 0], [0, 86, 54, 0, 0],
   [8, 20, 34, 65, 0], [20, 20, 20, 20, 20], [0, 65, 34, 20, 8], [2, 1, 81, 9, 6],
   [62, 65, 121, 65, 62], [126, 17, 17, 17, 126], [127, 73, 73, 73, 54], [62, 65, 65, 65, 34],
   [127, 65, 65, 34, 28], [127, 73, 73, 73, 65], [127, 9, 9, 9, 1], [62, 65, 73, 73, 122],
   [127, 8, 8, 8, 127], [0, 65, 127, 65, 0], [32, 64, 65, 63, 1], [127, 8, 20, 34, 65],
   [127, 64, 64, 64, 64], [127, 2, 4, 2, 127], [127, 2, 4, 8, 127], [62, 65, 65, 65, 62],
   [127, 9, 9, 9, 6], [62, 65, 81, 33, 94], [127, 9, 25, 41, 70], [70, 73, 73, 73, 49],
   [1, 1, 127, 1, 1], [63, 64, 64, 64, 63], [31, 32, 64, 32, 31], [63, 64, 56, 64, 63],
   [99, 20, 8, 20, 99], [7, 8, 112, 8, 7], [97, 81, 73, 69, 67], [0, 127, 65, 65, 0],
   [2, 4, 8, 16, 32], [0, 65, 65, 127, 0], [4, 2, 1, 2, 4], [128, 128, 128, 128, 128],
   [0, 3, 5, 0, 0], [32, 84, 84, 84, 120], [127, 72, 68, 68, 56], [56, 68, 68, 68, 32],
   [56, 68, 68, 72, 127], [56, 84, 84, 84, 24], [8, 126, 9, 1, 2], [12, 82, 82, 82, 62],
   [127, 8, 4, 4, 120], [0, 68, 125, 64, 0], [32, 64, 68, 61, 0], [127, 16, 40, 68, 0],
   [0, 65, 127, 64, 0], [124, 8, 4, 4, 120], [124, 8, 4, 4, 120], [56, 68, 68, 68, 56],
   [124, 20, 20, 20, 8], [8, 20, 20, 24, 124], [124, 8, 4, 4, 8], [72, 84, 84, 84, 32],
   [4, 63, 68, 64, 32], [60, 64, 64, 32, 124], [28, 32, 64, 32, 28], [60, 64, 48, 64, 60],
   [68, 40, 16, 40, 68], [12, 80, 80, 80, 60], [68, 100, 84, 76, 68], [0, 8, 54, 65, 0],
   [0, 0, 127, 0, 0], [0, 65, 54, 8, 0], [16, 8, 8, 16, 8]]

/-- `pgm_read_byte(&FONT5x7[ch][col])`. -/
def fontColumn (ch col : Nat) : Nat := (FONT5x7.getD ch []).getD col 0

/-- The loop `for (col = 0; col < 5; ++col)` over the columns of one glyph, run for `n`
columns from `col`: a set bit `colBits & rowMask` stores the colour at
`dx = (int16_t)((cx + col) - minX)` when `(uint16_t)dx < (uint16_t)W`. -/
def glyphLoop (color565 minX W : Int) (rowMask : Nat) (cx : Int) (ch : Nat) :
    Nat → Nat → LineBuf → LineBuf
  | 0, _, buf => buf
  | n + 1, col, buf =>
    let colBits := fontColumn ch col
    let dx := wrap16 (wrap16 (cx + col) - minX)
    let buf1 :=
      if Nat.land colBits rowMask ≠ 0 then
        (if u16 dx < u16 W then Function.update buf dx color565 else buf)
      else buf
    glyphLoop color565 minX W rowMask cx ch n (col + 1) buf1

/-- The loop over the characters of one text item: characters outside 32..127 only advance
the pen, `cx += 6` after every character. -/
def textChars (color565 minX W : Int) (rowMask : Nat) : List Nat → Int → LineBuf → LineBuf
  | [], _, buf => buf
  | ch :: rest, cx, buf =>
    if ch < 32 ∨ ch > 127 then textChars color565 minX W rowMask rest (wrap16 (cx + 6)) buf
    else
      textChars color565 minX W rowMask rest (wrap16 (cx + 6))
        (glyphLoop color565 minX W rowMask cx (ch - 32) 5 0 buf)

/-! ## Draw queues and the enqueue API (`Render.h`, `Render.cpp` lines 147-200) -/

/-- `struct CA_Frame4`. -/
structure Frame4 where
  data : Int → Int
  pal565 : Int → Int
  w : Int
  h : Int

/-- `struct Rect`. -/
structure Rect where
  rx : Int
  ry : Int
  rw : Int
  rh : Int
  color565 : Int
  z : Int
  isOutline : Bool

/-- `struct HBar` (the field `by` is spelled `by_`). -/
structure HBar where
  bx : Int
  by_ : Int
  bw : Int
  bh : Int
  fillW : Int
  color565 : Int
  z : Int

/-- `struct Text`: `str` holds the characters before the terminating NUL (at most 23). -/
structure Text where
  str : List Nat
  tx : Int
  ty : Int
  color565 : Int
  z : Int

/-- Capacity of the world sprite queue. -/
def MAX_SPR : Nat := 16

/-- Capacity of the foreground sprite queue. -/
def MAX_FG : Nat := 2

/-- Capacity of the rectangle queue (solid and outline). -/
def MAX_REC : Nat := 16

/-- Capacity of the bar queue. -/
def MAX_BAR : Nat := 4

/-- Capacity of the text queue. -/
def MAX_TXT : Nat := 8

/-- The members of `class CA_Render`: the five queues (array and count as a list; `rec` is
spelled `rec_`), the dirty boxes, the screen size of `blitCfg`, the background palette
pointer (`none` for `nullptr`) and the foreground flag. -/
structure Renderer where
  spr : List Sprite
  fg : List Sprite
  rec_ : List Rect
  bar : List HBar
  txt : List Text
  wbox : List Box
  ui : List Box
  screenW : Int
  screenH : Int
  bgPalRam : Option (Int → Int)
  fgNeedsFullPass : Bool

/-- `CA_Draw::topLeftKeyIndex`: `pgm_read_byte(f.data) >> 4`. -/
def topLeftKeyIndex (f : Frame4) : Int := rd8 f.data 0 / 16

/-- `CA_Draw::frameKey565`. -/
def frameKey565 (f : Frame4) (palRam : Int → Int) : Int := palRam (topLeftKeyIndex f)

/-- `CA_Render::addSprite`: the `key565` argument is unnamed in the definition and unused;
the queued sprite carries the index of the frame's top-left pixel as its key. -/
def Renderer.addSprite (r : Renderer) (f : Frame4) (vx vy : Int) (hFlip : Bool)
    (palRam : Int → Int) (_key565 : Int) (z : Int) : Renderer :=
  if r.spr.length < MAX_SPR then
    { r with spr := r.spr ++ [{ data := f.data, w := f.w, h := f.h, vx := vx, vy := vy,
                                hFlip := hFlip, palRam := palRam,
                                keyIdx := topLeftKeyIndex f, z := z }] }
  else r

/-- `CA_Render::addSpriteFG`. -/
def Renderer.addSpriteFG (r : Renderer) (f : Frame4) (vx vy : Int) (hFlip : Bool)
    (palRam : Int → Int) (_key565 : Int) (z : Int) : Renderer :=
  if r.fg.length < MAX_FG then
    { r with fg := r.fg ++ [{ data := f.data, w := f.w, h := f.h, vx := vx, vy := vy,
                              hFlip := hFlip, palRam := palRam,
                              keyIdx := topLeftKeyIndex f, z := z }] }
  else r

/-- `CA_Render::markForegroundDirty`. -/
def Renderer.markForegroundDirty (r : Renderer) : Renderer :=
  { r with fgNeedsFullPass := true }

/-- `CA_Render::addSolid`. -/
def Renderer.addSolid (r : Renderer) (rx ry rw rh c z : Int) : Renderer :=
  if r.rec_.length < MAX_REC then
    { r with rec_ := r.rec_ ++ [{ rx := rx, ry := ry, rw := rw, rh := rh, color565 := c, z := z,
                                  isOutline := false }] }
  else r

/-- `CA_Render::addOutline`. -/
def Renderer.addOutline (r : Renderer) (rx ry rw rh c z : Int) : Renderer :=
  if r.rec_.length < MAX_REC then
    { r with rec_ := r.rec_ ++ [{ rx := rx, ry := ry, rw := rw, rh := rh, color565 := c, z := z,
                                  isOutline := true }] }
  else r

/-- `CA_Render::addHBar`. -/
def Renderer.addHBar (r : Renderer) (bx by_ bw bh fillW c z : Int) : Renderer :=
  if r.bar.length < MAX_BAR then
    { r with bar := r.bar ++ [{ bx := bx, by_ := by_, bw := bw, bh := bh, fillW := fillW,
                                color565 := c, z := z }] }
  else r

/-- `strncpy(str, s, 23); str[23] = 0;`: the characters of `s` before its first NUL, at
most 23 of them. -/
def copyText (s : List Nat) : List Nat := (s.takeWhile (fun c => c ≠ 0)).take 23

/-- `CA_Render::addText`. -/
def Renderer.addText (r : Renderer) (s : List Nat) (tx ty c z : Int) : Renderer :=
  if r.txt.length ≥ MAX_TXT then r
  else { r with txt := r.txt ++ [{ str := copyText s, tx := tx, ty := ty, color565 := c, z := z }] }

/-- `CA_Render::addTextOpaque`: the text is cut to `cols` characters, a solid clear
rectangle `cols * 6` wide and 7 high is queued at depth `z - 1`, then the text. -/
def Renderer.addTextOpaque (r : Renderer) (s : List Nat) (tx ty fg bg : Int) (cols : Nat)
    (z : Int) : Renderer :=
  if r.txt.length ≥ MAX_TXT then r
  else
    let str := if cols < 23 then (copyText s).take cols else copyText s
    let r1 := r.addSolid tx ty (wrap16 ((cols : Int) * 6)) 7 bg (wrap16 (z - 1))
    { r1 with txt := r1.txt ++ [{ str := str, tx := tx, ty := ty, color565 := fg, z := z }] }

/-- `CA_Render::addDirtyRect`. -/
def Renderer.addDirtyRect (r : Renderer) (x y w h : Int) : Renderer :=
  { r with ui := addUIRect r.ui x y w h }

/-- `CA_Render::addDirtyWorldRect`. -/
def Renderer.addDirtyWorldRect (r : Renderer) (x y w h : Int) : Renderer :=
  { r with wbox := addWorldRect r.wbox x y w h }

/-- `CA_Render::clearDirty`. -/
def Renderer.clearDirty (r : Renderer) : Renderer :=
  { r with wbox := [], ui := [] }

/-- `CA_Render::clearQueues`. -/
def Renderer.clearQueues (r : Renderer) : Renderer :=
  { r with spr := [], rec_ := [], bar := [], txt := [], fg := [] }

/-- `CA_Render::beginFrame`. -/
def Renderer.beginFrame (r : Renderer) : Renderer := r.clearQueues

/-! ## Depth sort (`Render.cpp` lines 467-480) -/

/-- The inner loop of `zSort` on the sorted prefix seen from its right end:
`while (j && arr[j-1].z > v.z) { arr[j] = arr[j-1]; --j; } arr[j] = v;`.  `revPrefix` is the
prefix `arr[0..i)` in reverse order (its head is `arr[i-1]`), and so is the result. -/
def zInsert {α : Type} (z : α → Int) (v : α) : List α → List α
  | [] => [v]
  | a :: revPrefix => if z a > z v then a :: zInsert z v revPrefix else v :: a :: revPrefix

/-- `CA_Render::zSort`: the outer loop takes `arr[1]`, `arr[2]`, ... in turn and inserts
each into the prefix before it (inserting `arr[0]` into the empty prefix is the identity). -/
def zSort {α : Type} (z : α → Int) (arr : List α) : List α :=
  (arr.foldl (fun revPrefix v => zInsert z v revPrefix) []).reverse

/-! ## Display transport -/

/-- The calls made on the display (`MCUFRIEND_kbv`). -/
inductive DisplayCall where
  | startWrite : DisplayCall
  | setAddrWindow (x0 y0 x1 y1 : Int) : DisplayCall
  | pushColors (colors : List Int) (first : Bool) : DisplayCall
  | endWrite : DisplayCall
deriving DecidableEq

/-- `CA_Blit::pushLinePhysicalNoAddr`: `tft->pushColors(s_back, w, first)` unless `w ≤ 0`. -/
def pushLinePhysicalNoAddr (w : Int) (first : Bool) (line : LineBuf) : List DisplayCall :=
  if w ≤ 0 then []
  else [DisplayCall.pushColors ((List.range w.toNat).map (fun (i : Nat) => line (i : Int))) first]

/-! ## Shimmer (`Render.cpp` lines 7-132) -/

/-- The xorshift step of `shimmerRand` on the 32-bit state `s_shimmerRNG`. -/
def shimmerNext (rng : Nat) : Nat :=
  let s1 := rng ^^^ ((rng <<< 7) % 4294967296)
  let s2 := s1 ^^^ (s1 >>> 9)
  s2 ^^^ ((s2 <<< 8) % 4294967296)

/-- `shimmerRand`: the value returned, `(uint16_t)s_shimmerRNG` after the step. -/
def shimmerRand (rng : Nat) : Nat := shimmerNext rng % 65536

/-- `shimmerRandRange(max)`: `shimmerRand() % max` (`max = 0` is a division by zero in the
source; here the result is then the dividend). -/
def shimmerRandRange (max rng : Nat) : Nat := shimmerRand rng % max

/-- `isBlueish`. -/
def isBlueish (c : Nat) : Bool :=
  let r := (c >>> 11) &&& 31
  let g := (c >>> 5) &&& 63
  let b := c &&& 31
  let thresh := (r + (g >>> 2)) % 256
  let thresh1 := if thresh < 10 then 10 else thresh
  decide (b ≥ thresh1)

/-- `isWhiteBlue`. -/
def isWhiteBlue (c : Nat) : Bool :=
  let r := (c >>> 11) &&& 31
  let g := (c >>> 5) &&& 63
  let b := c &&& 31
  let bright := (r + r + g + b + b) % 65536
  decide (b ≥ r) && decide (bright ≥ 120)

/-- The lambda `blend565` of `applyShimmerLine`. -/
def blend565 (a b : Nat) : Nat :=
  let ar := (a >>> 11) &&& 31
  let ag := (a >>> 5) &&& 63
  let ab := a &&& 31
  let br := (b >>> 11) &&& 31
  let bg := (b >>> 5) &&& 63
  let bb := b &&& 31
  let r := ((ar + br) >>> 1) % 65536
  let g := ((ag + bg) >>> 1) % 65536
  let bl := ((ab + bb) >>> 1) % 65536
  ((r <<< 11) ||| (g <<< 5) ||| bl) % 65536

/-- One shimmer sample: `s_shX[i]`, `s_shRow[i]`, `s_shCol[i]`. -/
structure ShimmerSample where
  shX : Int
  shRow : Nat
  shCol : Int

/-- The file-scope and function-scope statics read by `renderFrame`: the shimmer state of
`Render.cpp` (the sample arrays with their count `s_shimmerN` are a list), the background
line cache, and the line buffer `s_back` of `Blitter.cpp`. -/
structure Statics where
  shimmerRNG : Nat
  nextShimmerMs : Nat
  shimmerY0 : Int
  shimmerH : Nat
  shRows2xH : Nat
  samples : List ShimmerSample
  shimmerFrameCounter : Nat
  bgLineCache : LineBuf
  s_back : LineBuf

/-- The colour pick of one sample: up to `tries` palette entries are drawn, the first one
that is blue-ish or white-blue is taken, the fallback is `0x001F`.  Returns the colour and
the generator state. -/
def pickShimmerColor (bgPal : Int → Int) : Nat → Nat → Int × Nat
  | 0, rng => (31, rng)
  | tries + 1, rng =>
    let idx := shimmerRandRange 256 rng % 256
    let rng1 := shimmerNext rng
    let samp := bgPal idx
    if isBlueish (u16 samp).toNat || isWhiteBlue (u16 samp).toNat then (samp, rng1)
    else pickShimmerColor bgPal tries rng1

/-- The sample loop `for (i = 0; i < s_shimmerN; ++i)` of `maybeUpdateShimmer`, run for `n`
samples. -/
def genShimmerSamples (screenW : Int) (rows2xH : Nat) (bgPal : Int → Int) :
    Nat → Nat → List ShimmerSample × Nat
  | 0, rng => ([], rng)
  | n + 1, rng =>
    let rx := shimmerRandRange (u16 screenW).toNat rng
    let rng1 := shimmerNext rng
    let row := shimmerRandRange rows2xH rng1 % 256
    let rng2 := shimmerNext rng1
    let pick := pickShimmerColor bgPal 4 rng2
    let rest := genShimmerSamples screenW rows2xH bgPal n pick.2
    ({ shX := wrap16 ((rx - rx % 2 : Nat) : Int), shRow := row, shCol := pick.1 } :: rest.1,
      rest.2)

/-- `maybeUpdateShimmer` for a non-null palette; `now` is the value `millis()` returns. -/
def maybeUpdateShimmer (screenW screenH : Int) (bgPal : Int → Int) (now : Nat)
    (st : Statics) : Statics :=
  let counter := (st.shimmerFrameCounter + 1) % 256
  if counter < 6 then { st with shimmerFrameCounter := counter } else
  let st0 := { st with shimmerFrameCounter := 0 }
  if now < st.nextShimmerMs then st0 else
  let seaTop := wrap16 (Int.tdiv (wrap16 (screenH * 72)) 100)
  let y00 := wrap16 (seaTop - 8)
  let y0 := if y00 < 0 then 0 else y00
  let h : Nat := if y0 + 5 > screenH then (wrap16 (screenH - y0) % 256).toNat else 5
  if h = 0 then
    { st0 with samples := [], shimmerY0 := -1, shimmerH := 0, shRows2xH := 0,
               nextShimmerMs := (now + 100) % 4294967296 }
  else
  let rows := ((h + 1) >>> 1) % 256
  if rows = 0 then
    { st0 with shimmerY0 := y0, shimmerH := h, shRows2xH := rows, samples := [],
               nextShimmerMs := (now + 100) % 4294967296 }
  else
  let rnd := shimmerRandRange 16 st.shimmerRNG % 256
  let rng1 := shimmerNext st.shimmerRNG
  let n0 := (5 + (rnd &&& 3)) % 256
  let n := if n0 > 8 then 8 else n0
  let gen := genShimmerSamples screenW rows bgPal n rng1
  { st0 with shimmerY0 := y0, shimmerH := h, shRows2xH := rows, samples := gen.1,
             shimmerRNG := shimmerNext gen.2,
             nextShimmerMs := (now + 820 + shimmerRandRange 120 gen.2) % 4294967296 }

/-- The body of the sample loop of `applyShimmerLine` for one sample. -/
def shimmerSample (row2x : Nat) (x0 w : Int) (buf : LineBuf) (s : ShimmerSample) : LineBuf :=
  if s.shRow ≠ row2x then buf else
  let dx := wrap16 (s.shX - x0)
  if u16 dx < u16 w then
    let buf1 := Function.update buf dx
      ((blend565 (u16 (buf dx)).toNat (u16 s.shCol).toNat : Nat) : Int)
    let dx1 := wrap16 (dx + 1)
    if u16 (dx + 1) < u16 w then
      Function.update buf1 dx1
        ((blend565 (u16 (buf1 dx1)).toNat (u16 s.shCol).toNat : Nat) : Int)
    else buf1
  else buf

/-- `applyShimmerLine`. -/
def applyShimmerLine (st : Statics) (y x0 w : Int) (buf : LineBuf) : LineBuf :=
  if st.samples.length = 0 then buf else
  if y < st.shimmerY0 ∨ y ≥ wrap16 (st.shimmerY0 + st.shimmerH) then buf else
  let row2x := ((wrap16 (y - st.shimmerY0) / 2) % 256).toNat
  st.samples.foldl (shimmerSample row2x x0 w) buf

/-! ## Row composition and `renderFrame` (`Render.cpp` lines 202-419) -/

/-- The background asset of `assets/BACKGROUND.h` (`BG8_q0` .. `BG8_q3`, `BG8_W`, `BG8_H`,
`BG8_cw`, `BG8_ch`, `BG8_pal565`); the header is not part of the sources, its contents are
a parameter. -/
structure Background where
  q0 : Int → Int
  q1 : Int → Int
  q2 : Int → Int
  q3 : Int → Int
  W : Int
  H : Int
  cw : Int
  ch : Int
  pal565 : Int → Int

/-- `CA_Draw::getBgPaletteRAM`: the RAM copy of the 256 entries of `BG8_pal565`. -/
def getBgPaletteRAM (bg : Background) : Int → Int := bg.pal565

/-- The sprite blit `renderFrame` calls under the name `composeOver4bppKeyIdx_P`: with
`CA_AVR_FAST_BLIT` (the default, `fastBlit = true`) the name is remapped to the `_AVR_P`
function, otherwise it is the plain one. -/
def spriteBlit (fastBlit : Bool) (s : Sprite) (y x0 wRegion : Int) (buf : LineBuf) : LineBuf :=
  if fastBlit then
    composeOver4bppKeyIdx_AVR_P s.data s.w s.h s.vx s.vy s.palRam s.hFlip s.keyIdx y x0 wRegion buf
  else
    composeOver4bppKeyIdx_P s.data s.w s.h s.vx s.vy s.palRam s.hFlip s.keyIdx y x0 wRegion buf

/-- The body of the sprite loops (lines 362-371 and 373-382) for one visible sprite. -/
def spriteLine (fastBlit : Bool) (y minX W : Int) (buf : LineBuf) (s : Sprite) : LineBuf :=
  if y < s.vy ∨ y ≥ wrap16 (s.vy + s.h) then buf else spriteBlit fastBlit s y minX W buf

/-- A sprite pass: the visible sprites of one list, in queue order. -/
def spritePass (fastBlit : Bool) (y minX W : Int) (vis : List Sprite) (buf : LineBuf) :
    LineBuf :=
  vis.foldl (spriteLine fastBlit y minX W) buf

/-- The lambda `rectIntersects` of `renderFrame`. -/
def rectIntersects (ax ay aw ah bx by_ bw bh : Int) : Bool :=
  !(decide (wrap16 (ax + aw) ≤ bx) || decide (wrap16 (ay + ah) ≤ by_) ||
    decide (ax ≥ wrap16 (bx + bw)) || decide (ay ≥ wrap16 (by_ + bh)))

/-- The visibility list of one queue for the box `b` of width `W` (lines 327-338): the
sprites whose rectangle intersects the box, at most `cap` of them. -/
def visibleSprites (cap : Nat) (b : Box) (W : Int) (q : List Sprite) : List Sprite :=
  (q.filter (fun s =>
    rectIntersects s.vx s.vy (wrap16 s.w) (wrap16 s.h) b.minX b.minY W
      (wrap16 (b.maxY - b.minY)))).take cap

/-- The body of the first UI loop (line 385) for one rectangle:
`if (r.isOutline) continue; composeSolidRectLine(...)`. -/
def fillLine (y minX W : Int) (buf : LineBuf) (r : Rect) : LineBuf :=
  if r.isOutline then buf
  else composeSolidRectLine y minX W r.rx r.ry r.rw r.rh r.color565 buf

/-- First UI loop (line 385): the solid rectangles, in queue order. -/
def fillsPass (y minX W : Int) (rects : List Rect) (buf : LineBuf) : LineBuf :=
  rects.foldl (fillLine y minX W) buf

/-- The body of the second UI loop (line 386) for one rectangle:
`if (!r.isOutline) continue; composeRectOutlineLine(...)`. -/
def outlineLine (y minX W : Int) (buf : LineBuf) (r : Rect) : LineBuf :=
  if !r.isOutline then buf
  else composeRectOutlineLine y minX W r.rx r.ry r.rw r.rh r.color565 buf

/-- Second UI loop (line 386): the outline rectangles, in queue order. -/
def outlinesPass (y minX W : Int) (rects : List Rect) (buf : LineBuf) : LineBuf :=
  rects.foldl (outlineLine y minX W) buf

/-- The body of the third UI loop (line 387) for one bar. -/
def barLine (y minX W : Int) (buf : LineBuf) (hb : HBar) : LineBuf :=
  composeHBarLine y minX W hb.bx hb.by_ hb.bw hb.bh hb.fillW hb.color565 buf

/-- Third UI loop (line 387): the bars, in queue order. -/
def barsPass (y minX W : Int) (bars : List HBar) (buf : LineBuf) : LineBuf :=
  bars.foldl (barLine y minX W) buf

/-- The body of the text loop (lines 391-409) for one text item. -/
def textLine (y minX W : Int) (buf : LineBuf) (tx : Text) : LineBuf :=
  if y < tx.ty ∨ y ≥ wrap16 (tx.ty + 7) then buf else
  let rowMask := (1 <<< (y - tx.ty).toNat) % 256
  textChars tx.color565 minX W rowMask tx.str tx.tx buf

/-- Fourth UI loop (lines 388-410): the texts, in queue order. -/
def textsPass (y minX W : Int) (texts : List Text) (buf : LineBuf) : LineBuf :=
  texts.foldl (textLine y minX W) buf

/-- The UI overlay of one row (lines 384-410): fills, then outlines, then bars, then
text. -/
def uiOverlay (y minX W : Int) (rects : List Rect) (bars : List HBar) (texts : List Text)
    (buf : LineBuf) : LineBuf :=
  textsPass y minX W texts (barsPass y minX W bars (outlinesPass y minX W rects
    (fillsPass y minX W rects buf)))

/-- The layers composed over the background line of row `y` (lines 359-410): shimmer,
world sprites, foreground sprites, UI overlay. -/
def composeLayers (fastBlit : Bool) (st : Statics) (y minX W : Int) (visW visF : List Sprite)
    (rects : List Rect) (bars : List HBar) (texts : List Text) (bgLine : LineBuf) : LineBuf :=
  uiOverlay y minX W rects bars texts
    (spritePass fastBlit y minX W visF
      (spritePass fastBlit y minX W visW (applyShimmerLine st y minX W bgLine)))

/-- The state carried by the row loop of one box: the line buffer, the background line
cache, the locals `lastSrcY`, `bgCachedValid` and `first`, and the display calls issued so
far. -/
structure RowState where
  s_back : LineBuf
  bgLineCache : LineBuf
  lastSrcY : Int
  bgCachedValid : Bool
  first : Bool
  trace : List DisplayCall

/-- `memcpy(dst, src, (size_t)W * sizeof(uint16_t))` on two line arrays. -/
def copyLine (W : Int) (src dst : LineBuf) : LineBuf :=
  fun i => if 0 ≤ i ∧ i < W then src i else dst i

/-- The background step of one row (lines 345-358): copy the cached line when the row maps
to the cached source row, otherwise compose it and refresh the cache. -/
def bgStep (bg : Background) (bgPal : Int → Int) (y minX W : Int) (rs : RowState) : RowState :=
  let srcY := wrap16 (y / 2)
  if rs.bgCachedValid = true ∧ srcY = rs.lastSrcY then
    { rs with s_back := copyLine W rs.bgLineCache rs.s_back }
  else
    let line := composeBGLine_160to320_quads_P bg.q0 bg.q1 bg.q2 bg.q3 bg.W bg.H bg.cw bg.ch
      bgPal y minX W rs.s_back
    { rs with s_back := line, bgLineCache := copyLine W line rs.bgLineCache,
              lastSrcY := srcY, bgCachedValid := true }

/-- The body of the row loop (lines 343-414): background, layers, push. -/
def paintRow (fastBlit : Bool) (bg : Background) (bgPal : Int → Int) (st : Statics)
    (minX W : Int) (visW visF : List Sprite) (rects : List Rect) (bars : List HBar)
    (texts : List Text) (y : Int) (rs : RowState) : RowState :=
  let rs1 := bgStep bg bgPal y minX W rs
  let line := composeLayers fastBlit st y minX W visW visF rects bars texts rs1.s_back
  { rs1 with s_back := line, first := false,
             trace := rs1.trace ++ pushLinePhysicalNoAddr W rs1.first line }

/-- The row loop `for (int16_t y = b.minY; y < b.maxY; ++y)`, run for `n` rows from `y`. -/
def rowLoop (fastBlit : Bool) (bg : Background) (bgPal : Int → Int) (st : Statics)
    (minX W : Int) (visW visF : List Sprite) (rects : List Rect) (bars : List HBar)
    (texts : List Text) : Nat → Int → RowState → RowState
  | 0, _, rs => rs
  | n + 1, y, rs =>
    rowLoop fastBlit bg bgPal st minX W visW visF rects bars texts n (y + 1)
      (paintRow fastBlit bg bgPal st minX W visW visF rects bars texts y rs)

/-- The part of the renderer the box loop reads: the sorted queues. -/
structure Queues where
  spr : List Sprite
  fg : List Sprite
  rec_ : List Rect
  bar : List HBar
  txt : List Text

/-- The body of the box loop (lines 313-415) for one world box; the pair is the line
buffer and background cache after the box, with the display calls appended. -/
def paintBox (fastBlit : Bool) (bg : Background) (bgPal : Int → Int) (st : Statics)
    (q : Queues) (acc : LineBuf × LineBuf × List DisplayCall) (b : Box) :
    LineBuf × LineBuf × List DisplayCall :=
  if b.valid = false then acc else
  let W := wrap16 (b.maxX - b.minX)
  if W ≤ 0 then acc else
  let visW := visibleSprites MAX_SPR b W q.spr
  let visF := visibleSprites MAX_FG b W q.fg
  let rs0 : RowState :=
    { s_back := acc.1, bgLineCache := acc.2.1, lastSrcY := -1, bgCachedValid := false,
      first := true,
      trace := acc.2.2 ++
        [DisplayCall.setAddrWindow b.minX b.minY (wrap16 (b.maxX - 1)) (wrap16 (b.maxY - 1))] }
  let rs := rowLoop fastBlit bg bgPal st b.minX W visW visF q.rec_ q.bar q.txt
    (b.maxY - b.minY).toNat b.minY rs0
  (rs.s_back, rs.bgLineCache, rs.trace)

/-- What the environment supplies to one `renderFrame` call: the build flag
`CA_AVR_FAST_BLIT`, the background asset and the value of `millis()`. -/
structure FrameEnv where
  fastBlit : Bool
  bg : Background
  now : Nat

/-- The outcome of one `renderFrame` call: the renderer, the statics and the calls made
on the display, in order. -/
structure FrameResult where
  renderer : Renderer
  statics : Statics
  trace : List DisplayCall

/-- `CA_Render::renderFrame`.  The frame-skip block at the top of the function is not
embedded: `s_skipEnabled` is initialised to `false` and only ever assigned `false`, so the
block changes nothing but its own counter. -/
def renderFrame (env : FrameEnv) (r : Renderer) (st : Statics) : FrameResult :=
  if r.fgNeedsFullPass = false ∧ r.wbox.length = 0 ∧ r.ui.length = 0 then
    { renderer := r.clearQueues, statics := st, trace := [] }
  else
    let q : Queues :=
      { spr := zSort Sprite.z r.spr, fg := zSort Sprite.z r.fg, rec_ := zSort Rect.z r.rec_,
        bar := zSort HBar.z r.bar, txt := zSort Text.z r.txt }
    let bgPal := match r.bgPalRam with
      | some p => p
      | none => getBgPaletteRAM env.bg
    let st1 := maybeUpdateShimmer r.screenW r.screenH bgPal env.now st
    let boxes := reRound (mergedBoxes r.screenW r.screenH r.fgNeedsFullPass q.fg
      { wbox := r.wbox, ui := r.ui })
    let painted := boxes.foldl (paintBox env.fastBlit env.bg bgPal st1 q)
      (st1.s_back, st1.bgLineCache, [DisplayCall.startWrite])
    let r1 : Renderer :=
      { r with spr := q.spr, fg := q.fg, rec_ := q.rec_, bar := q.bar, txt := q.txt,
               bgPalRam := some bgPal, fgNeedsFullPass := false, wbox := boxes, ui := [] }
    { renderer := r1.clearDirty.clearQueues,
      statics := { st1 with s_back := painted.1, bgLineCache := painted.2.1 },
      trace := painted.2.2 ++ [DisplayCall.endWrite] }

/-! ## Enqueue sequences -/

/-- The state of a renderer after construction and `begin(cfg)`: the member initialisers
give empty queues, no dirty box, a null background palette and the foreground flag unset. -/
def Renderer.new (screenW screenH : Int) : Renderer :=
  { spr := [], fg := [], rec_ := [], bar := [], txt := [], wbox := [], ui := [],
    screenW := screenW, screenH := screenH, bgPalRam := none, fgNeedsFullPass := false }

/-- One call of the enqueue API. -/
inductive EnqueueCall where
  | addSprite (f : Frame4) (vx vy : Int) (hFlip : Bool) (palRam : Int → Int) (key565 z : Int)
  | addSpriteFG (f : Frame4) (vx vy : Int) (hFlip : Bool) (palRam : Int → Int) (key565 z : Int)
  | addSolid (rx ry rw rh c z : Int)
  | addOutline (rx ry rw rh c z : Int)
  | addHBar (bx by_ bw bh fillW c z : Int)
  | addText (s : List Nat) (tx ty c z : Int)
  | addTextOpaque (s : List Nat) (tx ty fg bg : Int) (cols : Nat) (z : Int)

/-- The renderer after one enqueue call. -/
def Renderer.enqueue (r : Renderer) : EnqueueCall → Renderer
  | .addSprite f vx vy hFlip palRam key565 z => r.addSprite f vx vy hFlip palRam key565 z
  | .addSpriteFG f vx vy hFlip palRam key565 z => r.addSpriteFG f vx vy hFlip palRam key565 z
  | .addSolid rx ry rw rh c z => r.addSolid rx ry rw rh c z
  | .addOutline rx ry rw rh c z => r.addOutline rx ry rw rh c z
  | .addHBar bx by_ bw bh fillW c z => r.addHBar bx by_ bw bh fillW c z
  | .addText s tx ty c z => r.addText s tx ty c z
  | .addTextOpaque s tx ty fg bg cols z => r.addTextOpaque s tx ty fg bg cols z

/-- The renderer after a sequence of enqueue calls. -/
def Renderer.enqueueAll (r : Renderer) (cs : List EnqueueCall) : Renderer :=
  cs.foldl Renderer.enqueue r

/-- Every queue count is within its capacity. -/
def Renderer.withinCapacity (r : Renderer) : Prop :=
  r.spr.length ≤ MAX_SPR ∧ r.fg.length ≤ MAX_FG ∧ r.rec_.length ≤ MAX_REC ∧
    r.bar.length ≤ MAX_BAR ∧ r.txt.length ≤ MAX_TXT

/-- The queue whose count guards the call is full (`addTextOpaque` is guarded by the text
queue). -/
def EnqueueCall.queueFull (r : Renderer) : EnqueueCall → Prop
  | .addSprite .. => MAX_SPR ≤ r.spr.length
  | .addSpriteFG .. => MAX_FG ≤ r.fg.length
  | .addSolid .. => MAX_REC ≤ r.rec_.length
  | .addOutline .. => MAX_REC ≤ r.rec_.length
  | .addHBar .. => MAX_BAR ≤ r.bar.length
  | .addText .. => MAX_TXT ≤ r.txt.length
  | .addTextOpaque .. => MAX_TXT ≤ r.txt.length

/-! ## Display trace -/

/-- The call is a `setAddrWindow`. -/
def DisplayCall.isSetAddrWindow : DisplayCall → Bool
  | .setAddrWindow .. => true
  | _ => false

/-- The call is a `pushColors`. -/
def DisplayCall.isPushColors : DisplayCall → Bool
  | .pushColors .. => true
  | _ => false

/-- The call is a `setAddrWindow` whose inclusive window holds the pixel `(px, py)`. -/
def DisplayCall.coversPixel (px py : Int) : DisplayCall → Bool
  | .setAddrWindow x0 y0 x1 y1 => decide (x0 ≤ px ∧ px ≤ x1 ∧ y0 ≤ py ∧ py ≤ y1)
  | _ => false

/-- The `setAddrWindow` call `renderFrame` issues for the box it paints (line 340). -/
def Box.window (b : Box) : DisplayCall :=
  DisplayCall.setAddrWindow b.minX b.minY (wrap16 (b.maxX - 1)) (wrap16 (b.maxY - 1))

/-! ## Writers of a column -/

/-- The pass stores the colour `c` at column `k`, whatever the line held before. -/
def WritesAt (op : LineBuf → LineBuf) (k c : Int) : Prop := ∀ buf, op buf k = c

/-- The pass leaves column `k` as it was, whatever the line held. -/
def KeepsAt (op : LineBuf → LineBuf) (k : Int) : Prop := ∀ buf, op buf k = buf k

/-- At every column the pass either stores a colour of its own or leaves the column as it
was: what it does there never depends on what lies beneath. -/
def Overwrites (op : LineBuf → LineBuf) : Prop := ∀ k, KeepsAt op k ∨ ∃ c, WritesAt op k c

/-! ## Renderer states and frames used as concrete inputs -/

/-- A 320x240 renderer after `addDirtyWorldRect(400, 0, 4, 4)` (off screen), then
`addDirtyWorldRect(4 i, 0, 2, 2)` for `i = 0 .. 26` (the world set now holds 28 boxes),
`markForegroundDirty()` and `addSpriteFG` of a 16x16 frame at (100, 100). -/
def fgLostState : Renderer :=
  (((List.range 27).foldl (fun r (i : Nat) => r.addDirtyWorldRect (4 * (i : Int)) 0 2 2)
    ((Renderer.new 320 240).addDirtyWorldRect 400 0 4 4)).markForegroundDirty).addSpriteFG
      { data := fun _ => 17, pal565 := fun i => 100 + i, w := 16, h := 16 } 100 100 false
      (fun i => 100 + i) 101 0

/-- The statics as the initialisers of `Render.cpp` and `Blitter.cpp` leave them. -/
def Statics.initial : Statics :=
  { shimmerRNG := 3134984190, nextShimmerMs := 0, shimmerY0 := -1, shimmerH := 0,
    shRows2xH := 0, samples := [], shimmerFrameCounter := 0, bgLineCache := fun _ => 0,
    s_back := fun _ => 0 }

/-- The default build with an all-zero 160x120 background, at time 0. -/
def blankEnv : FrameEnv :=
  { fastBlit := true,
    bg := { q0 := fun _ => 0, q1 := fun _ => 0, q2 := fun _ => 0, q3 := fun _ => 0,
            W := 160, H := 120, cw := 80, ch := 60, pal565 := fun _ => 0 },
    now := 0 }

/-- A 320x240 renderer with a queued rectangle, text and sprite and no dirty box. -/
def queuedOnlyState : Renderer :=
  (((Renderer.new 320 240).addSolid 0 0 10 10 31 0).addText [72, 105] 0 0 65535 1).addSprite
    { data := fun _ => 17, pal565 := fun i => 100 + i, w := 16, h := 16 } 20 20 false
    (fun i => 100 + i) 100 0

/-- A solid 8x8 rectangle at the origin, colour 7, depth 5. -/
def demoFill : Rect :=
  { rx := 0, ry := 0, rw := 8, rh := 8, color565 := 7, z := 5, isOutline := false }

/-- The outline of the same rectangle, colour 9, depth 1. -/
def demoOutline : Rect :=
  { rx := 0, ry := 0, rw := 8, rh := 8, color565 := 9, z := 1, isOutline := true }

/-- A full bar over the same rectangle, colour 3, depth 9. -/
def demoBar : HBar :=
  { bx := 0, by_ := 0, bw := 8, bh := 8, fillW := 8, color565 := 3, z := 9 }

/-- The text "!" at the origin, colour 5, depth 0. -/
def demoText : Text := { str := [33], tx := 0, ty := 0, color565 := 5, z := 0 }

/-- A 16x16 sprite of palette index 1 at the origin, palette `i ↦ base + i`, depth `z`. -/
def demoSprite (base z : Int) : Sprite :=
  { data := fun _ => 17, w := 16, h := 16, vx := 0, vy := 0, hFlip := false,
    palRam := fun i => base + i, keyIdx := 0, z := z }

/-- An 8x8 frame whose top-left pixel has palette index 1 and whose other pixels have
palette index 2. -/
def keyDemoFrame : Frame4 :=
  { data := fun i => if i = 0 then 18 else 34, pal565 := fun i => 100 + i, w := 8, h := 8 }

/-- A palette in which the indices 1 and 2 resolve to the same colour 101. -/
def keyDemoPalette : Int → Int := fun i => if i = 2 then 101 else 100 + i

/-! ## References and provisos for the solid fill and the outline -/

/-- The arguments are `int16_t` values and the 16-bit sums and the difference that
`composeSolidRectLine` forms are exact. -/
structure FillNoOverflow (x0 wRegion rx ry rw rh : Int) : Prop where
  wr_hi : wRegion ≤ 32767
  x0_lo : -32768 ≤ x0
  bottom_lo : -32768 ≤ ry + rh
  bottom_hi : ry + rh ≤ 32767
  x1_lo : -32768 ≤ x0 + wRegion
  x1_hi : x0 + wRegion ≤ 32767
  right_lo : -32768 ≤ rx + rw
  right_hi : rx + rw ≤ 32767
  len_lo : -32768 ≤ min (rx + rw) (x0 + wRegion) - max rx x0

/-- Reference for the solid fill, following the words of the spec: the rectangle clipped
against the row `y` and the window `[x0, x0 + wRegion)` is filled with the colour. -/
def refSolidRect (y x0 wRegion rx ry rw rh color565 : Int) (buf : LineBuf) : LineBuf :=
  fun dx =>
    if 0 ≤ dx ∧ dx < wRegion ∧ rx ≤ x0 + dx ∧ x0 + dx < rx + rw ∧ ry ≤ y ∧ y < ry + rh then
      color565
    else buf dx

/-- The rectangle is not degenerate, the arguments are `int16_t` values and the 16-bit sums
that `composeRectOutlineLine` forms are exact. -/
structure OutlineNoOverflow (x0 wRegion rx ry rw rh : Int) : Prop where
  rw_pos : 1 ≤ rw
  rh_pos : 1 ≤ rh
  wr_hi : wRegion ≤ 32767
  x0_lo : -32768 ≤ x0
  rx_lo : -32768 ≤ rx
  ry_lo : -32768 ≤ ry
  bottom_hi : ry + rh ≤ 32767
  right_hi : rx + rw ≤ 32767
  x1_lo : -32768 ≤ x0 + wRegion
  x1_hi : x0 + wRegion ≤ 32767

/-- Reference for the outline, following the words of the spec: on the top and bottom rows
the columns of the rectangle inside the window, on the rows between them the two edge
columns. -/
def refRectOutline (y x0 wRegion rx ry rw rh color565 : Int) (buf : LineBuf) : LineBuf :=
  fun dx =>
    if 0 ≤ dx ∧ dx < wRegion ∧
        (((y = ry ∨ y = ry + rh - 1) ∧ rx ≤ x0 + dx ∧ x0 + dx < rx + rw) ∨
          (ry < y ∧ y < ry + rh - 1 ∧ (x0 + dx = rx ∨ x0 + dx = rx + rw - 1))) then
      color565
    else buf dx

/-! ## Palette cache (`DrawSetup.cpp` lines 80-91) -/

/-- `struct PalEntry { const uint16_t* src; uint16_t ram[16]; }`: the source pointer, as the
word address of the palette in program memory, and the 16 RAM entries. -/
structure PalEntry where
  src : Int
  ram : List Int
deriving DecidableEq

/-- Capacity of the palette cache, `sizeof(s_pals)/sizeof(s_pals[0])`. -/
def MAX_PAL : Nat := 16

/-- `memcpy_P(ram, palProgmem, sizeof ram)`: the 16 words at `palProgmem` in program
memory. -/
def readPalette (progmem : Int → Int) (palProgmem : Int) : List Int :=
  (List.range 16).map (fun (k : Nat) => progmem (palProgmem + (k : Int)))

/-- The search loop `for (i = 0; i < s_palN; ++i) if (s_pals[i].src == palProgmem) return`:
the first slot holding the source, if any. -/
def findPalette : List PalEntry → Int → Option Nat
  | [], _ => none
  | e :: es, palProgmem =>
    if e.src = palProgmem then some 0 else (findPalette es palProgmem).map (fun i => i + 1)

/-- `CA_Draw::ensurePaletteRAM` on the cache `s_pals[0 .. s_palN)`: the slot whose `ram`
block is returned, and the cache after the call. -/
def ensurePaletteRAM (progmem : Int → Int) (s_pals : List PalEntry) (palProgmem : Int) :
    Nat × List PalEntry :=
  match findPalette s_pals palProgmem with
  | some i => (i, s_pals)
  | none =>
    if s_pals.length < MAX_PAL then
      (s_pals.length, s_pals ++ [{ src := palProgmem, ram := readPalette progmem palProgmem }])
    else
      (MAX_PAL - 1,
        s_pals.set (MAX_PAL - 1) { src := palProgmem, ram := readPalette progmem palProgmem })

/-- The cache after a sequence of `ensurePaletteRAM` calls. -/
def ensurePalettes (progmem : Int → Int) (s_pals : List PalEntry) (srcs : List Int) :
    List PalEntry :=
  srcs.foldl (fun c p => (ensurePaletteRAM progmem c p).2) s_pals

/-- The invariant of the palette cache: at most 16 blocks, no source cached twice, every
block holds the colours of its source. -/
def PalCacheOk (progmem : Int → Int) (s_pals : List PalEntry) : Prop :=
  s_pals.length ≤ MAX_PAL ∧ (s_pals.map PalEntry.src).Nodup ∧
    ∀ e ∈ s_pals, e.ram = readPalette progmem e.src

/-! ## The display trace of a frame -/

/-- The call is a `startWrite`. -/
def DisplayCall.isStartWrite : DisplayCall → Bool
  | .startWrite => true
  | _ => false

/-- The call is an `endWrite`. -/
def DisplayCall.isEndWrite : DisplayCall → Bool
  | .endWrite => true
  | _ => false

/-- A 320x240 renderer with two disjoint world dirty rectangles. -/
def twoBoxState : Renderer :=
  ((Renderer.new 320 240).addDirtyWorldRect 10 10 20 20).addDirtyWorldRect 100 100 20 20

/-- `lutClamp16`. -/
def lutClamp16 (v lo hi : Int) : Int := if v < lo then lo else if v > hi then hi else v

/-- The initialisers of `LUT_RECIP_Q15[256]` as the source lists them: 40 values.  The
array is static, so the 216 entries without an initialiser are zero. -/
def LUT_RECIP_Q15 : List Nat :=
  [0, 32768, 16384, 10923, 8192, 6554, 5461, 4681, 4096, 3641, 3277, 2979, 2731, 2521, 2341, 2185,
   2048, 1928, 1820, 1723, 1638, 1561, 1491, 1429, 1374, 1323, 1280, 1240, 1205, 1172, 1144, 1118,
   1093, 1065, 1037, 1009, 983, 963, 936, 913]

/-- `pgm_read_word(&LUT_RECIP_Q15[n])` for `n < 256`. -/
def recipQ15 (n : Nat) : Nat := LUT_RECIP_Q15.getD n 0

/-- `lutDivU16byU8`: `(uint16_t)(((uint32_t)x * rq15) >> 15)`. -/
def lutDivU16byU8 (x n : Nat) : Nat :=
  if n = 0 then 0 else
  let rq15 := recipQ15 n
  (((x * rq15) % 4294967296) >>> 15) % 65536

/-! ## Animation frame index (`Anim.h`) -/

/-- `CA_Anim4` without the frame array: `count` (`uint8_t`), `frameMs` (`uint16_t`) and the
`loop` bit. -/
structure Anim4 where
  count : Nat
  frameMs : Nat
  loop : Bool

/-- `CA_Anim::frameAt`.  `t` is the `uint32_t` difference `nowMs - startMs`; the result is
converted to `uint8_t`.  `frameMs = 0` is a division by zero in the source (here the
quotient is then 0). -/
def frameAt (a : Anim4) (startMs nowMs : Nat) : Nat :=
  if a.count = 0 then 0 else
  let t := (4294967296 + nowMs - startMs) % 4294967296
  let idx := t / a.frameMs
  if a.loop = false ∧ idx ≥ a.count then (a.count - 1) % 256
  else (idx % a.count) % 256

/-! ## Fish-count formatter (`CastAway.cpp` lines 16-36) -/

/-- The eight stores `buf[0] = 'C'; ...; buf[7] = ' ';`. -/
def writeCaughtLabel (buf : Nat → Nat) : Nat → Nat :=
  Function.update (Function.update (Function.update (Function.update (Function.update
    (Function.update (Function.update (Function.update buf 0 67) 1 97) 2 117) 3 103) 4 104)
    5 116) 6 58) 7 32

/-- `fastFormatFishCount`: `buf` maps the offset from the pointer passed in to the byte
stored there; a `char` store keeps the low eight bits. -/
def fastFormatFishCount (buf : Nat → Nat) (count : Nat) : Nat → Nat :=
  let b := writeCaughtLabel buf
  if count < 10 then
    Function.update (Function.update b 8 ((48 + count) % 256)) 9 0
  else if count < 100 then
    Function.update (Function.update (Function.update b 8 ((48 + count / 10) % 256))
      9 ((48 + count % 10) % 256)) 10 0
  else if count < 1000 then
    Function.update (Function.update (Function.update (Function.update b
      8 ((48 + count / 100) % 256)) 9 ((48 + (count / 10) % 10) % 256))
      10 ((48 + count % 10) % 256)) 11 0
  else
    Function.update (Function.update (Function.update (Function.update (Function.update b
      8 57) 9 57) 10 57) 11 43) 12 0

/-! ## Game logic (`GameLogic.h`, `GameLogic.cpp`) -/

/-- `GS_IDLE`. -/
def GS_IDLE : Nat := 0
/-- `GS_DRIFT`. -/
def GS_DRIFT : Nat := 1
/-- `GS_BITE`. -/
def GS_BITE : Nat := 2
/-- `GS_REEL`. -/
def GS_REEL : Nat := 3
/-- `GS_CATCH`. -/
def GS_CATCH : Nat := 4
/-- `GS_FAIL`. -/
def GS_FAIL : Nat := 5

/-- Conversion to `int8_t`. -/
def wrap8 (x : Int) : Int := (x + 128) % 256 - 128

/-- Conversion to `int32_t`. -/
def wrap32 (x : Int) : Int := (x + 2147483648) % 4294967296 - 2147483648

/-- The `uint32_t` difference `a - b`.  (Here and below a constant summand is written
first: the sums are the source's, up to commutativity.) -/
def sub32 (a b : Nat) : Nat := (4294967296 + a - b % 4294967296) % 4294967296

/-- The members of `CA_GameState` that `CA_Logic::step` reads or writes.  `msg` is the
string held in `msg.l0` (the bytes before its terminator). -/
structure GameState where
  stylusWasDown : Bool
  holding : Bool
  holdStart : Nat
  reelStart : Nat
  biteStart : Nat
  tension : Int
  tensionVel : Int
  activeBiter : Int
  caughtCount : Nat
  msg : List Nat
  state : Nat

/-- The file-scope statics of `GameLogic.cpp`. -/
structure LogicStatics where
  s_prevState : Nat
  s_prevTickMs : Nat
  s_inBandMs : Nat
  s_burstUntilMs : Nat
  s_burstForce : Int
  s_reelEaseUntilMs : Nat
  s_msgExpireAt : Nat
  s_inited : Bool
  s_blockBitesUntilMs : Nat
  s_targetDrift : Int
  s_targetDriftDir : Int
  s_nextDriftFlipMs : Nat
  s_lastTapMs : Nat
  s_tapCombo : Nat
  s_nextComboDecay : Nat

/-- What the environment supplies to one `step` call: the values returned by the calls of
`millis()` (at the top of `step`, inside `readTouch`, at the top of the `GS_REEL` case and
inside `pushMessage`) and the result of `CA_Draw::getTouchScreen`. -/
structure StepEnv where
  nowMs : Nat
  touchMs : Nat
  nowMs2 : Nat
  msgMs : Nat
  down : Bool

/-- The game state together with the statics. -/
structure LogicState where
  gs : GameState
  ls : LogicStatics

/-- `CA_Logic::clearMessages`: `gs.msg.l0[0] = 0`. -/
def clearMessages (gs : GameState) : GameState := { gs with msg := [] }

/-- `CA_Logic::pushMessage`: `strncpy` of at most 21 bytes into `msg.l0[22]`, then
`s_msgExpireAt = millis() + 2200`. -/
def pushMessage (ms : Nat) (m : List Nat) (s : LogicState) : LogicState :=
  { gs := { s.gs with msg := (m.takeWhile (fun c => c ≠ 0)).take 21 },
    ls := { s.ls with s_msgExpireAt := (2200 + ms) % 4294967296 } }

/-- `CA_Logic::readTouch`; `down` is the result of `getTouchScreen`.  Returns `tap`, `hold`
and the updated game state. -/
def readTouch (down : Bool) (touchMs : Nat) (gs : GameState) : Bool × Bool × GameState :=
  let tap := !gs.stylusWasDown && down
  let hold := gs.stylusWasDown && down
  let gs1 := if down = true ∧ gs.holding = false then { gs with holdStart := touchMs } else gs
  (tap, hold, { gs1 with holding := down, stylusWasDown := down })

/-- The one-time initialisation and the message time-out at the top of `step`
(lines 137-146). -/
def stepPrologue (nowMs : Nat) (s : LogicState) : LogicState :=
  let ls1 := if s.ls.s_inited = false then
      { s.ls with s_inited := true, s_blockBitesUntilMs := (1200 + nowMs) % 4294967296 }
    else s.ls
  let gs1 := if s.gs.msg ≠ [] ∧ nowMs ≥ ls1.s_msgExpireAt then clearMessages s.gs else s.gs
  { gs := gs1, ls := ls1 }

/-- State transition handling (lines 148-159). -/
def stepTransition (nowMs : Nat) (s : LogicState) : LogicState :=
  if s.gs.state ≠ s.ls.s_prevState then
    if s.gs.state = GS_IDLE ∨ s.gs.state = GS_DRIFT then
      { gs := { s.gs with tension := 0, tensionVel := 0 },
        ls := { s.ls with s_inBandMs := 0, s_prevTickMs := nowMs, s_burstUntilMs := 0,
                          s_burstForce := 0, s_prevState := s.gs.state } }
    else { gs := s.gs, ls := { s.ls with s_prevState := s.gs.state } }
  else s

/-- The text `Bite!`. -/
def msgBite : List Nat := [66, 105, 116, 101, 33]
/-- The text `Missed bite`. -/
def msgMissed : List Nat := [77, 105, 115, 115, 101, 100, 32, 98, 105, 116, 101]
/-- The text `Line snapped`. -/
def msgSnapped : List Nat := [76, 105, 110, 101, 32, 115, 110, 97, 112, 112, 101, 100]
/-- The text `Caught!`. -/
def msgCaught : List Nat := [67, 97, 117, 103, 104, 116, 33]
/-- The text `It slipped`. -/
def msgSlipped : List Nat := [73, 116, 32, 115, 108, 105, 112, 112, 101, 100]

/-- The argument of `clamp16` in the idle sway, `gs.tension + (((nowMs >> 4) & 3) - 1)`: the
sum is computed in `uint32_t` and converted to `int16_t`. -/
def idleSway (tension : Int) (nowMs : Nat) : Int :=
  wrap16 ((4294967295 + (tension % 4294967296).toNat + ((nowMs >>> 4) &&& 3) : Nat) : Int)

/-- `case GS_IDLE: case GS_DRIFT:` (lines 167-185). -/
def stepIdle (env : StepEnv) (s : LogicState) : LogicState :=
  if s.gs.activeBiter ≥ 0 then
    if env.nowMs < s.ls.s_blockBitesUntilMs then
      { gs := { s.gs with activeBiter := -1 }, ls := s.ls }
    else
      let s1 := pushMessage env.msgMs msgBite s
      { gs := { s1.gs with tension := 0, tensionVel := 0, biteStart := env.nowMs,
                           state := GS_BITE },
        ls := { s1.ls with s_msgExpireAt := (1500 + env.nowMs) % 4294967296 } }
  else if env.nowMs &&& 15 = 0 then
    { gs := { s.gs with tension := lutClamp16 (idleSway s.gs.tension env.nowMs) 0 1000 },
      ls := s.ls }
  else s

/-- The gentle rise of the tension in `GS_BITE` (lines 189-193). -/
def biteTension (nowMs biteStart : Nat) (tension : Int) : Int :=
  let biteMs := sub32 nowMs biteStart
  let target : Int := if biteMs < 1200 then wrap16 ((biteMs / 6 : Nat) : Int) else 200
  let t1 := if tension < target then wrap16 (tension + 4)
    else if tension > target then wrap16 (tension - 2) else tension
  lutClamp16 t1 0 1000

/-- `case GS_BITE:` (lines 187-222). -/
def stepBite (env : StepEnv) (tap hold : Bool) (s : LogicState) : LogicState :=
  if tap = true ∨ hold = true then
    { gs := clearMessages { s.gs with reelStart := env.nowMs, tension := 520, tensionVel := 0,
                                      state := GS_REEL },
      ls := { s.ls with s_reelEaseUntilMs := (500 + env.nowMs) % 4294967296,
                        s_prevTickMs := env.nowMs, s_inBandMs := 0, s_burstUntilMs := 0,
                        s_burstForce := 0, s_lastTapMs := 0, s_tapCombo := 0,
                        s_nextComboDecay := 0 } }
  else if sub32 env.nowMs s.gs.biteStart > 4500 then
    let s1 := pushMessage env.msgMs msgMissed
      { gs := { s.gs with activeBiter := -1, tension := 0, tensionVel := 0, state := GS_IDLE },
        ls := s.ls }
    { gs := s1.gs, ls := { s1.ls with s_msgExpireAt := (1500 + env.nowMs) % 4294967296 } }
  else
    { gs := { s.gs with tension := biteTension env.nowMs s.gs.biteStart s.gs.tension },
      ls := s.ls }

/-- The tap block of `GS_REEL` (lines 229-240). -/
def reelTap (nowMs2 : Nat) (tap : Bool) (s : LogicState) : LogicState :=
  if tap = true then
    let dt := sub32 nowMs2 s.ls.s_lastTapMs
    let boost : Nat := if dt < 90 then 20 else if dt < 170 then 26 else 34
    { gs := { s.gs with
                tension := lutClamp16 (wrap16 (s.gs.tension + boost)) 0 1000,
                tensionVel := wrap16 (s.gs.tensionVel +
                  ((boost : Int) + wrap16 ((s.ls.s_tapCombo * 2 : Nat) : Int))) },
      ls := { s.ls with
                s_lastTapMs := nowMs2,
                s_tapCombo := if s.ls.s_tapCombo < 10 then (s.ls.s_tapCombo + 1) % 256
                  else s.ls.s_tapCombo,
                s_nextComboDecay := (260 + nowMs2) % 4294967296 } }
  else s

/-- The combo decay (lines 242-246). -/
def reelComboDecay (nowMs2 : Nat) (ls : LogicStatics) : LogicStatics :=
  if ls.s_tapCombo ≠ 0 ∧ nowMs2 ≥ ls.s_nextComboDecay ∧ sub32 nowMs2 ls.s_lastTapMs > 240 then
    { ls with s_nextComboDecay := (120 + nowMs2) % 4294967296,
              s_tapCombo := (ls.s_tapCombo + 255) % 256 }
  else ls

/-- The moving sweet spot (lines 250-257). -/
def reelDrift (nowMs2 : Nat) (ls : LogicStatics) : LogicStatics :=
  let ls1 := if nowMs2 ≥ ls.s_nextDriftFlipMs then
      { ls with s_targetDriftDir := wrap8 (-ls.s_targetDriftDir),
                s_nextDriftFlipMs := (560 + nowMs2 + (nowMs2 &&& 511)) % 4294967296 }
    else ls
  let d := wrap16 (ls1.s_targetDrift + ls1.s_targetDriftDir * 1)
  let d1 := if d > 80 then 80 else d
  let d2 := if d1 < -80 then -80 else d1
  { ls1 with s_targetDrift := d2 }

/-- The burst block (lines 274-286): the statics after it. -/
def reelBurst (nowMs2 : Nat) (easing : Bool) (ls : LogicStatics) : LogicStatics :=
  if easing = false then
    if nowMs2 ≥ ls.s_burstUntilMs then
      if (nowMs2 >>> 6) &&& 63 = 0 then
        { ls with s_burstForce := if (nowMs2 >>> 5) &&& 1 ≠ 0 then 10 else -10,
                  s_burstUntilMs := (150 + nowMs2 + (nowMs2 &&& 127)) % 4294967296 }
      else { ls with s_burstForce := 0 }
    else ls
  else { ls with s_burstForce := 0 }

/-- The velocity `gs.tensionVel` before the caps (lines 259-314), from the state after the
drift and burst blocks. -/
def reelVelocity (nowMs2 : Nat) (easing recentTap : Bool) (gs : GameState)
    (ls : LogicStatics) : Int :=
  let held_ms := if gs.holding then sub32 nowMs2 gs.holdStart else 0
  let creep0 := Int.tdiv (wrap32 (held_ms : Int)) 18
  let creep1 := if creep0 > 120 then 120 else creep0
  let creep := if creep1 < 0 then 0 else creep1
  let baseTarget : Int := if gs.holding then wrap16 (730 + wrap16 creep) else 260
  let target := wrap16 (baseTarget + ls.s_targetDrift / 2)
  let error := wrap16 (target - gs.tension)
  let fishPull : Int := if easing then 0
    else wrap16 (((4294967296 + ((nowMs2 >>> 4) &&& 63) - 32) % 4294967296 / 7 : Nat) : Int)
  let luck : Int := if easing then 0
    else wrap16 (((4294967296 + (((12345 + 1103515245 * nowMs2) % 4294967296) >>> 30) - 1) %
      4294967296 : Nat) : Int)
  let burst : Int := if easing then 0
    else if nowMs2 < ls.s_burstUntilMs then ls.s_burstForce else 0
  let accel : Int :=
    if easing then error / 2
    else if gs.holding = true ∧ recentTap = true then error
    else if gs.holding then error / 4
    else error / 2
  let biasUp := wrap16 ((if gs.holding then 18 else 0) +
    (if recentTap then wrap16 ((ls.s_tapCombo * 6 : Nat) : Int) else 0))
  let biasDown : Int := if gs.holding then 4 else wrap16 (20 + Int.tdiv gs.tension 14)
  let noTapDrag : Int := 0
  if easing then
    wrap16 (wrap16 (Int.tdiv (gs.tensionVel * 3) 4) + accel + biasUp - biasDown)
  else
    wrap16 (wrap16 (Int.tdiv (gs.tensionVel * 5) 6) + accel + fishPull + luck + burst
      + biasUp - (biasDown + noTapDrag))

/-- The caps `if (v > CA_UP_VEL_CAP) v = CA_UP_VEL_CAP; if (v < CA_DOWN_VEL_CAP) v =
CA_DOWN_VEL_CAP;`. -/
def capVelocity (v : Int) : Int :=
  let v1 := if v > 46 then 46 else v
  if v1 < -50 then -50 else v1

/-- The integration step (lines 306-319): the new velocity, capped, and
`gs.tension += gs.tensionVel; gs.tension = clamp16(gs.tension, 0, 1000);`. -/
def reelIntegrate (nowMs2 : Nat) (easing recentTap : Bool) (gs : GameState)
    (ls : LogicStatics) : GameState :=
  let v := capVelocity (reelVelocity nowMs2 easing recentTap gs ls)
  { gs with tensionVel := v, tension := lutClamp16 (wrap16 (gs.tension + v)) 0 1000 }

/-- The fail and win conditions (lines 336-353), from the state with the updated
trackers; `tReel` is the time since the reel started. -/
def reelFinish (env : StepEnv) (tReel : Nat) (s1 : LogicState) : LogicState :=
  let nowMs2 := env.nowMs2
  let canSnap : Bool := decide (nowMs2 ≥ (1100 + s1.gs.reelStart) % 4294967296)
  if s1.gs.tension > 950 ∧ canSnap = true then
    let s2 := pushMessage env.msgMs msgSnapped s1
    { gs := { s2.gs with tension := 0, tensionVel := 0, activeBiter := -1, state := GS_FAIL },
      ls := { s2.ls with s_msgExpireAt := (1500 + nowMs2) % 4294967296 } }
  else if tReel ≥ 4200 ∧ s1.ls.s_inBandMs ≥ 2400 then
    let s2 := pushMessage env.msgMs msgCaught s1
    { gs := { s2.gs with caughtCount := (s2.gs.caughtCount + 1) % 65536, tension := 0,
                         tensionVel := 0, activeBiter := -1, state := GS_CATCH },
      ls := { s2.ls with s_msgExpireAt := (1500 + nowMs2) % 4294967296 } }
  else if tReel > 11000 ∧ s1.ls.s_inBandMs < 1600 then
    let s2 := pushMessage env.msgMs msgSlipped s1
    { gs := { s2.gs with tension := 0, tensionVel := 0, activeBiter := -1, state := GS_FAIL },
      ls := { s2.ls with s_msgExpireAt := (1500 + nowMs2) % 4294967296 } }
  else s1

/-- The success band (lines 321-334): the statics with the updated `s_prevTickMs` and
`s_inBandMs`. -/
def reelBand (nowMs2 tReel : Nat) (tension : Int) (ls : LogicStatics) : LogicStatics :=
  let bandLo : Int := if tReel < 1500 then 500 - 120 else if tReel > 3500 then 500 + 30 else 500
  let bandHi : Int := if tReel < 1500 then 670 + 120 else if tReel > 3500 then 670 - 30 else 670
  let dt := if ls.s_prevTickMs = 0 then 0 else sub32 nowMs2 ls.s_prevTickMs
  let inBand :=
    if tension ≥ bandLo ∧ tension ≤ bandHi then (ls.s_inBandMs + dt) % 4294967296
    else if ls.s_inBandMs > dt / 3 then ls.s_inBandMs - dt / 3 else 0
  { ls with s_prevTickMs := nowMs2, s_inBandMs := inBand }

/-- The success band and the end of the fight (lines 321-353), from the state with the
new tension. -/
def reelOutcome (env : StepEnv) (s : LogicState) : LogicState :=
  let tReel := sub32 env.nowMs2 s.gs.reelStart
  reelFinish env tReel { gs := s.gs, ls := reelBand env.nowMs2 tReel s.gs.tension s.ls }

/-- `case GS_REEL:` (lines 224-354). -/
def stepReel (env : StepEnv) (tap : Bool) (s : LogicState) : LogicState :=
  let nowMs2 := env.nowMs2
  let easing : Bool := decide (nowMs2 < s.ls.s_reelEaseUntilMs)
  let s1 := reelTap nowMs2 tap s
  let ls2 := reelComboDecay nowMs2 s1.ls
  let recentTap : Bool :=
    decide (ls2.s_lastTapMs ≠ 0) && decide (sub32 nowMs2 ls2.s_lastTapMs ≤ 240)
  let ls3 := reelDrift nowMs2 ls2
  let ls4 := reelBurst nowMs2 easing ls3
  reelOutcome env { gs := reelIntegrate nowMs2 easing recentTap s1.gs ls4, ls := ls4 }

/-- `CA_Logic::step`. -/
def step (env : StepEnv) (s : LogicState) : LogicState :=
  let s1 := stepTransition env.nowMs (stepPrologue env.nowMs s)
  let touch := readTouch env.down env.touchMs s1.gs
  let s2 : LogicState := { gs := touch.2.2, ls := s1.ls }
  if s2.gs.state = GS_IDLE ∨ s2.gs.state = GS_DRIFT then stepIdle env s2
  else if s2.gs.state = GS_BITE then stepBite env touch.1 touch.2.1 s2
  else if s2.gs.state = GS_REEL then stepReel env touch.1 s2
  else if s2.gs.state = GS_CATCH ∨ s2.gs.state = GS_FAIL then
    { gs := { s2.gs with state := GS_IDLE }, ls := s2.ls }
  else s2

/-! ## References, invariants and concrete inputs for the shimmer, the background cache,
the sprite culling, the formatter and the game logic -/

/-- The store of `applyShimmerLine`: `blend565(lb[dx], s_shCol[i])` on the 16-bit values. -/
def shimmerBlend (v c : Int) : Int := ((blend565 (u16 v).toNat (u16 c).toNat : Nat) : Int)

/-- A shimmer state with one sample at column 0, row 0, colour `0x001F`, band rows 0..4. -/
def shimmerDemo : Statics :=
  { shimmerRNG := 1, nextShimmerMs := 0, shimmerY0 := 0, shimmerH := 5, shRows2xH := 3,
    samples := [{ shX := 0, shRow := 0, shCol := 31 }], shimmerFrameCounter := 0,
    bgLineCache := fun _ => 0, s_back := fun _ => 0 }

/-- The statics of `Statics.initial` with the shimmer frame counter at 5, so that the next
call of `maybeUpdateShimmer` is the sixth. -/
def shimmerDue : Statics := { Statics.initial with shimmerFrameCounter := 5 }

/-- The sample stores into entry `i` of the line: its row is `row2x`, its first index `dx`
passes the bounds test, and `i` is `dx`, or `dx + 1` when that index passes its own test. -/
def shimmerHits (row2x : Nat) (x0 w i : Int) (s : ShimmerSample) : Bool :=
  decide (s.shRow = row2x) && decide (u16 (wrap16 (s.shX - x0)) < u16 w) &&
    (decide (i = wrap16 (s.shX - x0)) ||
      (decide (u16 (wrap16 (s.shX - x0) + 1) < u16 w) &&
        decide (i = wrap16 (wrap16 (s.shX - x0) + 1))))

/-- The shimmer state after `n` frames one second apart on a 320x240 screen, from the
initial statics: `maybeUpdateShimmer` is called once per frame. -/
def shimmerRun (bgPal : Int → Int) (n : Nat) : Statics :=
  (List.range n).foldl (fun st j => maybeUpdateShimmer 320 240 bgPal (1000 * (j + 1)) st)
    Statics.initial

/-- A 320x240 renderer after `addDirtyWorldRect(400, 0, 4, 4)` (off screen), then
`addDirtyWorldRect(4 i, 0, 2, 2)` for `i = 0 .. 26` (the world set now holds 28 boxes) and
`addDirtyRect(100, 100, 16, 16)`. -/
def uiLostState : Renderer :=
  ((List.range 27).foldl (fun r (i : Nat) => r.addDirtyWorldRect (4 * (i : Int)) 0 2 2)
    ((Renderer.new 320 240).addDirtyWorldRect 400 0 4 4)).addDirtyRect 100 100 16 16

/-- A background of logical width 20000 with quadrants one pixel wide on the left; every
pixel has palette index 1. -/
def wideBackground : Background :=
  { q0 := fun _ => 1, q1 := fun _ => 1, q2 := fun _ => 1, q3 := fun _ => 1,
    W := 20000, H := 120, cw := 1, ch := 60, pal565 := fun i => 1000 + i }

/-- The row state at the start of a box, as `renderFrame` sets it up, over a zeroed line
buffer and cache. -/
def freshRowState : RowState :=
  { s_back := fun _ => 0, bgLineCache := fun _ => 0, lastSrcY := -1, bgCachedValid := false,
    first := true, trace := [] }

/-- A 16x16 sprite of palette index 1 (colour 101) at `(32752, 0)`: its right edge is at
column 32768. -/
def edgeSprite : Sprite :=
  { data := fun _ => 17, w := 16, h := 16, vx := 32752, vy := 0, hFlip := false,
    palRam := fun i => 100 + i, keyIdx := 0, z := 0 }

/-- A sprite whose extents and right edge fit the 16-bit signed range. -/
def Sprite.inRange (s : Sprite) : Prop :=
  0 ≤ s.w ∧ s.w ≤ 32767 ∧ -32768 ≤ s.vx ∧ s.vx + s.w ≤ 32767

/-- The background pixel at screen position `(x, y)`, following the spec: source row
`y >> 1` (the last row for rows past the image, as the composer clamps), source column
`x >> 1`, through the palette. -/
def refBGPixel (bg : Background) (bgPal : Int → Int) (y x : Int) : Int :=
  bgPal (unsplitImage bg.q0 bg.q1 bg.q2 bg.q3 bg.W bg.cw bg.ch (min (y / 2) (bg.H - 1)) (x / 2))

/-- The cache invariant of the row loop: a valid cache holds, over the window, the
background pixels of a row that maps to `lastSrcY`. -/
def CacheInv (bg : Background) (bgPal : Int → Int) (minX W : Int) (rs : RowState) : Prop :=
  rs.bgCachedValid = true →
    ∃ yc, 0 ≤ yc ∧ yc ≤ 32767 ∧ wrap16 (yc / 2) = rs.lastSrcY ∧
      ∀ k, 0 ≤ k → k < W → rs.bgLineCache k = refBGPixel bg bgPal yc (minX + k)

/-- A background whose quadrant split is well formed and whose doubled width fits the
16-bit arithmetic of the composer. -/
def Background.wellFormed (bg : Background) : Prop :=
  0 ≤ bg.cw ∧ bg.cw ≤ bg.W ∧ 0 ≤ bg.ch ∧ bg.ch ≤ bg.H ∧ 2 * bg.W ≤ 32767 ∧
    1 ≤ bg.H ∧ bg.H ≤ 32767

/-- The text `Caught: `. -/
def caughtLabel : List Nat := [67, 97, 117, 103, 104, 116, 58, 32]

/-- The text the spec prescribes for a count: the label followed by the decimal digits of
the count below 1000, by `999+` otherwise. -/
def fishCountText (count : Nat) : List Nat :=
  if count < 1000 then caughtLabel ++ (Nat.toDigits 10 count).map Char.toNat
  else caughtLabel ++ [57, 57, 57, 43]

/-- The invariant of the fight: tension in `0..1000`, velocity within the caps, state one
of the six values `GS_IDLE .. GS_FAIL`. -/
def TensionOk (gs : GameState) : Prop :=
  0 ≤ gs.tension ∧ gs.tension ≤ 1000 ∧ -50 ≤ gs.tensionVel ∧ gs.tensionVel ≤ 46 ∧ gs.state ≤ 5

/-- A game state in the middle of a fight: reeling since 1000 ms, held since 900 ms. -/
def demoFight : LogicState :=
  { gs := { stylusWasDown := true, holding := true, holdStart := 900, reelStart := 1000,
            biteStart := 500, tension := 990, tensionVel := 46, activeBiter := 2,
            caughtCount := 0, msg := [], state := 3 },
    ls := { s_prevState := 3, s_prevTickMs := 2990, s_inBandMs := 0, s_burstUntilMs := 0,
            s_burstForce := 0, s_reelEaseUntilMs := 1500, s_msgExpireAt := 0, s_inited := true,
            s_blockBitesUntilMs := 1200, s_targetDrift := 0, s_targetDriftDir := 1,
            s_nextDriftFlipMs := 0, s_lastTapMs := 2900, s_tapCombo := 3,
            s_nextComboDecay := 3160 } }

/-- The clock and touch input of one `step` call at 3000 ms with the stylus down. -/
def demoStepEnv : StepEnv :=
  { nowMs := 3000, touchMs := 3000, nowMs2 := 3000, msgMs := 3000, down := true }

/-! ## Auxiliary definitions for the loop invariants -/

/-- Nibble of pixel `sx` of the row `src` (high nibble for even `sx`). -/
def rowNibble (src : Int → Int) (sx : Int) : Int :=
  if sx % 2 = 0 then rd8 src (sx / 2) / 16 else rd8 src (sx / 2) % 16

/-- Destination column to source column, for the loop invariants. -/
def srcCol (hFlip : Bool) (dxBaseN dxBaseF k : Int) : Int :=
  if hFlip then dxBaseF - k else k - dxBaseN

/-- The line buffer after `n` source pixels starting at source index `sxi` have been
replicated from offset `dst` on (loop invariant of `drawSegment`). -/
def segSpec (pal row : Int → Int) (sxi dst n : Int) (buf : LineBuf) : LineBuf := fun k =>
  if dst ≤ k ∧ k < dst + 2 * n then pal (rd8 row (sxi + (k - dst) / 2)) else buf k

/-- Loop invariant of the pair loops of `drawSegment`, relative to the state `(sxi0, dst0,
xx0, P, buf0)` in which the first loop is entered: `m` pairs have been emitted. -/
def SegInv (pal row : Int → Int) (sxi0 dst0 xx0 P : Int) (buf0 : LineBuf) (s : SegState) : Prop :=
  ∃ m : Int, 0 ≤ m ∧ m ≤ P ∧ s.dst = dst0 + 2 * m ∧ s.sxi = sxi0 + m ∧ s.x = xx0 + 2 * m ∧
    s.pairs = P - m ∧ s.buf = segSpec pal row sxi0 dst0 m buf0

/-! # Theorems -/

/-! ## Arithmetic helpers -/

theorem wrap16_id {x : Int} (h1 : -32768 ≤ x) (h2 : x ≤ 32767) : wrap16 x = x := by
  unfold wrap16; omega

theorem u16_lt_of {a b : Int} (h0 : 0 ≤ a) (h1 : a < b) (h2 : b ≤ 32767) : u16 a < u16 b := by
  unfold u16; omega

theorem blitPixel_apply (skip : Int → Bool) (pal : Int → Int) (wR dx ni : Int)
    (buf : LineBuf) (k : Int) :
    blitPixel skip pal wR dx ni buf k =
      if u16 dx < u16 wR ∧ skip ni = false ∧ k = dx then pal ni else buf k := by
  unfold blitPixel
  by_cases h1 : u16 dx < u16 wR <;> by_cases h2 : skip ni = true <;> by_cases h3 : k = dx <;>
    simp [h1, h2, h3, Function.update_apply]

theorem rowNibble_even (src : Int → Int) (j : Int) :
    rowNibble src (2 * j) = rd8 src j / 16 := by
  unfold rowNibble
  have a : (2 * j) % 2 = 0 := by omega
  have b : (2 * j) / 2 = j := by omega
  simp [a, b]

theorem rowNibble_odd (src : Int → Int) (j : Int) :
    rowNibble src (2 * j + 1) = rd8 src j % 16 := by
  unfold rowNibble
  have a : ¬ ((2 * j + 1) % 2 = 0) := by omega
  have b : (2 * j + 1) / 2 = j := by omega
  simp [a, b]

theorem guardedPixel_apply (g : Prop) [Decidable g] (skip : Int → Bool) (pal : Int → Int)
    (wR dxw dx ni : Int) (buf : LineBuf) (k : Int)
    (hg : g → u16 dxw < u16 wR ∧ dxw = dx) :
    (if g then blitPixel skip pal wR dxw ni buf else buf) k =
      if g ∧ skip ni = false ∧ k = dx then pal ni else buf k := by
  by_cases h : g
  · obtain ⟨h1, h2⟩ := hg h
    subst h2
    simp only [h, if_true, blitPixel_apply, h1, true_and]
  · simp only [h, if_false, false_and]

theorem plainByte_apply (skip : Int → Bool) (pal src : Int → Int) (hFlip : Bool)
    (bN bF sS sE wR j : Int) (buf : LineBuf) (k : Int)
    (hj0 : 0 ≤ j) (hjS : sS ≤ 2 * j + 1) (hjE : 2 * j ≤ sE) (hsE : sE ≤ 32766)
    (hwR : wR ≤ 32767)
    (hclip : ∀ sx, sS ≤ sx → sx ≤ sE →
      (hFlip = false → 0 ≤ bN + sx ∧ bN + sx < wR) ∧
      (hFlip = true → 0 ≤ bF - sx ∧ bF - sx < wR)) :
    plainByte skip pal src hFlip bN bF sS sE wR j buf k =
      if (2 * j ≤ srcCol hFlip bN bF k ∧ srcCol hFlip bN bF k < 2 * j + 2) ∧
          sS ≤ srcCol hFlip bN bF k ∧ srcCol hFlip bN bF k ≤ sE ∧
          skip (rowNibble src (srcCol hFlip bN bF k)) = false then
        pal (rowNibble src (srcCol hFlip bN bF k))
      else buf k := by
  have e0 : wrap16 (j * 2) = 2 * j := by rw [wrap16_id] <;> omega
  have e1 : wrap16 (2 * j + 1) = 2 * j + 1 := by rw [wrap16_id] <;> omega
  have n0 := rowNibble_even src j
  have n1 := rowNibble_odd src j
  unfold plainByte
  simp only [e0, e1]
  have key : srcCol hFlip bN bF k = 2 * j ∨ srcCol hFlip bN bF k = 2 * j + 1 ∨
      (srcCol hFlip bN bF k < 2 * j ∨ 2 * j + 2 ≤ srcCol hFlip bN bF k) := by omega
  cases hFlip with
  | false =>
    simp only [srcCol, Bool.false_eq_true, if_false] at key ⊢
    rw [guardedPixel_apply (2 * j + 1 ≤ sE) skip pal wR _ (bN + (2 * j + 1)),
      guardedPixel_apply (2 * j ≥ sS) skip pal wR _ (bN + 2 * j)]
    · rcases key with h | h | h
      · rw [h, n0]
        by_cases hs0 : skip (rd8 src j / 16) = false <;>
        by_cases hs1 : skip (rd8 src j % 16) = false <;>
        simp only [hs0, hs1, eq_self, Bool.true_eq_false, Bool.false_eq_true, true_and, and_true,
          false_and, and_false, if_false, if_true] <;>
        split_ifs <;> omega
      · rw [h, n1]
        by_cases hs0 : skip (rd8 src j / 16) = false <;>
        by_cases hs1 : skip (rd8 src j % 16) = false <;>
        simp only [hs0, hs1, eq_self, Bool.true_eq_false, Bool.false_eq_true, true_and, and_true,
          false_and, and_false, if_false, if_true] <;>
        split_ifs <;> omega
      · by_cases hs0 : skip (rd8 src j / 16) = false <;>
        by_cases hs1 : skip (rd8 src j % 16) = false <;>
        simp only [hs0, hs1, eq_self, Bool.true_eq_false, Bool.false_eq_true, true_and, and_true,
          false_and, and_false, if_false, if_true] <;>
        split_ifs <;> omega
    · intro g
      have a := (hclip _ g hjE).1 rfl
      have w : wrap16 (bN + 2 * j) = bN + 2 * j := wrap16_id (by omega) (by omega)
      rw [w]
      exact ⟨u16_lt_of a.1 a.2 hwR, rfl⟩
    · intro g
      have a := (hclip _ hjS g).1 rfl
      have w : wrap16 (bN + (2 * j + 1)) = bN + (2 * j + 1) := wrap16_id (by omega) (by omega)
      rw [w]
      exact ⟨u16_lt_of a.1 a.2 hwR, rfl⟩
  | true =>
    simp only [srcCol, if_true] at key ⊢
    rw [guardedPixel_apply (2 * j + 1 ≤ sE) skip pal wR _ (bF - (2 * j + 1)),
      guardedPixel_apply (2 * j ≥ sS) skip pal wR _ (bF - 2 * j)]
    · rcases key with h | h | h
      · rw [h, n0]
        by_cases hs0 : skip (rd8 src j / 16) = false <;>
        by_cases hs1 : skip (rd8 src j % 16) = false <;>
        simp only [hs0, hs1, eq_self, Bool.true_eq_false, Bool.false_eq_true, true_and, and_true,
          false_and, and_false, if_false, if_true] <;>
        split_ifs <;> omega
      · rw [h, n1]
        by_cases hs0 : skip (rd8 src j / 16) = false <;>
        by_cases hs1 : skip (rd8 src j % 16) = false <;>
        simp only [hs0, hs1, eq_self, Bool.true_eq_false, Bool.false_eq_true, true_and, and_true,
          false_and, and_false, if_false, if_true] <;>
        split_ifs <;> omega
      · by_cases hs0 : skip (rd8 src j / 16) = false <;>
        by_cases hs1 : skip (rd8 src j % 16) = false <;>
        simp only [hs0, hs1, eq_self, Bool.true_eq_false, Bool.false_eq_true, true_and, and_true,
          false_and, and_false, if_false, if_true] <;>
        split_ifs <;> omega
    · intro g
      have a := (hclip _ g hjE).2 rfl
      have w : wrap16 (bF - 2 * j) = bF - 2 * j := wrap16_id (by omega) (by omega)
      rw [w]
      exact ⟨u16_lt_of a.1 a.2 hwR, rfl⟩
    · intro g
      have a := (hclip _ hjS g).2 rfl
      have w : wrap16 (bF - (2 * j + 1)) = bF - (2 * j + 1) := wrap16_id (by omega) (by omega)
      rw [w]
      exact ⟨u16_lt_of a.1 a.2 hwR, rfl⟩

theorem plainLoop_apply (skip : Int → Bool) (pal src : Int → Int) (hFlip : Bool)
    (bN bF sS sE wR : Int) (hsE : sE ≤ 32766) (hwR : wR ≤ 32767)
    (hclip : ∀ sx, sS ≤ sx → sx ≤ sE →
      (hFlip = false → 0 ≤ bN + sx ∧ bN + sx < wR) ∧
      (hFlip = true → 0 ≤ bF - sx ∧ bF - sx < wR)) :
    ∀ (n : Nat) (j : Int) (buf : LineBuf) (k : Int),
      0 ≤ j → sS ≤ 2 * j + 1 → 2 * (j + n) ≤ sE + 2 →
      plainLoop skip pal src hFlip bN bF sS sE wR n j buf k =
        if (2 * j ≤ srcCol hFlip bN bF k ∧ srcCol hFlip bN bF k < 2 * (j + n)) ∧
            sS ≤ srcCol hFlip bN bF k ∧ srcCol hFlip bN bF k ≤ sE ∧
            skip (rowNibble src (srcCol hFlip bN bF k)) = false then
          pal (rowNibble src (srcCol hFlip bN bF k))
        else buf k := by
  intro n
  induction n with
  | zero =>
    intro j buf k _ _ _
    have : ¬ (2 * j ≤ srcCol hFlip bN bF k ∧ srcCol hFlip bN bF k < 2 * (j + ((0 : Nat) : Int))) := by
      omega
    simp only [plainLoop, this, false_and, if_false]
  | succ n ih =>
    intro j buf k hj0 hjS hjE
    have hjE' : 2 * j ≤ sE := by omega
    rw [plainLoop, ih (j + 1) _ k (by omega) (by omega) (by push_cast at hjE ⊢; omega),
      plainByte_apply skip pal src hFlip bN bF sS sE wR j buf k hj0 hjS hjE' hsE hwR hclip]
    push_cast
    by_cases hs : skip (rowNibble src (srcCol hFlip bN bF k)) = false
    · simp only [hs, and_true]
      split_ifs <;> omega
    · simp only [hs, Bool.true_eq_false, and_false, if_false]


theorem rowNibble_src (data : Int → Int) (w row sx : Int) :
    rowNibble (fun i => data (row * ((w + 1) / 2) + i)) sx = nibbleAt data w row sx := by
  unfold rowNibble nibbleAt rd8
  rfl

theorem ite_cond_congr {α : Type} (p q : Prop) [Decidable p] [Decidable q] (a b : α)
    (h : p ↔ q) : (if p then a else b) = (if q then a else b) := by
  by_cases hp : p
  · rw [if_pos hp, if_pos (h.mp hp)]
  · rw [if_neg hp, if_neg (fun hq => hp (h.mpr hq))]

theorem clip_iff_nonflip (w h vx x0 wRegion row lo hi k : Int) (S : Prop)
    (hrow : ¬(row < 0 ∨ row ≥ h))
    (lo_spec : 0 ≤ lo ∧ -(vx - x0) ≤ lo ∧ (lo = 0 ∨ lo = -(vx - x0)))
    (hi_spec : hi ≤ w - 1 ∧ hi ≤ wRegion - 1 - (vx - x0) ∧
      (hi = w - 1 ∨ hi = wRegion - 1 - (vx - x0))) :
    ((2 * (lo / 2) ≤ k - (vx - x0) ∧ k - (vx - x0) < 2 * (lo / 2 + (hi / 2 - lo / 2 + 1))) ∧
        lo ≤ k - (vx - x0) ∧ k - (vx - x0) ≤ hi ∧ S) ↔
      (0 ≤ k ∧ k < wRegion ∧ 0 ≤ row ∧ row < h ∧ 0 ≤ k - (vx - x0) ∧ k - (vx - x0) < w ∧ S) := by
  constructor
  · rintro ⟨_, h1, h2, hS⟩
    exact ⟨by omega, by omega, by omega, by omega, by omega, by omega, hS⟩
  · rintro ⟨h1, h2, _, _, h3, h4, hS⟩
    exact ⟨⟨by omega, by omega⟩, by omega, by omega, hS⟩

theorem clip_iff_flip (w h vx x0 wRegion row lo hi k : Int) (S : Prop)
    (hrow : ¬(row < 0 ∨ row ≥ h))
    (lo_spec : 0 ≤ lo ∧ vx + w - 1 - x0 - (wRegion - 1) ≤ lo ∧
      (lo = 0 ∨ lo = vx + w - 1 - x0 - (wRegion - 1)))
    (hi_spec : hi ≤ w - 1 ∧ hi ≤ vx + w - 1 - x0 ∧ (hi = w - 1 ∨ hi = vx + w - 1 - x0)) :
    ((2 * (lo / 2) ≤ vx + w - 1 - x0 - k ∧
          vx + w - 1 - x0 - k < 2 * (lo / 2 + (hi / 2 - lo / 2 + 1))) ∧
        lo ≤ vx + w - 1 - x0 - k ∧ vx + w - 1 - x0 - k ≤ hi ∧ S) ↔
      (0 ≤ k ∧ k < wRegion ∧ 0 ≤ row ∧ row < h ∧ 0 ≤ vx + w - 1 - x0 - k ∧
        vx + w - 1 - x0 - k < w ∧ S) := by
  constructor
  · rintro ⟨_, h1, h2, hS⟩
    exact ⟨by omega, by omega, by omega, by omega, by omega, by omega, hS⟩
  · rintro ⟨h1, h2, _, _, h3, h4, hS⟩
    exact ⟨⟨by omega, by omega⟩, by omega, by omega, hS⟩

theorem composePlain_eq_ref (rule : TransparencyRule) (data : Int → Int) (w h vx vy : Int)
    (pal : Int → Int) (hFlip : Bool) (y x0 wRegion : Int) (buf : LineBuf)
    (H : NoOverflow w h vx vy y x0 wRegion) :
    composePlain (rule.transparent pal) data w h vx vy pal hFlip y x0 wRegion buf =
      refBlit rule data w h vx vy pal hFlip y x0 wRegion buf := by
  generalize hskip : rule.transparent pal = skip
  obtain ⟨w_lo, w_hi, h_lo, h_hi, wr_lo, wr_hi, row_lo, row_hi, baseN_lo, baseN_hi, right_hi,
    right_lo, baseF_lo, baseF_hi, hiN_lo, hiN_hi, loF_lo, loF_hi⟩ := H
  funext k
  have e_row : wrap16 (y - vy) = y - vy := wrap16_id row_lo row_hi
  have e_h : wrap16 h = h := wrap16_id (by omega) (by omega)
  have e_w : wrap16 w = w := wrap16_id (by omega) (by omega)
  have e_w1 : wrap16 (w - 1) = w - 1 := wrap16_id (by omega) (by omega)
  have e_bpr : u16 (w + 1) / 2 = (w + 1) / 2 := by unfold u16; omega
  have e_bN : wrap16 (vx - x0) = vx - x0 := wrap16_id (by omega) (by omega)
  have e_r : wrap16 (vx + w) = vx + w := wrap16_id (by omega) (by omega)
  have e_r1 : wrap16 (vx + w - 1) = vx + w - 1 := wrap16_id (by omega) (by omega)
  have e_bF : wrap16 (vx + w - 1 - x0) = vx + w - 1 - x0 := wrap16_id (by omega) (by omega)
  have e_wr1 : wrap16 (wRegion - 1) = wRegion - 1 := wrap16_id (by omega) (by omega)
  have e_loN : wrap16 (-(vx - x0)) = -(vx - x0) := wrap16_id (by omega) (by omega)
  have e_hiN : wrap16 (wRegion - 1 - (vx - x0)) = wRegion - 1 - (vx - x0) :=
    wrap16_id (by omega) (by omega)
  have e_loF : wrap16 (vx + w - 1 - x0 - (wRegion - 1)) = vx + w - 1 - x0 - (wRegion - 1) :=
    wrap16_id (by omega) (by omega)
  unfold composePlain refBlit
  rw [hskip]
  simp only [e_row, e_h, e_w, e_w1, e_bpr, e_bN, e_r, e_r1, e_bF, e_wr1, e_loN, e_hiN, e_loF]
  clear e_row e_h e_w e_w1 e_bpr e_bN e_r e_r1 e_bF e_wr1 e_loN e_hiN e_loF
  by_cases hrow : y - vy < 0 ∨ y - vy ≥ h
  · have hc : ∀ (P : Prop), ¬ (0 ≤ k ∧ k < wRegion ∧ 0 ≤ y - vy ∧ y - vy < h ∧ P) := by
      intro P hP
      omega
    rw [if_pos hrow, if_neg (hc _)]
  · rw [if_neg hrow]
    cases hFlip with
    | false =>
      simp only [Bool.false_eq_true, if_false]
      generalize hlo : (if -(vx - x0) < 0 then 0 else -(vx - x0)) = lo
      generalize hhi : (if wRegion - 1 - (vx - x0) > w - 1 then w - 1
        else wRegion - 1 - (vx - x0)) = hi
      have lo_spec : 0 ≤ lo ∧ -(vx - x0) ≤ lo ∧ (lo = 0 ∨ lo = -(vx - x0)) := by
        split_ifs at hlo <;> omega
      have hi_spec : hi ≤ w - 1 ∧ hi ≤ wRegion - 1 - (vx - x0) ∧
          (hi = w - 1 ∨ hi = wRegion - 1 - (vx - x0)) := by
        split_ifs at hhi <;> omega
      clear hlo hhi
      by_cases hemp : hi < lo
      · have hc : ∀ (P : Prop), ¬ (0 ≤ k ∧ k < wRegion ∧ 0 ≤ y - vy ∧ y - vy < h ∧
            0 ≤ k - (vx - x0) ∧ k - (vx - x0) < w ∧ P) := by
          intro P hP
          omega
        rw [if_pos hemp, if_neg (hc _)]
      · rw [if_neg hemp]
        have hn : (((hi / 2 - lo / 2 + 1).toNat : Nat) : Int) = hi / 2 - lo / 2 + 1 :=
          Int.toNat_of_nonneg (by omega)
        rw [plainLoop_apply skip pal _ false (vx - x0) (vx + w - 1 - x0) lo hi wRegion
          (by omega) (by omega)
          (by
            intro sx h1 h2
            exact ⟨fun _ => by omega, fun hc => Bool.noConfusion hc⟩)
          _ (lo / 2) buf k (by omega) (by omega) (by rw [hn]; omega), hn, rowNibble_src]
        simp only [srcCol, Bool.false_eq_true, if_false]
        exact ite_cond_congr _ _ _ _
          (clip_iff_nonflip w h vx x0 wRegion (y - vy) lo hi k _ hrow lo_spec hi_spec)
    | true =>
      simp only [if_true]
      generalize hlo : (if vx + w - 1 - x0 - (wRegion - 1) < 0 then 0
        else vx + w - 1 - x0 - (wRegion - 1)) = lo
      generalize hhi : (if vx + w - 1 - x0 > w - 1 then w - 1 else vx + w - 1 - x0) = hi
      have lo_spec : 0 ≤ lo ∧ vx + w - 1 - x0 - (wRegion - 1) ≤ lo ∧
          (lo = 0 ∨ lo = vx + w - 1 - x0 - (wRegion - 1)) := by
        split_ifs at hlo <;> omega
      have hi_spec : hi ≤ w - 1 ∧ hi ≤ vx + w - 1 - x0 ∧
          (hi = w - 1 ∨ hi = vx + w - 1 - x0) := by
        split_ifs at hhi <;> omega
      clear hlo hhi
      by_cases hemp : hi < lo
      · have hc : ∀ (P : Prop), ¬ (0 ≤ k ∧ k < wRegion ∧ 0 ≤ y - vy ∧ y - vy < h ∧
            0 ≤ vx + w - 1 - x0 - k ∧ vx + w - 1 - x0 - k < w ∧ P) := by
          intro P hP
          omega
        rw [if_pos hemp, if_neg (hc _)]
      · rw [if_neg hemp]
        have hn : (((hi / 2 - lo / 2 + 1).toNat : Nat) : Int) = hi / 2 - lo / 2 + 1 :=
          Int.toNat_of_nonneg (by omega)
        rw [plainLoop_apply skip pal _ true (vx - x0) (vx + w - 1 - x0) lo hi wRegion
          (by omega) (by omega)
          (by
            intro sx h1 h2
            exact ⟨fun hc => Bool.noConfusion hc, fun _ => by omega⟩)
          _ (lo / 2) buf k (by omega) (by omega) (by rw [hn]; omega), hn, rowNibble_src]
        simp only [srcCol, if_true]
        exact ite_cond_congr _ _ _ _
          (clip_iff_flip w h vx x0 wRegion (y - vy) lo hi k _ hrow lo_spec hi_spec)

/-! ## Background composer lemmas -/

theorem emitPairAt_segSpec (pal row : Int → Int) (sxi dst i sxi0 dst0 n : Int) (buf0 : LineBuf)
    (hs : sxi + i = sxi0 + n) (hd : dst + 2 * i = dst0 + 2 * n) (hn : 0 ≤ n) :
    emitPairAt pal row sxi dst i (segSpec pal row sxi0 dst0 n buf0) =
      segSpec pal row sxi0 dst0 (n + 1) buf0 := by
  funext k
  unfold emitPairAt segSpec
  rw [hs, hd]
  simp only [Function.update_apply]
  have e1 : k = dst0 + 2 * n + 1 → sxi0 + (k - dst0) / 2 = sxi0 + n := by intro h; omega
  have e2 : k = dst0 + 2 * n → sxi0 + (k - dst0) / 2 = sxi0 + n := by intro h; omega
  by_cases h1 : k = dst0 + 2 * n + 1
  · rw [if_pos h1, if_pos (by omega), e1 h1]
  · rw [if_neg h1]
    by_cases h2 : k = dst0 + 2 * n
    · rw [if_pos h2, if_pos (by omega), e2 h2]
    · rw [if_neg h2]
      exact ite_cond_congr _ _ _ _ (by constructor <;> intro h <;> omega)

theorem whilePairs_inv (I : SegState → Prop) (k : Int) (body : SegState → SegState) (hk : 0 < k)
    (hbody : ∀ s, I s → s.pairs ≥ k → I (body s) ∧ (body s).pairs = s.pairs - k) :
    ∀ (fuel : Nat) (s : SegState), I s → s.pairs ≤ fuel →
      I (whilePairs k body fuel s) ∧ (whilePairs k body fuel s).pairs < k := by
  intro fuel
  induction fuel with
  | zero =>
    intro s hI hf
    simp only [whilePairs]
    exact ⟨hI, by simp at hf; omega⟩
  | succ f ih =>
    intro s hI hf
    simp only [whilePairs]
    by_cases hp : s.pairs ≥ k
    · rw [if_pos hp]
      obtain ⟨h1, h2⟩ := hbody s hI hp
      exact ih (body s) h1 (by push_cast at hf; omega)
    · rw [if_neg hp]
      exact ⟨hI, by omega⟩
theorem segStep8_inv (pal row : Int → Int) (sxi0 dst0 xx0 P : Int) (buf0 : LineBuf)
    (hsx : -32768 ≤ sxi0 ∧ sxi0 + P ≤ 32767) (hx : -32768 ≤ xx0 ∧ xx0 + 2 * P ≤ 32767)
    (s : SegState) (hI : SegInv pal row sxi0 dst0 xx0 P buf0 s) (hp : s.pairs ≥ 8) :
    SegInv pal row sxi0 dst0 xx0 P buf0 (segStep8 pal row s) ∧
      (segStep8 pal row s).pairs = s.pairs - 8 := by
  obtain ⟨m, hm0, hmP, hd, hs, hxx, hpr, hb⟩ := hI
  have e1 : wrap16 (s.sxi + 8) = sxi0 + (m + 8) := by rw [wrap16_id] <;> omega
  have e2 : wrap16 (s.x + 16) = xx0 + 2 * (m + 8) := by rw [wrap16_id] <;> omega
  have e3 : wrap16 (s.pairs - 8) = s.pairs - 8 := by rw [wrap16_id] <;> omega
  refine ⟨⟨m + 8, by omega, by omega, ?_, ?_, ?_, ?_, ?_⟩, ?_⟩
  · simp only [segStep8]; omega
  · simp only [segStep8]; exact e1
  · simp only [segStep8]; exact e2
  · simp only [segStep8]; omega
  · simp only [segStep8]
    rw [hb,
      emitPairAt_segSpec pal row s.sxi s.dst 0 sxi0 dst0 m buf0 (by omega) (by omega) hm0,
      emitPairAt_segSpec pal row s.sxi s.dst 1 sxi0 dst0 (m + 1) buf0 (by omega) (by omega)
        (by omega),
      emitPairAt_segSpec pal row s.sxi s.dst 2 sxi0 dst0 (m + 1 + 1) buf0 (by omega) (by omega)
        (by omega),
      emitPairAt_segSpec pal row s.sxi s.dst 3 sxi0 dst0 (m + 1 + 1 + 1) buf0 (by omega)
        (by omega) (by omega),
      emitPairAt_segSpec pal row s.sxi s.dst 4 sxi0 dst0 (m + 1 + 1 + 1 + 1) buf0 (by omega)
        (by omega) (by omega),
      emitPairAt_segSpec pal row s.sxi s.dst 5 sxi0 dst0 (m + 1 + 1 + 1 + 1 + 1) buf0 (by omega)
        (by omega) (by omega),
      emitPairAt_segSpec pal row s.sxi s.dst 6 sxi0 dst0 (m + 1 + 1 + 1 + 1 + 1 + 1) buf0
        (by omega) (by omega) (by omega),
      emitPairAt_segSpec pal row s.sxi s.dst 7 sxi0 dst0 (m + 1 + 1 + 1 + 1 + 1 + 1 + 1) buf0
        (by omega) (by omega) (by omega)]
    have : m + 1 + 1 + 1 + 1 + 1 + 1 + 1 + 1 = m + 8 := by ring
    rw [this]
  · simp only [segStep8]; exact e3

theorem segStep4_inv (pal row : Int → Int) (sxi0 dst0 xx0 P : Int) (buf0 : LineBuf)
    (hsx : -32768 ≤ sxi0 ∧ sxi0 + P ≤ 32767) (hx : -32768 ≤ xx0 ∧ xx0 + 2 * P ≤ 32767)
    (s : SegState) (hI : SegInv pal row sxi0 dst0 xx0 P buf0 s) (hp : s.pairs ≥ 4) :
    SegInv pal row sxi0 dst0 xx0 P buf0 (segStep4 pal row s) ∧
      (segStep4 pal row s).pairs = s.pairs - 4 := by
  obtain ⟨m, hm0, hmP, hd, hs, hxx, hpr, hb⟩ := hI
  have e1 : wrap16 (s.sxi + 4) = sxi0 + (m + 4) := by rw [wrap16_id] <;> omega
  have e2 : wrap16 (s.x + 8) = xx0 + 2 * (m + 4) := by rw [wrap16_id] <;> omega
  have e3 : wrap16 (s.pairs - 4) = s.pairs - 4 := by rw [wrap16_id] <;> omega
  refine ⟨⟨m + 4, by omega, by omega, ?_, ?_, ?_, ?_, ?_⟩, ?_⟩
  · simp only [segStep4]; omega
  · simp only [segStep4]; exact e1
  · simp only [segStep4]; exact e2
  · simp only [segStep4]; omega
  · simp only [segStep4]
    rw [hb,
      emitPairAt_segSpec pal row s.sxi s.dst 0 sxi0 dst0 m buf0 (by omega) (by omega) hm0,
      emitPairAt_segSpec pal row s.sxi s.dst 1 sxi0 dst0 (m + 1) buf0 (by omega) (by omega)
        (by omega),
      emitPairAt_segSpec pal row s.sxi s.dst 2 sxi0 dst0 (m + 1 + 1) buf0 (by omega) (by omega)
        (by omega),
      emitPairAt_segSpec pal row s.sxi s.dst 3 sxi0 dst0 (m + 1 + 1 + 1) buf0 (by omega)
        (by omega) (by omega)]
    have : m + 1 + 1 + 1 + 1 = m + 4 := by ring
    rw [this]
  · simp only [segStep4]; exact e3

theorem segStep2_inv (pal row : Int → Int) (sxi0 dst0 xx0 P : Int) (buf0 : LineBuf)
    (hsx : -32768 ≤ sxi0 ∧ sxi0 + P ≤ 32767) (hx : -32768 ≤ xx0 ∧ xx0 + 2 * P ≤ 32767)
    (s : SegState) (hI : SegInv pal row sxi0 dst0 xx0 P buf0 s) (hp : s.pairs ≥ 2) :
    SegInv pal row sxi0 dst0 xx0 P buf0 (segStep2 pal row s) ∧
      (segStep2 pal row s).pairs = s.pairs - 2 := by
  obtain ⟨m, hm0, hmP, hd, hs, hxx, hpr, hb⟩ := hI
  have e1 : wrap16 (s.sxi + 2) = sxi0 + (m + 2) := by rw [wrap16_id] <;> omega
  have e2 : wrap16 (s.x + 4) = xx0 + 2 * (m + 2) := by rw [wrap16_id] <;> omega
  have e3 : wrap16 (s.pairs - 2) = s.pairs - 2 := by rw [wrap16_id] <;> omega
  refine ⟨⟨m + 2, by omega, by omega, ?_, ?_, ?_, ?_, ?_⟩, ?_⟩
  · simp only [segStep2]; omega
  · simp only [segStep2]; exact e1
  · simp only [segStep2]; exact e2
  · simp only [segStep2]; omega
  · simp only [segStep2]
    rw [hb,
      emitPairAt_segSpec pal row s.sxi s.dst 0 sxi0 dst0 m buf0 (by omega) (by omega) hm0,
      emitPairAt_segSpec pal row s.sxi s.dst 1 sxi0 dst0 (m + 1) buf0 (by omega) (by omega)
        (by omega)]
    have : m + 1 + 1 = m + 2 := by ring
    rw [this]
  · simp only [segStep2]; exact e3

theorem segStep1_inv (pal row : Int → Int) (sxi0 dst0 xx0 P : Int) (buf0 : LineBuf)
    (hsx : -32768 ≤ sxi0 ∧ sxi0 + P ≤ 32767) (hx : -32768 ≤ xx0 ∧ xx0 + 2 * P ≤ 32767)
    (s : SegState) (hI : SegInv pal row sxi0 dst0 xx0 P buf0 s) (hp : s.pairs = 1) :
    SegInv pal row sxi0 dst0 xx0 P buf0 (segStep1 pal row s) ∧
      (segStep1 pal row s).pairs = 0 := by
  obtain ⟨m, hm0, hmP, hd, hs, hxx, hpr, hb⟩ := hI
  have e1 : wrap16 (s.sxi + 1) = sxi0 + (m + 1) := by rw [wrap16_id] <;> omega
  have e2 : wrap16 (s.x + 2) = xx0 + 2 * (m + 1) := by rw [wrap16_id] <;> omega
  refine ⟨⟨m + 1, by omega, by omega, ?_, ?_, ?_, ?_, ?_⟩, ?_⟩
  · simp only [segStep1]; omega
  · simp only [segStep1]; exact e1
  · simp only [segStep1]; exact e2
  · simp only [segStep1]; omega
  · simp only [segStep1]
    rw [hb,
      emitPairAt_segSpec pal row s.sxi s.dst 0 sxi0 dst0 m buf0 (by omega) (by omega) hm0]
  · simp only [segStep1]
theorem segSpec_zero (pal row : Int → Int) (sxi dst : Int) (buf : LineBuf) :
    segSpec pal row sxi dst 0 buf = buf := by
  funext k
  unfold segSpec
  rw [if_neg (by omega)]

/-- The four pair loops together emit exactly `P` pairs. -/
theorem segLoops_result (pal row : Int → Int) (sxi0 dst0 xx0 P : Int) (buf0 : LineBuf)
    (hP : 0 ≤ P) (hsx : -32768 ≤ sxi0 ∧ sxi0 + P ≤ 32767)
    (hx : -32768 ≤ xx0 ∧ xx0 + 2 * P ≤ 32767) (s1 : SegState)
    (hs1 : segLoops pal row { dst := dst0, sxi := sxi0, x := xx0, pairs := P, buf := buf0 } = s1) :
    s1.dst = dst0 + 2 * P ∧ s1.sxi = sxi0 + P ∧ s1.x = xx0 + 2 * P ∧
      s1.buf = segSpec pal row sxi0 dst0 P buf0 := by
  subst hs1
  generalize hs0 : ({ dst := dst0, sxi := sxi0, x := xx0, pairs := P, buf := buf0 } : SegState)
    = s0
  have hs0p : s0.pairs = P := by rw [← hs0]
  have I0 : SegInv pal row sxi0 dst0 xx0 P buf0 s0 := by
    rw [← hs0]
    exact ⟨0, le_refl 0, hP, by simp, by simp, by simp, by simp, by simp [segSpec_zero]⟩
  have le_of_inv : ∀ s, SegInv pal row sxi0 dst0 xx0 P buf0 s → s.pairs ≤ (P.toNat : Int) := by
    rintro s ⟨m, hm0, _, _, _, _, hpr, _⟩
    have := Int.self_le_toNat P
    omega
  have nonneg_of_inv : ∀ s, SegInv pal row sxi0 dst0 xx0 P buf0 s → 0 ≤ s.pairs := by
    rintro s ⟨m, _, hmP, _, _, _, hpr, _⟩
    omega
  simp only [segLoops, hs0p]
  generalize h8 : whilePairs 8 (segStep8 pal row) P.toNat s0 = s8
  generalize h4 : whilePairs 4 (segStep4 pal row) P.toNat s8 = s4
  generalize h2 : whilePairs 2 (segStep2 pal row) P.toNat s4 = s2
  have I8 : SegInv pal row sxi0 dst0 xx0 P buf0 s8 := by
    rw [← h8]
    exact (whilePairs_inv _ 8 (segStep8 pal row) (by decide)
      (segStep8_inv pal row sxi0 dst0 xx0 P buf0 hsx hx) P.toNat s0 I0 (le_of_inv s0 I0)).1
  have I4 : SegInv pal row sxi0 dst0 xx0 P buf0 s4 := by
    rw [← h4]
    exact (whilePairs_inv _ 4 (segStep4 pal row) (by decide)
      (segStep4_inv pal row sxi0 dst0 xx0 P buf0 hsx hx) P.toNat s8 I8 (le_of_inv s8 I8)).1
  have I2 : SegInv pal row sxi0 dst0 xx0 P buf0 s2 ∧ s2.pairs < 2 := by
    rw [← h2]
    exact whilePairs_inv _ 2 (segStep2 pal row) (by decide)
      (segStep2_inv pal row sxi0 dst0 xx0 P buf0 hsx hx) P.toNat s4 I4 (le_of_inv s4 I4)
  have h0 : 0 ≤ s2.pairs := nonneg_of_inv s2 I2.1
  have I1 : SegInv pal row sxi0 dst0 xx0 P buf0
      (if s2.pairs = 1 then segStep1 pal row s2 else s2) ∧
      (if s2.pairs = 1 then segStep1 pal row s2 else s2).pairs = 0 := by
    by_cases h1 : s2.pairs = 1
    · rw [if_pos h1]
      exact segStep1_inv pal row sxi0 dst0 xx0 P buf0 hsx hx s2 I2.1 h1
    · rw [if_neg h1]
      exact ⟨I2.1, by have := I2.2; omega⟩
  obtain ⟨⟨m, _, _, hd, hs, hxx, hpr, hb⟩, hz⟩ := I1
  have hm : m = P := by omega
  subst hm
  exact ⟨hd, hs, hxx, hb⟩

theorem drawSegment_apply (pal row : Int → Int) (x0 segL segR srcX0 : Int) (buf : LineBuf)
    (k : Int) (hL : 0 ≤ segL) (hR : segR ≤ 32767) (hs : -16384 ≤ srcX0 ∧ srcX0 ≤ 0)
    (hd : -32768 ≤ segL - x0 ∧ segL - x0 ≤ 32767) :
    drawSegment pal x0 segL segR row srcX0 buf k =
      if segL ≤ x0 + k ∧ x0 + k < segR then pal (rd8 row (srcX0 + (x0 + k) / 2))
      else buf k := by
  unfold drawSegment
  by_cases hemp : segR ≤ segL
  · rw [if_pos hemp, if_neg (by omega)]
  · rw [if_neg hemp]
    have e_dst : wrap16 (segL - x0) = segL - x0 := wrap16_id hd.1 hd.2
    have e_sxi : wrap16 (srcX0 + segL / 2) = srcX0 + segL / 2 :=
      wrap16_id (by omega) (by omega)
    simp only [e_dst, e_sxi]
    by_cases hodd : segL % 2 ≠ 0
    · have e_x1 : wrap16 (segL + 1) = segL + 1 := wrap16_id (by omega) (by omega)
      have e_s1 : wrap16 (srcX0 + segL / 2 + 1) = srcX0 + segL / 2 + 1 :=
        wrap16_id (by omega) (by omega)
      have e_d : wrap16 (segR - (segL + 1)) = segR - (segL + 1) :=
        wrap16_id (by omega) (by omega)
      have e_P : wrap16 ((segR - (segL + 1)) / 2) = (segR - (segL + 1)) / 2 :=
        wrap16_id (by omega) (by omega)
      have hdec : decide (segL % 2 ≠ 0) = true := decide_eq_true hodd
      simp only [hdec, if_true, e_x1, e_s1, e_d, e_P]
      generalize hs1 : segLoops pal row _ = s1
      obtain ⟨h1, h2, h3, h4⟩ := segLoops_result pal row _ _ _ _ _
        (by omega) (by omega) (by omega) s1 hs1
      rw [h3, h1, h2, h4]
      clear h1 h2 h3 h4 hs1 e_dst e_sxi e_x1 e_s1 e_d e_P hdec
      simp only [ite_apply, Function.update_apply, segSpec]
      split_ifs <;> first | rfl | (congr 2; omega)
    · have e_d : wrap16 (segR - segL) = segR - segL := wrap16_id (by omega) (by omega)
      have e_P : wrap16 ((segR - segL) / 2) = (segR - segL) / 2 :=
        wrap16_id (by omega) (by omega)
      have hdec : decide (segL % 2 ≠ 0) = false := decide_eq_false hodd
      simp only [hdec, Bool.false_eq_true, if_false, e_d, e_P]
      generalize hs1 : segLoops pal row _ = s1
      obtain ⟨h1, h2, h3, h4⟩ := segLoops_result pal row _ _ _ _ _
        (by omega) (by omega) (by omega) s1 hs1
      rw [h3, h1, h2, h4]
      clear h1 h2 h3 h4 hs1 e_dst e_sxi e_d e_P hdec
      simp only [ite_apply, Function.update_apply, segSpec]
      split_ifs <;> first | rfl | (congr 2; omega)
theorem u32_row_offset (ly wd : Int) (h1 : 0 ≤ ly) (h2 : ly ≤ 32767) (h3 : 0 ≤ wd)
    (h4 : wd ≤ 65535) : (ly % 4294967296) * wd % 4294967296 = ly * wd := by
  have a : ly % 4294967296 = ly := by omega
  rw [a]
  have b : 0 ≤ ly * wd := Int.mul_nonneg h1 h3
  have c : ly * wd ≤ 32767 * 65535 := Int.mul_le_mul h2 h4 h3 (by omega)
  omega

theorem twoSegments_apply (pal rowL rowR : Int → Int) (W0 cw x0 w : Int) (buf : LineBuf)
    (k : Int) (hcw : 0 ≤ cw ∧ cw ≤ W0) (hW : 2 * W0 ≤ 32767) (hw : 0 < w ∧ w ≤ 32767)
    (hx0 : -32768 ≤ x0) (hxw : x0 + w ≤ 32767) :
    (if (if x0 + w > 2 * W0 then 2 * W0 else x0 + w) > (if x0 < 2 * cw then 2 * cw else x0) then
        drawSegment pal x0 (if x0 < 2 * cw then 2 * cw else x0)
          (if x0 + w > 2 * W0 then 2 * W0 else x0 + w) rowR (-cw)
          (if (if x0 + w > 2 * cw then 2 * cw else x0 + w) > (if x0 < 0 then 0 else x0) then
            drawSegment pal x0 (if x0 < 0 then 0 else x0)
              (if x0 + w > 2 * cw then 2 * cw else x0 + w) rowL 0 buf
          else buf)
      else
        (if (if x0 + w > 2 * cw then 2 * cw else x0 + w) > (if x0 < 0 then 0 else x0) then
          drawSegment pal x0 (if x0 < 0 then 0 else x0)
            (if x0 + w > 2 * cw then 2 * cw else x0 + w) rowL 0 buf
        else buf)) k =
      if 0 ≤ k ∧ k < w ∧ 0 ≤ x0 + k ∧ x0 + k < 2 * W0 then
        (if (x0 + k) / 2 < cw then pal (rd8 rowL ((x0 + k) / 2))
          else pal (rd8 rowR (-cw + (x0 + k) / 2)))
      else buf k := by
  generalize hL0 : (if x0 < 0 then 0 else x0) = L0
  generalize hR0 : (if x0 + w > 2 * cw then 2 * cw else x0 + w) = R0
  generalize hL1 : (if x0 < 2 * cw then 2 * cw else x0) = L1
  generalize hR1 : (if x0 + w > 2 * W0 then 2 * W0 else x0 + w) = R1
  have sL0 : (x0 < 0 ∧ L0 = 0) ∨ (0 ≤ x0 ∧ L0 = x0) := by split_ifs at hL0 <;> omega
  have sR0 : (x0 + w > 2 * cw ∧ R0 = 2 * cw) ∨ (x0 + w ≤ 2 * cw ∧ R0 = x0 + w) := by
    split_ifs at hR0 <;> omega
  have sL1 : (x0 < 2 * cw ∧ L1 = 2 * cw) ∨ (2 * cw ≤ x0 ∧ L1 = x0) := by
    split_ifs at hL1 <;> omega
  have sR1 : (x0 + w > 2 * W0 ∧ R1 = 2 * W0) ∨ (x0 + w ≤ 2 * W0 ∧ R1 = x0 + w) := by
    split_ifs at hR1 <;> omega
  clear hL0 hR0 hL1 hR1
  have left : (if R0 > L0 then drawSegment pal x0 L0 R0 rowL 0 buf else buf) k =
      if L0 ≤ x0 + k ∧ x0 + k < R0 then pal (rd8 rowL ((x0 + k) / 2)) else buf k := by
    by_cases h : R0 > L0
    · rw [if_pos h, drawSegment_apply pal rowL x0 L0 R0 0 buf k (by omega) (by omega)
        (by omega) (by omega), Int.zero_add]
    · rw [if_neg h, if_neg (by omega)]
  by_cases h : R1 > L1
  · rw [if_pos h, drawSegment_apply pal rowR x0 L1 R1 (-cw) _ k (by omega) (by omega)
      (by omega) (by omega), left]
    split_ifs <;> first | rfl | omega
  · rw [if_neg h, left]
    split_ifs <;> first | rfl | omega

theorem composeBGLine_eq_ref (q0 q1 q2 q3 : Int → Int) (W0 H0 cw ch : Int) (pal : Int → Int)
    (y x0 w : Int) (buf : LineBuf)
    (hcw : 0 ≤ cw ∧ cw ≤ W0) (hch : 0 ≤ ch ∧ ch ≤ H0) (hW : 2 * W0 ≤ 32767) (hH : H0 ≤ 32767)
    (hy : 0 ≤ y ∧ y < 2 * H0) (hw : 0 < w ∧ w ≤ 32767) (hx0 : -32768 ≤ x0)
    (hxw : x0 + w ≤ 32767) :
    composeBGLine_160to320_quads_P q0 q1 q2 q3 W0 H0 cw ch pal y x0 w buf =
      refBGLine q0 q1 q2 q3 W0 cw ch pal y x0 w buf := by
  funext k
  have e_y : wrap16 (y / 2) = y / 2 := wrap16_id (by omega) (by omega)
  have e_H : wrap16 H0 = H0 := wrap16_id (by omega) (by omega)
  have e_ch : wrap16 ch = ch := wrap16_id (by omega) (by omega)
  have e_cw : wrap16 cw = cw := wrap16_id (by omega) (by omega)
  have e_W : wrap16 W0 = W0 := wrap16_id (by omega) (by omega)
  have e_lw : u16 cw = cw := by unfold u16; omega
  have e_rw : u16 (W0 - cw) = W0 - cw := by unfold u16; omega
  have e_sp : wrap16 (cw * 2) = 2 * cw := by rw [wrap16_id] <;> omega
  have e_sm : wrap16 (W0 * 2) = 2 * W0 := by rw [wrap16_id] <;> omega
  have e_xe : wrap16 (x0 + w) = x0 + w := wrap16_id (by omega) (by omega)
  have e_sx : wrap16 (-(2 * cw / 2)) = -cw := by rw [wrap16_id] <;> omega
  have e_s0 : ¬ (y / 2 < 0) := by omega
  have e_s1 : ¬ (y / 2 ≥ H0) := by omega
  unfold composeBGLine_160to320_quads_P refBGLine
  rw [if_neg (by omega : ¬ w ≤ 0)]
  simp only [e_y, e_H, e_ch, e_cw, e_W, e_lw, e_rw, e_sp, e_sm, e_xe, e_sx, e_s0, e_s1, if_false]
  clear e_y e_H e_ch e_cw e_W e_lw e_rw e_sp e_sm e_xe e_sx e_s0 e_s1
  by_cases htop : y / 2 ≥ ch
  · have hdec : decide (y / 2 ≥ ch) = true := decide_eq_true htop
    have e_ly : wrap16 (y / 2 - ch) = y / 2 - ch := wrap16_id (by omega) (by omega)
    simp only [hdec, if_true, e_ly,
      u32_row_offset (y / 2 - ch) cw (by omega) (by omega) (by omega) (by omega),
      u32_row_offset (y / 2 - ch) (W0 - cw) (by omega) (by omega) (by omega) (by omega)]
    rw [twoSegments_apply pal _ _ W0 cw x0 w buf k hcw hW hw hx0 hxw]
    have hr : ¬ (y / 2 < ch) := by omega
    have hc : -cw + (x0 + k) / 2 = (x0 + k) / 2 - cw := by omega
    simp only [unsplitImage, rd8, if_neg hr, hc, apply_ite pal]
  · have hdec : decide (y / 2 ≥ ch) = false := decide_eq_false htop
    have e_ly : wrap16 (y / 2 - 0) = y / 2 := by rw [wrap16_id] <;> omega
    simp only [hdec, Bool.false_eq_true, if_false, e_ly,
      u32_row_offset (y / 2) cw (by omega) (by omega) (by omega) (by omega),
      u32_row_offset (y / 2) (W0 - cw) (by omega) (by omega) (by omega) (by omega)]
    rw [twoSegments_apply pal _ _ W0 cw x0 w buf k hcw hW hw hx0 hxw]
    have hr : y / 2 < ch := by omega
    have hc : -cw + (x0 + k) / 2 = (x0 + k) / 2 - cw := by omega
    simp only [unsplitImage, rd8, if_pos hr, hc, apply_ite pal]

/-! ## Dirty-region lemmas -/

theorem unionFirst_append_of_not_intersects (pre l : List Box) (x y w h : Int)
    (hpre : ∀ c ∈ pre, intersects c x y w h = false) :
    unionFirst (pre ++ l) x y w h = (unionFirst l x y w h).map (fun r => pre ++ r) := by
  induction pre with
  | nil => simp
  | cons c cs ih =>
    have hc : intersects c x y w h = false := hpre c (List.mem_cons_self _ _)
    have hcs : ∀ d ∈ cs, intersects d x y w h = false :=
      fun d hd => hpre d (List.mem_cons_of_mem _ hd)
    rw [List.cons_append, unionFirst, hc, if_neg Bool.false_ne_true, ih hcs, Option.map_map]
    rfl

theorem unionRect_of_contains (b : Box) (x y w h : Int) (hx : -32768 ≤ x) (hy : -32768 ≤ y)
    (hw : 0 < w) (hh : 0 < h) (hc : b.containsRect x y w h)
    (hmax : b.maxX ≤ 32767 ∧ b.maxY ≤ 32767) : unionRect b x y w h = b := by
  obtain ⟨h1, h2, h3, h4⟩ := hc
  have e1 : wrap16 (x + w) = x + w := wrap16_id (by omega) (by omega)
  have e2 : wrap16 (y + h) = y + h := wrap16_id (by omega) (by omega)
  cases b with
  | mk v a1 a2 a3 a4 =>
    simp only [unionRect, e1, e2, Box.mk.injEq, true_and] at *
    omega

theorem intersects_of_contains (b : Box) (x y w h : Int) (hx : -32768 ≤ x) (hy : -32768 ≤ y)
    (hw : 0 < w) (hh : 0 < h) (hv : b.valid = true) (hc : b.containsRect x y w h)
    (hmax : b.maxX ≤ 32767 ∧ b.maxY ≤ 32767) : intersects b x y w h = true := by
  obtain ⟨h1, h2, h3, h4⟩ := hc
  have e1 : wrap16 (x + w) = x + w := wrap16_id (by omega) (by omega)
  have e2 : wrap16 (y + h) = y + h := wrap16_id (by omega) (by omega)
  simp only [intersects, hv, Bool.true_eq_false, if_false, e1, e2, Bool.not_eq_true',
    Bool.or_eq_false_iff, decide_eq_false_iff_not]
  omega

theorem unionFirst_of_first_contains (pre post : List Box) (b : Box) (x y w h : Int)
    (hx : -32768 ≤ x) (hy : -32768 ≤ y) (hw : 0 < w) (hh : 0 < h)
    (hpre : ∀ c ∈ pre, intersects c x y w h = false)
    (hv : b.valid = true) (hc : b.containsRect x y w h)
    (hmax : b.maxX ≤ 32767 ∧ b.maxY ≤ 32767) :
    unionFirst (pre ++ b :: post) x y w h = some (pre ++ b :: post) := by
  rw [unionFirst_append_of_not_intersects pre _ x y w h hpre]
  simp only [unionFirst, intersects_of_contains b x y w h hx hy hw hh hv hc hmax, if_true,
    unionRect_of_contains b x y w h hx hy hw hh hc hmax, Option.map_some']

theorem Grown.refl (l : List Box) : Grown l l := by
  induction l with
  | nil => exact List.Forall₂.nil
  | cons b bs ih => exact List.Forall₂.cons ⟨rfl, le_refl _, le_refl _, le_refl _, le_refl _⟩ ih

theorem unionRect_grows (b : Box) (x y w h : Int) :
    (unionRect b x y w h).valid = b.valid ∧ (unionRect b x y w h).minX ≤ b.minX ∧
      b.maxX ≤ (unionRect b x y w h).maxX ∧ (unionRect b x y w h).minY ≤ b.minY ∧
      b.maxY ≤ (unionRect b x y w h).maxY := by
  exact ⟨rfl, min_le_left _ _, le_max_left _ _, min_le_left _ _, le_max_left _ _⟩

theorem unionFirst_grown (l : List Box) (x y w h : Int) :
    ∀ l', unionFirst l x y w h = some l' → Grown l l' := by
  induction l with
  | nil => intro l' hl; simp [unionFirst] at hl
  | cons b bs ih =>
    intro l' hl
    rw [unionFirst] at hl
    by_cases hi : intersects b x y w h = true
    · rw [if_pos hi] at hl
      cases hl
      exact List.Forall₂.cons (unionRect_grows b x y w h) (Grown.refl bs)
    · rw [if_neg hi] at hl
      cases hu : unionFirst bs x y w h with
      | none => rw [hu] at hl; simp at hl
      | some r =>
        rw [hu] at hl
        simp only [Option.map_some', Option.some.injEq] at hl
        subst hl
        exact List.Forall₂.cons ⟨rfl, le_refl _, le_refl _, le_refl _, le_refl _⟩ (ih r hu)

theorem Covered.of_grown {l l' : List Box} (hg : Grown l l') {x y w h : Int}
    (hc : Covered l x y w h) : Covered l' x y w h := by
  induction hg with
  | nil => obtain ⟨b, hb, _⟩ := hc; cases hb
  | @cons b b' bs bs' hbb _ ih =>
    obtain ⟨c, hcm, hv, h1, h2, h3, h4⟩ := hc
    rcases List.mem_cons.mp hcm with rfl | hin
    · refine ⟨b', List.mem_cons_self _ _, by rw [hbb.1]; exact hv, ?_⟩
      obtain ⟨_, g1, g2, g3, g4⟩ := hbb
      exact ⟨by omega, by omega, by omega, by omega⟩
    · obtain ⟨d, hd, hd'⟩ := ih ⟨c, hin, hv, h1, h2, h3, h4⟩
      exact ⟨d, List.mem_cons_of_mem _ hd, hd'⟩

theorem Covered.append {l : List Box} {x y w h : Int} (hc : Covered l x y w h)
    (m : List Box) : Covered (l ++ m) x y w h := by
  obtain ⟨b, hb, hb'⟩ := hc
  exact ⟨b, List.mem_append_left _ hb, hb'⟩

/-- `addWorldRect` only grows or appends boxes: a rectangle covered before stays covered. -/
theorem addWorldRect_mono (wb : List Box) (x y w h : Int) {x' y' w' h' : Int}
    (hc : Covered wb x' y' w' h') : Covered (addWorldRect wb x y w h) x' y' w' h' := by
  unfold addWorldRect
  by_cases hd : w ≤ 0 ∨ h ≤ 0
  · rw [if_pos hd]; exact hc
  · rw [if_neg hd]
    cases hu : unionFirst wb x y w h with
    | some r => exact hc.of_grown (unionFirst_grown wb x y w h r hu)
    | none =>
      simp only
      by_cases hl : wb.length < MAX_WB
      · rw [if_pos hl]; exact hc.append _
      · rw [if_neg hl]
        cases wb with
        | nil => exact hc
        | cons b0 rest =>
          exact hc.of_grown
            (List.Forall₂.cons (unionRect_grows b0 x y w h) (Grown.refl rest))

theorem unionRect_covers (b : Box) (x y w h : Int) (hv : b.valid = true)
    (e1 : wrap16 (x + w) = x + w) (e2 : wrap16 (y + h) = y + h) :
    (unionRect b x y w h).valid = true ∧ (unionRect b x y w h).containsRect x y w h := by
  refine ⟨hv, ?_⟩
  simp only [Box.containsRect, unionRect, e1, e2]
  exact ⟨min_le_right _ _, le_max_right _ _, min_le_right _ _, le_max_right _ _⟩

theorem intersects_valid (b : Box) (x y w h : Int) (hi : intersects b x y w h = true) :
    b.valid = true := by
  unfold intersects at hi
  by_cases hv : b.valid = false
  · rw [if_pos hv] at hi; cases hi
  · simpa using hv

theorem unionFirst_covers (l : List Box) (x y w h : Int)
    (e1 : wrap16 (x + w) = x + w) (e2 : wrap16 (y + h) = y + h) :
    ∀ l', unionFirst l x y w h = some l' → Covered l' x y w h := by
  induction l with
  | nil => intro l' hl; simp [unionFirst] at hl
  | cons b bs ih =>
    intro l' hl
    rw [unionFirst] at hl
    by_cases hi : intersects b x y w h = true
    · rw [if_pos hi] at hl
      cases hl
      exact ⟨_, List.mem_cons_self _ _,
        unionRect_covers b x y w h (intersects_valid b x y w h hi) e1 e2⟩
    · rw [if_neg hi] at hl
      cases hu : unionFirst bs x y w h with
      | none => rw [hu] at hl; simp at hl
      | some r =>
        rw [hu] at hl
        simp only [Option.map_some', Option.some.injEq] at hl
        subst hl
        obtain ⟨c, hc, hc'⟩ := ih r hu
        exact ⟨c, List.mem_cons_of_mem _ hc, hc'⟩

/-- With no overflow in `x + w`, `y + h` and every stored box valid, the rectangle just
added is covered (by the box it was unioned into, the new box, or the fallback box 0). -/
theorem addWorldRect_covers (wb : List Box) (x y w h : Int) (hw : 0 < w) (hh : 0 < h)
    (hx : -32768 ≤ x ∧ x + w ≤ 32767) (hy : -32768 ≤ y ∧ y + h ≤ 32767)
    (hval : ∀ b ∈ wb, b.valid = true) : Covered (addWorldRect wb x y w h) x y w h := by
  have e1 : wrap16 (x + w) = x + w := wrap16_id (by omega) (by omega)
  have e2 : wrap16 (y + h) = y + h := wrap16_id (by omega) (by omega)
  unfold addWorldRect
  rw [if_neg (by omega)]
  cases hu : unionFirst wb x y w h with
  | some r => exact unionFirst_covers wb x y w h e1 e2 r hu
  | none =>
    simp only
    by_cases hl : wb.length < MAX_WB
    · rw [if_pos hl]
      refine ⟨_, List.mem_append_right _ (List.mem_singleton_self _), rfl, ?_⟩
      simp only [Box.containsRect, e1, e2]
      omega
    · rw [if_neg hl]
      cases wb with
      | nil => simp [MAX_WB] at hl
      | cons b0 rest =>
        exact ⟨_, List.mem_cons_self _ _,
          unionRect_covers b0 x y w h (hval b0 (List.mem_cons_self _ _)) e1 e2⟩

theorem Grown.valid {l l' : List Box} (hg : Grown l l') (hval : ∀ b ∈ l, b.valid = true) :
    ∀ b ∈ l', b.valid = true := by
  induction hg with
  | nil => intro b hb; cases hb
  | @cons b b' bs bs' hbb _ ih =>
    intro c hc
    rcases List.mem_cons.mp hc with rfl | hin
    · rw [hbb.1]; exact hval b (List.mem_cons_self _ _)
    · exact ih (fun d hd => hval d (List.mem_cons_of_mem _ hd)) c hin

theorem addWorldRect_valid (wb : List Box) (x y w h : Int)
    (hval : ∀ b ∈ wb, b.valid = true) : ∀ b ∈ addWorldRect wb x y w h, b.valid = true := by
  unfold addWorldRect
  by_cases hd : w ≤ 0 ∨ h ≤ 0
  · rw [if_pos hd]; exact hval
  · rw [if_neg hd]
    cases hu : unionFirst wb x y w h with
    | some r => exact (unionFirst_grown wb x y w h r hu).valid hval
    | none =>
      simp only
      by_cases hl : wb.length < MAX_WB
      · rw [if_pos hl]
        intro b hb
        rcases List.mem_append.mp hb with h1 | h1
        · exact hval b h1
        · rw [List.mem_singleton.mp h1]
      · rw [if_neg hl]
        cases wb with
        | nil => exact hval
        | cons b0 rest =>
          exact Grown.valid
            (List.Forall₂.cons (unionRect_grows b0 x y w h) (Grown.refl rest)) hval

theorem addWorldRects_covers (rs : List DirtyReq) (hrs : ∀ r ∈ rs, r.wellFormed) :
    ∀ (wb : List Box), (∀ b ∈ wb, b.valid = true) →
      (∀ b ∈ addWorldRects wb rs, b.valid = true) ∧
      (∀ x y w h, Covered wb x y w h → Covered (addWorldRects wb rs) x y w h) ∧
      ∀ r ∈ rs, Covered (addWorldRects wb rs) r.x r.y r.w r.h := by
  induction rs with
  | nil =>
    intro wb hval
    exact ⟨hval, fun _ _ _ _ hc => hc, fun r hr => by cases hr⟩
  | cons r rs ih =>
    intro wb hval
    obtain ⟨hw, hh, hx1, hx2, hy1, hy2⟩ := hrs r (List.mem_cons_self _ _)
    have hval' := addWorldRect_valid wb r.x r.y r.w r.h hval
    obtain ⟨i1, i2, i3⟩ := ih (fun q hq => hrs q (List.mem_cons_of_mem _ hq))
      (addWorldRect wb r.x r.y r.w r.h) hval'
    refine ⟨i1, fun x y w h hc => i2 x y w h (addWorldRect_mono wb r.x r.y r.w r.h hc), ?_⟩
    intro q hq
    rcases List.mem_cons.mp hq with rfl | hin
    · exact i2 _ _ _ _ (addWorldRect_covers wb q.x q.y q.w q.h hw hh ⟨hx1, hx2⟩ ⟨hy1, hy2⟩ hval)
    · exact i3 q hin

theorem clampBox_pt (b : Box) (W H px py : Int) (hv : b.valid = true)
    (hp : b.containsPt px py) (hs : 0 ≤ px ∧ px < W ∧ 0 ≤ py ∧ py < H) :
    (clampBox b W H).valid = true ∧ (clampBox b W H).containsPt px py ∧
      0 ≤ (clampBox b W H).minX ∧ (clampBox b W H).maxX ≤ W ∧
      0 ≤ (clampBox b W H).minY ∧ (clampBox b W H).maxY ≤ H := by
  obtain ⟨p1, p2, p3, p4⟩ := hp
  unfold clampBox Box.containsPt
  rw [if_neg (by simp [hv])]
  simp only
  refine ⟨?_, ⟨?_, ?_, ?_, ?_⟩, ?_, ?_, ?_, ?_⟩
  · rw [if_neg]
    split_ifs <;> omega
  all_goals split_ifs <;> omega

theorem roundBox_pt (c : Box) (px py : Int) (hp : c.containsPt px py)
    (hx : -32769 ≤ c.maxX ∧ c.maxX ≤ 32766) (hy : -32769 ≤ c.maxY ∧ c.maxY ≤ 32766) :
    (roundBox c).valid = c.valid ∧ (roundBox c).containsPt px py ∧
      c.minX - 1 ≤ (roundBox c).minX ∧ (roundBox c).maxX ≤ c.maxX + 1 ∧
      c.minY - 1 ≤ (roundBox c).minY ∧ (roundBox c).maxY ≤ c.maxY + 1 ∧
      (0 ≤ c.minX → 0 ≤ (roundBox c).minX) := by
  obtain ⟨p1, p2, p3, p4⟩ := hp
  have e1 : wrap16 (c.maxX + 1) = c.maxX + 1 := wrap16_id (by omega) (by omega)
  have e2 : wrap16 (c.maxY + 1) = c.maxY + 1 := wrap16_id (by omega) (by omega)
  simp only [roundBox, Box.containsPt, evenDown, e1, e2]
  refine ⟨trivial, ⟨?_, ?_, ?_, ?_⟩, ?_, ?_, ?_, ?_, ?_⟩ <;> omega

/-- With the foreground flag unset and no UI box, a pixel of the screen that lies in a
valid world box lies in a rectangle that `renderFrame` paints. -/
theorem painted_of_world_box (W H : Int) (hW : W ≤ 32766) (hH : H ≤ 32766) (wb : List Box)
    (b : Box) (hb : b ∈ wb) (hv : b.valid = true) (px py : Int) (hp : b.containsPt px py)
    (hs : 0 ≤ px ∧ px < W ∧ 0 ≤ py ∧ py < H) :
    ∃ b' ∈ paintedBoxes W H false [] { wbox := wb, ui := [] }, b'.containsPt px py := by
  obtain ⟨c1v, c1p, c1a, c1b, c1c, c1d⟩ := clampBox_pt b W H px py hv hp hs
  obtain ⟨c1p1, c1p2, c1p3, c1p4⟩ := id c1p
  obtain ⟨r1v, r1p, r1a, r1b, r1c, r1d, _⟩ := roundBox_pt (clampBox b W H) px py c1p
    (by omega) (by omega)
  rw [c1v] at r1v
  obtain ⟨c2v, c2p, c2a, c2b, c2c, c2d⟩ :=
    clampBox_pt (roundBox (clampBox b W H)) W H px py r1v r1p hs
  obtain ⟨c2p1, c2p2, c2p3, c2p4⟩ := id c2p
  obtain ⟨r2v, r2p, r2a, r2b, r2c, r2d, r2e⟩ :=
    roundBox_pt (clampBox (roundBox (clampBox b W H)) W H) px py c2p (by omega) (by omega)
  rw [c2v] at r2v
  refine ⟨roundBox (clampBox (roundBox (clampBox b W H)) W H), ?_, r2p⟩
  have hne : ¬ (false = false ∧ wb.length = 0 ∧ ([] : List Box).length = 0) := by
    rintro ⟨_, h0, _⟩
    rw [List.length_eq_zero] at h0
    rw [h0] at hb
    cases hb
  unfold paintedBoxes
  rw [if_neg hne]
  simp only [mergedBoxes, Bool.false_eq_true, if_false, mergeUI, clampAll, List.map_nil,
    List.foldl_nil, reRound, clampRoundWorld, List.map_map]
  rw [List.mem_filter]
  constructor
  · rw [List.mem_map]
    refine ⟨b, hb, ?_⟩
    simp only [Function.comp, hv, if_true, c1v, r1v, c2v]
  · obtain ⟨q1, q2, q3, q4⟩ := r2p
    have e : wrap16 ((roundBox (clampBox (roundBox (clampBox b W H)) W H)).maxX -
        (roundBox (clampBox (roundBox (clampBox b W H)) W H)).minX) =
        (roundBox (clampBox (roundBox (clampBox b W H)) W H)).maxX -
        (roundBox (clampBox (roundBox (clampBox b W H)) W H)).minX :=
      wrap16_id (by omega) (by have := r2e c2a; omega)
    rw [r2v, e]
    simp only [Bool.true_and, decide_eq_true_eq]
    omega

theorem intersects_iff_overlaps (b u : Box)
    (hx : 0 ≤ u.minX ∧ u.minX ≤ u.maxX ∧ u.maxX ≤ 32767)
    (hy : 0 ≤ u.minY ∧ u.minY ≤ u.maxY ∧ u.maxY ≤ 32767) :
    intersects b u.minX u.minY (wrap16 (u.maxX - u.minX)) (wrap16 (u.maxY - u.minY)) = true ↔
      (b.valid = true ∧ b.overlaps u) := by
  have e1 : wrap16 (u.maxX - u.minX) = u.maxX - u.minX := wrap16_id (by omega) (by omega)
  have e2 : wrap16 (u.maxY - u.minY) = u.maxY - u.minY := wrap16_id (by omega) (by omega)
  have e3 : wrap16 (u.minX + (u.maxX - u.minX)) = u.maxX := by rw [wrap16_id] <;> omega
  have e4 : wrap16 (u.minY + (u.maxY - u.minY)) = u.maxY := by rw [wrap16_id] <;> omega
  unfold intersects Box.overlaps
  rw [e1, e2, e3, e4]
  by_cases hv : b.valid = true
  · have hv' : ¬ (b.valid = false) := by simp [hv]
    rw [if_neg hv']
    simp only [Bool.not_eq_true', Bool.or_eq_false_iff, decide_eq_false_iff_not, hv, true_and]
    omega
  · have hv' : b.valid = false := by simpa using hv
    rw [if_pos hv']
    simp [hv']

theorem mergeInto_append_of_not_intersects (pre l : List Box) (u : Box)
    (hpre : ∀ c ∈ pre,
      intersects c u.minX u.minY (wrap16 (u.maxX - u.minX)) (wrap16 (u.maxY - u.minY)) = false) :
    mergeInto (pre ++ l) u = (mergeInto l u).map (fun r => pre ++ r) := by
  induction pre with
  | nil => simp
  | cons c cs ih =>
    have hc := hpre c (List.mem_cons_self _ _)
    have hcs : ∀ d ∈ cs, intersects d u.minX u.minY (wrap16 (u.maxX - u.minX))
        (wrap16 (u.maxY - u.minY)) = false :=
      fun d hd => hpre d (List.mem_cons_of_mem _ hd)
    rw [List.cons_append, mergeInto, hc, if_neg Bool.false_ne_true, ih hcs, Option.map_map]
    rfl

theorem mergeInto_none_of_not_intersects (l : List Box) (u : Box)
    (hl : ∀ c ∈ l,
      intersects c u.minX u.minY (wrap16 (u.maxX - u.minX)) (wrap16 (u.maxY - u.minY)) = false) :
    mergeInto l u = none := by
  have := mergeInto_append_of_not_intersects l [] u hl
  simpa [mergeInto] using this

theorem not_intersects_of_not_overlaps (u : Box) (W H : Int) (hW : W ≤ 32767) (hH : H ≤ 32767)
    (hu : u.onScreen W H) (l : List Box)
    (hl : ∀ c ∈ l, ¬ (c.valid = true ∧ c.overlaps u)) :
    ∀ c ∈ l,
      intersects c u.minX u.minY (wrap16 (u.maxX - u.minX)) (wrap16 (u.maxY - u.minY)) = false := by
  obtain ⟨_, a1, a2, a3, a4, a5, a6⟩ := hu
  intro c hc
  have := (intersects_iff_overlaps c u (by omega) (by omega)).not.mpr (hl c hc)
  simpa using this

theorem clampBox_onScreen (b : Box) (W H : Int) (hv : (clampBox b W H).valid = true) :
    (clampBox b W H).onScreen W H := by
  unfold clampBox at hv ⊢
  by_cases hb : b.valid = false
  · rw [if_pos hb] at hv
    rw [hb] at hv
    cases hv
  · rw [if_neg hb] at hv ⊢
    simp only at hv ⊢
    unfold Box.onScreen
    simp only
    have hz : ¬ ((if b.maxX > W then W else b.maxX) ≤ (if b.minX < 0 then 0 else b.minX) ∨
        (if b.maxY > H then H else b.maxY) ≤ (if b.minY < 0 then 0 else b.minY)) := by
      intro hc
      rw [if_pos hc] at hv
      cases hv
    refine ⟨hv, ?_, ?_, ?_, ?_, ?_, ?_⟩ <;> split_ifs at hz ⊢ <;> omega

theorem clampAll_validOnScreen (W H : Int) (l : List Box) :
    ValidOnScreen W H (clampAll W H l) := by
  intro b hb hv
  unfold clampAll at hb
  rw [List.mem_map] at hb
  obtain ⟨c, _, hcb⟩ := hb
  by_cases hc : c.valid = true
  · rw [if_pos hc] at hcb
    subst hcb
    exact clampBox_onScreen c W H hv
  · rw [if_neg hc] at hcb
    subst hcb
    exact absurd hv hc

theorem unionBox_onScreen (b u : Box) (W H : Int) (hb : b.onScreen W H) (hu : u.onScreen W H) :
    (unionBox b u).onScreen W H := by
  obtain ⟨b0, b1, b2, b3, b4, b5, b6⟩ := hb
  obtain ⟨u0, u1, u2, u3, u4, u5, u6⟩ := hu
  unfold Box.onScreen unionBox
  simp only
  refine ⟨b0, ?_, ?_, ?_, ?_, ?_, ?_⟩ <;> omega

theorem ValidOnScreen.cons {W H : Int} {b : Box} {l : List Box}
    (hb : b.valid = true → b.onScreen W H) (hl : ValidOnScreen W H l) :
    ValidOnScreen W H (b :: l) := by
  intro c hc hv
  rcases List.mem_cons.mp hc with rfl | hin
  · exact hb hv
  · exact hl c hin hv

theorem mergeInto_validOnScreen (W H : Int) (u : Box) (hu : u.onScreen W H) (l : List Box)
    (hl : ValidOnScreen W H l) :
    ∀ l', mergeInto l u = some l' → ValidOnScreen W H l' := by
  induction l with
  | nil => intro l' h; simp [mergeInto] at h
  | cons b bs ih =>
    intro l' h
    have hbs : ValidOnScreen W H bs := fun c hc hv => hl c (List.mem_cons_of_mem _ hc) hv
    rw [mergeInto] at h
    by_cases hi : intersects b u.minX u.minY (wrap16 (u.maxX - u.minX))
        (wrap16 (u.maxY - u.minY)) = true
    · rw [if_pos hi] at h
      cases h
      have hbv : b.valid = true := by
        unfold intersects at hi
        by_cases hv : b.valid = false
        · rw [if_pos hv] at hi; cases hi
        · simpa using hv
      exact ValidOnScreen.cons
        (fun _ => unionBox_onScreen b u W H (hl b (List.mem_cons_self _ _) hbv) hu) hbs
    · rw [if_neg hi] at h
      cases hm : mergeInto bs u with
      | none => rw [hm] at h; simp at h
      | some r =>
        rw [hm] at h
        simp only [Option.map_some', Option.some.injEq] at h
        subst h
        exact ValidOnScreen.cons (fun hv => hl b (List.mem_cons_self _ _) hv) (ih hbs r hm)

theorem mergeOne_validOnScreen (W H : Int) (u : Box) (hu : u.valid = true → u.onScreen W H)
    (l : List Box) (hl : ValidOnScreen W H l) : ValidOnScreen W H (mergeOne l u) := by
  unfold mergeOne
  by_cases hv : u.valid = false
  · rw [if_pos hv]; exact hl
  · rw [if_neg hv]
    have hv' : u.valid = true := by simpa using hv
    cases hm : mergeInto l u with
    | some r => exact mergeInto_validOnScreen W H u (hu hv') l hl r hm
    | none =>
      simp only
      by_cases hlen : l.length < MAX_WB
      · rw [if_pos hlen]
        intro c hc hcv
        rcases List.mem_append.mp hc with h1 | h1
        · exact hl c h1 hcv
        · rw [List.mem_singleton.mp h1]; exact hu hv'
      · rw [if_neg hlen]
        cases l with
        | nil => exact hl
        | cons b0 rest =>
          exact ValidOnScreen.cons
            (fun hbv => unionBox_onScreen b0 u W H (hl b0 (List.mem_cons_self _ _) hbv) (hu hv'))
            (fun c hc hcv => hl c (List.mem_cons_of_mem _ hc) hcv)

theorem foldl_mergeOne_validOnScreen (W H : Int) (us : List Box)
    (hus : ValidOnScreen W H us) :
    ∀ l, ValidOnScreen W H l → ValidOnScreen W H (us.foldl mergeOne l) := by
  induction us with
  | nil => intro l hl; exact hl
  | cons u us ih =>
    intro l hl
    exact ih (fun c hc hv => hus c (List.mem_cons_of_mem _ hc) hv) _
      (mergeOne_validOnScreen W H u (fun hv => hus u (List.mem_cons_self _ _) hv) l hl)

theorem mergedBoxes_validOnScreen (W H : Int) (fgFlag : Bool) (fg : List Sprite)
    (s : DirtyState) : ValidOnScreen W H (mergedBoxes W H fgFlag fg s) := by
  unfold mergedBoxes mergeUI
  exact foldl_mergeOne_validOnScreen W H _ (clampAll_validOnScreen W H _) _
    (clampAll_validOnScreen W H _)

theorem unionFirst_some_of_intersects (l : List Box) (x y w h : Int) (b : Box) (hb : b ∈ l)
    (hi : intersects b x y w h = true) : ∃ l', unionFirst l x y w h = some l' := by
  induction l with
  | nil => cases hb
  | cons c cs ih =>
    rw [unionFirst]
    by_cases hc : intersects c x y w h = true
    · rw [if_pos hc]; exact ⟨_, rfl⟩
    · rw [if_neg hc]
      rcases List.mem_cons.mp hb with rfl | hin
      · exact absurd hi hc
      · obtain ⟨r, hr⟩ := ih hin
        exact ⟨c :: r, by rw [hr]; rfl⟩

theorem Grown.length_eq {l l' : List Box} (hg : Grown l l') : l'.length = l.length :=
  (List.Forall₂.length_eq hg).symm

theorem unionFirst_none_of_not_intersects (l : List Box) (x y w h : Int)
    (hn : ∀ b ∈ l, intersects b x y w h = false) : unionFirst l x y w h = none := by
  have := unionFirst_append_of_not_intersects l [] x y w h hn
  rw [List.append_nil] at this
  rw [this]; rfl

/-! ## Claim C1 -/

/-- C1: when no 16-bit sum of the clip computation overflows (`NoOverflow`, sprite extents
below 32768), each of the three plain blits `composeOver4bpp_P`, `composeOver4bppKey_P`
and `composeOver4bppKeyIdx_P` leaves the line buffer exactly as the naive per-pixel
reference `refBlit` does under the matching transparency rule, for every sprite, position,
flip flag, row and window (zero-width windows, odd and even widths and offsets included). -/
theorem plain_blits_match_reference (data : Int → Int) (w h vx vy : Int) (pal : Int → Int)
    (hFlip : Bool) (key565 keyIndex : Int) (y x0 wRegion : Int) (buf : LineBuf)
    (H : NoOverflow w h vx vy y x0 wRegion) :
    composeOver4bpp_P data w h vx vy pal hFlip y x0 wRegion buf =
        refBlit .index0 data w h vx vy pal hFlip y x0 wRegion buf ∧
      composeOver4bppKey_P data w h vx vy pal hFlip key565 y x0 wRegion buf =
        refBlit (.colorKey key565) data w h vx vy pal hFlip y x0 wRegion buf ∧
      composeOver4bppKeyIdx_P data w h vx vy pal hFlip keyIndex y x0 wRegion buf =
        refBlit (.indexKey keyIndex) data w h vx vy pal hFlip y x0 wRegion buf :=
  ⟨composePlain_eq_ref .index0 data w h vx vy pal hFlip y x0 wRegion buf H,
   composePlain_eq_ref (.colorKey key565) data w h vx vy pal hFlip y x0 wRegion buf H,
   composePlain_eq_ref (.indexKey keyIndex) data w h vx vy pal hFlip y x0 wRegion buf H⟩

/-- Witness for C1: an 8x8 sprite at (10, 10), row 10, window (0, 20). -/
theorem plain_blits_match_reference_witness :
    NoOverflow 8 8 10 10 10 0 20 ∧
      (composeOver4bpp_P (fun _ => 18) 8 8 10 10 (fun i => 100 + i) false 10 0 20 (fun _ => 0) =
          refBlit .index0 (fun _ => 18) 8 8 10 10 (fun i => 100 + i) false 10 0 20 (fun _ => 0) ∧
        composeOver4bppKey_P (fun _ => 18) 8 8 10 10 (fun i => 100 + i) false 101 10 0 20
            (fun _ => 0) =
          refBlit (.colorKey 101) (fun _ => 18) 8 8 10 10 (fun i => 100 + i) false 10 0 20
            (fun _ => 0) ∧
        composeOver4bppKeyIdx_P (fun _ => 18) 8 8 10 10 (fun i => 100 + i) false 2 10 0 20
            (fun _ => 0) =
          refBlit (.indexKey 2) (fun _ => 18) 8 8 10 10 (fun i => 100 + i) false 10 0 20
            (fun _ => 0)) :=
  have H : NoOverflow 8 8 10 10 10 0 20 := by constructor <;> decide
  ⟨H, plain_blits_match_reference (fun _ => 18) 8 8 10 10 (fun i => 100 + i) false 101 2 10 0 20
    (fun _ => 0) H⟩

/-! ## Claims C2 and C3: the fast paths the default build selects -/

/-- C2 (fails on the code): for an 8x8 sprite whose pixels all have index 1, placed at
`vx = 1`, row 0, window `(x0 = 0, wRegion = 4)`, not flipped, key index 0, the fast blit
`composeOver4bppKeyIdx_AVR_P` stores `palette[1]` at line-buffer index 4 while the plain
blit with the same arguments leaves index 4 unchanged; for a 3-pixel-wide sprite in a wide
window the fast blit also draws the padding nibble of the last byte at index 3.  The
index-0 variants differ in the same way. -/
theorem avr_blit_differs_from_plain :
    composeOver4bppKeyIdx_AVR_P (fun _ => 17) 8 8 1 0 (fun i => 100 + i) false 0 0 0 4
        (fun _ => 0) 4 = 101 ∧
      composeOver4bppKeyIdx_P (fun _ => 17) 8 8 1 0 (fun i => 100 + i) false 0 0 0 4
        (fun _ => 0) 4 = 0 ∧
      composeOver4bppKeyIdx_AVR_P (fun _ => 17) 3 8 0 0 (fun i => 100 + i) false 0 0 0 10
        (fun _ => 0) 3 = 101 ∧
      composeOver4bppKeyIdx_P (fun _ => 17) 3 8 0 0 (fun i => 100 + i) false 0 0 0 10
        (fun _ => 0) 3 = 0 ∧
      composeOver4bpp_AVR_P (fun _ => 17) 8 8 1 0 (fun i => 100 + i) false 0 0 4
        (fun _ => 0) ≠
      composeOver4bpp_P (fun _ => 17) 8 8 1 0 (fun i => 100 + i) false 0 0 4 (fun _ => 0) := by
  refine ⟨by decide, by decide, by decide, by decide, ?_⟩
  intro h
  have h4 := congrFun h 4
  revert h4
  decide

/-- C3 (fails on the code): the blit the renderer calls, `composeOver4bppKeyIdx_AVR_P`,
stores at line-buffer index `wRegion` (not flipped: 8x8 sprite at `vx = 1`, window
`(0, 4)`, index 4 is written) and at index `-1` (flipped: 8x8 sprite at `vx = -5`, window
`(0, 4)`), both outside `[0, wRegion)`. -/
theorem avr_blit_writes_outside_window :
    composeOver4bppKeyIdx_AVR_P (fun _ => 17) 8 8 1 0 (fun i => 100 + i) false 0 0 0 4
        (fun _ => 0) 4 ≠ (fun _ => 0 : LineBuf) 4 ∧
      composeOver4bppKeyIdx_AVR_P (fun _ => 17) 8 8 (-5) 0 (fun i => 100 + i) true 0 0 0 4
        (fun _ => 0) (-1) ≠ (fun _ => 0 : LineBuf) (-1) := by
  constructor <;> decide

/-! ## Claim C4 -/

/-- C4 as stated fails: for a background of logical width `W0 = 20000` (quadrants 80x60,
`H0 = 120`), row 0 and window `(x0 = 200, w = 2)`, all the claim's conditions hold, yet
`(int16_t)w160 << 1` wraps to a negative `screenMax`, the right segment is clipped away and
the buffer keeps its old content where the claim prescribes `palette[img[0][100]]`. -/
theorem bgLine_wide_image_counterexample :
    ((80 : Int) ≤ 20000 ∧ (60 : Int) ≤ 120 ∧ (0 : Int) ≤ 0 ∧ (0 : Int) < 2 * 120 ∧ (0 : Int) < 2) ∧
      composeBGLine_160to320_quads_P (fun i => i) (fun i => 50 + i) (fun i => 100 + i)
          (fun i => 150 + i) 20000 120 80 60 (fun i => 1000 + i) 0 200 2 (fun _ => 0) 0 = 0 ∧
      refBGLine (fun i => i) (fun i => 50 + i) (fun i => 100 + i) (fun i => 150 + i)
          20000 80 60 (fun i => 1000 + i) 0 200 2 (fun _ => 0) 0 = 1070 := by
  decide

/-- C4 (amended): when the logical size fits the 16-bit arithmetic of the composer
(`2 * W0 ≤ 32767`, `H0 ≤ 32767`) and the window end `x0 + w` does not overflow, then for
quadrants `cw x ch` with `cw ≤ W0`, `ch ≤ H0`, every row `0 ≤ y < 2 * H0` and every window
with `w > 0`, `composeBGLine_160to320_quads_P` produces exactly `refBGLine`: `buffer[dx] =
palette[img[y>>1][(x0+dx)>>1]]` for every `dx` in `[0, w)` with `0 ≤ x0 + dx < 2 * W0`, `img`
being the image reassembled from the quadrants, and no other entry is changed. -/
theorem bgLine_matches_unsplit_image (q0 q1 q2 q3 : Int → Int) (W0 H0 cw ch : Int)
    (pal : Int → Int) (y x0 w : Int) (buf : LineBuf)
    (hcw : 0 ≤ cw ∧ cw ≤ W0) (hch : 0 ≤ ch ∧ ch ≤ H0) (hW : 2 * W0 ≤ 32767) (hH : H0 ≤ 32767)
    (hy : 0 ≤ y ∧ y < 2 * H0) (hw : 0 < w ∧ w ≤ 32767) (hx0 : -32768 ≤ x0)
    (hxw : x0 + w ≤ 32767) :
    composeBGLine_160to320_quads_P q0 q1 q2 q3 W0 H0 cw ch pal y x0 w buf =
      refBGLine q0 q1 q2 q3 W0 cw ch pal y x0 w buf :=
  composeBGLine_eq_ref q0 q1 q2 q3 W0 H0 cw ch pal y x0 w buf hcw hch hW hH hy hw hx0 hxw

/-- Witness for C4 (scenario B): 160x120 source, 80x60 quadrants, row 0, window (0, 10). -/
theorem bgLine_matches_unsplit_image_witness :
    composeBGLine_160to320_quads_P (fun i => i) (fun i => 50 + i) (fun i => 100 + i)
        (fun i => 150 + i) 160 120 80 60 (fun i => 1000 + i) 0 0 10 (fun _ => 0) =
      refBGLine (fun i => i) (fun i => 50 + i) (fun i => 100 + i) (fun i => 150 + i)
        160 80 60 (fun i => 1000 + i) 0 0 10 (fun _ => 0) :=
  bgLine_matches_unsplit_image (fun i => i) (fun i => 50 + i) (fun i => 100 + i)
    (fun i => 150 + i) 160 120 80 60 (fun i => 1000 + i) 0 0 10 (fun _ => 0)
    (by decide) (by decide) (by decide) (by decide) (by decide) (by decide) (by decide)
    (by decide)

/-! ## Claim C5 -/

/-- C5 as stated fails: the single request `(x = 100, y = 0, w = 32767, h = 10)` has
positive extents, but `(int16_t)(x + w)` wraps to -32669; the stored box has `maxX < minX`,
does not contain the request, is invalidated by `clampBox`, and `renderFrame` paints
nothing on a 320x240 screen although the request covers the pixels `[100, 320) x [0, 10)`. -/
theorem world_rect_overflow_counterexample :
    ((0 : Int) < 32767 ∧ (0 : Int) < 10) ∧
      addWorldRects [] [⟨100, 0, 32767, 10⟩] = [⟨true, 100, 0, -32669, 10⟩] ∧
      paintedBoxes 320 240 false []
        { wbox := addWorldRects [] [⟨100, 0, 32767, 10⟩], ui := [] } = [] := by
  decide

/-- C5 (amended): for every sequence of `addDirtyWorldRect` calls issued from the empty
state with positive extents and far edges `x + w`, `y + h` not above 32767 (any length, any
overlap), after each call every rectangle requested so far is contained in a valid world
box; and with the foreground flag unset and no UI rectangle, on a screen of at most
32766 x 32766, every screen pixel of every requested rectangle lies in a rectangle
`renderFrame` paints. -/
theorem world_rects_never_underestimated (W H : Int) (hW : W ≤ 32766) (hH : H ≤ 32766)
    (rs : List DirtyReq) (hrs : ∀ r ∈ rs, r.wellFormed) :
    (∀ n : Nat, ∀ r ∈ rs.take n, Covered (addWorldRects [] (rs.take n)) r.x r.y r.w r.h) ∧
      ∀ r ∈ rs, ∀ px py : Int, r.x ≤ px → px < r.x + r.w → r.y ≤ py → py < r.y + r.h →
        0 ≤ px → px < W → 0 ≤ py → py < H →
        ∃ b ∈ paintedBoxes W H false [] { wbox := addWorldRects [] rs, ui := [] },
          b.containsPt px py := by
  constructor
  · intro n
    exact (addWorldRects_covers (rs.take n) (fun r hr => hrs r (List.mem_of_mem_take hr)) []
      (fun b hb => by cases hb)).2.2
  · intro r hr px py h1 h2 h3 h4 h5 h6 h7 h8
    obtain ⟨hval, _, hcov⟩ := addWorldRects_covers rs hrs [] (fun b hb => by cases hb)
    obtain ⟨b, hb, hv, c1, c2, c3, c4⟩ := hcov r hr
    exact painted_of_world_box W H hW hH _ b hb hv px py
      ⟨by omega, by omega, by omega, by omega⟩ ⟨h5, h6, h7, h8⟩

/-- Witness for C5: three requests on a 320x240 screen. -/
theorem world_rects_never_underestimated_witness :
    (∀ n : Nat, ∀ r ∈ ([⟨0, 0, 4, 4⟩, ⟨10, 0, 4, 4⟩, ⟨3, 0, 8, 4⟩] : List DirtyReq).take n,
        Covered (addWorldRects []
          (([⟨0, 0, 4, 4⟩, ⟨10, 0, 4, 4⟩, ⟨3, 0, 8, 4⟩] : List DirtyReq).take n))
          r.x r.y r.w r.h) ∧
      ∀ r ∈ ([⟨0, 0, 4, 4⟩, ⟨10, 0, 4, 4⟩, ⟨3, 0, 8, 4⟩] : List DirtyReq),
        ∀ px py : Int, r.x ≤ px → px < r.x + r.w → r.y ≤ py → py < r.y + r.h →
        0 ≤ px → px < 320 → 0 ≤ py → py < 240 →
        ∃ b ∈ paintedBoxes 320 240 false []
            { wbox := addWorldRects [] [⟨0, 0, 4, 4⟩, ⟨10, 0, 4, 4⟩, ⟨3, 0, 8, 4⟩], ui := [] },
          b.containsPt px py :=
  world_rects_never_underestimated 320 240 (by decide) (by decide)
    [⟨0, 0, 4, 4⟩, ⟨10, 0, 4, 4⟩, ⟨3, 0, 8, 4⟩]
    (by
      intro r hr
      simp only [List.mem_cons, List.mem_singleton, List.not_mem_nil, or_false] at hr
      rcases hr with rfl | rfl | rfl <;> (unfold DirtyReq.wellFormed; decide))

/-! ## Claim C6 -/

/-- C6 as stated fails: after eight pairwise disjoint `addDirtyRect` calls the UI array is
full; a ninth rectangle `(100, 100, 5, 5)` that intersects none of the boxes leaves the UI
boxes exactly as they were (`if (uiBoxN<MAX_UIB) ...` has no else branch, there is no
fallback accumulator), and no UI box contains the rectangle. -/
theorem ui_rect_full_array_counterexample :
    addUIRects [] [⟨0, 0, 4, 4⟩, ⟨10, 0, 4, 4⟩, ⟨20, 0, 4, 4⟩, ⟨30, 0, 4, 4⟩, ⟨40, 0, 4, 4⟩,
        ⟨50, 0, 4, 4⟩, ⟨60, 0, 4, 4⟩, ⟨70, 0, 4, 4⟩] =
      [⟨true, 0, 0, 4, 4⟩, ⟨true, 10, 0, 14, 4⟩, ⟨true, 20, 0, 24, 4⟩, ⟨true, 30, 0, 34, 4⟩,
        ⟨true, 40, 0, 44, 4⟩, ⟨true, 50, 0, 54, 4⟩, ⟨true, 60, 0, 64, 4⟩,
        ⟨true, 70, 0, 74, 4⟩] ∧
      addUIRect [⟨true, 0, 0, 4, 4⟩, ⟨true, 10, 0, 14, 4⟩, ⟨true, 20, 0, 24, 4⟩,
        ⟨true, 30, 0, 34, 4⟩, ⟨true, 40, 0, 44, 4⟩, ⟨true, 50, 0, 54, 4⟩, ⟨true, 60, 0, 64, 4⟩,
        ⟨true, 70, 0, 74, 4⟩] 100 100 5 5 =
      [⟨true, 0, 0, 4, 4⟩, ⟨true, 10, 0, 14, 4⟩, ⟨true, 20, 0, 24, 4⟩, ⟨true, 30, 0, 34, 4⟩,
        ⟨true, 40, 0, 44, 4⟩, ⟨true, 50, 0, 54, 4⟩, ⟨true, 60, 0, 64, 4⟩,
        ⟨true, 70, 0, 74, 4⟩] ∧
      ¬ Covered (addUIRect [⟨true, 0, 0, 4, 4⟩, ⟨true, 10, 0, 14, 4⟩, ⟨true, 20, 0, 24, 4⟩,
        ⟨true, 30, 0, 34, 4⟩, ⟨true, 40, 0, 44, 4⟩, ⟨true, 50, 0, 54, 4⟩, ⟨true, 60, 0, 64, 4⟩,
        ⟨true, 70, 0, 74, 4⟩] 100 100 5 5) 100 100 5 5 := by
  refine ⟨by decide, by decide, ?_⟩
  unfold Covered Box.containsRect
  decide

/-- C6 (amended): for every `addDirtyRect` call with positive extents and far edges within
the 16-bit range, on UI boxes with 16-bit bounds: when the array already holds `MAX_UIB = 8`
boxes and the rectangle intersects none of them, the rectangle is dropped: the UI boxes
are unchanged and no UI box contains the rectangle; when the array has room or a box
intersects the rectangle, some valid UI box contains it after the call; in every case a
rectangle that was contained in a valid UI box before the call still is. -/
theorem ui_rect_dropped_only_when_full (ui : List Box) (x y w h : Int)
    (hw : 0 < w) (hh : 0 < h) (hx : -32768 ≤ x ∧ x + w ≤ 32767)
    (hy : -32768 ≤ y ∧ y + h ≤ 32767)
    (hty : ∀ b ∈ ui, b.maxX ≤ 32767 ∧ b.maxY ≤ 32767) :
    ((MAX_UIB ≤ ui.length ∧ ∀ b ∈ ui, intersects b x y w h = false) →
      addUIRect ui x y w h = ui ∧ ¬ Covered (addUIRect ui x y w h) x y w h) ∧
    ((ui.length < MAX_UIB ∨ ∃ b ∈ ui, intersects b x y w h = true) →
      Covered (addUIRect ui x y w h) x y w h) ∧
    (∀ x' y' w' h', Covered ui x' y' w' h' → Covered (addUIRect ui x y w h) x' y' w' h') := by
  have e1 : wrap16 (x + w) = x + w := wrap16_id (by omega) (by omega)
  have e2 : wrap16 (y + h) = y + h := wrap16_id (by omega) (by omega)
  have hd : ¬ (w ≤ 0 ∨ h ≤ 0) := by omega
  refine ⟨?_, ?_, ?_⟩
  · rintro ⟨hfull, hnone⟩
    have hu := unionFirst_none_of_not_intersects ui x y w h hnone
    have heq : addUIRect ui x y w h = ui := by
      unfold addUIRect
      rw [if_neg hd, hu]
      simp only
      rw [if_neg (by omega)]
    refine ⟨heq, ?_⟩
    rw [heq]
    rintro ⟨b, hb, hv, hc⟩
    have hi := intersects_of_contains b x y w h hx.1 hy.1 hw hh hv hc (hty b hb)
    rw [hnone b hb] at hi
    cases hi
  · intro hroom
    unfold addUIRect
    rw [if_neg hd]
    cases hu : unionFirst ui x y w h with
    | some r => exact unionFirst_covers ui x y w h e1 e2 r hu
    | none =>
      simp only
      rcases hroom with hl | ⟨b, hb, hi⟩
      · rw [if_pos hl]
        refine ⟨_, List.mem_append_right _ (List.mem_singleton_self _), rfl, ?_⟩
        simp only [Box.containsRect, e1, e2]
        omega
      · obtain ⟨r, hr⟩ := unionFirst_some_of_intersects ui x y w h b hb hi
        rw [hr] at hu
        cases hu
  · intro x' y' w' h' hc
    unfold addUIRect
    rw [if_neg hd]
    cases hu : unionFirst ui x y w h with
    | some r => exact hc.of_grown (unionFirst_grown ui x y w h r hu)
    | none =>
      simp only
      by_cases hl : ui.length < MAX_UIB
      · rw [if_pos hl]; exact hc.append _
      · rw [if_neg hl]; exact hc

/-- Witness for C6: on the full array of eight boxes the rectangle `(200, 50, 6, 6)` is
dropped; on an array of one box it is appended and contained in a UI box. -/
theorem ui_rect_dropped_only_when_full_witness :
    addUIRect [⟨true, 0, 0, 4, 4⟩, ⟨true, 10, 0, 14, 4⟩, ⟨true, 20, 0, 24, 4⟩,
        ⟨true, 30, 0, 34, 4⟩, ⟨true, 40, 0, 44, 4⟩, ⟨true, 50, 0, 54, 4⟩, ⟨true, 60, 0, 64, 4⟩,
        ⟨true, 70, 0, 74, 4⟩] 200 50 6 6 =
      [⟨true, 0, 0, 4, 4⟩, ⟨true, 10, 0, 14, 4⟩, ⟨true, 20, 0, 24, 4⟩, ⟨true, 30, 0, 34, 4⟩,
        ⟨true, 40, 0, 44, 4⟩, ⟨true, 50, 0, 54, 4⟩, ⟨true, 60, 0, 64, 4⟩,
        ⟨true, 70, 0, 74, 4⟩] ∧
      Covered (addUIRect [⟨true, 0, 0, 4, 4⟩] 200 50 6 6) 200 50 6 6 :=
  ⟨((ui_rect_dropped_only_when_full [⟨true, 0, 0, 4, 4⟩, ⟨true, 10, 0, 14, 4⟩,
      ⟨true, 20, 0, 24, 4⟩, ⟨true, 30, 0, 34, 4⟩, ⟨true, 40, 0, 44, 4⟩, ⟨true, 50, 0, 54, 4⟩,
      ⟨true, 60, 0, 64, 4⟩, ⟨true, 70, 0, 74, 4⟩] 200 50 6 6 (by decide) (by decide)
      (by decide) (by decide) (by decide)).1 ⟨by decide, by decide⟩).1,
    (ui_rect_dropped_only_when_full [⟨true, 0, 0, 4, 4⟩] 200 50 6 6 (by decide) (by decide)
      (by decide) (by decide) (by decide)).2.1 (Or.inl (by decide))⟩

/-! ## Claim C7 -/

/-- C7 as stated fails: the calls `(0,0,4,4)`, `(10,0,4,4)`, `(3,0,8,4)` leave the world
boxes `[0,11) x [0,4)` and `[10,14) x [0,4)`, which overlap.  The rectangle `(10,0,2,4)` is
fully contained in the second box, but the union loop stops at the first box it
intersects and grows that one to `[0,12) x [0,4)`.  The same happens with `addDirtyRect`. -/
theorem contained_rect_counterexample :
    addWorldRects [] [⟨0, 0, 4, 4⟩, ⟨10, 0, 4, 4⟩, ⟨3, 0, 8, 4⟩] =
        [⟨true, 0, 0, 11, 4⟩, ⟨true, 10, 0, 14, 4⟩] ∧
      ((10 : Int) ≤ 10 ∧ (10 : Int) + 2 ≤ 14 ∧ (0 : Int) ≤ 0 ∧ (0 : Int) + 4 ≤ 4) ∧
      addWorldRect [⟨true, 0, 0, 11, 4⟩, ⟨true, 10, 0, 14, 4⟩] 10 0 2 4 =
        [⟨true, 0, 0, 12, 4⟩, ⟨true, 10, 0, 14, 4⟩] ∧
      addUIRects [] [⟨0, 0, 4, 4⟩, ⟨10, 0, 4, 4⟩, ⟨3, 0, 8, 4⟩] =
        [⟨true, 0, 0, 11, 4⟩, ⟨true, 10, 0, 14, 4⟩] ∧
      addUIRect [⟨true, 0, 0, 11, 4⟩, ⟨true, 10, 0, 14, 4⟩] 10 0 2 4 =
        [⟨true, 0, 0, 12, 4⟩, ⟨true, 10, 0, 14, 4⟩] := by
  decide

/-- C7 (amended): for every list of dirty boxes (16-bit coordinates) and every rectangle
with positive extents that is fully contained in a valid box `b` of the list, adding the
rectangle with `addDirtyWorldRect` or `addDirtyRect` leaves the number of boxes unchanged;
and when `b` is the first box of the list the rectangle intersects (none of the boxes
`pre` before it intersects the rectangle), the list is unchanged: same boxes, same
bounds. -/
theorem contained_in_first_hit_unchanged (pre post : List Box) (b : Box) (x y w h : Int)
    (hx : -32768 ≤ x) (hy : -32768 ≤ y) (hw : 0 < w) (hh : 0 < h)
    (hv : b.valid = true) (hc : b.containsRect x y w h)
    (hmax : b.maxX ≤ 32767 ∧ b.maxY ≤ 32767) :
    (addWorldRect (pre ++ b :: post) x y w h).length = (pre ++ b :: post).length ∧
      (addUIRect (pre ++ b :: post) x y w h).length = (pre ++ b :: post).length ∧
      ((∀ c ∈ pre, intersects c x y w h = false) →
        addWorldRect (pre ++ b :: post) x y w h = pre ++ b :: post ∧
        addUIRect (pre ++ b :: post) x y w h = pre ++ b :: post) := by
  have hbi := intersects_of_contains b x y w h hx hy hw hh hv hc hmax
  obtain ⟨l', hl'⟩ := unionFirst_some_of_intersects (pre ++ b :: post) x y w h b
    (List.mem_append_right _ (List.mem_cons_self _ _)) hbi
  have hlen := (unionFirst_grown _ x y w h l' hl').length_eq
  refine ⟨?_, ?_, ?_⟩
  · unfold addWorldRect
    rw [if_neg (by omega), hl']
    exact hlen
  · unfold addUIRect
    rw [if_neg (by omega), hl']
    exact hlen
  · intro hpre
    have hu := unionFirst_of_first_contains pre post b x y w h hx hy hw hh hpre hv hc hmax
    constructor
    · unfold addWorldRect
      rw [if_neg (by omega), hu]
    · unfold addUIRect
      rw [if_neg (by omega), hu]

/-- Witness for C7: two disjoint boxes, a rectangle inside the second. -/
theorem contained_in_first_hit_unchanged_witness :
    (addWorldRect ([Box.mk true 0 0 4 4] ++ Box.mk true 10 0 14 4 :: []) 11 1 2 2).length =
        ([Box.mk true 0 0 4 4] ++ Box.mk true 10 0 14 4 :: []).length ∧
      (addUIRect ([Box.mk true 0 0 4 4] ++ Box.mk true 10 0 14 4 :: []) 11 1 2 2).length =
        ([Box.mk true 0 0 4 4] ++ Box.mk true 10 0 14 4 :: []).length ∧
      ((∀ c ∈ [Box.mk true 0 0 4 4], intersects c 11 1 2 2 = false) →
        addWorldRect ([Box.mk true 0 0 4 4] ++ Box.mk true 10 0 14 4 :: []) 11 1 2 2 =
          [Box.mk true 0 0 4 4] ++ Box.mk true 10 0 14 4 :: [] ∧
        addUIRect ([Box.mk true 0 0 4 4] ++ Box.mk true 10 0 14 4 :: []) 11 1 2 2 =
          [Box.mk true 0 0 4 4] ++ Box.mk true 10 0 14 4 :: []) :=
  contained_in_first_hit_unchanged [Box.mk true 0 0 4 4] [] (Box.mk true 10 0 14 4) 11 1 2 2
    (by decide) (by decide) (by decide) (by decide) rfl
    (by unfold Box.containsRect; decide) (by decide)

/-! ## Claims C8 and C9: the UI merge -/

/-- C8: at finalize, when an on-screen UI box `u` (valid after `clampBox` on a screen of
16-bit size) overlaps exactly one valid world box `b`, the merge step for `u` replaces `b`
by the bounding box of the two (min of the minima, max of the maxima), adds no box, and
leaves every other world box as it was. -/
theorem ui_merge_single_world_box (W H : Int) (hW : W ≤ 32767) (hH : H ≤ 32767)
    (pre post : List Box) (b u : Box) (hu : u.onScreen W H)
    (hb : b.valid = true ∧ b.overlaps u)
    (hothers : ∀ c ∈ pre ++ post, ¬ (c.valid = true ∧ c.overlaps u)) :
    mergeOne (pre ++ b :: post) u =
      pre ++ { valid := b.valid, minX := min b.minX u.minX, minY := min b.minY u.minY,
               maxX := max b.maxX u.maxX, maxY := max b.maxY u.maxY } :: post := by
  have hpre := not_intersects_of_not_overlaps u W H hW hH hu pre
    (fun c hc => hothers c (List.mem_append_left _ hc))
  have hbi : intersects b u.minX u.minY (wrap16 (u.maxX - u.minX))
      (wrap16 (u.maxY - u.minY)) = true := by
    obtain ⟨_, a1, a2, a3, a4, a5, a6⟩ := hu
    exact (intersects_iff_overlaps b u (by omega) (by omega)).mpr hb
  unfold mergeOne
  rw [if_neg (by simp [hu.1]), mergeInto_append_of_not_intersects pre _ u hpre, mergeInto,
    if_pos hbi]
  rfl

/-- Witness for C8: one UI box overlapping the second of two world boxes. -/
theorem ui_merge_single_world_box_witness :
    mergeOne ([⟨true, 0, 0, 4, 4⟩] ++ ⟨true, 10, 0, 14, 4⟩ :: []) ⟨true, 12, 2, 20, 8⟩ =
      [⟨true, 0, 0, 4, 4⟩] ++
        { valid := true, minX := min 10 12, minY := min 0 2, maxX := max 14 20,
          maxY := max 4 8 } :: [] :=
  ui_merge_single_world_box 320 240 (by decide) (by decide) [⟨true, 0, 0, 4, 4⟩] []
    ⟨true, 10, 0, 14, 4⟩ ⟨true, 12, 2, 20, 8⟩ (by unfold Box.onScreen; decide)
    (by unfold Box.overlaps; decide)
    (by
      intro c hc
      simp only [List.append_nil, List.mem_singleton] at hc
      subst hc
      unfold Box.overlaps
      decide)

/-- C9: at finalize, when an on-screen UI box `u` overlaps no valid world box and fewer
than 28 world boxes exist, the merge step for `u` appends `u` itself (its clamped bounds)
as a new world box and changes no existing world box; and the merge as a whole leaves no
UI box (`uiBoxN = 0`). -/
theorem ui_merge_standalone (W H : Int) (hW : W ≤ 32767) (hH : H ≤ 32767)
    (wb : List Box) (u : Box) (rest : List Box) (hu : u.onScreen W H)
    (hnone : ∀ c ∈ wb, ¬ (c.valid = true ∧ c.overlaps u)) (hlen : wb.length < 28) :
    mergeOne wb u = wb ++ [u] ∧
      mergeUI { wbox := wb, ui := u :: rest } =
        { wbox := rest.foldl mergeOne (wb ++ [u]), ui := [] } ∧
      (mergeUI { wbox := wb, ui := u :: rest }).ui.length = 0 := by
  have hm : mergeOne wb u = wb ++ [u] := by
    unfold mergeOne
    rw [if_neg (by simp [hu.1]),
      mergeInto_none_of_not_intersects wb u
        (not_intersects_of_not_overlaps u W H hW hH hu wb hnone)]
    simp only
    rw [if_pos (by simpa [MAX_WB] using hlen)]
  refine ⟨hm, ?_, rfl⟩
  simp only [mergeUI, List.foldl_cons, hm]

/-- Witness for C9: one world box, a disjoint UI box. -/
theorem ui_merge_standalone_witness :
    mergeOne [⟨true, 0, 0, 4, 4⟩] ⟨true, 12, 2, 20, 8⟩ =
        [⟨true, 0, 0, 4, 4⟩] ++ [⟨true, 12, 2, 20, 8⟩] ∧
      mergeUI { wbox := [⟨true, 0, 0, 4, 4⟩], ui := ⟨true, 12, 2, 20, 8⟩ :: [] } =
        { wbox := ([] : List Box).foldl mergeOne ([⟨true, 0, 0, 4, 4⟩] ++ [⟨true, 12, 2, 20, 8⟩]),
          ui := [] } ∧
      (mergeUI { wbox := [⟨true, 0, 0, 4, 4⟩], ui := ⟨true, 12, 2, 20, 8⟩ :: [] }).ui.length = 0 :=
  ui_merge_standalone 320 240 (by decide) (by decide) [⟨true, 0, 0, 4, 4⟩]
    ⟨true, 12, 2, 20, 8⟩ [] (by unfold Box.onScreen; decide)
    (by
      intro c hc
      simp only [List.mem_singleton] at hc
      subst hc
      unfold Box.overlaps
      decide)
    (by decide)

/-! ## Claim C10 -/

/-- C10: on a screen of even width and height (16-bit sizes), every rectangle `b` for which
`renderFrame` opens a display window is the even rounding of a valid, on-screen (hence
non-empty) box `c` of the merged world boxes; `b` has positive width and height, all four
coordinates even, lies within `[0, W] x [0, H]`, and contains `c`.  Boxes that clamp to
zero area are invalid and never reach the display. -/
theorem painted_boxes_even_on_screen (W H : Int) (hWe : W % 2 = 0) (hHe : H % 2 = 0)
    (hW : W ≤ 32767) (hH : H ≤ 32767) (fgNeedsFullPass : Bool) (fg : List Sprite)
    (s : DirtyState) :
    ∀ b ∈ paintedBoxes W H fgNeedsFullPass fg s,
      ∃ c ∈ mergedBoxes W H fgNeedsFullPass fg s, c.onScreen W H ∧ b = roundBox c ∧
        0 < b.maxX - b.minX ∧ 0 < b.maxY - b.minY ∧
        b.minX % 2 = 0 ∧ b.minY % 2 = 0 ∧ b.maxX % 2 = 0 ∧ b.maxY % 2 = 0 ∧
        0 ≤ b.minX ∧ b.maxX ≤ W ∧ 0 ≤ b.minY ∧ b.maxY ≤ H ∧
        b.minX ≤ c.minX ∧ c.maxX ≤ b.maxX ∧ b.minY ≤ c.minY ∧ c.maxY ≤ b.maxY := by
  intro b hb
  unfold paintedBoxes at hb
  by_cases hearly : fgNeedsFullPass = false ∧ s.wbox.length = 0 ∧ s.ui.length = 0
  · rw [if_pos hearly] at hb
    cases hb
  · rw [if_neg hearly, List.mem_filter] at hb
    obtain ⟨hmem, hfil⟩ := hb
    unfold reRound at hmem
    rw [List.mem_map] at hmem
    obtain ⟨c, hc, hcb⟩ := hmem
    have hbv : b.valid = true := by
      simp only [Bool.and_eq_true] at hfil
      exact hfil.1
    have hcv : c.valid = true := by
      by_cases hcv : c.valid = true
      · exact hcv
      · rw [if_neg hcv] at hcb
        rw [hcb] at hcv
        exact absurd hbv hcv
    rw [if_pos hcv] at hcb
    have hon := mergedBoxes_validOnScreen W H fgNeedsFullPass fg s c hc hcv
    obtain ⟨_, a1, a2, a3, a4, a5, a6⟩ := id hon
    have e1 : wrap16 (c.maxX + 1) = c.maxX + 1 := wrap16_id (by omega) (by omega)
    have e2 : wrap16 (c.maxY + 1) = c.maxY + 1 := wrap16_id (by omega) (by omega)
    refine ⟨c, hc, hon, hcb.symm, ?_⟩
    subst hcb
    simp only [roundBox, evenDown, e1, e2]
    refine ⟨?_, ?_, ?_, ?_, ?_, ?_, ?_, ?_, ?_, ?_, ?_, ?_, ?_, ?_⟩ <;> omega

/-- Witness for C10: a 320x240 screen, one world box and one UI box; the painted rectangle
`[100, 122) x [2, 14)` comes from the world box `[101, 121) x [3, 13)`. -/
theorem painted_boxes_even_on_screen_witness :
    ∃ c ∈ mergedBoxes 320 240 false []
        { wbox := [⟨true, 101, 3, 121, 13⟩], ui := [⟨true, 300, 230, 330, 250⟩] },
      c.onScreen 320 240 ∧ (⟨true, 100, 2, 122, 14⟩ : Box) = roundBox c ∧
      0 < (⟨true, 100, 2, 122, 14⟩ : Box).maxX - (⟨true, 100, 2, 122, 14⟩ : Box).minX ∧
      0 < (⟨true, 100, 2, 122, 14⟩ : Box).maxY - (⟨true, 100, 2, 122, 14⟩ : Box).minY ∧
      (⟨true, 100, 2, 122, 14⟩ : Box).minX % 2 = 0 ∧
      (⟨true, 100, 2, 122, 14⟩ : Box).minY % 2 = 0 ∧
      (⟨true, 100, 2, 122, 14⟩ : Box).maxX % 2 = 0 ∧
      (⟨true, 100, 2, 122, 14⟩ : Box).maxY % 2 = 0 ∧
      0 ≤ (⟨true, 100, 2, 122, 14⟩ : Box).minX ∧ (⟨true, 100, 2, 122, 14⟩ : Box).maxX ≤ 320 ∧
      0 ≤ (⟨true, 100, 2, 122, 14⟩ : Box).minY ∧ (⟨true, 100, 2, 122, 14⟩ : Box).maxY ≤ 240 ∧
      (⟨true, 100, 2, 122, 14⟩ : Box).minX ≤ c.minX ∧
      c.maxX ≤ (⟨true, 100, 2, 122, 14⟩ : Box).maxX ∧
      (⟨true, 100, 2, 122, 14⟩ : Box).minY ≤ c.minY ∧
      c.maxY ≤ (⟨true, 100, 2, 122, 14⟩ : Box).maxY :=
  painted_boxes_even_on_screen 320 240 (by decide) (by decide) (by decide) (by decide) false []
    { wbox := [⟨true, 101, 3, 121, 13⟩], ui := [⟨true, 300, 230, 330, 250⟩] }
    ⟨true, 100, 2, 122, 14⟩ (by decide)

/-! ## Enqueue lemmas -/

theorem enqueue_withinCapacity (r : Renderer) (h : r.withinCapacity) (c : EnqueueCall) :
    (r.enqueue c).withinCapacity := by
  obtain ⟨h1, h2, h3, h4, h5⟩ := h
  cases c <;>
    simp only [Renderer.enqueue, Renderer.addSprite, Renderer.addSpriteFG, Renderer.addSolid,
      Renderer.addOutline, Renderer.addHBar, Renderer.addText, Renderer.addTextOpaque,
      Renderer.withinCapacity] <;>
    split_ifs <;>
    (try simp only [List.length_append, List.length_singleton]) <;>
    refine ⟨?_, ?_, ?_, ?_, ?_⟩ <;> omega

theorem enqueue_full_unchanged (r : Renderer) (c : EnqueueCall) (h : c.queueFull r) :
    r.enqueue c = r := by
  cases c <;>
    simp only [EnqueueCall.queueFull] at h <;>
    simp only [Renderer.enqueue, Renderer.addSprite, Renderer.addSpriteFG, Renderer.addSolid,
      Renderer.addOutline, Renderer.addHBar, Renderer.addText, Renderer.addTextOpaque] <;>
    split_ifs <;> first | rfl | omega

theorem enqueueAll_withinCapacity (cs : List EnqueueCall) :
    ∀ r : Renderer, r.withinCapacity → (r.enqueueAll cs).withinCapacity := by
  induction cs with
  | nil => intro r h; exact h
  | cons c cs ih =>
    intro r h
    exact ih (r.enqueue c) (enqueue_withinCapacity r h c)

/-! ## Depth-sort lemmas -/

theorem zInsert_perm {α : Type} (z : α → Int) (v : α) (l : List α) :
    (zInsert z v l).Perm (v :: l) := by
  induction l with
  | nil => exact List.Perm.refl _
  | cons a l ih =>
    unfold zInsert
    split_ifs
    · exact (List.Perm.cons a ih).trans (List.Perm.swap v a l)
    · exact List.Perm.refl _

theorem zInsert_sorted {α : Type} (z : α → Int) (v : α) (l : List α)
    (h : l.Pairwise (fun a b => z b ≤ z a)) :
    (zInsert z v l).Pairwise (fun a b => z b ≤ z a) := by
  induction l with
  | nil => exact List.pairwise_singleton _ _
  | cons a l ih =>
    unfold zInsert
    rw [List.pairwise_cons] at h
    split_ifs with hgt
    · rw [List.pairwise_cons]
      refine ⟨?_, ih h.2⟩
      intro b hb
      have hb' := (List.Perm.mem_iff (zInsert_perm z v l)).mp hb
      rcases List.mem_cons.mp hb' with hb1 | hb1
      · subst hb1; omega
      · exact h.1 b hb1
    · rw [List.pairwise_cons]
      refine ⟨?_, List.pairwise_cons.mpr h⟩
      intro b hb
      rcases List.mem_cons.mp hb with hb | hb
      · subst hb; omega
      · have := h.1 b hb
        omega


theorem zInsert_filter {α : Type} (z : α → Int) (c : Int) (v : α) (l : List α) :
    (zInsert z v l).filter (fun a => decide (z a = c)) =
      (v :: l).filter (fun a => decide (z a = c)) := by
  induction l with
  | nil => rfl
  | cons a l ih =>
    unfold zInsert
    split_ifs with hgt
    · rw [List.filter_cons, ih]
      by_cases hv : z v = c
      · have ha : ¬ z a = c := by omega
        simp only [List.filter_cons, hv, ha, decide_True, decide_False, if_true, if_false,
          Bool.false_eq_true]
      · by_cases ha : z a = c <;>
          simp only [List.filter_cons, hv, ha, decide_True, decide_False, if_true, if_false,
            Bool.false_eq_true]
    · rfl

theorem zFold_perm {α : Type} (z : α → Int) (l : List α) :
    ∀ acc : List α, (l.foldl (fun revPrefix v => zInsert z v revPrefix) acc).Perm
      (l.reverse ++ acc) := by
  induction l with
  | nil => intro acc; exact List.Perm.refl _
  | cons v l ih =>
    intro acc
    rw [List.foldl_cons, List.reverse_cons, List.append_assoc]
    refine (ih _).trans (List.Perm.append_left _ ?_)
    exact zInsert_perm z v acc

theorem zFold_sorted {α : Type} (z : α → Int) (l : List α) :
    ∀ acc : List α, acc.Pairwise (fun a b => z b ≤ z a) →
      (l.foldl (fun revPrefix v => zInsert z v revPrefix) acc).Pairwise
        (fun a b => z b ≤ z a) := by
  induction l with
  | nil => intro acc h; exact h
  | cons v l ih =>
    intro acc h
    exact ih _ (zInsert_sorted z v acc h)

theorem zFold_filter {α : Type} (z : α → Int) (c : Int) (l : List α) :
    ∀ acc : List α, (l.foldl (fun revPrefix v => zInsert z v revPrefix) acc).filter
        (fun a => decide (z a = c)) =
      (l.filter (fun a => decide (z a = c))).reverse ++
        acc.filter (fun a => decide (z a = c)) := by
  induction l with
  | nil => intro acc; rfl
  | cons v l ih =>
    intro acc
    rw [List.foldl_cons, ih, zInsert_filter]
    by_cases hv : z v = c
    · simp only [List.filter_cons, hv, decide_True, if_true, List.reverse_cons,
        List.append_assoc, List.singleton_append]
    · simp only [List.filter_cons, hv, decide_False, if_false, Bool.false_eq_true]

/-! ## Display-window lemmas -/

theorem pushLine_windows (W : Int) (first : Bool) (line : LineBuf) :
    (pushLinePhysicalNoAddr W first line).filter DisplayCall.isSetAddrWindow = [] := by
  unfold pushLinePhysicalNoAddr
  split_ifs <;> rfl

theorem bgStep_trace (bg : Background) (bgPal : Int → Int) (y minX W : Int) (rs : RowState) :
    (bgStep bg bgPal y minX W rs).trace = rs.trace := by
  unfold bgStep
  simp only []
  split_ifs <;> rfl

theorem paintRow_windows (fastBlit : Bool) (bg : Background) (bgPal : Int → Int) (st : Statics)
    (minX W : Int) (visW visF : List Sprite) (rects : List Rect) (bars : List HBar)
    (texts : List Text) (y : Int) (rs : RowState) :
    (paintRow fastBlit bg bgPal st minX W visW visF rects bars texts y rs).trace.filter
        DisplayCall.isSetAddrWindow = rs.trace.filter DisplayCall.isSetAddrWindow := by
  unfold paintRow
  simp only [List.filter_append, pushLine_windows, List.append_nil, bgStep_trace]

theorem rowLoop_windows (fastBlit : Bool) (bg : Background) (bgPal : Int → Int) (st : Statics)
    (minX W : Int) (visW visF : List Sprite) (rects : List Rect) (bars : List HBar)
    (texts : List Text) (n : Nat) : ∀ (y : Int) (rs : RowState),
    (rowLoop fastBlit bg bgPal st minX W visW visF rects bars texts n y rs).trace.filter
        DisplayCall.isSetAddrWindow = rs.trace.filter DisplayCall.isSetAddrWindow := by
  induction n with
  | zero => intro y rs; rfl
  | succ n ih =>
    intro y rs
    simp only [rowLoop]
    rw [ih, paintRow_windows]

theorem paintBox_windows (fastBlit : Bool) (bg : Background) (bgPal : Int → Int) (st : Statics)
    (q : Queues) (acc : LineBuf × LineBuf × List DisplayCall) (b : Box) :
    (paintBox fastBlit bg bgPal st q acc b).2.2.filter DisplayCall.isSetAddrWindow =
      acc.2.2.filter DisplayCall.isSetAddrWindow ++
        ([b].filter (fun b => b.valid && decide (wrap16 (b.maxX - b.minX) > 0))).map
          Box.window := by
  unfold paintBox
  by_cases hv : b.valid = false
  · rw [if_pos hv]
    simp only [List.filter_cons, hv, Bool.false_and, Bool.false_eq_true, if_false,
      List.filter_nil, List.map_nil, List.append_nil]
  · rw [if_neg hv]
    have hv' : b.valid = true := by
      cases h : b.valid
      · exact absurd h hv
      · rfl
    simp only []
    by_cases hW : wrap16 (b.maxX - b.minX) ≤ 0
    · rw [if_pos hW]
      have : ¬ (wrap16 (b.maxX - b.minX) > 0) := by omega
      simp only [List.filter_cons, hv', this, decide_False, Bool.and_false, Bool.false_eq_true,
        if_false, List.filter_nil, List.map_nil, List.append_nil]
    · rw [if_neg hW]
      have : wrap16 (b.maxX - b.minX) > 0 := by omega
      simp only [rowLoop_windows, List.filter_append, List.filter_cons, hv', this, decide_True,
        Bool.and_self, if_true, List.filter_nil, List.map_cons, List.map_nil, Box.window,
        DisplayCall.isSetAddrWindow]

theorem paintBoxes_windows (fastBlit : Bool) (bg : Background) (bgPal : Int → Int)
    (st : Statics) (q : Queues) (boxes : List Box) :
    ∀ acc : LineBuf × LineBuf × List DisplayCall,
    (boxes.foldl (paintBox fastBlit bg bgPal st q) acc).2.2.filter DisplayCall.isSetAddrWindow =
      acc.2.2.filter DisplayCall.isSetAddrWindow ++
        (boxes.filter (fun b => b.valid && decide (wrap16 (b.maxX - b.minX) > 0))).map
          Box.window := by
  induction boxes with
  | nil => intro acc; simp only [List.foldl_nil, List.filter_nil, List.map_nil, List.append_nil]
  | cons b bs ih =>
    intro acc
    rw [List.foldl_cons, ih, paintBox_windows, List.append_assoc, ← List.map_append,
      ← List.filter_append]
    rfl

theorem renderFrame_windows (env : FrameEnv) (r : Renderer) (st : Statics) :
    (renderFrame env r st).trace.filter DisplayCall.isSetAddrWindow =
      (paintedBoxes r.screenW r.screenH r.fgNeedsFullPass (zSort Sprite.z r.fg)
        { wbox := r.wbox, ui := r.ui }).map Box.window := by
  unfold renderFrame paintedBoxes
  by_cases hearly : r.fgNeedsFullPass = false ∧ r.wbox.length = 0 ∧ r.ui.length = 0
  · rw [if_pos hearly, if_pos hearly]
    rfl
  · rw [if_neg hearly, if_neg hearly]
    simp only [List.filter_append, paintBoxes_windows]
    have e1 : List.filter DisplayCall.isSetAddrWindow [DisplayCall.startWrite] = [] := rfl
    have e2 : List.filter DisplayCall.isSetAddrWindow [DisplayCall.endWrite] = [] := rfl
    rw [e1, e2, List.nil_append, List.append_nil]

theorem any_coversPixel (px py : Int) (tr : List DisplayCall) :
    tr.any (DisplayCall.coversPixel px py) =
      (tr.filter DisplayCall.isSetAddrWindow).any (DisplayCall.coversPixel px py) := by
  induction tr with
  | nil => rfl
  | cons c tr ih =>
    cases c <;>
      simp only [List.any_cons, List.filter_cons, DisplayCall.isSetAddrWindow,
        DisplayCall.coversPixel, ih, Bool.false_or, if_true, if_false, Bool.false_eq_true]


theorem renderFrame_flag_cleared (env : FrameEnv) (r : Renderer) (st : Statics) :
    (renderFrame env r st).renderer.fgNeedsFullPass = false := by
  unfold renderFrame
  by_cases hearly : r.fgNeedsFullPass = false ∧ r.wbox.length = 0 ∧ r.ui.length = 0
  · rw [if_pos hearly]
    exact hearly.1
  · rw [if_neg hearly]
    rfl

/-! ## Transparency-test congruence -/

theorem blitPixel_congr (s1 s2 : Int → Bool) (pal : Int → Int) (wR dx ni : Int) (buf : LineBuf)
    (h : s1 ni = s2 ni) : blitPixel s1 pal wR dx ni buf = blitPixel s2 pal wR dx ni buf := by
  unfold blitPixel
  rw [h]

theorem plainByte_congr (s1 s2 : Int → Bool) (hs : ∀ ni, 0 ≤ ni → ni < 16 → s1 ni = s2 ni)
    (pal src : Int → Int) (hFlip : Bool) (dxBaseN dxBaseF sxStart sxEnd wRegion j : Int)
    (buf : LineBuf) :
    plainByte s1 pal src hFlip dxBaseN dxBaseF sxStart sxEnd wRegion j buf =
      plainByte s2 pal src hFlip dxBaseN dxBaseF sxStart sxEnd wRegion j buf := by
  have hb : 0 ≤ rd8 src j ∧ rd8 src j < 256 := by unfold rd8; omega
  have h1 := hs (rd8 src j / 16) (by omega) (by omega)
  have h2 := hs (rd8 src j % 16) (by omega) (by omega)
  unfold plainByte
  simp only [blitPixel_congr s1 s2 pal _ _ _ _ h1, blitPixel_congr s1 s2 pal _ _ _ _ h2]

theorem plainLoop_congr (s1 s2 : Int → Bool) (hs : ∀ ni, 0 ≤ ni → ni < 16 → s1 ni = s2 ni)
    (pal src : Int → Int) (hFlip : Bool) (dxBaseN dxBaseF sxStart sxEnd wRegion : Int)
    (n : Nat) : ∀ (j : Int) (buf : LineBuf),
    plainLoop s1 pal src hFlip dxBaseN dxBaseF sxStart sxEnd wRegion n j buf =
      plainLoop s2 pal src hFlip dxBaseN dxBaseF sxStart sxEnd wRegion n j buf := by
  induction n with
  | zero => intro j buf; rfl
  | succ n ih =>
    intro j buf
    simp only [plainLoop]
    rw [plainByte_congr s1 s2 hs, ih]

theorem composePlain_congr (s1 s2 : Int → Bool) (hs : ∀ ni, 0 ≤ ni → ni < 16 → s1 ni = s2 ni)
    (data : Int → Int) (w h vx vy : Int) (pal : Int → Int) (hFlip : Bool) (y x0 wRegion : Int)
    (buf : LineBuf) :
    composePlain s1 data w h vx vy pal hFlip y x0 wRegion buf =
      composePlain s2 data w h vx vy pal hFlip y x0 wRegion buf := by
  unfold composePlain
  simp only [plainLoop_congr s1 s2 hs]

theorem storeAVR_congr (s1 s2 : Int → Bool) (pal : Int → Int) (dx ni : Int) (buf : LineBuf)
    (h : s1 ni = s2 ni) : storeAVR s1 pal dx ni buf = storeAVR s2 pal dx ni buf := by
  unfold storeAVR
  rw [h]

theorem skip_nibbles (s1 s2 : Int → Bool) (hs : ∀ ni, 0 ≤ ni → ni < 16 → s1 ni = s2 ni)
    (src : Int → Int) (j : Int) :
    s1 (rd8 src j / 16) = s2 (rd8 src j / 16) ∧ s1 (rd8 src j % 16) = s2 (rd8 src j % 16) := by
  have hb : 0 ≤ rd8 src j ∧ rd8 src j < 256 := by unfold rd8; omega
  exact ⟨hs _ (by omega) (by omega), hs _ (by omega) (by omega)⟩

theorem avrLoopN_congr (s1 s2 : Int → Bool) (hs : ∀ ni, 0 ≤ ni → ni < 16 → s1 ni = s2 ni)
    (pal src : Int → Int) (n : Nat) : ∀ (j dx : Int) (buf : LineBuf),
    avrLoopN s1 pal src n j dx buf = avrLoopN s2 pal src n j dx buf := by
  induction n with
  | zero => intro j dx buf; rfl
  | succ n ih =>
    intro j dx buf
    obtain ⟨h1, h2⟩ := skip_nibbles s1 s2 hs src j
    simp only [avrLoopN]
    rw [storeAVR_congr s1 s2 pal _ _ _ h1, storeAVR_congr s1 s2 pal _ _ _ h2, ih]

theorem avrLoopF_congr (s1 s2 : Int → Bool) (hs : ∀ ni, 0 ≤ ni → ni < 16 → s1 ni = s2 ni)
    (pal src : Int → Int) (n : Nat) : ∀ (j dx : Int) (buf : LineBuf),
    avrLoopF s1 pal src n j dx buf = avrLoopF s2 pal src n j dx buf := by
  induction n using Nat.strong_induction_on with
  | _ n ih =>
    intro j dx buf
    match n with
    | 0 => rfl
    | 1 =>
      obtain ⟨h1, h2⟩ := skip_nibbles s1 s2 hs src j
      simp only [avrLoopF]
      rw [storeAVR_congr s1 s2 pal _ _ _ h1, storeAVR_congr s1 s2 pal _ _ _ h2]
    | m + 2 =>
      obtain ⟨h1, h2⟩ := skip_nibbles s1 s2 hs src j
      obtain ⟨h3, h4⟩ := skip_nibbles s1 s2 hs src (j + 1)
      simp only [avrLoopF]
      rw [storeAVR_congr s1 s2 pal _ _ _ h1, storeAVR_congr s1 s2 pal _ _ _ h2,
        storeAVR_congr s1 s2 pal _ _ _ h3, storeAVR_congr s1 s2 pal _ _ _ h4,
        ih m (by omega)]

theorem composeAVR_congr (s1 s2 : Int → Bool) (hs : ∀ ni, 0 ≤ ni → ni < 16 → s1 ni = s2 ni)
    (data : Int → Int) (w h vx vy : Int) (pal : Int → Int) (hFlip : Bool) (y x0 wRegion : Int)
    (buf : LineBuf) :
    composeAVR s1 data w h vx vy pal hFlip y x0 wRegion buf =
      composeAVR s2 data w h vx vy pal hFlip y x0 wRegion buf := by
  unfold composeAVR
  simp only [avrLoopN_congr s1 s2 hs, avrLoopF_congr s1 s2 hs]
  have key : ∀ (src : Int → Int) (j dx : Int) (b : LineBuf),
      storeAVR s1 pal dx (rd8 src j % 16) b = storeAVR s2 pal dx (rd8 src j % 16) b :=
    fun src j dx b => storeAVR_congr s1 s2 pal _ _ _ (skip_nibbles s1 s2 hs src j).2
  simp only [key]

/-! ## The non-flipped fast loop, column by column -/

theorem storeAVR_apply (skip : Int → Bool) (pal : Int → Int) (dx ni : Int) (buf : LineBuf)
    (k : Int) :
    storeAVR skip pal dx ni buf k = if k = dx ∧ skip ni = false then pal ni else buf k := by
  unfold storeAVR
  by_cases h2 : skip ni = true <;> by_cases h3 : k = dx <;>
    simp [h2, h3, Function.update_apply]

theorem avrLoopN_apply (skip : Int → Bool) (pal src : Int → Int) (n : Nat) :
    ∀ (j dx : Int) (buf : LineBuf) (k : Int), -32768 ≤ dx → dx + 2 * (n : Int) ≤ 32767 →
    avrLoopN skip pal src n j dx buf k =
      if dx ≤ k ∧ k < dx + 2 * (n : Int) ∧ skip (rowNibble src (2 * j + (k - dx))) = false then
        pal (rowNibble src (2 * j + (k - dx)))
      else buf k := by
  induction n with
  | zero =>
    intro j dx buf k _ _
    have : ¬ (dx ≤ k ∧ k < dx + 2 * ((0 : Nat) : Int) ∧
        skip (rowNibble src (2 * j + (k - dx))) = false) := by
      intro h
      omega
    rw [if_neg this]
    rfl
  | succ n ih =>
    intro j dx buf k hlo hhi
    have e1 : wrap16 (dx + 1) = dx + 1 := wrap16_id (by omega) (by omega)
    have e2 : wrap16 (dx + 1 + 1) = dx + 2 := by
      rw [wrap16_id (by omega) (by omega)]
      omega
    simp only [avrLoopN, e1, e2]
    rw [ih (j + 1) (dx + 2) _ k (by omega) (by push_cast at hhi; omega),
      storeAVR_apply, storeAVR_apply]
    have hidx : 2 * (j + 1) + (k - (dx + 2)) = 2 * j + (k - dx) := by ring
    rw [hidx]
    by_cases hk0 : k = dx
    · subst hk0
      have a : k - k = 0 := by omega
      have b : 2 * j + 0 = 2 * j := by omega
      have c1 : ¬ (k + 2 ≤ k) := by omega
      have c2 : ¬ (k = k + 1) := by omega
      have c3 : k < k + 2 * ((n + 1 : Nat) : Int) := by push_cast; omega
      simp only [a, b, rowNibble_even, c1, c2, c3, false_and, if_false, le_refl, true_and]
    · by_cases hk1 : k = dx + 1
      · subst hk1
        have a : dx + 1 - dx = 1 := by omega
        have c1 : ¬ (dx + 2 ≤ dx + 1) := by omega
        have c3 : dx + 1 < dx + 2 * ((n + 1 : Nat) : Int) := by push_cast; omega
        have c4 : dx ≤ dx + 1 := by omega
        simp only [a, rowNibble_odd, c1, c3, c4, hk0, false_and, if_false, true_and]
      · have c1 : (dx + 2 ≤ k ∧ k < dx + 2 + 2 * (n : Int) ∧
            skip (rowNibble src (2 * j + (k - dx))) = false) ↔
            (dx ≤ k ∧ k < dx + 2 * ((n + 1 : Nat) : Int) ∧
            skip (rowNibble src (2 * j + (k - dx))) = false) := by
          push_cast
          constructor
          · rintro ⟨h1, h2, h3⟩
            exact ⟨by omega, by omega, h3⟩
          · rintro ⟨h1, h2, h3⟩
            exact ⟨by omega, by omega, h3⟩
        rw [ite_cond_congr _ _ _ _ c1]
        simp only [hk0, hk1, false_and, if_false]

theorem scenarioA_avr_unrolled (data pal : Int → Int) (buf : LineBuf) :
    composeOver4bpp_AVR_P data 8 8 10 10 pal false 10 0 20 buf =
      avrLoopN (fun ni => decide (ni = 0)) pal (fun i => data (0 * ((8 + 1) / 2) + i)) 4 0 10 buf := by
  unfold composeOver4bpp_AVR_P composeAVR
  norm_num [wrap16, u16]
  rfl

theorem scenarioA_avr (data pal : Int → Int) (buf : LineBuf) (k : Int) :
    composeOver4bpp_AVR_P data 8 8 10 10 pal false 10 0 20 buf k =
      if 10 ≤ k ∧ k ≤ 17 ∧ nibbleAt data 8 0 (k - 10) ≠ 0 then pal (nibbleAt data 8 0 (k - 10))
      else buf k := by
  rw [scenarioA_avr_unrolled, avrLoopN_apply _ _ _ 4 0 10 buf k (by decide) (by decide),
    rowNibble_src]
  have e : 2 * (0 : Int) + (k - 10) = k - 10 := by omega
  rw [e]
  apply ite_cond_congr
  simp only [decide_eq_false_iff_not, ne_eq, Nat.cast_ofNat]
  constructor
  · rintro ⟨h1, h2, h3⟩
    exact ⟨h1, by omega, h3⟩
  · rintro ⟨h1, h2, h3⟩
    exact ⟨h1, by omega, h3⟩

theorem scenarioA_plain (data pal : Int → Int) (buf : LineBuf) (k : Int) :
    composeOver4bpp_P data 8 8 10 10 pal false 10 0 20 buf k =
      if 10 ≤ k ∧ k ≤ 17 ∧ nibbleAt data 8 0 (k - 10) ≠ 0 then pal (nibbleAt data 8 0 (k - 10))
      else buf k := by
  have H : NoOverflow 8 8 10 10 10 0 20 := by constructor <;> decide
  have h := composePlain_eq_ref .index0 data 8 8 10 10 pal false 10 0 20 buf H
  unfold composeOver4bpp_P
  have h2 : composePlain (fun ni => decide (ni = 0)) data 8 8 10 10 pal false 10 0 20 buf =
      refBlit .index0 data 8 8 10 10 pal false 10 0 20 buf := h
  rw [h2]
  unfold refBlit
  have e1 : (10 : Int) - 10 = 0 := by decide
  have e2 : k - ((10 : Int) - 0) = k - 10 := by omega
  simp only [e1, e2, Bool.false_eq_true, if_false, TransparencyRule.transparent]
  apply ite_cond_congr
  simp only [decide_eq_false_iff_not, ne_eq]
  constructor
  · rintro ⟨h1, h2, h3, h4, h5, h6, h7⟩
    exact ⟨by omega, by omega, h7⟩
  · rintro ⟨h1, h2, h3⟩
    exact ⟨by omega, by omega, by omega, by omega, by omega, by omega, h3⟩

/-! ## Passes that overwrite -/

theorem Overwrites.id_ : Overwrites (fun buf => buf) := fun _ => Or.inl (fun _ => rfl)

theorem Overwrites.update (i c : Int) : Overwrites (fun buf => Function.update buf i c) := by
  intro k
  by_cases h : k = i
  · right
    subst h
    exact ⟨c, fun buf => Function.update_same k c buf⟩
  · left
    exact fun buf => Function.update_noteq h c buf

theorem Overwrites.comp (f g : LineBuf → LineBuf) (hf : Overwrites f) (hg : Overwrites g) :
    Overwrites (fun buf => g (f buf)) := by
  intro k
  rcases hg k with hk | ⟨c, hc⟩
  · rcases hf k with hk' | ⟨c, hc⟩
    · left
      intro buf
      show g (f buf) k = buf k
      rw [hk (f buf), hk' buf]
    · right
      refine ⟨c, fun buf => ?_⟩
      show g (f buf) k = c
      rw [hk (f buf), hc buf]
  · right
    exact ⟨c, fun buf => hc (f buf)⟩

theorem Overwrites.ite (p : Prop) [Decidable p] (f g : LineBuf → LineBuf) (hf : Overwrites f)
    (hg : Overwrites g) : Overwrites (fun buf => if p then f buf else g buf) := by
  by_cases h : p
  · simp only [h, if_true]; exact hf
  · simp only [h, if_false]; exact hg

theorem Overwrites.bite (p : Bool) (f g : LineBuf → LineBuf) (hf : Overwrites f)
    (hg : Overwrites g) : Overwrites (fun buf => if p then f buf else g buf) := by
  cases p
  · exact hg
  · exact hf

theorem Overwrites.foldl {α : Type} (step : LineBuf → α → LineBuf) (l : List α)
    (h : ∀ x ∈ l, Overwrites (fun buf => step buf x)) :
    Overwrites (fun buf => l.foldl step buf) := by
  induction l with
  | nil => exact Overwrites.id_
  | cons x l ih =>
    exact Overwrites.comp (fun buf => step buf x) (fun buf => l.foldl step buf)
      (h x (List.mem_cons_self x l)) (ih (fun y hy => h y (List.mem_cons_of_mem x hy)))

theorem foldl_writesAt {α : Type} (step : LineBuf → α → LineBuf) (pre post : List α) (x : α)
    (k c : Int) (hx : WritesAt (fun buf => step buf x) k c)
    (hpost : ∀ t ∈ post, KeepsAt (fun buf => step buf t) k) :
    WritesAt (fun buf => (pre ++ x :: post).foldl step buf) k c := by
  intro buf
  show (pre ++ x :: post).foldl step buf k = c
  rw [List.foldl_append, List.foldl_cons]
  have key : ∀ (l : List α), (∀ t ∈ l, KeepsAt (fun buf => step buf t) k) →
      ∀ b : LineBuf, l.foldl step b k = b k := by
    intro l
    induction l with
    | nil => intro _ b; rfl
    | cons t l ih =>
      intro hl b
      rw [List.foldl_cons, ih (fun u hu => hl u (List.mem_cons_of_mem t hu))]
      exact hl t (List.mem_cons_self t l) b
  rw [key post hpost]
  exact hx _

theorem foldl_writes_of_mem {α : Type} (step : LineBuf → α → LineBuf) (l : List α)
    (h : ∀ x ∈ l, Overwrites (fun buf => step buf x)) (k : Int) (x : α) (hx : x ∈ l)
    (hw : ∃ c, WritesAt (fun buf => step buf x) k c) :
    ∃ c, WritesAt (fun buf => l.foldl step buf) k c := by
  induction l with
  | nil => cases hx
  | cons y l ih =>
    have hl : Overwrites (fun buf => l.foldl step buf) :=
      Overwrites.foldl step l (fun z hz => h z (List.mem_cons_of_mem y hz))
    rcases List.mem_cons.mp hx with hxy | hxl
    · subst hxy
      obtain ⟨c, hc⟩ := hw
      rcases hl k with hk | ⟨c', hc'⟩
      · exact ⟨c, fun buf => (hk (step buf x)).trans (hc buf)⟩
      · exact ⟨c', fun buf => hc' (step buf x)⟩
    · obtain ⟨c, hc⟩ := ih (fun z hz => h z (List.mem_cons_of_mem y hz)) hxl
      exact ⟨c, fun buf => hc (step buf y)⟩

theorem blitPixel_overwrites (skip : Int → Bool) (pal : Int → Int) (wR dx ni : Int) :
    Overwrites (fun buf => blitPixel skip pal wR dx ni buf) := by
  unfold blitPixel
  exact Overwrites.ite _ _ _
    (Overwrites.ite _ _ _ Overwrites.id_ (Overwrites.update dx (pal ni))) Overwrites.id_

theorem plainByte_overwrites (skip : Int → Bool) (pal src : Int → Int) (hFlip : Bool)
    (dxBaseN dxBaseF sxStart sxEnd wRegion j : Int) :
    Overwrites (fun buf =>
      plainByte skip pal src hFlip dxBaseN dxBaseF sxStart sxEnd wRegion j buf) := by
  unfold plainByte
  exact Overwrites.comp _ _
    (Overwrites.ite _ _ _ (blitPixel_overwrites skip pal _ _ _) Overwrites.id_)
    (Overwrites.ite _ _ _ (blitPixel_overwrites skip pal _ _ _) Overwrites.id_)

theorem plainLoop_overwrites (skip : Int → Bool) (pal src : Int → Int) (hFlip : Bool)
    (dxBaseN dxBaseF sxStart sxEnd wRegion : Int) (n : Nat) : ∀ j : Int,
    Overwrites (fun buf =>
      plainLoop skip pal src hFlip dxBaseN dxBaseF sxStart sxEnd wRegion n j buf) := by
  induction n with
  | zero => intro j; exact Overwrites.id_
  | succ n ih =>
    intro j
    exact Overwrites.comp
      (fun buf => plainByte skip pal src hFlip dxBaseN dxBaseF sxStart sxEnd wRegion j buf)
      (fun buf => plainLoop skip pal src hFlip dxBaseN dxBaseF sxStart sxEnd wRegion n (j + 1) buf)
      (plainByte_overwrites skip pal src hFlip dxBaseN dxBaseF sxStart sxEnd wRegion j)
      (ih (j + 1))

theorem composePlain_overwrites (skip : Int → Bool) (data : Int → Int) (w h vx vy : Int)
    (pal : Int → Int) (hFlip : Bool) (y x0 wRegion : Int) :
    Overwrites (fun buf => composePlain skip data w h vx vy pal hFlip y x0 wRegion buf) := by
  unfold composePlain
  exact Overwrites.ite _ _ _ Overwrites.id_
    (Overwrites.ite _ _ _ Overwrites.id_ (plainLoop_overwrites _ _ _ _ _ _ _ _ _ _ _))


theorem storeAVR_overwrites (skip : Int → Bool) (pal : Int → Int) (dx ni : Int) :
    Overwrites (fun buf => storeAVR skip pal dx ni buf) := by
  unfold storeAVR
  exact Overwrites.ite _ _ _ Overwrites.id_ (Overwrites.update dx (pal ni))

theorem avrLoopN_overwrites (skip : Int → Bool) (pal src : Int → Int) (n : Nat) :
    ∀ j dx : Int, Overwrites (fun buf => avrLoopN skip pal src n j dx buf) := by
  induction n with
  | zero => intro j dx; exact Overwrites.id_
  | succ n ih =>
    intro j dx
    exact Overwrites.comp
      (fun buf => storeAVR skip pal (wrap16 (dx + 1)) (rd8 src j % 16)
        (storeAVR skip pal dx (rd8 src j / 16) buf))
      (fun buf => avrLoopN skip pal src n (j + 1) (wrap16 (wrap16 (dx + 1) + 1)) buf)
      (Overwrites.comp _ _ (storeAVR_overwrites skip pal _ _) (storeAVR_overwrites skip pal _ _))
      (ih _ _)

theorem avrLoopF_overwrites (skip : Int → Bool) (pal src : Int → Int) (n : Nat) :
    ∀ j dx : Int, Overwrites (fun buf => avrLoopF skip pal src n j dx buf) := by
  induction n using Nat.strong_induction_on with
  | _ n ih =>
    intro j dx
    match n with
    | 0 => exact Overwrites.id_
    | 1 =>
      exact Overwrites.comp
        (fun buf => storeAVR skip pal dx (rd8 src j / 16) buf)
        (fun buf => storeAVR skip pal (wrap16 (dx - 1)) (rd8 src j % 16) buf)
        (storeAVR_overwrites skip pal _ _) (storeAVR_overwrites skip pal _ _)
    | m + 2 =>
      exact Overwrites.comp
        (fun buf => storeAVR skip pal (wrap16 (wrap16 (wrap16 (dx - 1) - 1) - 1))
          (rd8 src (j + 1) % 16)
          (storeAVR skip pal (wrap16 (wrap16 (dx - 1) - 1)) (rd8 src (j + 1) / 16)
            (storeAVR skip pal (wrap16 (dx - 1)) (rd8 src j % 16)
              (storeAVR skip pal dx (rd8 src j / 16) buf))))
        (fun buf => avrLoopF skip pal src m (j + 2)
          (wrap16 (wrap16 (wrap16 (wrap16 (dx - 1) - 1) - 1) - 1)) buf)
        (Overwrites.comp _ _
          (Overwrites.comp _ _
            (Overwrites.comp _ _ (storeAVR_overwrites skip pal _ _)
              (storeAVR_overwrites skip pal _ _))
            (storeAVR_overwrites skip pal _ _))
          (storeAVR_overwrites skip pal _ _))
        (ih m (by omega) _ _)

theorem composeAVR_overwrites (skip : Int → Bool) (data : Int → Int) (w h vx vy : Int)
    (pal : Int → Int) (hFlip : Bool) (y x0 wRegion : Int) :
    Overwrites (fun buf => composeAVR skip data w h vx vy pal hFlip y x0 wRegion buf) := by
  unfold composeAVR
  refine Overwrites.ite _ _ _ Overwrites.id_ (Overwrites.ite _ _ _ Overwrites.id_ ?_)
  simp only []
  cases hFlip
  · exact Overwrites.comp _ _
      (Overwrites.bite _ _ _ (storeAVR_overwrites skip pal _ _) Overwrites.id_)
      (avrLoopN_overwrites skip pal _ _ _ _)
  · exact Overwrites.comp _ _
      (Overwrites.bite _ _ _ (storeAVR_overwrites skip pal _ _) Overwrites.id_)
      (avrLoopF_overwrites skip pal _ _ _ _)

theorem spriteLine_overwrites (fastBlit : Bool) (y minX W : Int) (s : Sprite) :
    Overwrites (fun buf => spriteLine fastBlit y minX W buf s) := by
  unfold spriteLine spriteBlit composeOver4bppKeyIdx_AVR_P composeOver4bppKeyIdx_P
  exact Overwrites.ite _ _ _ Overwrites.id_
    (Overwrites.bite _ _ _ (composeAVR_overwrites _ _ _ _ _ _ _ _ _ _ _)
      (composePlain_overwrites _ _ _ _ _ _ _ _ _ _ _))

theorem spritePass_overwrites (fastBlit : Bool) (y minX W : Int) (vis : List Sprite) :
    Overwrites (spritePass fastBlit y minX W vis) :=
  Overwrites.foldl (spriteLine fastBlit y minX W) vis
    (fun s _ => spriteLine_overwrites fastBlit y minX W s)


theorem fillLoop_overwrites (color565 : Int) (n : Nat) :
    ∀ dst : Int, Overwrites (fun buf => fillLoop color565 n dst buf) := by
  induction n with
  | zero => intro dst; exact Overwrites.id_
  | succ n ih =>
    intro dst
    exact Overwrites.comp (fun buf => Function.update buf dst color565)
      (fun buf => fillLoop color565 n (dst + 1) buf) (Overwrites.update dst color565) (ih _)

theorem composeSolidRectLine_overwrites (y x0 wRegion rx ry rw rh color565 : Int) :
    Overwrites (fun buf => composeSolidRectLine y x0 wRegion rx ry rw rh color565 buf) := by
  unfold composeSolidRectLine
  exact Overwrites.ite _ _ _ Overwrites.id_
    (Overwrites.ite _ _ _ Overwrites.id_ (fillLoop_overwrites _ _ _))

theorem outlineRowLoop_overwrites (color565 x0 : Int) (n : Nat) :
    ∀ x : Int, Overwrites (fun buf => outlineRowLoop color565 x0 n x buf) := by
  induction n with
  | zero => intro x; exact Overwrites.id_
  | succ n ih =>
    intro x
    exact Overwrites.comp (fun buf => Function.update buf (wrap16 (x - x0)) color565)
      (fun buf => outlineRowLoop color565 x0 n (x + 1) buf) (Overwrites.update _ color565)
      (ih _)

theorem composeRectOutlineLine_overwrites (y x0 wRegion rx ry rw rh color565 : Int) :
    Overwrites (fun buf => composeRectOutlineLine y x0 wRegion rx ry rw rh color565 buf) := by
  unfold composeRectOutlineLine
  exact Overwrites.ite _ _ _ (outlineRowLoop_overwrites _ _ _ _)
    (Overwrites.ite _ _ _
      (Overwrites.comp _ _
        (Overwrites.ite _ _ _ (Overwrites.update _ color565) Overwrites.id_)
        (Overwrites.ite _ _ _ (Overwrites.update _ color565) Overwrites.id_))
      Overwrites.id_)

theorem composeHBarLine_overwrites (y x0 wRegion bx by_ bw bh fillW color565 : Int) :
    Overwrites (fun buf => composeHBarLine y x0 wRegion bx by_ bw bh fillW color565 buf) := by
  unfold composeHBarLine
  exact Overwrites.ite _ _ _ Overwrites.id_
    (Overwrites.ite _ _ _ Overwrites.id_ (fillLoop_overwrites _ _ _))

theorem glyphLoop_overwrites (color565 minX W : Int) (rowMask : Nat) (cx : Int) (ch : Nat)
    (n : Nat) : ∀ col : Nat,
    Overwrites (fun buf => glyphLoop color565 minX W rowMask cx ch n col buf) := by
  induction n with
  | zero => intro col; exact Overwrites.id_
  | succ n ih =>
    intro col
    exact Overwrites.comp
      (fun buf =>
        if Nat.land (fontColumn ch col) rowMask ≠ 0 then
          (if u16 (wrap16 (wrap16 (cx + col) - minX)) < u16 W then
            Function.update buf (wrap16 (wrap16 (cx + col) - minX)) color565 else buf)
        else buf)
      (fun buf => glyphLoop color565 minX W rowMask cx ch n (col + 1) buf)
      (Overwrites.ite _ _ _ (Overwrites.ite _ _ _ (Overwrites.update _ color565) Overwrites.id_)
        Overwrites.id_)
      (ih _)

theorem textChars_overwrites (color565 minX W : Int) (rowMask : Nat) (str : List Nat) :
    ∀ cx : Int, Overwrites (fun buf => textChars color565 minX W rowMask str cx buf) := by
  induction str with
  | nil => intro cx; exact Overwrites.id_
  | cons ch rest ih =>
    intro cx
    exact Overwrites.ite (ch < 32 ∨ ch > 127)
      (fun buf => textChars color565 minX W rowMask rest (wrap16 (cx + 6)) buf)
      (fun buf => textChars color565 minX W rowMask rest (wrap16 (cx + 6))
        (glyphLoop color565 minX W rowMask cx (ch - 32) 5 0 buf))
      (ih _)
      (Overwrites.comp _ _ (glyphLoop_overwrites color565 minX W rowMask cx (ch - 32) 5 0) (ih _))

theorem textLine_overwrites (y minX W : Int) (tx : Text) :
    Overwrites (fun buf => textLine y minX W buf tx) := by
  unfold textLine
  exact Overwrites.ite _ _ _ Overwrites.id_ (textChars_overwrites _ _ _ _ _ _)

theorem fillLine_overwrites (y minX W : Int) (r : Rect) :
    Overwrites (fun buf => fillLine y minX W buf r) := by
  unfold fillLine
  exact Overwrites.bite _ _ _ Overwrites.id_ (composeSolidRectLine_overwrites _ _ _ _ _ _ _ _)

theorem outlineLine_overwrites (y minX W : Int) (r : Rect) :
    Overwrites (fun buf => outlineLine y minX W buf r) := by
  unfold outlineLine
  exact Overwrites.bite _ _ _ Overwrites.id_ (composeRectOutlineLine_overwrites _ _ _ _ _ _ _ _)

theorem barLine_overwrites (y minX W : Int) (hb : HBar) :
    Overwrites (fun buf => barLine y minX W buf hb) := by
  unfold barLine
  exact composeHBarLine_overwrites _ _ _ _ _ _ _ _ _

theorem fillsPass_overwrites (y minX W : Int) (rects : List Rect) :
    Overwrites (fillsPass y minX W rects) :=
  Overwrites.foldl _ rects (fun r _ => fillLine_overwrites y minX W r)

theorem outlinesPass_overwrites (y minX W : Int) (rects : List Rect) :
    Overwrites (outlinesPass y minX W rects) :=
  Overwrites.foldl _ rects (fun r _ => outlineLine_overwrites y minX W r)

theorem barsPass_overwrites (y minX W : Int) (bars : List HBar) :
    Overwrites (barsPass y minX W bars) :=
  Overwrites.foldl _ bars (fun hb _ => barLine_overwrites y minX W hb)

theorem textsPass_overwrites (y minX W : Int) (texts : List Text) :
    Overwrites (textsPass y minX W texts) :=
  Overwrites.foldl _ texts (fun tx _ => textLine_overwrites y minX W tx)

theorem uiOverlay_overwrites (y minX W : Int) (rects : List Rect) (bars : List HBar)
    (texts : List Text) : Overwrites (uiOverlay y minX W rects bars texts) :=
  Overwrites.comp
    (fun buf => barsPass y minX W bars (outlinesPass y minX W rects (fillsPass y minX W rects buf)))
    (textsPass y minX W texts)
    (Overwrites.comp
      (fun buf => outlinesPass y minX W rects (fillsPass y minX W rects buf))
      (barsPass y minX W bars)
      (Overwrites.comp (fillsPass y minX W rects) (outlinesPass y minX W rects)
        (fillsPass_overwrites y minX W rects) (outlinesPass_overwrites y minX W rects))
      (barsPass_overwrites y minX W bars))
    (textsPass_overwrites y minX W texts)

theorem writes_comp_inner (f g : LineBuf → LineBuf) (hg : Overwrites g) (k : Int)
    (h : ∃ c, WritesAt f k c) : ∃ c, WritesAt (fun buf => g (f buf)) k c := by
  obtain ⟨c, hc⟩ := h
  rcases hg k with hk | ⟨c', hc'⟩
  · exact ⟨c, fun buf => (hk (f buf)).trans (hc buf)⟩
  · exact ⟨c', fun buf => hc' (f buf)⟩

theorem uiOverlay_writes_of_fills (y minX W : Int) (rects : List Rect) (bars : List HBar)
    (texts : List Text) (k : Int) (h : ∃ c, WritesAt (fillsPass y minX W rects) k c) :
    ∃ c, WritesAt (uiOverlay y minX W rects bars texts) k c :=
  writes_comp_inner
    (fun buf => barsPass y minX W bars (outlinesPass y minX W rects (fillsPass y minX W rects buf)))
    (textsPass y minX W texts) (textsPass_overwrites y minX W texts) k
    (writes_comp_inner
      (fun buf => outlinesPass y minX W rects (fillsPass y minX W rects buf))
      (barsPass y minX W bars) (barsPass_overwrites y minX W bars) k
      (writes_comp_inner (fillsPass y minX W rects) (outlinesPass y minX W rects)
        (outlinesPass_overwrites y minX W rects) k h))

theorem uiOverlay_writes_of_outlines (y minX W : Int) (rects : List Rect) (bars : List HBar)
    (texts : List Text) (k : Int) (h : ∃ c, WritesAt (outlinesPass y minX W rects) k c) :
    ∃ c, WritesAt (uiOverlay y minX W rects bars texts) k c :=
  writes_comp_inner
    (fun buf => barsPass y minX W bars (outlinesPass y minX W rects (fillsPass y minX W rects buf)))
    (textsPass y minX W texts) (textsPass_overwrites y minX W texts) k
    (writes_comp_inner
      (fun buf => outlinesPass y minX W rects (fillsPass y minX W rects buf))
      (barsPass y minX W bars) (barsPass_overwrites y minX W bars) k
      (h.imp (fun _ hc buf => hc (fillsPass y minX W rects buf))))

theorem uiOverlay_writes_of_bars (y minX W : Int) (rects : List Rect) (bars : List HBar)
    (texts : List Text) (k : Int) (h : ∃ c, WritesAt (barsPass y minX W bars) k c) :
    ∃ c, WritesAt (uiOverlay y minX W rects bars texts) k c :=
  writes_comp_inner
    (fun buf => barsPass y minX W bars (outlinesPass y minX W rects (fillsPass y minX W rects buf)))
    (textsPass y minX W texts) (textsPass_overwrites y minX W texts) k
    (h.imp (fun _ hc buf => hc (outlinesPass y minX W rects (fillsPass y minX W rects buf))))

theorem uiOverlay_writes_of_texts (y minX W : Int) (rects : List Rect) (bars : List HBar)
    (texts : List Text) (k : Int) (h : ∃ c, WritesAt (textsPass y minX W texts) k c) :
    ∃ c, WritesAt (uiOverlay y minX W rects bars texts) k c :=
  h.imp (fun _ hc buf =>
    hc (barsPass y minX W bars (outlinesPass y minX W rects (fillsPass y minX W rects buf))))

theorem writesAt_of_eval (op : LineBuf → LineBuf) (h : Overwrites op) (k c : Int)
    (buf0 : LineBuf) (h1 : op buf0 k = c) (h2 : buf0 k ≠ c) : WritesAt op k c := by
  rcases h k with hk | ⟨c', hc'⟩
  · exact absurd ((hk buf0).symm.trans h1) h2
  · have : c' = c := (hc' buf0).symm.trans h1
    subst this
    exact hc'

theorem keepsAt_of_eval (op : LineBuf → LineBuf) (h : Overwrites op) (k : Int)
    (buf0 buf1 : LineBuf) (h1 : op buf0 k ≠ op buf1 k) : KeepsAt op k := by
  rcases h k with hk | ⟨c', hc'⟩
  · exact hk
  · exact absurd ((hc' buf0).trans (hc' buf1).symm) h1

/-! ## Claim C11 -/

/-- C11: when the renderer holds no world dirty box, no UI dirty box and the foreground
flag is unset, `renderFrame` makes no display call at all (in particular no
`setAddrWindow` and no `pushColors`), whatever the queues hold, and afterwards the five
draw queues are empty. -/
theorem no_dirty_no_display_calls (env : FrameEnv) (r : Renderer) (st : Statics)
    (hw : r.wbox.length = 0) (hu : r.ui.length = 0) (hf : r.fgNeedsFullPass = false) :
    (renderFrame env r st).trace.filter DisplayCall.isSetAddrWindow = [] ∧
    (renderFrame env r st).trace.filter DisplayCall.isPushColors = [] ∧
    (renderFrame env r st).trace = [] ∧
    (renderFrame env r st).renderer.spr = [] ∧
    (renderFrame env r st).renderer.fg = [] ∧
    (renderFrame env r st).renderer.rec_ = [] ∧
    (renderFrame env r st).renderer.bar = [] ∧
    (renderFrame env r st).renderer.txt = [] := by
  unfold renderFrame
  rw [if_pos ⟨hf, hw, hu⟩]
  simp only [Renderer.clearQueues, List.filter_nil, and_self]

/-- Witness for C11: a renderer with one queued rectangle, one text and one sprite and no
dirty box. -/
theorem no_dirty_no_display_calls_witness :
    queuedOnlyState.wbox.length = 0 ∧ queuedOnlyState.ui.length = 0 ∧
    queuedOnlyState.fgNeedsFullPass = false ∧ queuedOnlyState.rec_.length = 1 ∧
    (renderFrame blankEnv queuedOnlyState Statics.initial).trace.filter
      DisplayCall.isSetAddrWindow = [] ∧
    (renderFrame blankEnv queuedOnlyState Statics.initial).trace.filter
      DisplayCall.isPushColors = [] ∧
    (renderFrame blankEnv queuedOnlyState Statics.initial).trace = [] ∧
    (renderFrame blankEnv queuedOnlyState Statics.initial).renderer.spr = [] ∧
    (renderFrame blankEnv queuedOnlyState Statics.initial).renderer.fg = [] ∧
    (renderFrame blankEnv queuedOnlyState Statics.initial).renderer.rec_ = [] ∧
    (renderFrame blankEnv queuedOnlyState Statics.initial).renderer.bar = [] ∧
    (renderFrame blankEnv queuedOnlyState Statics.initial).renderer.txt = [] :=
  ⟨rfl, rfl, rfl, rfl,
    no_dirty_no_display_calls blankEnv queuedOnlyState Statics.initial rfl rfl rfl⟩

/-! ## Claim C12 -/

set_option maxRecDepth 100000 in
/-- C12 fails on `fgLostState`: the foreground flag is set, the world set holds 28 boxes of
which `wbox[0]` lies off screen, and one 16x16 foreground sprite is queued at (100, 100),
fully on the 320x240 screen.  No window `renderFrame` opens contains the pixel (100, 100)
of the sprite; the flag is cleared all the same. -/
theorem fg_repaint_lost_on_full_world_set (env : FrameEnv) (st : Statics) :
    fgLostState.fgNeedsFullPass = true ∧ fgLostState.wbox.length = 28 ∧
    fgLostState.fg.map (fun s => (s.vx, s.vy, s.w, s.h)) = [(100, 100, 16, 16)] ∧
    (renderFrame env fgLostState st).trace.any (DisplayCall.coversPixel 100 100) = false ∧
    (renderFrame env fgLostState st).renderer.fgNeedsFullPass = false := by
  refine ⟨by decide, by decide, by decide, ?_, renderFrame_flag_cleared env fgLostState st⟩
  rw [any_coversPixel, renderFrame_windows]
  decide

/-! ## Claim C13 -/

/-- C13: `zSort` returns the stable sort of the queue by depth, for a queue of any length
(in particular `n ≤ 255`): the result is a permutation of the input, its `z` values are
non-decreasing, and for every depth `c` the items of depth `c` appear in the result in the
order in which they were enqueued. -/
theorem zSort_is_stable_sort {α : Type} (z : α → Int) (arr : List α) :
    (zSort z arr).Perm arr ∧
    (zSort z arr).Pairwise (fun a b => z a ≤ z b) ∧
    ∀ c : Int, (zSort z arr).filter (fun a => decide (z a = c)) =
      arr.filter (fun a => decide (z a = c)) := by
  unfold zSort
  refine ⟨?_, ?_, ?_⟩
  · have h := zFold_perm z arr []
    rw [List.append_nil] at h
    exact (List.reverse_perm _).trans (h.trans (List.reverse_perm _))
  · rw [List.pairwise_reverse]
    exact zFold_sorted z arr [] List.Pairwise.nil
  · intro c
    rw [List.filter_reverse, zFold_filter, List.filter_nil, List.append_nil, List.reverse_reverse]

/-! ## Claim C14 -/

/-- C14: in every composed row, at every column `k`, the colour is that of the topmost
writer in the fixed order background < world sprites < foreground sprites < UI.  Each of
the three upper layers either stores a colour of its own at `k` or leaves `k` alone,
whatever lies beneath.  If the UI overlay writes, its colour is final; otherwise if the
foreground pass writes, its colour is final whatever the world sprites and their `z`;
otherwise the world pass decides; otherwise the (shimmered) background shows.  A column
written by any foreground sprite is written by the foreground pass, one written by any UI
primitive (fill, outline, bar, text) is written by the overlay.  Inside a sprite pass the
last writer in queue order (the `z` order) wins. -/
theorem layers_paint_in_fixed_order (fastBlit : Bool) (st : Statics) (y minX W : Int)
    (visW visF : List Sprite) (rects : List Rect) (bars : List HBar) (texts : List Text)
    (bgLine : LineBuf) (k : Int) :
    (Overwrites (spritePass fastBlit y minX W visW) ∧
      Overwrites (spritePass fastBlit y minX W visF) ∧
      Overwrites (uiOverlay y minX W rects bars texts)) ∧
    (∀ c, WritesAt (uiOverlay y minX W rects bars texts) k c →
      composeLayers fastBlit st y minX W visW visF rects bars texts bgLine k = c) ∧
    (KeepsAt (uiOverlay y minX W rects bars texts) k →
      ∀ c, WritesAt (spritePass fastBlit y minX W visF) k c →
        composeLayers fastBlit st y minX W visW visF rects bars texts bgLine k = c) ∧
    (KeepsAt (uiOverlay y minX W rects bars texts) k →
      KeepsAt (spritePass fastBlit y minX W visF) k →
      ∀ c, WritesAt (spritePass fastBlit y minX W visW) k c →
        composeLayers fastBlit st y minX W visW visF rects bars texts bgLine k = c) ∧
    (KeepsAt (uiOverlay y minX W rects bars texts) k →
      KeepsAt (spritePass fastBlit y minX W visF) k →
      KeepsAt (spritePass fastBlit y minX W visW) k →
        composeLayers fastBlit st y minX W visW visF rects bars texts bgLine k =
          applyShimmerLine st y minX W bgLine k) ∧
    (∀ s ∈ visF, (∃ c, WritesAt (fun buf => spriteLine fastBlit y minX W buf s) k c) →
      ∃ c, WritesAt (spritePass fastBlit y minX W visF) k c) ∧
    (∀ s ∈ visW, (∃ c, WritesAt (fun buf => spriteLine fastBlit y minX W buf s) k c) →
      ∃ c, WritesAt (spritePass fastBlit y minX W visW) k c) ∧
    (∀ r ∈ rects, (∃ c, WritesAt (fun buf => fillLine y minX W buf r) k c) →
      ∃ c, WritesAt (uiOverlay y minX W rects bars texts) k c) ∧
    (∀ r ∈ rects, (∃ c, WritesAt (fun buf => outlineLine y minX W buf r) k c) →
      ∃ c, WritesAt (uiOverlay y minX W rects bars texts) k c) ∧
    (∀ hb ∈ bars, (∃ c, WritesAt (fun buf => barLine y minX W buf hb) k c) →
      ∃ c, WritesAt (uiOverlay y minX W rects bars texts) k c) ∧
    (∀ tx ∈ texts, (∃ c, WritesAt (fun buf => textLine y minX W buf tx) k c) →
      ∃ c, WritesAt (uiOverlay y minX W rects bars texts) k c) ∧
    (∀ (pre post : List Sprite) (s : Sprite) (c : Int),
      (∀ t ∈ post, KeepsAt (fun buf => spriteLine fastBlit y minX W buf t) k) →
      WritesAt (fun buf => spriteLine fastBlit y minX W buf s) k c →
      WritesAt (spritePass fastBlit y minX W (pre ++ s :: post)) k c) := by
  refine ⟨⟨spritePass_overwrites fastBlit y minX W visW,
    spritePass_overwrites fastBlit y minX W visF, uiOverlay_overwrites y minX W rects bars texts⟩,
    ?_, ?_, ?_, ?_, ?_, ?_, ?_, ?_, ?_, ?_, ?_⟩
  · intro c hU
    exact hU _
  · intro hU c hF
    exact (hU _).trans (hF _)
  · intro hU hF c hW
    exact (hU _).trans ((hF _).trans (hW _))
  · intro hU hF hW
    exact (hU _).trans ((hF _).trans (hW _))
  · intro s hs hw
    exact foldl_writes_of_mem (spriteLine fastBlit y minX W) visF
      (fun t _ => spriteLine_overwrites fastBlit y minX W t) k s hs hw
  · intro s hs hw
    exact foldl_writes_of_mem (spriteLine fastBlit y minX W) visW
      (fun t _ => spriteLine_overwrites fastBlit y minX W t) k s hs hw
  · intro r hr hw
    exact uiOverlay_writes_of_fills y minX W rects bars texts k
      (foldl_writes_of_mem (fillLine y minX W) rects
        (fun t _ => fillLine_overwrites y minX W t) k r hr hw)
  · intro r hr hw
    exact uiOverlay_writes_of_outlines y minX W rects bars texts k
      (foldl_writes_of_mem (outlineLine y minX W) rects
        (fun t _ => outlineLine_overwrites y minX W t) k r hr hw)
  · intro hb hh hw
    exact uiOverlay_writes_of_bars y minX W rects bars texts k
      (foldl_writes_of_mem (barLine y minX W) bars
        (fun t _ => barLine_overwrites y minX W t) k hb hh hw)
  · intro tx ht hw
    exact uiOverlay_writes_of_texts y minX W rects bars texts k
      (foldl_writes_of_mem (textLine y minX W) texts
        (fun t _ => textLine_overwrites y minX W t) k tx ht hw)
  · intro pre post s c hpost hs
    exact foldl_writesAt (spriteLine fastBlit y minX W) pre post s k c hs hpost

set_option maxRecDepth 100000 in
/-- Witness for C14: a world sprite of depth 9 (colour 101), a foreground sprite of depth 0
(colour 201) and a solid rectangle over columns 4..7 (colour 7), row 0: column 0 shows the
foreground sprite, column 4 the rectangle. -/
theorem layers_paint_in_fixed_order_witness :
    composeLayers true Statics.initial 0 0 8 [demoSprite 100 9] [demoSprite 200 0]
      [{ rx := 4, ry := 0, rw := 4, rh := 8, color565 := 7, z := 0, isOutline := false }] [] []
      (fun _ => 0) 0 = 201 ∧
    composeLayers true Statics.initial 0 0 8 [demoSprite 100 9] [demoSprite 200 0]
      [{ rx := 4, ry := 0, rw := 4, rh := 8, color565 := 7, z := 0, isOutline := false }] [] []
      (fun _ => 0) 4 = 7 :=
  ⟨(layers_paint_in_fixed_order true Statics.initial 0 0 8 [demoSprite 100 9]
      [demoSprite 200 0]
      [{ rx := 4, ry := 0, rw := 4, rh := 8, color565 := 7, z := 0, isOutline := false }] [] []
      (fun _ => 0) 0).2.2.1
      (keepsAt_of_eval _ (uiOverlay_overwrites 0 0 8 _ [] []) 0 (fun _ => 0) (fun _ => 1)
        (by decide))
      201
      (writesAt_of_eval _ (spritePass_overwrites true 0 0 8 _) 0 201 (fun _ => 0) (by decide)
        (by decide)),
    (layers_paint_in_fixed_order true Statics.initial 0 0 8 [demoSprite 100 9]
      [demoSprite 200 0]
      [{ rx := 4, ry := 0, rw := 4, rh := 8, color565 := 7, z := 0, isOutline := false }] [] []
      (fun _ => 0) 4).2.1 7
      (writesAt_of_eval _ (uiOverlay_overwrites 0 0 8 _ [] []) 4 7 (fun _ => 0) (by decide)
        (by decide))⟩

/-! ## Claim C15 -/

/-- C15: inside the UI overlay the categories paint in the fixed order fills, outlines,
bars, text, and at every column `k` the latest category that writes there determines the
colour, whatever the `z` of the items: each category pass either stores a colour of its
own at `k` or leaves `k` alone; if the text pass writes its colour is final, otherwise the
bar pass decides, otherwise the outline pass, otherwise the fill pass, otherwise the line
is unchanged.  A column written by any item of a category is written by that category's
pass, and inside one category the last writer in queue order (the `z` order) wins. -/
theorem ui_categories_paint_in_fixed_order (y minX W : Int) (rects : List Rect)
    (bars : List HBar) (texts : List Text) (buf : LineBuf) (k : Int) :
    (Overwrites (fillsPass y minX W rects) ∧ Overwrites (outlinesPass y minX W rects) ∧
      Overwrites (barsPass y minX W bars) ∧ Overwrites (textsPass y minX W texts)) ∧
    (∀ c, WritesAt (textsPass y minX W texts) k c →
      uiOverlay y minX W rects bars texts buf k = c) ∧
    (KeepsAt (textsPass y minX W texts) k →
      ∀ c, WritesAt (barsPass y minX W bars) k c →
        uiOverlay y minX W rects bars texts buf k = c) ∧
    (KeepsAt (textsPass y minX W texts) k → KeepsAt (barsPass y minX W bars) k →
      ∀ c, WritesAt (outlinesPass y minX W rects) k c →
        uiOverlay y minX W rects bars texts buf k = c) ∧
    (KeepsAt (textsPass y minX W texts) k → KeepsAt (barsPass y minX W bars) k →
      KeepsAt (outlinesPass y minX W rects) k →
      ∀ c, WritesAt (fillsPass y minX W rects) k c →
        uiOverlay y minX W rects bars texts buf k = c) ∧
    (KeepsAt (textsPass y minX W texts) k → KeepsAt (barsPass y minX W bars) k →
      KeepsAt (outlinesPass y minX W rects) k → KeepsAt (fillsPass y minX W rects) k →
        uiOverlay y minX W rects bars texts buf k = buf k) ∧
    (∀ r ∈ rects, (∃ c, WritesAt (fun b => fillLine y minX W b r) k c) →
      ∃ c, WritesAt (fillsPass y minX W rects) k c) ∧
    (∀ r ∈ rects, (∃ c, WritesAt (fun b => outlineLine y minX W b r) k c) →
      ∃ c, WritesAt (outlinesPass y minX W rects) k c) ∧
    (∀ hb ∈ bars, (∃ c, WritesAt (fun b => barLine y minX W b hb) k c) →
      ∃ c, WritesAt (barsPass y minX W bars) k c) ∧
    (∀ tx ∈ texts, (∃ c, WritesAt (fun b => textLine y minX W b tx) k c) →
      ∃ c, WritesAt (textsPass y minX W texts) k c) ∧
    (∀ (pre post : List Rect) (r : Rect) (c : Int),
      (∀ t ∈ post, KeepsAt (fun b => fillLine y minX W b t) k) →
      WritesAt (fun b => fillLine y minX W b r) k c →
      WritesAt (fillsPass y minX W (pre ++ r :: post)) k c) ∧
    (∀ (pre post : List Rect) (r : Rect) (c : Int),
      (∀ t ∈ post, KeepsAt (fun b => outlineLine y minX W b t) k) →
      WritesAt (fun b => outlineLine y minX W b r) k c →
      WritesAt (outlinesPass y minX W (pre ++ r :: post)) k c) ∧
    (∀ (pre post : List HBar) (hb : HBar) (c : Int),
      (∀ t ∈ post, KeepsAt (fun b => barLine y minX W b t) k) →
      WritesAt (fun b => barLine y minX W b hb) k c →
      WritesAt (barsPass y minX W (pre ++ hb :: post)) k c) ∧
    (∀ (pre post : List Text) (tx : Text) (c : Int),
      (∀ t ∈ post, KeepsAt (fun b => textLine y minX W b t) k) →
      WritesAt (fun b => textLine y minX W b tx) k c →
      WritesAt (textsPass y minX W (pre ++ tx :: post)) k c) := by
  refine ⟨⟨fillsPass_overwrites y minX W rects, outlinesPass_overwrites y minX W rects,
    barsPass_overwrites y minX W bars, textsPass_overwrites y minX W texts⟩,
    ?_, ?_, ?_, ?_, ?_, ?_, ?_, ?_, ?_, ?_, ?_, ?_, ?_⟩
  · intro c hT
    exact hT _
  · intro hT c hB
    exact (hT _).trans (hB _)
  · intro hT hB c hO
    exact (hT _).trans ((hB _).trans (hO _))
  · intro hT hB hO c hF
    exact (hT _).trans ((hB _).trans ((hO _).trans (hF _)))
  · intro hT hB hO hF
    exact (hT _).trans ((hB _).trans ((hO _).trans (hF _)))
  · intro r hr hw
    exact foldl_writes_of_mem (fillLine y minX W) rects
      (fun t _ => fillLine_overwrites y minX W t) k r hr hw
  · intro r hr hw
    exact foldl_writes_of_mem (outlineLine y minX W) rects
      (fun t _ => outlineLine_overwrites y minX W t) k r hr hw
  · intro hb hh hw
    exact foldl_writes_of_mem (barLine y minX W) bars
      (fun t _ => barLine_overwrites y minX W t) k hb hh hw
  · intro tx ht hw
    exact foldl_writes_of_mem (textLine y minX W) texts
      (fun t _ => textLine_overwrites y minX W t) k tx ht hw
  · intro pre post r c hpost hr
    exact foldl_writesAt (fillLine y minX W) pre post r k c hr hpost
  · intro pre post r c hpost hr
    exact foldl_writesAt (outlineLine y minX W) pre post r k c hr hpost
  · intro pre post hb c hpost hh
    exact foldl_writesAt (barLine y minX W) pre post hb k c hh hpost
  · intro pre post tx c hpost ht
    exact foldl_writesAt (textLine y minX W) pre post tx k c ht hpost

set_option maxRecDepth 100000 in
/-- Witness for C15: on row 0 the outline of depth 1 covers the solid fill of depth 5 at
column 0 (the queue is sorted by `zSort`), and the text "!" of depth 0 covers the bar of
depth 9 at column 2. -/
theorem ui_categories_paint_in_fixed_order_witness :
    uiOverlay 0 0 8 (zSort Rect.z [demoFill, demoOutline]) [] [] (fun _ => 0) 0 = 9 ∧
    uiOverlay 0 0 8 [] [demoBar] [demoText] (fun _ => 0) 2 = 5 :=
  ⟨(ui_categories_paint_in_fixed_order 0 0 8 (zSort Rect.z [demoFill, demoOutline]) [] []
      (fun _ => 0) 0).2.2.2.1 (fun _ => rfl) (fun _ => rfl) 9
      (writesAt_of_eval _ (outlinesPass_overwrites 0 0 8 _) 0 9 (fun _ => 0) (by decide)
        (by decide)),
    (ui_categories_paint_in_fixed_order 0 0 8 [] [demoBar] [demoText] (fun _ => 0) 2).2.1 5
      (writesAt_of_eval _ (textsPass_overwrites 0 0 8 _) 2 5 (fun _ => 0) (by decide)
        (by decide))⟩

/-! ## Claim C16 -/

/-- C16: after `beginFrame` and any sequence of enqueue calls (`addSprite`, `addSpriteFG`,
`addSolid`, `addOutline`, `addHBar`, `addText`, `addTextOpaque`) no queue holds more than
its capacity (16 world sprites, 2 foreground sprites, 16 rectangles, 4 bars, 8 texts), and
a further call made on a full queue returns the renderer unchanged: that queue and every
other queue are as before. -/
theorem enqueue_stays_within_capacity (r : Renderer) (cs : List EnqueueCall) :
    ((r.beginFrame.enqueueAll cs).spr.length ≤ 16 ∧
      (r.beginFrame.enqueueAll cs).fg.length ≤ 2 ∧
      (r.beginFrame.enqueueAll cs).rec_.length ≤ 16 ∧
      (r.beginFrame.enqueueAll cs).bar.length ≤ 4 ∧
      (r.beginFrame.enqueueAll cs).txt.length ≤ 8) ∧
    ∀ c : EnqueueCall, c.queueFull (r.beginFrame.enqueueAll cs) →
      (r.beginFrame.enqueueAll cs).enqueue c = r.beginFrame.enqueueAll cs := by
  have h0 : r.beginFrame.withinCapacity := by
    simp only [Renderer.withinCapacity, Renderer.beginFrame, Renderer.clearQueues,
      List.length_nil, Nat.zero_le, and_self]
  exact ⟨enqueueAll_withinCapacity cs r.beginFrame h0,
    fun c hc => enqueue_full_unchanged _ c hc⟩

/-! ## Claim C17 -/

/-- C17: after `renderFrame`, on the early skip as well as after painting, the five draw
queues are empty, there is no world and no UI dirty box, and the foreground flag is
unset. -/
theorem renderFrame_clears_frame_state (env : FrameEnv) (r : Renderer) (st : Statics) :
    (renderFrame env r st).renderer.spr.length = 0 ∧
    (renderFrame env r st).renderer.fg.length = 0 ∧
    (renderFrame env r st).renderer.rec_.length = 0 ∧
    (renderFrame env r st).renderer.bar.length = 0 ∧
    (renderFrame env r st).renderer.txt.length = 0 ∧
    (renderFrame env r st).renderer.wbox.length = 0 ∧
    (renderFrame env r st).renderer.ui.length = 0 ∧
    (renderFrame env r st).renderer.fgNeedsFullPass = false := by
  unfold renderFrame
  by_cases hearly : r.fgNeedsFullPass = false ∧ r.wbox.length = 0 ∧ r.ui.length = 0
  · rw [if_pos hearly]
    obtain ⟨h1, h2, h3⟩ := hearly
    simp only [Renderer.clearQueues, List.length_nil, h1, h2, h3, and_self]
  · rw [if_neg hearly]
    simp only [Renderer.clearQueues, Renderer.clearDirty, List.length_nil, and_self]

/-! ## Claim C18 -/

/-- C18: for a palette whose entry 0 differs from the entries 1..15, the index-0 blit and
the colour-key blit called with `key565 = palette[0]` produce the same line buffer, for
every sprite, position, flip flag, row and window; this holds for the plain functions and
for the `_AVR_P` functions the default build substitutes for them. -/
theorem index0_and_colour_key_agree (data : Int → Int) (w h vx vy : Int) (pal : Int → Int)
    (hFlip : Bool) (y x0 wRegion : Int) (buf : LineBuf)
    (hpal : ∀ i : Int, 1 ≤ i → i ≤ 15 → pal i ≠ pal 0) :
    composeOver4bpp_P data w h vx vy pal hFlip y x0 wRegion buf =
      composeOver4bppKey_P data w h vx vy pal hFlip (pal 0) y x0 wRegion buf ∧
    composeOver4bpp_AVR_P data w h vx vy pal hFlip y x0 wRegion buf =
      composeOver4bppKey_AVR_P data w h vx vy pal hFlip (pal 0) y x0 wRegion buf := by
  have hs : ∀ ni : Int, 0 ≤ ni → ni < 16 →
      (fun ni : Int => decide (ni = 0)) ni = (fun ni : Int => decide (pal ni = pal 0)) ni := by
    intro ni h0 h16
    by_cases hz : ni = 0
    · subst hz
      simp only [decide_True]
    · have hne := hpal ni (by omega) (by omega)
      simp only [hz, hne, decide_False]
  exact ⟨composePlain_congr _ _ hs data w h vx vy pal hFlip y x0 wRegion buf,
    composeAVR_congr _ _ hs data w h vx vy pal hFlip y x0 wRegion buf⟩

/-- Witness for C18: a flipped 8x8 sprite with the palette `i ↦ 100 + i`. -/
theorem index0_and_colour_key_agree_witness :
    (∀ i : Int, 1 ≤ i → i ≤ 15 → (fun j : Int => 100 + j) i ≠ (fun j : Int => 100 + j) 0) ∧
    composeOver4bpp_P (fun _ => 18) 8 8 10 10 (fun j => 100 + j) true 10 0 20 (fun _ => 0) =
      composeOver4bppKey_P (fun _ => 18) 8 8 10 10 (fun j => 100 + j) true
        ((fun j : Int => 100 + j) 0) 10 0 20 (fun _ => 0) ∧
    composeOver4bpp_AVR_P (fun _ => 18) 8 8 10 10 (fun j => 100 + j) true 10 0 20 (fun _ => 0) =
      composeOver4bppKey_AVR_P (fun _ => 18) 8 8 10 10 (fun j => 100 + j) true
        ((fun j : Int => 100 + j) 0) 10 0 20 (fun _ => 0) :=
  have hp : ∀ i : Int, 1 ≤ i → i ≤ 15 →
      (fun j : Int => 100 + j) i ≠ (fun j : Int => 100 + j) 0 := by
    intro i h1 _
    simp only [ne_eq]
    omega
  ⟨hp, index0_and_colour_key_agree (fun _ => 18) 8 8 10 10 (fun j => 100 + j) true 10 0 20
    (fun _ => 0) hp⟩

/-! ## Claim C19 -/

set_option maxRecDepth 100000 in
/-- C19 fails: `addSprite` and `addSpriteFG` drop `key565` and key on the palette index of
the frame's top-left pixel.  (a) `keyDemoFrame` (top-left index 1, every other pixel
index 2) enqueued with the palette `i ↦ 100 + i` and `key565 = 102`: the sprite pass
leaves column 0 untouched although its colour 101 is not the key, and draws 102 = `key565`
at column 1.  (b) the same frame enqueued with `key565 = frameKey565` (= 101) and a palette
in which index 2 also resolves to 101: column 1 is drawn with the key colour.  In both
cases the colour-key reference does the opposite; the build flag makes no difference. -/
theorem enqueued_sprite_key565_ignored (fastBlit : Bool) :
    (spritePass fastBlit 0 0 8
        ((Renderer.new 320 240).addSprite keyDemoFrame 0 0 false (fun i => 100 + i) 102 0).spr
        (fun _ => 0) 0 = 0 ∧
      refBlit (.colorKey 102) keyDemoFrame.data 8 8 0 0 (fun i => 100 + i) false 0 0 8
        (fun _ => 0) 0 = 101) ∧
    (spritePass fastBlit 0 0 8
        ((Renderer.new 320 240).addSprite keyDemoFrame 0 0 false (fun i => 100 + i) 102 0).spr
        (fun _ => 0) 1 = 102 ∧
      refBlit (.colorKey 102) keyDemoFrame.data 8 8 0 0 (fun i => 100 + i) false 0 0 8
        (fun _ => 0) 1 = 0) ∧
    (frameKey565 keyDemoFrame keyDemoPalette = 101 ∧
      spritePass fastBlit 0 0 8
        ((Renderer.new 320 240).addSpriteFG keyDemoFrame 0 0 false keyDemoPalette
          (frameKey565 keyDemoFrame keyDemoPalette) 0).fg
        (fun _ => 0) 1 = 101 ∧
      refBlit (.colorKey (frameKey565 keyDemoFrame keyDemoPalette)) keyDemoFrame.data 8 8 0 0
        keyDemoPalette false 0 0 8 (fun _ => 0) 1 = 0) := by
  cases fastBlit <;> decide

/-! ## Claim C20 -/

/-- C20 (Scenario A): an 8x8 sprite at (10, 10), index-0 rule, not flipped, row `y = 10`,
window `(x0, wRegion) = (0, 20)`.  Both the plain blit and the `_AVR_P` blit of the default
build return the line in which entry `10 + sx`, for `sx` in `0..7`, holds
`palette[nibble sx of row 0]` when that nibble is non-zero, and every other entry (those
of zero nibbles, entries 0..9, 18..19 and all entries outside the window) is unchanged. -/
theorem scenarioA_row (data pal : Int → Int) (buf : LineBuf) :
    composeOver4bpp_P data 8 8 10 10 pal false 10 0 20 buf =
      (fun k => if 10 ≤ k ∧ k ≤ 17 ∧ nibbleAt data 8 0 (k - 10) ≠ 0 then
        pal (nibbleAt data 8 0 (k - 10)) else buf k) ∧
    composeOver4bpp_AVR_P data 8 8 10 10 pal false 10 0 20 buf =
      (fun k => if 10 ≤ k ∧ k ≤ 17 ∧ nibbleAt data 8 0 (k - 10) ≠ 0 then
        pal (nibbleAt data 8 0 (k - 10)) else buf k) :=
  ⟨funext (scenarioA_plain data pal buf), funext (scenarioA_avr data pal buf)⟩

/-! ## Solid fill and outline lemmas -/

theorem fillLoop_apply (color565 : Int) (n : Nat) : ∀ (dst : Int) (buf : LineBuf) (k : Int),
    fillLoop color565 n dst buf k = if dst ≤ k ∧ k < dst + n then color565 else buf k := by
  induction n with
  | zero =>
    intro dst buf k
    have : ¬ (dst ≤ k ∧ k < dst + ((0 : Nat) : Int)) := by omega
    rw [if_neg this]
    rfl
  | succ n ih =>
    intro dst buf k
    simp only [fillLoop]
    rw [ih, Function.update_apply]
    by_cases h1 : k = dst
    · subst h1
      have a : ¬ (k + 1 ≤ k ∧ k < k + 1 + (n : Int)) := by omega
      have b : k ≤ k ∧ k < k + ((n + 1 : Nat) : Int) := by push_cast; omega
      rw [if_neg a, if_pos rfl, if_pos b]
    · rw [if_neg h1]
      apply ite_cond_congr
      push_cast
      omega

theorem composeSolidRectLine_eq_ref (y x0 wRegion rx ry rw rh color565 : Int) (buf : LineBuf)
    (H : FillNoOverflow x0 wRegion rx ry rw rh) :
    composeSolidRectLine y x0 wRegion rx ry rw rh color565 buf =
      refSolidRect y x0 wRegion rx ry rw rh color565 buf := by
  obtain ⟨wr_hi, x0_lo, bottom_lo, bottom_hi, x1_lo, x1_hi, right_lo, right_hi, len_lo⟩ := H
  funext k
  unfold composeSolidRectLine refSolidRect
  have e1 : wrap16 (ry + rh) = ry + rh := wrap16_id bottom_lo bottom_hi
  have e2 : wrap16 (x0 + wRegion) = x0 + wRegion := wrap16_id x1_lo x1_hi
  have e3 : wrap16 (rx + rw) = rx + rw := wrap16_id right_lo right_hi
  simp only [e1, e2, e3]
  by_cases hrow : y < ry ∨ y ≥ ry + rh
  · rw [if_pos hrow]
    have : ¬ (0 ≤ k ∧ k < wRegion ∧ rx ≤ x0 + k ∧ x0 + k < rx + rw ∧ ry ≤ y ∧ y < ry + rh) := by
      omega
    rw [if_neg this]
  · rw [if_neg hrow]
    generalize hL : (if rx < x0 then x0 else rx) = L
    generalize hR : (if rx + rw > x0 + wRegion then x0 + wRegion else rx + rw) = R
    have hL' : L = max rx x0 := by
      rw [← hL]; split_ifs <;> omega
    have hR' : R = min (rx + rw) (x0 + wRegion) := by
      rw [← hR]; split_ifs <;> omega
    have e4 : wrap16 (R - L) = R - L := wrap16_id (by omega) (by omega)
    rw [e4]
    by_cases hlen : R - L ≤ 0
    · rw [if_pos hlen]
      have : ¬ (0 ≤ k ∧ k < wRegion ∧ rx ≤ x0 + k ∧ x0 + k < rx + rw ∧ ry ≤ y ∧ y < ry + rh) := by
        omega
      rw [if_neg this]
    · rw [if_neg hlen]
      have e5 : wrap16 (L - x0) = L - x0 := wrap16_id (by omega) (by omega)
      rw [e5, fillLoop_apply]
      apply ite_cond_congr
      have : ((R - L).toNat : Int) = R - L := Int.toNat_of_nonneg (by omega)
      rw [this]
      omega

theorem outlineRowLoop_apply (color565 x0 : Int) (n : Nat) :
    ∀ (x : Int) (buf : LineBuf) (k : Int), -32768 ≤ x - x0 → x - x0 + n ≤ 32768 →
    outlineRowLoop color565 x0 n x buf k =
      if x - x0 ≤ k ∧ k < x - x0 + n then color565 else buf k := by
  induction n with
  | zero =>
    intro x buf k _ _
    have : ¬ (x - x0 ≤ k ∧ k < x - x0 + ((0 : Nat) : Int)) := by omega
    rw [if_neg this]
    rfl
  | succ n ih =>
    intro x buf k hlo hhi
    simp only [outlineRowLoop]
    have e : wrap16 (x - x0) = x - x0 := wrap16_id hlo (by push_cast at hhi; omega)
    rw [ih (x + 1) _ k (by omega) (by push_cast at hhi; omega), e, Function.update_apply]
    by_cases h1 : k = x - x0
    · subst h1
      have a : ¬ (x + 1 - x0 ≤ x - x0 ∧ x - x0 < x + 1 - x0 + (n : Int)) := by omega
      have b : x - x0 ≤ x - x0 ∧ x - x0 < x - x0 + ((n + 1 : Nat) : Int) := by
        push_cast; omega
      rw [if_neg a, if_pos rfl, if_pos b]
    · rw [if_neg h1]
      apply ite_cond_congr
      push_cast
      omega

theorem composeRectOutlineLine_eq_ref (y x0 wRegion rx ry rw rh color565 : Int)
    (buf : LineBuf) (H : OutlineNoOverflow x0 wRegion rx ry rw rh) :
    composeRectOutlineLine y x0 wRegion rx ry rw rh color565 buf =
      refRectOutline y x0 wRegion rx ry rw rh color565 buf := by
  obtain ⟨rw_pos, rh_pos, wr_hi, x0_lo, rx_lo, ry_lo, bottom_hi, right_hi, x1_lo, x1_hi⟩ := H
  funext k
  unfold composeRectOutlineLine refRectOutline
  have e2 : wrap16 (x0 + wRegion) = x0 + wRegion := wrap16_id x1_lo x1_hi
  have e3 : wrap16 (rx + rw) = rx + rw := wrap16_id (by omega) right_hi
  have e4 : wrap16 (rx + rw - 1) = rx + rw - 1 := wrap16_id (by omega) (by omega)
  have e5 : wrap16 (ry + rh) = ry + rh := wrap16_id (by omega) bottom_hi
  have e6 : wrap16 (ry + rh - 1) = ry + rh - 1 := wrap16_id (by omega) (by omega)
  have e7 : wrap16 (rx + rw - 1 + 1) = rx + rw := by
    rw [wrap16_id (by omega) (by omega)]; omega
  simp only [e2, e3, e4, e5, e6, e7]
  by_cases hedge : y = ry ∨ y = ry + rh - 1
  · rw [if_pos hedge]
    generalize hL : (if rx < x0 then x0 else rx) = L
    generalize hR : (if rx + rw > x0 + wRegion then x0 + wRegion else rx + rw) = R
    have hL' : L = max rx x0 := by
      rw [← hL]; split_ifs <;> omega
    have hR' : R = min (rx + rw) (x0 + wRegion) := by
      rw [← hR]; split_ifs <;> omega
    by_cases hlen : R ≤ L
    · have hz : (R - L).toNat = 0 := Int.toNat_eq_zero.mpr (by omega)
      rw [hz]
      simp only [outlineRowLoop]
      have : ¬ (0 ≤ k ∧ k < wRegion ∧
          (((y = ry ∨ y = ry + rh - 1) ∧ rx ≤ x0 + k ∧ x0 + k < rx + rw) ∨
            (ry < y ∧ y < ry + rh - 1 ∧ (x0 + k = rx ∨ x0 + k = rx + rw - 1)))) := by
        omega
      rw [if_neg this]
    · have hn : ((R - L).toNat : Int) = R - L := Int.toNat_of_nonneg (by omega)
      rw [outlineRowLoop_apply _ _ _ _ _ _ (by omega) (by omega), hn]
      apply ite_cond_congr
      omega
  · rw [if_neg hedge]
    by_cases hin : y > ry ∧ y < ry + rh - 1
    · rw [if_pos hin]
      by_cases h1 : rx ≥ x0 ∧ rx < x0 + wRegion <;>
        by_cases h2 : rx + rw - 1 ≥ x0 ∧ rx + rw - 1 < x0 + wRegion
      · rw [if_pos h1, if_pos h2]
        have a1 : wrap16 (rx - x0) = rx - x0 := wrap16_id (by omega) (by omega)
        have a2 : wrap16 (rx + rw - 1 - x0) = rx + rw - 1 - x0 :=
          wrap16_id (by omega) (by omega)
        rw [a1, a2, Function.update_apply, Function.update_apply]
        split_ifs <;> first | rfl | omega
      · rw [if_pos h1, if_neg h2]
        have a1 : wrap16 (rx - x0) = rx - x0 := wrap16_id (by omega) (by omega)
        rw [a1, Function.update_apply]
        split_ifs <;> first | rfl | omega
      · rw [if_neg h1, if_pos h2]
        have a2 : wrap16 (rx + rw - 1 - x0) = rx + rw - 1 - x0 :=
          wrap16_id (by omega) (by omega)
        rw [a2, Function.update_apply]
        split_ifs <;> first | rfl | omega
      · rw [if_neg h1, if_neg h2]
        split_ifs <;> first | rfl | omega
    · rw [if_neg hin]
      have : ¬ (0 ≤ k ∧ k < wRegion ∧
          (((y = ry ∨ y = ry + rh - 1) ∧ rx ≤ x0 + k ∧ x0 + k < rx + rw) ∨
            (ry < y ∧ y < ry + rh - 1 ∧ (x0 + k = rx ∨ x0 + k = rx + rw - 1)))) := by
        omega
      rw [if_neg this]

/-! ## Palette cache lemmas -/

theorem findPalette_none (cache : List PalEntry) (p : Int) :
    findPalette cache p = none ↔ p ∉ cache.map PalEntry.src := by
  induction cache with
  | nil => simp [findPalette]
  | cons e es ih =>
    unfold findPalette
    by_cases h : e.src = p
    · simp [h]
    · rw [if_neg h]
      simp only [Option.map_eq_none', ih, List.map_cons, List.mem_cons, not_or]
      constructor
      · intro h2
        exact ⟨fun h3 => h h3.symm, h2⟩
      · intro h2
        exact h2.2

theorem findPalette_some (cache : List PalEntry) (p : Int) (i : Nat) (h : findPalette cache p = some i) :
    ∃ e, cache[i]? = some e ∧ e.src = p := by
  induction cache generalizing i with
  | nil => simp [findPalette] at h
  | cons e es ih =>
    unfold findPalette at h
    by_cases hs : e.src = p
    · rw [if_pos hs] at h
      cases h
      exact ⟨e, by simp, hs⟩
    · rw [if_neg hs] at h
      cases hf : findPalette es p with
      | none => rw [hf] at h; cases h
      | some j =>
        rw [hf] at h
        cases h
        obtain ⟨e', he', hp⟩ := ih j hf
        exact ⟨e', by simpa using he', hp⟩

theorem set_last_eq (cache : List PalEntry) (e : PalEntry) (hlen : cache.length = 16) :
    cache.set 15 e = cache.take 15 ++ [e] := by
  apply List.ext_getElem?
  intro i
  by_cases hi : i = 15
  · subst hi
    rw [List.getElem?_set_self (by omega)]
    rw [List.getElem?_append_right (by simp [hlen])]
    simp [hlen]
  · rw [List.getElem?_set_ne (by omega)]
    by_cases hlt : i < 15
    · rw [List.getElem?_append_left (by simp [hlen]; omega), List.getElem?_take_of_lt hlt]
    · rw [List.getElem?_eq_none (by omega), List.getElem?_eq_none (by simp [hlen]; omega)]


theorem palCache_append_ok (progmem : Int → Int) (l : List PalEntry) (p : Int)
    (hn : (l.map PalEntry.src).Nodup) (hr : ∀ e ∈ l, e.ram = readPalette progmem e.src)
    (hp : p ∉ l.map PalEntry.src) :
    ((l ++ [(PalEntry.mk p (readPalette progmem p))]).map PalEntry.src).Nodup ∧
      ∀ e ∈ l ++ [(PalEntry.mk p (readPalette progmem p))],
        e.ram = readPalette progmem e.src := by
  constructor
  · rw [List.map_append, List.map_singleton]
    exact List.Nodup.append hn (List.nodup_singleton p)
      (by
        intro a ha hb
        rw [List.mem_singleton] at hb
        subst hb
        exact hp ha)
  · intro e he
    rcases List.mem_append.mp he with h1 | h1
    · exact hr e h1
    · rw [List.mem_singleton] at h1
      subst h1
      rfl

theorem ensurePaletteRAM_ok (progmem : Int → Int) (cache : List PalEntry) (p : Int)
    (h : PalCacheOk progmem cache) : PalCacheOk progmem (ensurePaletteRAM progmem cache p).2 := by
  obtain ⟨hlen, hn, hr⟩ := h
  unfold ensurePaletteRAM
  cases hf : findPalette cache p with
  | some i => exact ⟨hlen, hn, hr⟩
  | none =>
    have hp : p ∉ cache.map PalEntry.src := (findPalette_none cache p).mp hf
    simp only []
    by_cases hl : cache.length < MAX_PAL
    · rw [if_pos hl]
      obtain ⟨a, b⟩ := palCache_append_ok progmem cache p hn hr hp
      refine ⟨?_, a, b⟩
      rw [List.length_append, List.length_singleton]
      omega
    · rw [if_neg hl]
      have hl16 : cache.length = 16 := by
        unfold MAX_PAL at hl hlen
        omega
      have hset : cache.set (MAX_PAL - 1) (PalEntry.mk p (readPalette progmem p)) =
          cache.take 15 ++ [(PalEntry.mk p (readPalette progmem p))] :=
        set_last_eq cache _ hl16
      rw [hset]
      have hsub : (cache.take 15).Sublist cache := List.take_sublist 15 cache
      obtain ⟨a, b⟩ := palCache_append_ok progmem (cache.take 15) p
        (hn.sublist (hsub.map PalEntry.src)) (fun e he => hr e (hsub.subset he))
        (fun hc => hp ((hsub.map PalEntry.src).subset hc))
      refine ⟨?_, a, b⟩
      rw [List.length_append, List.length_singleton, List.length_take, hl16]
      decide

theorem ensurePalettes_ok (progmem : Int → Int) (srcs : List Int) :
    ∀ cache : List PalEntry, PalCacheOk progmem cache →
      PalCacheOk progmem (ensurePalettes progmem cache srcs) := by
  induction srcs with
  | nil => intro cache h; exact h
  | cons p ps ih =>
    intro cache h
    exact ih _ (ensurePaletteRAM_ok progmem cache p h)

theorem ensurePaletteRAM_block (progmem : Int → Int) (cache : List PalEntry) (p : Int)
    (hr : ∀ e ∈ cache, e.ram = readPalette progmem e.src) (hlen : cache.length ≤ 16) :
    (ensurePaletteRAM progmem cache p).2[(ensurePaletteRAM progmem cache p).1]? =
      some (PalEntry.mk p (readPalette progmem p)) := by
  unfold ensurePaletteRAM
  cases hf : findPalette cache p with
  | some i =>
    obtain ⟨e, he, hp⟩ := findPalette_some cache p i hf
    simp only []
    rw [he]
    have hre := hr e (List.getElem?_mem he)
    cases e
    simp only at hp hre
    subst hp
    subst hre
    rfl
  | none =>
    simp only []
    by_cases hl : cache.length < MAX_PAL
    · rw [if_pos hl]
      simp
    · rw [if_neg hl]
      have hl16 : cache.length = 16 := by
        unfold MAX_PAL at hl
        omega
      simp only [MAX_PAL]
      rw [List.getElem?_set_self (by omega)]

theorem findPalette_of_block (p : Int) (ram : List Int) (cache : List PalEntry) :
    ∀ i : Nat, cache[i]? = some (PalEntry.mk p ram) → (cache.map PalEntry.src).Nodup →
      findPalette cache p = some i := by
  induction cache with
  | nil => intro i h; simp at h
  | cons e es ih =>
    intro i h hnd
    rw [List.map_cons, List.nodup_cons] at hnd
    unfold findPalette
    cases i with
    | zero =>
      simp only [List.getElem?_cons_zero, Option.some.injEq] at h
      subst h
      simp
    | succ j =>
      simp only [List.getElem?_cons_succ] at h
      have hmem : p ∈ es.map PalEntry.src :=
        List.mem_map.mpr ⟨_, List.getElem?_mem h, rfl⟩
      have hne : e.src ≠ p := fun hh => hnd.1 (hh ▸ hmem)
      rw [if_neg hne, ih j h hnd.2]
      rfl

/-! ## Trace lemmas -/

theorem bgStep_first (bg : Background) (bgPal : Int → Int) (y minX W : Int) (rs : RowState) :
    (bgStep bg bgPal y minX W rs).first = rs.first := by
  unfold bgStep
  simp only []
  split_ifs <;> rfl

theorem paintRow_first (fastBlit : Bool) (bg : Background) (bgPal : Int → Int) (st : Statics)
    (minX W : Int) (visW visF : List Sprite) (rects : List Rect) (bars : List HBar)
    (texts : List Text) (y : Int) (rs : RowState) :
    (paintRow fastBlit bg bgPal st minX W visW visF rects bars texts y rs).first = false := rfl

theorem rowLoop_first (fastBlit : Bool) (bg : Background) (bgPal : Int → Int) (st : Statics)
    (minX W : Int) (visW visF : List Sprite) (rects : List Rect) (bars : List HBar)
    (texts : List Text) (n : Nat) : ∀ (y : Int) (rs : RowState),
    (rowLoop fastBlit bg bgPal st minX W visW visF rects bars texts n y rs).first =
      (decide (n = 0) && rs.first) := by
  induction n with
  | zero => intro y rs; simp [rowLoop]
  | succ n ih =>
    intro y rs
    simp only [rowLoop]
    rw [ih, paintRow_first]
    simp

theorem rowLoop_mid (fastBlit : Bool) (bg : Background) (bgPal : Int → Int) (st : Statics)
    (minX W : Int) (visW visF : List Sprite) (rects : List Rect) (bars : List HBar)
    (texts : List Text) (n : Nat) : ∀ (y : Int) (rs : RowState),
    ∃ mid, (rowLoop fastBlit bg bgPal st minX W visW visF rects bars texts n y rs).trace =
        rs.trace ++ mid ∧ ∀ c ∈ mid, (c.isSetAddrWindow || c.isPushColors) = true := by
  induction n with
  | zero =>
    intro y rs
    exact ⟨[], by simp [rowLoop], fun c hc => absurd hc (List.not_mem_nil c)⟩
  | succ n ih =>
    intro y rs
    obtain ⟨mid, hmid, hall⟩ := ih (y + 1)
      (paintRow fastBlit bg bgPal st minX W visW visF rects bars texts y rs)
    simp only [rowLoop]
    rw [hmid]
    refine ⟨pushLinePhysicalNoAddr W rs.first
      (paintRow fastBlit bg bgPal st minX W visW visF rects bars texts y rs).s_back ++ mid, ?_, ?_⟩
    · rw [← List.append_assoc]
      congr 1
      unfold paintRow
      simp only [bgStep_trace, bgStep_first]
    · intro c hc
      rcases List.mem_append.mp hc with h1 | h1
      · unfold pushLinePhysicalNoAddr at h1
        split_ifs at h1
        · cases h1
        · rw [List.mem_singleton] at h1
          subst h1
          rfl
      · exact hall c h1

theorem paintBox_mid (fastBlit : Bool) (bg : Background) (bgPal : Int → Int) (st : Statics)
    (q : Queues) (acc : LineBuf × LineBuf × List DisplayCall) (b : Box) :
    ∃ mid, (paintBox fastBlit bg bgPal st q acc b).2.2 = acc.2.2 ++ mid ∧
      ∀ c ∈ mid, (c.isSetAddrWindow || c.isPushColors) = true := by
  unfold paintBox
  by_cases hv : b.valid = false
  · rw [if_pos hv]
    exact ⟨[], by simp, fun c hc => absurd hc (List.not_mem_nil c)⟩
  · rw [if_neg hv]
    simp only []
    by_cases hW : wrap16 (b.maxX - b.minX) ≤ 0
    · rw [if_pos hW]
      exact ⟨[], by simp, fun c hc => absurd hc (List.not_mem_nil c)⟩
    · rw [if_neg hW]
      obtain ⟨mid, hmid, hall⟩ := rowLoop_mid fastBlit bg bgPal st b.minX
        (wrap16 (b.maxX - b.minX))
        (visibleSprites MAX_SPR b (wrap16 (b.maxX - b.minX)) q.spr)
        (visibleSprites MAX_FG b (wrap16 (b.maxX - b.minX)) q.fg) q.rec_ q.bar q.txt
        (b.maxY - b.minY).toNat b.minY
        { s_back := acc.1, bgLineCache := acc.2.1, lastSrcY := -1, bgCachedValid := false,
          first := true,
          trace := acc.2.2 ++
            [DisplayCall.setAddrWindow b.minX b.minY (wrap16 (b.maxX - 1))
              (wrap16 (b.maxY - 1))] }
      rw [hmid]
      refine ⟨DisplayCall.setAddrWindow b.minX b.minY (wrap16 (b.maxX - 1))
        (wrap16 (b.maxY - 1)) :: mid, by simp, ?_⟩
      intro c hc
      rcases List.mem_cons.mp hc with h1 | h1
      · subst h1
        rfl
      · exact hall c h1

theorem paintBoxes_mid (fastBlit : Bool) (bg : Background) (bgPal : Int → Int)
    (st : Statics) (q : Queues) (boxes : List Box) :
    ∀ acc : LineBuf × LineBuf × List DisplayCall,
    ∃ mid, (boxes.foldl (paintBox fastBlit bg bgPal st q) acc).2.2 = acc.2.2 ++ mid ∧
      ∀ c ∈ mid, (c.isSetAddrWindow || c.isPushColors) = true := by
  induction boxes with
  | nil =>
    intro acc
    exact ⟨[], by simp, fun c hc => absurd hc (List.not_mem_nil c)⟩
  | cons b bs ih =>
    intro acc
    obtain ⟨m1, h1, a1⟩ := paintBox_mid fastBlit bg bgPal st q acc b
    obtain ⟨m2, h2, a2⟩ := ih (paintBox fastBlit bg bgPal st q acc b)
    refine ⟨m1 ++ m2, ?_, ?_⟩
    · rw [List.foldl_cons, h2, h1, List.append_assoc]
    · intro c hc
      rcases List.mem_append.mp hc with h | h
      · exact a1 c h
      · exact a2 c h

theorem renderFrame_bracket (env : FrameEnv) (r : Renderer) (st : Statics)
    (hpaint : ¬ (r.fgNeedsFullPass = false ∧ r.wbox.length = 0 ∧ r.ui.length = 0)) :
    ∃ mid, (renderFrame env r st).trace = DisplayCall.startWrite :: mid ++
        [DisplayCall.endWrite] ∧
      ∀ c ∈ mid, (c.isSetAddrWindow || c.isPushColors) = true := by
  unfold renderFrame
  rw [if_neg hpaint]
  simp only []
  obtain ⟨mid, hmid, hall⟩ := paintBoxes_mid env.fastBlit env.bg
    (match r.bgPalRam with
      | some p => p
      | none => getBgPaletteRAM env.bg)
    (maybeUpdateShimmer r.screenW r.screenH
      (match r.bgPalRam with
        | some p => p
        | none => getBgPaletteRAM env.bg) env.now st)
    { spr := zSort Sprite.z r.spr, fg := zSort Sprite.z r.fg, rec_ := zSort Rect.z r.rec_,
      bar := zSort HBar.z r.bar, txt := zSort Text.z r.txt }
    (reRound (mergedBoxes r.screenW r.screenH r.fgNeedsFullPass (zSort Sprite.z r.fg)
      { wbox := r.wbox, ui := r.ui }))
    ((maybeUpdateShimmer r.screenW r.screenH
      (match r.bgPalRam with
        | some p => p
        | none => getBgPaletteRAM env.bg) env.now st).s_back,
      (maybeUpdateShimmer r.screenW r.screenH
      (match r.bgPalRam with
        | some p => p
        | none => getBgPaletteRAM env.bg) env.now st).bgLineCache,
      [DisplayCall.startWrite])
  exact ⟨mid, congrArg (fun t => t ++ [DisplayCall.endWrite]) hmid, hall⟩

theorem filter_mid_none (p : DisplayCall → Bool) (mid : List DisplayCall)
    (hall : ∀ c ∈ mid, (c.isSetAddrWindow || c.isPushColors) = true)
    (hp : ∀ c, (c.isSetAddrWindow || c.isPushColors) = true → p c = false) :
    mid.filter p = [] := by
  rw [List.filter_eq_nil_iff]
  intro c hc
  rw [hp c (hall c hc)]
  exact Bool.false_ne_true

theorem one_transaction_helper (env : FrameEnv) (r : Renderer) (st : Statics)
    (hk : paintedBoxes r.screenW r.screenH r.fgNeedsFullPass (zSort Sprite.z r.fg)
      { wbox := r.wbox, ui := r.ui } ≠ []) :
    ∃ mid, (renderFrame env r st).trace = DisplayCall.startWrite :: mid ++
        [DisplayCall.endWrite] ∧
      (∀ c ∈ mid, c.isSetAddrWindow = true ∨ c.isPushColors = true) ∧
      mid.filter DisplayCall.isSetAddrWindow =
        (paintedBoxes r.screenW r.screenH r.fgNeedsFullPass (zSort Sprite.z r.fg)
          { wbox := r.wbox, ui := r.ui }).map Box.window ∧
      (renderFrame env r st).trace.filter DisplayCall.isStartWrite = [DisplayCall.startWrite] ∧
      (renderFrame env r st).trace.filter DisplayCall.isEndWrite = [DisplayCall.endWrite] := by
  have hpaint : ¬ (r.fgNeedsFullPass = false ∧ r.wbox.length = 0 ∧ r.ui.length = 0) := by
    intro hearly
    apply hk
    unfold paintedBoxes
    rw [if_pos hearly]
  obtain ⟨mid, hmid, hall⟩ := renderFrame_bracket env r st hpaint
  have hwin := renderFrame_windows env r st
  have hs : mid.filter DisplayCall.isStartWrite = [] :=
    filter_mid_none _ mid hall (fun c hc => by cases c <;> first | rfl | exact absurd hc (by decide))
  have he : mid.filter DisplayCall.isEndWrite = [] :=
    filter_mid_none _ mid hall (fun c hc => by cases c <;> first | rfl | exact absurd hc (by decide))
  refine ⟨mid, hmid, ?_, ?_, ?_, ?_⟩
  · intro c hc
    have := hall c hc
    rw [Bool.or_eq_true] at this
    exact this
  · rw [hmid] at hwin
    rw [← hwin]
    simp [List.filter_cons, List.filter_append, DisplayCall.isSetAddrWindow]
  · rw [hmid]
    simp [List.filter_cons, List.filter_append, DisplayCall.isStartWrite, hs]
  · rw [hmid]
    simp [List.filter_cons, List.filter_append, DisplayCall.isEndWrite, he]


/-- Counterexample to C21 as stated: the window `(x0, wRegion) = (32760, 8)` and the
rectangle `(rx, ry, rw, rh) = (32760, 0, 4, 1)` on row 0.  `x1 = x0 + wRegion` wraps to
-32768, the clipped length `R - L` wraps to 8, and the code colours entries 0..7; entry 5
is outside the rectangle (`x0 + 5 = 32765 ≥ rx + rw`) and the reference leaves it alone. -/
theorem solid_fill_window_overflow_counterexample :
    composeSolidRectLine 0 32760 8 32760 0 4 1 7 (fun _ => 0) 5 = 7 ∧
    refSolidRect 0 32760 8 32760 0 4 1 7 (fun _ => 0) 5 = 0 := by
  decide

/-- C21 (amended): when the 16-bit sums and the difference the function forms are exact
(`FillNoOverflow`), `composeSolidRectLine` sets `buffer[dx]` to the colour exactly for the
`dx` with `0 ≤ dx < wRegion`, `rx ≤ x0 + dx < rx + rw` and `ry ≤ y < ry + rh`, and leaves
every other entry unchanged; in particular a rectangle of non-positive width or height,
or one clipped away by the row or the window, changes nothing. -/
theorem solid_fill_matches_reference (y x0 wRegion rx ry rw rh color565 : Int)
    (buf : LineBuf) (H : FillNoOverflow x0 wRegion rx ry rw rh) :
    composeSolidRectLine y x0 wRegion rx ry rw rh color565 buf =
      refSolidRect y x0 wRegion rx ry rw rh color565 buf ∧
    ((rw ≤ 0 ∨ rh ≤ 0 ∨ y < ry ∨ ry + rh ≤ y ∨ wRegion ≤ 0 ∨ rx + rw ≤ x0 ∨
        x0 + wRegion ≤ rx) →
      composeSolidRectLine y x0 wRegion rx ry rw rh color565 buf = buf) := by
  have h := composeSolidRectLine_eq_ref y x0 wRegion rx ry rw rh color565 buf H
  refine ⟨h, fun hd => ?_⟩
  rw [h]
  funext k
  unfold refSolidRect
  have hn : ¬ (0 ≤ k ∧ k < wRegion ∧ rx ≤ x0 + k ∧ x0 + k < rx + rw ∧ ry ≤ y ∧ y < ry + rh) := by
    omega
  rw [if_neg hn]

/-- Witness for C21: the rectangle `(5, 10, 6, 3)` on row 11 in the window `(0, 20)`. -/
theorem solid_fill_matches_reference_witness :
    FillNoOverflow 0 20 5 10 6 3 ∧
    composeSolidRectLine 11 0 20 5 10 6 3 7 (fun _ => 0) =
      refSolidRect 11 0 20 5 10 6 3 7 (fun _ => 0) ∧
    (((6 : Int) ≤ 0 ∨ (3 : Int) ≤ 0 ∨ (11 : Int) < 10 ∨ (10 : Int) + 3 ≤ 11 ∨ (20 : Int) ≤ 0 ∨
        (5 : Int) + 6 ≤ 0 ∨ (0 : Int) + 20 ≤ 5) →
      composeSolidRectLine 11 0 20 5 10 6 3 7 (fun _ => 0) = (fun _ => 0)) :=
  have H : FillNoOverflow 0 20 5 10 6 3 := by constructor <;> decide
  ⟨H, solid_fill_matches_reference 11 0 20 5 10 6 3 7 (fun _ => 0) H⟩

/-! ## Claim C22 -/

/-- Counterexample to C22 as stated: the window `(32759, 8)` and the rectangle
`(rx, ry, rw, rh) = (32766, 0, 3, 1)` on row 0.  `r = rx + rw - 1` wraps to -32768, the
loop `for (x = L; x < R; ++x)` runs from 32766 to -32767 and draws nothing; entry 7
(`x0 + 7 = rx`, on the top row of the border) stays as it was. -/
theorem outline_right_edge_overflow_counterexample :
    composeRectOutlineLine 0 32759 8 32766 0 3 1 7 (fun _ => 0) 7 = 0 ∧
    refRectOutline 0 32759 8 32766 0 3 1 7 (fun _ => 0) 7 = 7 := by
  decide

/-- C22 (amended): for a rectangle with `rw ≥ 1` and `rh ≥ 1` whose far edges and the
window's far edge fit the 16-bit range (`OutlineNoOverflow`), `composeRectOutlineLine` sets
`buffer[dx]` to the colour exactly for the `dx` in `[0, wRegion)` whose column `x0 + dx`
lies on the one-pixel border in row `y`, and leaves every other entry unchanged. -/
theorem outline_matches_reference (y x0 wRegion rx ry rw rh color565 : Int) (buf : LineBuf)
    (H : OutlineNoOverflow x0 wRegion rx ry rw rh) :
    composeRectOutlineLine y x0 wRegion rx ry rw rh color565 buf =
      refRectOutline y x0 wRegion rx ry rw rh color565 buf ∧
    ((y < ry ∨ ry + rh ≤ y) →
      composeRectOutlineLine y x0 wRegion rx ry rw rh color565 buf = buf) := by
  have h := composeRectOutlineLine_eq_ref y x0 wRegion rx ry rw rh color565 buf H
  refine ⟨h, fun hd => ?_⟩
  rw [h]
  funext k
  unfold refRectOutline
  have hn : ¬ (0 ≤ k ∧ k < wRegion ∧
      (((y = ry ∨ y = ry + rh - 1) ∧ rx ≤ x0 + k ∧ x0 + k < rx + rw) ∨
        (ry < y ∧ y < ry + rh - 1 ∧ (x0 + k = rx ∨ x0 + k = rx + rw - 1)))) := by
    have := H.rh_pos
    omega
  rw [if_neg hn]

/-- Witness for C22: the rectangle `(5, 10, 6, 3)` on its middle row 11, window
`(0, 20)`. -/
theorem outline_matches_reference_witness :
    OutlineNoOverflow 0 20 5 10 6 3 ∧
    composeRectOutlineLine 11 0 20 5 10 6 3 7 (fun _ => 0) =
      refRectOutline 11 0 20 5 10 6 3 7 (fun _ => 0) ∧
    (((11 : Int) < 10 ∨ (10 : Int) + 3 ≤ 11) →
      composeRectOutlineLine 11 0 20 5 10 6 3 7 (fun _ => 0) = (fun _ => 0)) :=
  have H : OutlineNoOverflow 0 20 5 10 6 3 := by constructor <;> decide
  ⟨H, outline_matches_reference 11 0 20 5 10 6 3 7 (fun _ => 0) H⟩

/-! ## Claim C23 -/

/-- C23: for every bar, fill width of any sign and size, colour, row and window,
`composeHBarLine` returns the line buffer `composeSolidRectLine` returns for the rectangle
`(bx, by, min(max(fillW, 0), bw), bh)`. -/
theorem hbar_is_clamped_solid_fill (y x0 wRegion bx by_ bw bh fillW color565 : Int)
    (buf : LineBuf) :
    composeHBarLine y x0 wRegion bx by_ bw bh fillW color565 buf =
      composeSolidRectLine y x0 wRegion bx by_ (min (max fillW 0) bw) bh color565 buf := by
  unfold composeHBarLine composeSolidRectLine
  have e : (if (if fillW < 0 then 0 else fillW) > bw then bw
      else if fillW < 0 then 0 else fillW) = min (max fillW 0) bw := by
    split_ifs <;> omega
  simp only [e]

/-! ## Claim C24 -/

/-- C24 fails: `composeRectOutlineLine` has no test of the extents.  Window `(0, 20)`,
rectangle at `(5, 10)`: with `rw = 0, rh = 5` the interior row 11 gets the colour at
entries 5 (`rx`) and 4 (`rx + rw - 1`); with `rw = -3` at entry 1; with `rw = 4, rh = 0`
row 10 gets the top row.  `composeSolidRectLine` leaves the line alone on the same
degenerate rectangle. -/
theorem degenerate_outline_draws :
    composeRectOutlineLine 11 0 20 5 10 0 5 7 (fun _ => 0) 5 = 7 ∧
    composeRectOutlineLine 11 0 20 5 10 0 5 7 (fun _ => 0) 4 = 7 ∧
    composeRectOutlineLine 11 0 20 5 10 (-3) 5 7 (fun _ => 0) 1 = 7 ∧
    composeRectOutlineLine 10 0 20 5 10 4 0 7 (fun _ => 0) 5 = 7 ∧
    composeSolidRectLine 11 0 20 5 10 0 5 7 (fun _ => 0) = (fun _ => 0) := by
  refine ⟨by decide, by decide, by decide, by decide, ?_⟩
  funext k
  simp [composeSolidRectLine, wrap16]

/-! ## Claim C25 -/

/-- C25: `addDirtyWorldRect` and `addDirtyRect` called with `w ≤ 0` or `h ≤ 0` return the
renderer unchanged: both dirty-box sets and every other member are as before. -/
theorem degenerate_dirty_rect_ignored (r : Renderer) (x y w h : Int) (hd : w ≤ 0 ∨ h ≤ 0) :
    r.addDirtyWorldRect x y w h = r ∧ r.addDirtyRect x y w h = r := by
  unfold Renderer.addDirtyWorldRect Renderer.addDirtyRect addWorldRect addUIRect
  rw [if_pos hd, if_pos hd]
  exact ⟨rfl, rfl⟩

/-- Witness for C25: a renderer holding two world boxes and the request `(5, 5, 0, 3)`. -/
theorem degenerate_dirty_rect_ignored_witness :
    ((0 : Int) ≤ 0 ∨ (3 : Int) ≤ 0) ∧
    twoBoxState.addDirtyWorldRect 5 5 0 3 = twoBoxState ∧
    twoBoxState.addDirtyRect 5 5 0 3 = twoBoxState :=
  ⟨Or.inl (le_refl 0), degenerate_dirty_rect_ignored twoBoxState 5 5 0 3 (Or.inl (le_refl 0))⟩

/-! ## Claim C26 -/

/-- Counterexample to C26 as stated: `y = -32768`, `vy = 32767`, so `y - vy < 0`, but
`(int16_t)(y - vy)` wraps to 1 and both the plain and the `_AVR_P` blit draw row 1 of the
8x8 sprite. -/
theorem row_difference_overflow_counterexample :
    ((-32768 : Int) - 32767 < 0) ∧
    composeOver4bppKeyIdx_P (fun _ => 17) 8 8 0 32767 (fun i => 100 + i) false 0 (-32768) 0 8
      (fun _ => 0) 0 = 101 ∧
    composeOver4bppKeyIdx_AVR_P (fun _ => 17) 8 8 0 32767 (fun i => 100 + i) false 0 (-32768)
      0 8 (fun _ => 0) 0 = 101 := by
  decide

/-- C26 (amended): for a sprite of height `h < 32768` and a row `y` whose difference
`y - vy` fits the 16-bit range and is negative or at least `h`, each of the six blits
(plain and `_AVR_P`, flipped or not) returns the line buffer unchanged, whatever the sprite
data: nothing of the data enters the result. -/
theorem row_outside_sprite_draws_nothing (data : Int → Int) (w h vx vy : Int)
    (pal : Int → Int) (hFlip : Bool) (key565 keyIndex : Int) (y x0 wRegion : Int)
    (buf : LineBuf) (h0 : 0 ≤ h) (h1 : h < 32768) (hlo : -32768 ≤ y - vy)
    (hhi : y - vy ≤ 32767) (hrow : y - vy < 0 ∨ y - vy ≥ h) :
    composeOver4bpp_P data w h vx vy pal hFlip y x0 wRegion buf = buf ∧
    composeOver4bppKey_P data w h vx vy pal hFlip key565 y x0 wRegion buf = buf ∧
    composeOver4bppKeyIdx_P data w h vx vy pal hFlip keyIndex y x0 wRegion buf = buf ∧
    composeOver4bpp_AVR_P data w h vx vy pal hFlip y x0 wRegion buf = buf ∧
    composeOver4bppKey_AVR_P data w h vx vy pal hFlip key565 y x0 wRegion buf = buf ∧
    composeOver4bppKeyIdx_AVR_P data w h vx vy pal hFlip keyIndex y x0 wRegion buf = buf := by
  have e1 : wrap16 (y - vy) = y - vy := wrap16_id hlo hhi
  have e2 : wrap16 h = h := wrap16_id (by omega) (by omega)
  have hp : ∀ skip : Int → Bool,
      composePlain skip data w h vx vy pal hFlip y x0 wRegion buf = buf := by
    intro skip
    unfold composePlain
    simp only [e1, e2]
    rw [if_pos hrow]
  have ha : ∀ skip : Int → Bool,
      composeAVR skip data w h vx vy pal hFlip y x0 wRegion buf = buf := by
    intro skip
    unfold composeAVR
    simp only [e1]
    have : u16 (y - vy) ≥ u16 h := by
      unfold u16
      omega
    rw [if_pos this]
  exact ⟨hp _, hp _, hp _, ha _, ha _, ha _⟩

/-- Witness for C26: an 8x8 sprite at `vy = 10` and the row `y = 5` above it. -/
theorem row_outside_sprite_draws_nothing_witness :
    ((0 : Int) ≤ 8 ∧ (8 : Int) < 32768 ∧ (-32768 : Int) ≤ 5 - 10 ∧ (5 : Int) - 10 ≤ 32767 ∧
      ((5 : Int) - 10 < 0 ∨ (5 : Int) - 10 ≥ 8)) ∧
    composeOver4bpp_P (fun _ => 17) 8 8 0 10 (fun i => 100 + i) true 5 0 8 (fun _ => 0) =
      (fun _ => 0) ∧
    composeOver4bppKey_P (fun _ => 17) 8 8 0 10 (fun i => 100 + i) true 100 5 0 8
      (fun _ => 0) = (fun _ => 0) ∧
    composeOver4bppKeyIdx_P (fun _ => 17) 8 8 0 10 (fun i => 100 + i) true 0 5 0 8
      (fun _ => 0) = (fun _ => 0) ∧
    composeOver4bpp_AVR_P (fun _ => 17) 8 8 0 10 (fun i => 100 + i) true 5 0 8 (fun _ => 0) =
      (fun _ => 0) ∧
    composeOver4bppKey_AVR_P (fun _ => 17) 8 8 0 10 (fun i => 100 + i) true 100 5 0 8
      (fun _ => 0) = (fun _ => 0) ∧
    composeOver4bppKeyIdx_AVR_P (fun _ => 17) 8 8 0 10 (fun i => 100 + i) true 0 5 0 8
      (fun _ => 0) = (fun _ => 0) :=
  ⟨by decide,
    row_outside_sprite_draws_nothing (fun _ => 17) 8 8 0 10 (fun i => 100 + i) true 100 0 5 0 8
      (fun _ => 0) (by decide) (by decide) (by decide) (by decide) (by decide)⟩

/-! ## Claim C27 -/

set_option maxRecDepth 100000 in
/-- Counterexample to C28 as stated: a frame with two world dirty rectangles paints two
rectangles (two `setAddrWindow` calls) inside one `startWrite` / `endWrite` pair. -/
theorem one_transaction_for_two_boxes_counterexample :
    (paintedBoxes twoBoxState.screenW twoBoxState.screenH twoBoxState.fgNeedsFullPass
      (zSort Sprite.z twoBoxState.fg)
      { wbox := twoBoxState.wbox, ui := twoBoxState.ui }).length = 2 ∧
    ((renderFrame blankEnv twoBoxState Statics.initial).trace.filter
      DisplayCall.isSetAddrWindow).length = 2 ∧
    ((renderFrame blankEnv twoBoxState Statics.initial).trace.filter
      DisplayCall.isStartWrite).length = 1 ∧
    ((renderFrame blankEnv twoBoxState Statics.initial).trace.filter
      DisplayCall.isEndWrite).length = 1 := by
  have hk : paintedBoxes twoBoxState.screenW twoBoxState.screenH twoBoxState.fgNeedsFullPass
      (zSort Sprite.z twoBoxState.fg)
      { wbox := twoBoxState.wbox, ui := twoBoxState.ui } ≠ [] := by decide
  obtain ⟨mid, hmid, _, hw, hs, he⟩ :=
    one_transaction_helper blankEnv twoBoxState Statics.initial hk
  refine ⟨by decide, ?_, ?_, ?_⟩
  · rw [renderFrame_windows, List.length_map]
    decide
  · rw [hs]
    rfl
  · rw [he]
    rfl

/-- C28 (amended): a frame that paints at least one rectangle makes all its display calls
inside one transaction: the trace is `startWrite`, then only `setAddrWindow` and
`pushColors` calls (one `setAddrWindow` per painted rectangle, in order), then `endWrite`;
there is exactly one `startWrite` and one `endWrite`, however many rectangles are painted. -/
theorem one_transaction_per_frame (env : FrameEnv) (r : Renderer) (st : Statics)
    (hk : paintedBoxes r.screenW r.screenH r.fgNeedsFullPass (zSort Sprite.z r.fg)
      { wbox := r.wbox, ui := r.ui } ≠ []) :
    ∃ mid, (renderFrame env r st).trace = DisplayCall.startWrite :: mid ++
        [DisplayCall.endWrite] ∧
      (∀ c ∈ mid, c.isSetAddrWindow = true ∨ c.isPushColors = true) ∧
      mid.filter DisplayCall.isSetAddrWindow =
        (paintedBoxes r.screenW r.screenH r.fgNeedsFullPass (zSort Sprite.z r.fg)
          { wbox := r.wbox, ui := r.ui }).map Box.window ∧
      (renderFrame env r st).trace.filter DisplayCall.isStartWrite = [DisplayCall.startWrite] ∧
      (renderFrame env r st).trace.filter DisplayCall.isEndWrite = [DisplayCall.endWrite] :=
  one_transaction_helper env r st hk

set_option maxRecDepth 100000 in
/-- Witness for C28: the frame with two world dirty rectangles. -/
theorem one_transaction_per_frame_witness :
    paintedBoxes twoBoxState.screenW twoBoxState.screenH twoBoxState.fgNeedsFullPass
      (zSort Sprite.z twoBoxState.fg)
      { wbox := twoBoxState.wbox, ui := twoBoxState.ui } ≠ [] ∧
    ∃ mid, (renderFrame blankEnv twoBoxState Statics.initial).trace =
        DisplayCall.startWrite :: mid ++ [DisplayCall.endWrite] ∧
      (∀ c ∈ mid, c.isSetAddrWindow = true ∨ c.isPushColors = true) ∧
      mid.filter DisplayCall.isSetAddrWindow =
        (paintedBoxes twoBoxState.screenW twoBoxState.screenH twoBoxState.fgNeedsFullPass
          (zSort Sprite.z twoBoxState.fg)
          { wbox := twoBoxState.wbox, ui := twoBoxState.ui }).map Box.window ∧
      (renderFrame blankEnv twoBoxState Statics.initial).trace.filter
        DisplayCall.isStartWrite = [DisplayCall.startWrite] ∧
      (renderFrame blankEnv twoBoxState Statics.initial).trace.filter
        DisplayCall.isEndWrite = [DisplayCall.endWrite] :=
  ⟨by decide, one_transaction_per_frame blankEnv twoBoxState Statics.initial (by decide)⟩

/-! ## Claim C29 -/

/-- C29: after any sequence of `ensurePaletteRAM` calls on the initially empty cache, the
cache holds at most 16 blocks, no source twice, each block with the 16 colours of its
source.  A further call with source `p` keeps all that and returns a block holding `p` and
its 16 colours; if `p` is cached the cache is unchanged; if `p` is new and the cache is
full, slot 15 is overwritten, the length stays 16 and every other slot is unchanged; if
`p` is new and there is room the block is appended; and calling again with `p` returns the
same slot and changes nothing. -/
theorem palette_cache_bounded_and_faithful (progmem : Int → Int) (srcs : List Int) (p : Int) :
    ((ensurePalettes progmem [] srcs).length ≤ 16 ∧
      (ensurePaletteRAM progmem (ensurePalettes progmem [] srcs) p).2.length ≤ 16) ∧
    PalCacheOk progmem (ensurePalettes progmem [] srcs) ∧
    PalCacheOk progmem (ensurePaletteRAM progmem (ensurePalettes progmem [] srcs) p).2 ∧
    (ensurePaletteRAM progmem (ensurePalettes progmem [] srcs) p).2[
        (ensurePaletteRAM progmem (ensurePalettes progmem [] srcs) p).1]? =
      some (PalEntry.mk p (readPalette progmem p)) ∧
    (readPalette progmem p).length = 16 ∧
    (p ∈ (ensurePalettes progmem [] srcs).map PalEntry.src →
      (ensurePaletteRAM progmem (ensurePalettes progmem [] srcs) p).2 =
        ensurePalettes progmem [] srcs) ∧
    (p ∉ (ensurePalettes progmem [] srcs).map PalEntry.src →
      (ensurePalettes progmem [] srcs).length = 16 →
      (ensurePaletteRAM progmem (ensurePalettes progmem [] srcs) p).1 = 15 ∧
      (ensurePaletteRAM progmem (ensurePalettes progmem [] srcs) p).2.length = 16 ∧
      ∀ i, i ≠ 15 → (ensurePaletteRAM progmem (ensurePalettes progmem [] srcs) p).2[i]? =
        (ensurePalettes progmem [] srcs)[i]?) ∧
    (p ∉ (ensurePalettes progmem [] srcs).map PalEntry.src →
      (ensurePalettes progmem [] srcs).length < 16 →
      (ensurePaletteRAM progmem (ensurePalettes progmem [] srcs) p).2 =
        ensurePalettes progmem [] srcs ++ [PalEntry.mk p (readPalette progmem p)]) ∧
    ensurePaletteRAM progmem (ensurePaletteRAM progmem (ensurePalettes progmem [] srcs) p).2 p =
      ensurePaletteRAM progmem (ensurePalettes progmem [] srcs) p := by
  have h0 : PalCacheOk progmem [] :=
    ⟨Nat.zero_le _, List.nodup_nil, fun e he => absurd he (List.not_mem_nil e)⟩
  have hc := ensurePalettes_ok progmem srcs [] h0
  generalize ensurePalettes progmem [] srcs = cache at hc ⊢
  have hc' := ensurePaletteRAM_ok progmem cache p hc
  obtain ⟨hlen, hn, hr⟩ := id hc
  have hlen' : cache.length ≤ 16 := hlen
  have h3 := ensurePaletteRAM_block progmem cache p hr hlen'
  refine ⟨⟨hlen', hc'.1⟩, hc, hc', h3, by simp [readPalette], ?_, ?_, ?_, ?_⟩
  · intro hp
    unfold ensurePaletteRAM
    cases hf : findPalette cache p with
    | some i => rfl
    | none => exact absurd hp ((findPalette_none cache p).mp hf)
  · intro hp hl16
    have hf := (findPalette_none cache p).mpr hp
    unfold ensurePaletteRAM
    rw [hf]
    simp only [MAX_PAL, hl16, lt_irrefl, if_false, List.length_set, true_and]
    intro i hi
    rw [List.getElem?_set_ne (by omega)]
  · intro hp hl
    have hf := (findPalette_none cache p).mpr hp
    unfold ensurePaletteRAM
    rw [hf]
    simp only [MAX_PAL, hl, if_true]
  · have hfind := findPalette_of_block p _ _ _ h3 hc'.2.1
    generalize ensurePaletteRAM progmem cache p = res at hfind ⊢
    obtain ⟨i, c2⟩ := res
    simp only at hfind
    unfold ensurePaletteRAM
    rw [hfind]

/-! ## Claim C30 -/

/-- C30: every enqueue call (`addSprite`, `addSpriteFG`, `addSolid`, `addOutline`,
`addHBar`, `addText`, and `addTextOpaque`) leaves the world dirty boxes, the UI dirty boxes
and the foreground flag as they were; in particular enqueuing a foreground sprite adds no
dirty region. -/
theorem enqueue_keeps_dirty_state (r : Renderer) (c : EnqueueCall) :
    (r.enqueue c).wbox = r.wbox ∧ (r.enqueue c).ui = r.ui ∧
    (r.enqueue c).fgNeedsFullPass = r.fgNeedsFullPass := by
  cases c <;>
    simp only [Renderer.enqueue, Renderer.addSprite, Renderer.addSpriteFG, Renderer.addSolid,
      Renderer.addOutline, Renderer.addHBar, Renderer.addText, Renderer.addTextOpaque] <;>
    split_ifs <;> exact ⟨rfl, rfl, rfl⟩

/-! ## Shimmer blend lemmas -/

theorem pack565 (r g bl : Nat) (hg : g < 64) (hb : bl < 32) :
    (r <<< 11) ||| (g <<< 5) ||| bl = r * 2048 + g * 32 + bl := by
  rw [Nat.shiftLeft_eq, Nat.shiftLeft_eq]
  have h1 : g * 2 ^ 5 ||| bl = g * 32 + bl := by
    have := Nat.mul_add_lt_is_or (show bl < 2 ^ 5 by omega) g
    rw [show g * 2 ^ 5 = 2 ^ 5 * g by ring, ← this]; ring
  rw [Nat.lor_assoc, h1]
  have := Nat.mul_add_lt_is_or (show g * 32 + bl < 2 ^ 11 by omega) r
  rw [show r * 2 ^ 11 = 2 ^ 11 * r by ring, ← this]; ring

theorem chan_r (a : Nat) : (a >>> 11) &&& 31 = a / 2048 % 32 := by
  rw [Nat.shiftRight_eq_div_pow]
  exact Nat.and_pow_two_sub_one_eq_mod _ 5
theorem chan_g (a : Nat) : (a >>> 5) &&& 63 = a / 32 % 64 := by
  rw [Nat.shiftRight_eq_div_pow]
  exact Nat.and_pow_two_sub_one_eq_mod _ 6
theorem chan_b (a : Nat) : a &&& 31 = a % 32 := Nat.and_pow_two_sub_one_eq_mod _ 5

theorem blend565_eq (a b : Nat) :
    blend565 a b = ((a / 2048 % 32 + b / 2048 % 32) / 2) * 2048 +
      ((a / 32 % 64 + b / 32 % 64) / 2) * 32 + (a % 32 + b % 32) / 2 := by
  unfold blend565
  simp only [chan_r, chan_g, chan_b]
  simp only [Nat.shiftRight_eq_div_pow, pow_one]
  have h1 : a / 2048 % 32 < 32 := Nat.mod_lt _ (by norm_num)
  have h2 : b / 2048 % 32 < 32 := Nat.mod_lt _ (by norm_num)
  have h3 : a / 32 % 64 < 64 := Nat.mod_lt _ (by norm_num)
  have h4 : b / 32 % 64 < 64 := Nat.mod_lt _ (by norm_num)
  have h5 : a % 32 < 32 := Nat.mod_lt _ (by norm_num)
  have h6 : b % 32 < 32 := Nat.mod_lt _ (by norm_num)
  generalize a / 2048 % 32 = ar at *
  generalize b / 2048 % 32 = br at *
  generalize a / 32 % 64 = ag at *
  generalize b / 32 % 64 = bg at *
  generalize a % 32 = ab at *
  generalize b % 32 = bb at *
  have e1 : (ar + br) / 2 % 65536 = (ar + br) / 2 := by omega
  have e2 : (ag + bg) / 2 % 65536 = (ag + bg) / 2 := by omega
  have e3 : (ab + bb) / 2 % 65536 = (ab + bb) / 2 := by omega
  rw [e1, e2, e3, pack565 _ _ _ (by omega) (by omega)]
  omega

theorem unpack565 (r g bl : Nat) (hr : r < 32) (hg : g < 64) (hb : bl < 32) :
    (r * 2048 + g * 32 + bl) / 2048 % 32 = r ∧ (r * 2048 + g * 32 + bl) / 32 % 64 = g ∧
      (r * 2048 + g * 32 + bl) % 32 = bl ∧ r * 2048 + g * 32 + bl < 65536 := by
  refine ⟨?_, ?_, ?_, ?_⟩ <;> omega

theorem split565 (a : Nat) (ha : a < 65536) :
    a = (a / 2048 % 32) * 2048 + (a / 32 % 64) * 32 + a % 32 := by omega

theorem chan_avg_between (x y : Nat) : min x y ≤ (x + y) / 2 ∧ (x + y) / 2 ≤ max x y := by
  simp only [Nat.min_def, Nat.max_def]
  split_ifs <;> omega

theorem blend565_idem (a : Nat) (ha : a < 65536) : blend565 a a = a := by
  have e : ∀ x : Nat, (x + x) / 2 = x := fun x => by omega
  rw [blend565_eq a a, e, e, e]
  exact (split565 a ha).symm

theorem blend565_comm (a b : Nat) : blend565 a b = blend565 b a := by
  rw [blend565_eq a b, blend565_eq b a, Nat.add_comm (a / 2048 % 32),
    Nat.add_comm (a / 32 % 64), Nat.add_comm (a % 32)]

theorem blend565_channels (a b : Nat) :
    blend565 a b < 65536 ∧
    blend565 a b / 2048 % 32 = (a / 2048 % 32 + b / 2048 % 32) / 2 ∧
    blend565 a b / 32 % 64 = (a / 32 % 64 + b / 32 % 64) / 2 ∧
    blend565 a b % 32 = (a % 32 + b % 32) / 2 := by
  have h1 : a / 2048 % 32 < 32 := Nat.mod_lt _ (by norm_num)
  have h2 : b / 2048 % 32 < 32 := Nat.mod_lt _ (by norm_num)
  have h3 : a / 32 % 64 < 64 := Nat.mod_lt _ (by norm_num)
  have h4 : b / 32 % 64 < 64 := Nat.mod_lt _ (by norm_num)
  have h5 : a % 32 < 32 := Nat.mod_lt _ (by norm_num)
  have h6 : b % 32 < 32 := Nat.mod_lt _ (by norm_num)
  rw [blend565_eq a b]
  generalize a / 2048 % 32 = ar at *
  generalize b / 2048 % 32 = br at *
  generalize a / 32 % 64 = ag at *
  generalize b / 32 % 64 = bg at *
  generalize a % 32 = ab at *
  generalize b % 32 = bb at *
  have hu := unpack565 ((ar + br) / 2) ((ag + bg) / 2) ((ab + bb) / 2) (by omega) (by omega)
    (by omega)
  exact ⟨hu.2.2.2, hu.1, hu.2.1, hu.2.2.1⟩

/-! ## Shimmer line lemmas -/

theorem shimmerSample_outside (row2x : Nat) (x0 w : Int) (buf : LineBuf) (s : ShimmerSample)
    (hw : 0 ≤ w) (hw' : w ≤ 32767) (i : Int) (hi : ¬ (0 ≤ i ∧ i < w)) :
    shimmerSample row2x x0 w buf s i = buf i := by
  unfold shimmerSample
  by_cases hr : s.shRow ≠ row2x
  · rw [if_pos hr]
  rw [if_neg hr]
  dsimp only
  have hdx : -32768 ≤ wrap16 (s.shX - x0) ∧ wrap16 (s.shX - x0) ≤ 32767 := by
    unfold wrap16; omega
  generalize wrap16 (s.shX - x0) = dx at hdx ⊢
  have huw : u16 w = w := by unfold u16; omega
  by_cases h1 : u16 dx < u16 w
  · rw [if_pos h1]
    have hdx0 : 0 ≤ dx ∧ dx < w := by
      rw [huw] at h1; unfold u16 at h1; omega
    by_cases h2 : u16 (dx + 1) < u16 w
    · rw [if_pos h2]
      have h21 : dx + 1 < w := by
        rw [huw] at h2; unfold u16 at h2; omega
      have e1 : wrap16 (dx + 1) = dx + 1 := wrap16_id (by omega) (by omega)
      rw [e1, Function.update_noteq (by omega), Function.update_noteq (by omega)]
    · rw [if_neg h2, Function.update_noteq (by omega)]
  · rw [if_neg h1]

theorem shimmerFold_outside (row2x : Nat) (x0 w : Int) (hw : 0 ≤ w) (hw' : w ≤ 32767)
    (i : Int) (hi : ¬ (0 ≤ i ∧ i < w)) (l : List ShimmerSample) (buf : LineBuf) :
    l.foldl (shimmerSample row2x x0 w) buf i = buf i := by
  induction l generalizing buf with
  | nil => rfl
  | cons s l ih =>
    rw [List.foldl_cons, ih, shimmerSample_outside row2x x0 w buf s hw hw' i hi]

theorem shimmerSample_apply (row2x : Nat) (x0 w : Int) (buf : LineBuf) (s : ShimmerSample)
    (i : Int) :
    shimmerSample row2x x0 w buf s i =
      if shimmerHits row2x x0 w i s = true then shimmerBlend (buf i) s.shCol else buf i := by
  unfold shimmerSample shimmerHits
  by_cases hr : s.shRow ≠ row2x
  · rw [if_pos hr, if_neg (by simp [hr])]
  rw [if_neg hr]
  have hr' : s.shRow = row2x := not_not.mp hr
  dsimp only
  have hne : wrap16 (wrap16 (s.shX - x0) + 1) ≠ wrap16 (s.shX - x0) := by
    unfold wrap16; omega
  generalize wrap16 (s.shX - x0) = dx at hne ⊢
  by_cases h1 : u16 dx < u16 w
  · rw [if_pos h1]
    by_cases h2 : u16 (dx + 1) < u16 w
    · rw [if_pos h2]
      by_cases e1 : i = wrap16 (dx + 1)
      · rw [if_pos (by simp [hr', h1, h2, e1])]
        rw [e1, Function.update_same, Function.update_noteq hne]
        rfl
      · rw [Function.update_noteq e1]
        by_cases e0 : i = dx
        · rw [if_pos (by simp [hr', h1, e0])]
          rw [e0, Function.update_same]; rfl
        · rw [if_neg (by simp [e0, e1]), Function.update_noteq e0]
    · rw [if_neg h2]
      by_cases e0 : i = dx
      · rw [if_pos (by simp [hr', h1, e0])]
        rw [e0, Function.update_same]; rfl
      · rw [if_neg (by simp [e0, h2]), Function.update_noteq e0]
  · rw [if_neg h1, if_neg (by simp [h1])]

theorem shimmerFold_apply (row2x : Nat) (x0 w : Int) (i : Int) (l : List ShimmerSample)
    (buf : LineBuf) :
    l.foldl (shimmerSample row2x x0 w) buf i =
      ((l.filter (shimmerHits row2x x0 w i)).map ShimmerSample.shCol).foldl shimmerBlend
        (buf i) := by
  induction l generalizing buf with
  | nil => rfl
  | cons s l ih =>
    rw [List.foldl_cons, ih, shimmerSample_apply]
    by_cases hh : shimmerHits row2x x0 w i s = true
    · rw [if_pos hh, List.filter_cons_of_pos hh, List.map_cons, List.foldl_cons]
    · rw [if_neg hh, List.filter_cons_of_neg hh]

theorem renderFrame_renderer_indep (env : FrameEnv) (r : Renderer) (st st2 : Statics) :
    (renderFrame env r st).renderer = (renderFrame env r st2).renderer := by
  unfold renderFrame
  by_cases hearly : r.fgNeedsFullPass = false ∧ r.wbox.length = 0 ∧ r.ui.length = 0
  · rw [if_pos hearly, if_pos hearly]
  · rw [if_neg hearly, if_neg hearly]

/-! ## Shimmer regeneration lemmas -/

theorem genShimmerSamples_spec (screenW : Int) (rows : Nat) (bgPal : Int → Int)
    (hW : 0 < screenW) (hW' : screenW ≤ 32767) (hr : 0 < rows) (n rng : Nat) :
    (genShimmerSamples screenW rows bgPal n rng).1.length = n ∧
      ∀ s ∈ (genShimmerSamples screenW rows bgPal n rng).1,
        s.shX % 2 = 0 ∧ 0 ≤ s.shX ∧ s.shX < screenW ∧ s.shRow < rows := by
  induction n generalizing rng with
  | zero => exact ⟨rfl, fun s hs => by cases hs⟩
  | succ n ih =>
    rw [genShimmerSamples]
    dsimp only
    obtain ⟨hl, hm⟩ := ih (pickShimmerColor bgPal 4 (shimmerNext (shimmerNext rng))).2
    refine ⟨by rw [List.length_cons, hl], fun s hs => ?_⟩
    rcases List.mem_cons.mp hs with hs | hs
    · subst hs
      dsimp only
      have hu : (u16 screenW).toNat = screenW.toNat := by unfold u16; congr 1; omega
      have hlt : shimmerRandRange (u16 screenW).toNat rng < screenW.toNat := by
        rw [hu]; unfold shimmerRandRange
        exact Nat.mod_lt _ (by omega)
      have hrow : shimmerRandRange rows (shimmerNext rng) % 256 < rows := by
        unfold shimmerRandRange
        exact lt_of_le_of_lt (Nat.mod_le _ _) (Nat.mod_lt _ hr)
      generalize shimmerRandRange (u16 screenW).toNat rng = rx at hlt ⊢
      have hc : (((rx - rx % 2 : Nat)) : Int) = (rx : Int) - (rx : Int) % 2 := by omega
      rw [hc, wrap16_id (by omega) (by omega)]
      refine ⟨by omega, by omega, by omega, hrow⟩
    · exact hm s hs

theorem shimmer_band (screenH : Int) (hH : 0 < screenH) (hH' : screenH ≤ 455) :
    (if wrap16 (wrap16 (Int.tdiv (wrap16 (screenH * 72)) 100) - 8) < 0 then 0
      else wrap16 (wrap16 (Int.tdiv (wrap16 (screenH * 72)) 100) - 8)) =
      max (screenH * 72 / 100 - 8) 0 := by
  have e1 : wrap16 (screenH * 72) = screenH * 72 := wrap16_id (by omega) (by omega)
  have e2 : Int.tdiv (screenH * 72) 100 = screenH * 72 / 100 :=
    Int.tdiv_eq_ediv (by omega) (by norm_num)
  have e3 : wrap16 (screenH * 72 / 100) = screenH * 72 / 100 := wrap16_id (by omega) (by omega)
  have e4 : wrap16 (screenH * 72 / 100 - 8) = screenH * 72 / 100 - 8 :=
    wrap16_id (by omega) (by omega)
  rw [e1, e2, e3, e4]
  split_ifs <;> omega

theorem shimmer_height (screenH y0 : Int) (hH : 0 < screenH) (hH' : screenH ≤ 455)
    (hy : y0 = max (screenH * 72 / 100 - 8) 0) :
    (if y0 + 5 > screenH then (wrap16 (screenH - y0) % 256).toNat else 5) =
      (min 5 screenH).toNat ∧ y0 + min 5 screenH ≤ screenH := by
  have e : wrap16 (screenH - y0) = screenH - y0 := wrap16_id (by omega) (by omega)
  rw [e]
  split_ifs <;> omega

theorem count_range (rnd : Nat) :
    5 ≤ (if (5 + (rnd &&& 3)) % 256 > 8 then 8 else (5 + (rnd &&& 3)) % 256) ∧
      (if (5 + (rnd &&& 3)) % 256 > 8 then 8 else (5 + (rnd &&& 3)) % 256) ≤ 8 := by
  have h : rnd &&& 3 ≤ 3 := Nat.and_le_right
  split_ifs <;> omega

theorem shimmer_regen_fields (screenW screenH : Int) (bgPal : Int → Int) (now : Nat)
    (st : Statics) (hW : 0 < screenW) (hW' : screenW ≤ 32767)
    (hH : 0 < screenH) (hH' : screenH ≤ 455)
    (hcnt : 6 ≤ (st.shimmerFrameCounter + 1) % 256) (hnow : st.nextShimmerMs ≤ now) :
    5 ≤ (maybeUpdateShimmer screenW screenH bgPal now st).samples.length ∧
    (maybeUpdateShimmer screenW screenH bgPal now st).samples.length ≤ 8 ∧
    (∀ s ∈ (maybeUpdateShimmer screenW screenH bgPal now st).samples,
      s.shX % 2 = 0 ∧ 0 ≤ s.shX ∧ s.shX < screenW ∧
      s.shRow < ((maybeUpdateShimmer screenW screenH bgPal now st).shimmerH + 1) / 2) ∧
    1 ≤ (maybeUpdateShimmer screenW screenH bgPal now st).shimmerH ∧
    (maybeUpdateShimmer screenW screenH bgPal now st).shimmerH ≤ 5 ∧
    (maybeUpdateShimmer screenW screenH bgPal now st).shimmerY0 =
      max (screenH * 72 / 100 - 8) 0 ∧
    (maybeUpdateShimmer screenW screenH bgPal now st).shimmerY0 +
      (maybeUpdateShimmer screenW screenH bgPal now st).shimmerH ≤ screenH := by
  unfold maybeUpdateShimmer
  dsimp only
  rw [if_neg (by omega), if_neg (by omega), shimmer_band screenH hH hH']
  obtain ⟨hh, hfit⟩ := shimmer_height screenH _ hH hH' rfl
  rw [hh]
  have h1 : 1 ≤ (min 5 screenH).toNat ∧ (min 5 screenH).toNat ≤ 5 := by omega
  have hcast : (((min 5 screenH).toNat : Nat) : Int) = min 5 screenH := by omega
  generalize (min 5 screenH).toNat = h at h1 hcast ⊢
  have hrows : ((h + 1) >>> 1) % 256 = (h + 1) / 2 := by
    rw [Nat.shiftRight_eq_div_pow, pow_one]; omega
  rw [if_neg (by omega), hrows, if_neg (by omega)]
  dsimp only
  obtain ⟨hl, hm⟩ := genShimmerSamples_spec screenW ((h + 1) / 2) bgPal hW hW' (by omega)
    (if (5 + (shimmerRandRange 16 st.shimmerRNG % 256 &&& 3)) % 256 > 8 then 8
      else (5 + (shimmerRandRange 16 st.shimmerRNG % 256 &&& 3)) % 256)
    (shimmerNext st.shimmerRNG)
  have hc := count_range (shimmerRandRange 16 st.shimmerRNG % 256)
  rw [hl]
  refine ⟨hc.1, hc.2, hm, h1.1, h1.2, rfl, ?_⟩
  rw [hcast]
  exact hfit

/-! ## Background cache lemmas -/

theorem composeBGLine_row_congr (q0 q1 q2 q3 : Int → Int) (W0 H0 cw ch : Int)
    (pal : Int → Int) (y y2 x0 w : Int) (buf : LineBuf)
    (h : (if wrap16 (y / 2) < 0 then 0
        else if wrap16 (y / 2) ≥ wrap16 H0 then wrap16 (wrap16 H0 - 1) else wrap16 (y / 2)) =
      (if wrap16 (y2 / 2) < 0 then 0
        else if wrap16 (y2 / 2) ≥ wrap16 H0 then wrap16 (wrap16 H0 - 1) else wrap16 (y2 / 2))) :
    composeBGLine_160to320_quads_P q0 q1 q2 q3 W0 H0 cw ch pal y x0 w buf =
      composeBGLine_160to320_quads_P q0 q1 q2 q3 W0 H0 cw ch pal y2 x0 w buf := by
  unfold composeBGLine_160to320_quads_P
  dsimp only
  rw [h]

theorem composeBGLine_pixel (bg : Background) (bgPal : Int → Int) (hbg : bg.wellFormed)
    (y x0 w : Int) (buf : LineBuf) (hy : 0 ≤ y ∧ y ≤ 32767) (hx0 : 0 ≤ x0) (hw : 0 < w)
    (hxw : x0 + w ≤ 2 * bg.W) (k : Int) (hk : 0 ≤ k ∧ k < w) :
    composeBGLine_160to320_quads_P bg.q0 bg.q1 bg.q2 bg.q3 bg.W bg.H bg.cw bg.ch bgPal
      y x0 w buf k = refBGPixel bg bgPal y (x0 + k) := by
  obtain ⟨c1, c2, c3, c4, c5, c6, c7⟩ := hbg
  have eH : wrap16 bg.H = bg.H := wrap16_id (by omega) (by omega)
  have eH1 : wrap16 (bg.H - 1) = bg.H - 1 := wrap16_id (by omega) (by omega)
  have ey : wrap16 (y / 2) = y / 2 := wrap16_id (by omega) (by omega)
  by_cases hin : y < 2 * bg.H
  · rw [composeBGLine_eq_ref bg.q0 bg.q1 bg.q2 bg.q3 bg.W bg.H bg.cw bg.ch bgPal y x0 w buf
      ⟨c1, c2⟩ ⟨c3, c4⟩ c5 c7 ⟨hy.1, hin⟩ ⟨hw, by omega⟩ (by omega) (by omega)]
    unfold refBGLine refBGPixel
    rw [if_pos ⟨hk.1, hk.2, by omega, by omega⟩, min_eq_left (by omega)]
  · have hc : composeBGLine_160to320_quads_P bg.q0 bg.q1 bg.q2 bg.q3 bg.W bg.H bg.cw bg.ch
        bgPal y x0 w buf =
        composeBGLine_160to320_quads_P bg.q0 bg.q1 bg.q2 bg.q3 bg.W bg.H bg.cw bg.ch
        bgPal (2 * bg.H - 2) x0 w buf := by
      apply composeBGLine_row_congr
      have e2 : wrap16 ((2 * bg.H - 2) / 2) = bg.H - 1 := by
        rw [wrap16_id (by omega) (by omega)]; omega
      rw [ey, e2, eH, eH1, if_neg (by omega), if_pos (by omega), if_neg (by omega),
        if_neg (by omega)]
    rw [hc, composeBGLine_eq_ref bg.q0 bg.q1 bg.q2 bg.q3 bg.W bg.H bg.cw bg.ch bgPal
      (2 * bg.H - 2) x0 w buf ⟨c1, c2⟩ ⟨c3, c4⟩ c5 c7 ⟨by omega, by omega⟩ ⟨hw, by omega⟩
      (by omega) (by omega)]
    unfold refBGLine refBGPixel
    rw [if_pos ⟨hk.1, hk.2, by omega, by omega⟩, min_eq_right (by omega)]
    congr 2
    omega

theorem refBGPixel_row (bg : Background) (bgPal : Int → Int) (y y2 x : Int)
    (h : y / 2 = y2 / 2) : refBGPixel bg bgPal y x = refBGPixel bg bgPal y2 x := by
  unfold refBGPixel
  rw [h]

theorem bgStep_background (bg : Background) (bgPal : Int → Int) (hbg : bg.wellFormed)
    (y minX W : Int) (rs : RowState) (hy : 0 ≤ y ∧ y ≤ 32767) (hx0 : 0 ≤ minX) (hW : 0 < W)
    (hxw : minX + W ≤ 2 * bg.W) (hinv : CacheInv bg bgPal minX W rs) :
    (∀ k, 0 ≤ k → k < W →
      (bgStep bg bgPal y minX W rs).s_back k = refBGPixel bg bgPal y (minX + k) ∧
      (bgStep bg bgPal y minX W rs).bgLineCache k = refBGPixel bg bgPal y (minX + k)) ∧
    CacheInv bg bgPal minX W (bgStep bg bgPal y minX W rs) := by
  unfold bgStep
  dsimp only
  by_cases hc : rs.bgCachedValid = true ∧ wrap16 (y / 2) = rs.lastSrcY
  · rw [if_pos hc]
    obtain ⟨yc, h0, h1, h2, h3⟩ := hinv hc.1
    have hrow : yc / 2 = y / 2 := by
      have e1 : wrap16 (yc / 2) = yc / 2 := wrap16_id (by omega) (by omega)
      have e2 : wrap16 (y / 2) = y / 2 := wrap16_id (by omega) (by omega)
      rw [← e1, ← e2, h2, hc.2]
    refine ⟨fun k hk0 hk1 => ⟨?_, ?_⟩, hinv⟩
    · show copyLine W rs.bgLineCache rs.s_back k = _
      unfold copyLine
      rw [if_pos ⟨hk0, hk1⟩, h3 k hk0 hk1]
      exact refBGPixel_row bg bgPal yc y _ hrow
    · show rs.bgLineCache k = _
      rw [h3 k hk0 hk1]
      exact refBGPixel_row bg bgPal yc y _ hrow
  · rw [if_neg hc]
    have hpix := fun k (hk : 0 ≤ k ∧ k < W) =>
      composeBGLine_pixel bg bgPal hbg y minX W rs.s_back hy hx0 hW hxw k hk
    refine ⟨fun k hk0 hk1 => ⟨hpix k ⟨hk0, hk1⟩, ?_⟩, fun _ => ⟨y, hy.1, hy.2, rfl, ?_⟩⟩
    · show copyLine W _ rs.bgLineCache k = _
      unfold copyLine
      rw [if_pos ⟨hk0, hk1⟩]
      exact hpix k ⟨hk0, hk1⟩
    · intro k hk0 hk1
      show copyLine W _ rs.bgLineCache k = _
      unfold copyLine
      rw [if_pos ⟨hk0, hk1⟩]
      exact hpix k ⟨hk0, hk1⟩

theorem paintRow_cacheInv (fastBlit : Bool) (bg : Background) (bgPal : Int → Int)
    (st : Statics) (minX W : Int) (visW visF : List Sprite) (rects : List Rect)
    (bars : List HBar) (texts : List Text) (hbg : bg.wellFormed)
    (y : Int) (rs : RowState) (hy : 0 ≤ y ∧ y ≤ 32767) (hx0 : 0 ≤ minX) (hW : 0 < W)
    (hxw : minX + W ≤ 2 * bg.W) (hinv : CacheInv bg bgPal minX W rs) :
    CacheInv bg bgPal minX W
      (paintRow fastBlit bg bgPal st minX W visW visF rects bars texts y rs) :=
  (bgStep_background bg bgPal hbg y minX W rs hy hx0 hW hxw hinv).2

theorem rowLoop_cacheInv (fastBlit : Bool) (bg : Background) (bgPal : Int → Int)
    (st : Statics) (minX W : Int) (visW visF : List Sprite) (rects : List Rect)
    (bars : List HBar) (texts : List Text) (hbg : bg.wellFormed) (hx0 : 0 ≤ minX) (hW : 0 < W)
    (hxw : minX + W ≤ 2 * bg.W) (n : Nat) (y : Int) (rs : RowState)
    (hy : 0 ≤ y ∧ y + n ≤ 32768) (hinv : CacheInv bg bgPal minX W rs) :
    CacheInv bg bgPal minX W
      (rowLoop fastBlit bg bgPal st minX W visW visF rects bars texts n y rs) := by
  induction n generalizing y rs with
  | zero => exact hinv
  | succ n ih =>
    rw [rowLoop]
    apply ih
    · push_cast at hy; omega
    · exact paintRow_cacheInv fastBlit bg bgPal st minX W visW visF rects bars texts hbg y rs
        ⟨hy.1, by push_cast at hy; omega⟩ hx0 hW hxw hinv

/-! ## Sprite culling lemmas -/

theorem wrap16_add_wrap16 (a b : Int) : wrap16 (a + wrap16 b) = wrap16 (a + b) := by
  unfold wrap16; omega

theorem clip_empty (hFlip : Bool) (w vx x0 W : Int)
    (hw0 : 0 ≤ w) (hw1 : w ≤ 32767) (hvx : -32768 ≤ vx) (hr : vx + w ≤ 32767)
    (hx0 : 0 ≤ x0) (hW : 0 < W) (hxW : x0 + W ≤ 32767)
    (hc : vx + w ≤ x0 ∨ vx ≥ x0 + W) :
    (if (if hFlip = true then wrap16 (wrap16 (wrap16 (vx + wrap16 w) - 1) - x0)
          else wrap16 (wrap16 (W - 1) - wrap16 (vx - x0))) > wrap16 (wrap16 w - 1)
      then wrap16 (wrap16 w - 1)
      else (if hFlip = true then wrap16 (wrap16 (wrap16 (vx + wrap16 w) - 1) - x0)
          else wrap16 (wrap16 (W - 1) - wrap16 (vx - x0)))) <
    (if (if hFlip = true then
            wrap16 (wrap16 (wrap16 (wrap16 (vx + wrap16 w) - 1) - x0) - wrap16 (W - 1))
          else wrap16 (-wrap16 (vx - x0))) < 0 then 0
      else (if hFlip = true then
            wrap16 (wrap16 (wrap16 (wrap16 (vx + wrap16 w) - 1) - x0) - wrap16 (W - 1))
          else wrap16 (-wrap16 (vx - x0)))) := by
  have e1 : wrap16 w = w := wrap16_id (by omega) (by omega)
  have e2 : wrap16 (w - 1) = w - 1 := wrap16_id (by omega) (by omega)
  have e3 : wrap16 (W - 1) = W - 1 := wrap16_id (by omega) (by omega)
  have e4 : wrap16 (vx + w) = vx + w := wrap16_id (by omega) (by omega)
  rw [e1, e2, e3, e4]
  cases hFlip
  · simp only [Bool.false_eq_true, if_false]
    have hN : -32768 ≤ wrap16 (vx - x0) ∧ wrap16 (vx - x0) ≤ 32767 ∧
        (wrap16 (vx - x0) = vx - x0 ∨ wrap16 (vx - x0) = vx - x0 + 65536) := by
      unfold wrap16; omega
    generalize wrap16 (vx - x0) = N at hN ⊢
    have hh : wrap16 (W - 1 - N) = W - 1 - N ∨ wrap16 (W - 1 - N) = W - 1 - N + 65536 ∨
        wrap16 (W - 1 - N) = W - 1 - N - 65536 := by unfold wrap16; omega
    have hhr : -32768 ≤ wrap16 (W - 1 - N) ∧ wrap16 (W - 1 - N) ≤ 32767 := by
      unfold wrap16; omega
    generalize wrap16 (W - 1 - N) = H at hh hhr ⊢
    have hl : wrap16 (-N) = -N ∨ wrap16 (-N) = -N - 65536 ∨ wrap16 (-N) = -N + 65536 := by
      unfold wrap16; omega
    have hlr : -32768 ≤ wrap16 (-N) ∧ wrap16 (-N) ≤ 32767 := by unfold wrap16; omega
    generalize wrap16 (-N) = L at hl hlr ⊢
    split_ifs <;> omega
  · simp only [if_true]
    have hA : -32768 ≤ wrap16 (vx + w - 1) ∧ wrap16 (vx + w - 1) ≤ 32767 ∧
        (wrap16 (vx + w - 1) = vx + w - 1 ∨ wrap16 (vx + w - 1) = vx + w - 1 + 65536) := by
      unfold wrap16; omega
    generalize wrap16 (vx + w - 1) = A at hA ⊢
    have hF : -32768 ≤ wrap16 (A - x0) ∧ wrap16 (A - x0) ≤ 32767 ∧
        (wrap16 (A - x0) = A - x0 ∨ wrap16 (A - x0) = A - x0 + 65536) := by
      unfold wrap16; omega
    generalize wrap16 (A - x0) = F at hF ⊢
    have hl : wrap16 (F - (W - 1)) = F - (W - 1) ∨ wrap16 (F - (W - 1)) = F - (W - 1) + 65536 := by
      unfold wrap16; omega
    have hlr : -32768 ≤ wrap16 (F - (W - 1)) ∧ wrap16 (F - (W - 1)) ≤ 32767 := by
      unfold wrap16; omega
    generalize wrap16 (F - (W - 1)) = L at hl hlr ⊢
    split_ifs <;> omega

theorem composeAVR_culled (skip : Int → Bool) (data : Int → Int) (w h vx vy : Int)
    (pal : Int → Int) (hFlip : Bool) (y x0 W : Int) (buf : LineBuf)
    (hw0 : 0 ≤ w) (hw1 : w ≤ 32767) (hvx : -32768 ≤ vx) (hr : vx + w ≤ 32767)
    (hx0 : 0 ≤ x0) (hW : 0 < W) (hxW : x0 + W ≤ 32767)
    (hc : vx + w ≤ x0 ∨ vx ≥ x0 + W) :
    composeAVR skip data w h vx vy pal hFlip y x0 W buf = buf := by
  unfold composeAVR
  dsimp only
  by_cases hrow : u16 (wrap16 (y - vy)) ≥ u16 h
  · rw [if_pos hrow]
  · rw [if_neg hrow]
    exact if_pos (clip_empty hFlip w vx x0 W hw0 hw1 hvx hr hx0 hW hxW hc)

theorem composePlain_culled (skip : Int → Bool) (data : Int → Int) (w h vx vy : Int)
    (pal : Int → Int) (hFlip : Bool) (y x0 W : Int) (buf : LineBuf)
    (hw0 : 0 ≤ w) (hw1 : w ≤ 32767) (hvx : -32768 ≤ vx) (hr : vx + w ≤ 32767)
    (hx0 : 0 ≤ x0) (hW : 0 < W) (hxW : x0 + W ≤ 32767)
    (hc : vx + w ≤ x0 ∨ vx ≥ x0 + W) :
    composePlain skip data w h vx vy pal hFlip y x0 W buf = buf := by
  unfold composePlain
  dsimp only
  by_cases hrow : wrap16 (y - vy) < 0 ∨ wrap16 (y - vy) ≥ wrap16 h
  · rw [if_pos hrow]
  · rw [if_neg hrow]
    exact if_pos (clip_empty hFlip w vx x0 W hw0 hw1 hvx hr hx0 hW hxW hc)

theorem spriteLine_culled (fastBlit : Bool) (b : Box) (s : Sprite) (y : Int) (buf : LineBuf)
    (hs : s.inRange) (hx0 : 0 ≤ b.minX) (hxx : b.minX < b.maxX) (hx1 : b.maxX ≤ 32767)
    (hy0 : -32768 ≤ b.minY) (hy1 : b.maxY ≤ 32767) (hyy : b.minY ≤ b.maxY)
    (hy : b.minY ≤ y ∧ y < b.maxY)
    (hcull : rectIntersects s.vx s.vy (wrap16 s.w) (wrap16 s.h) b.minX b.minY
      (wrap16 (b.maxX - b.minX)) (wrap16 (b.maxY - b.minY)) = false) :
    spriteLine fastBlit y b.minX (wrap16 (b.maxX - b.minX)) buf s = buf := by
  obtain ⟨hw0, hw1, hvx, hr⟩ := hs
  have eW : wrap16 (b.maxX - b.minX) = b.maxX - b.minX := wrap16_id (by omega) (by omega)
  have ew : wrap16 s.w = s.w := wrap16_id (by omega) (by omega)
  have e1 : wrap16 (s.vx + s.w) = s.vx + s.w := wrap16_id (by omega) (by omega)
  have e3 : wrap16 (b.minX + (b.maxX - b.minX)) = b.maxX := by
    rw [wrap16_id (by omega) (by omega)]; omega
  have e4 : wrap16 (b.minY + wrap16 (b.maxY - b.minY)) = b.maxY := by
    rw [wrap16_add_wrap16, wrap16_id (by omega) (by omega)]; omega
  unfold rectIntersects at hcull
  rw [wrap16_add_wrap16 s.vy s.h, eW, ew, e1, e3, e4] at hcull
  simp only [Bool.not_eq_false', Bool.or_eq_true, decide_eq_true_eq] at hcull
  rw [eW]
  have horiz : s.vx + s.w ≤ b.minX ∨ s.vx ≥ b.minX + (b.maxX - b.minX) →
      spriteBlit fastBlit s y b.minX (b.maxX - b.minX) buf = buf := by
    intro hc
    unfold spriteBlit
    cases fastBlit
    · rw [if_neg (by simp)]
      exact composePlain_culled _ _ _ _ _ _ _ _ _ _ _ _ hw0 hw1 hvx hr hx0 (by omega)
        (by omega) hc
    · rw [if_pos rfl]
      exact composeAVR_culled _ _ _ _ _ _ _ _ _ _ _ _ hw0 hw1 hvx hr hx0 (by omega)
        (by omega) hc
  unfold spriteLine
  by_cases hrow : y < s.vy ∨ y ≥ wrap16 (s.vy + s.h)
  · rw [if_pos hrow]
  · rw [if_neg hrow]
    rcases hcull with ((hc | hc) | hc) | hc
    · exact horiz (Or.inl hc)
    · exact absurd (Or.inr (by omega)) hrow
    · exact horiz (Or.inr (by omega))
    · exact absurd (Or.inl (by omega)) hrow

theorem foldl_filter_id {α β : Type} (f : β → α → β) (p : α → Bool) (l : List α)
    (h : ∀ a ∈ l, p a = false → ∀ b, f b a = b) (b : β) :
    (l.filter p).foldl f b = l.foldl f b := by
  induction l generalizing b with
  | nil => rfl
  | cons a l ih =>
    have ih2 := ih (fun x hx => h x (List.mem_cons_of_mem _ hx))
    cases hp : p a
    · rw [List.filter_cons_of_neg (by simp [hp]), List.foldl_cons,
        h a (List.mem_cons_self _ _) hp b, ih2]
    · rw [List.filter_cons_of_pos hp, List.foldl_cons, List.foldl_cons, ih2]

theorem spritePass_visible (fastBlit : Bool) (cap : Nat) (b : Box) (q : List Sprite) (y : Int)
    (buf : LineBuf) (hcap : q.length ≤ cap) (hq : ∀ s ∈ q, s.inRange)
    (hx0 : 0 ≤ b.minX) (hxx : b.minX < b.maxX) (hx1 : b.maxX ≤ 32767)
    (hy0 : -32768 ≤ b.minY) (hy1 : b.maxY ≤ 32767) (hyy : b.minY ≤ b.maxY)
    (hy : b.minY ≤ y ∧ y < b.maxY) :
    spritePass fastBlit y b.minX (wrap16 (b.maxX - b.minX))
        (visibleSprites cap b (wrap16 (b.maxX - b.minX)) q) buf =
      spritePass fastBlit y b.minX (wrap16 (b.maxX - b.minX)) q buf := by
  unfold spritePass visibleSprites
  rw [List.take_of_length_le (le_trans (List.length_filter_le _ _) hcap)]
  exact foldl_filter_id _ _ q
    (fun s hs hp buf2 => spriteLine_culled fastBlit b s y buf2 (hq s hs) hx0 hxx hx1 hy0 hy1
      hyy hy hp) buf

/-! ## Game logic lemmas -/

theorem lutClamp16_range (v lo hi : Int) (h : lo ≤ hi) :
    lo ≤ lutClamp16 v lo hi ∧ lutClamp16 v lo hi ≤ hi := by
  unfold lutClamp16
  split_ifs <;> omega

theorem capVelocity_range (v : Int) : -50 ≤ capVelocity v ∧ capVelocity v ≤ 46 := by
  unfold capVelocity
  simp only
  split_ifs <;> omega

theorem stepPrologue_ok (nowMs : Nat) (s : LogicState) (h : TensionOk s.gs) :
    TensionOk (stepPrologue nowMs s).gs := by
  unfold stepPrologue
  dsimp only
  split_ifs <;> exact h

theorem stepTransition_ok (nowMs : Nat) (s : LogicState) (h : TensionOk s.gs) :
    TensionOk (stepTransition nowMs s).gs := by
  unfold stepTransition
  split_ifs with h1 h2
  · obtain ⟨_, _, _, _, h5⟩ := h
    exact ⟨le_refl _, by norm_num, by norm_num, by norm_num, h5⟩
  · exact h
  · exact h

theorem readTouch_ok (down : Bool) (touchMs : Nat) (gs : GameState) (h : TensionOk gs) :
    TensionOk (readTouch down touchMs gs).2.2 ∧
      (readTouch down touchMs gs).2.2.state = gs.state := by
  unfold readTouch
  dsimp only
  split_ifs <;> exact ⟨h, rfl⟩

theorem TensionOk.reset (gs : GameState) (ht : gs.tension = 0) (hv : gs.tensionVel = 0)
    (hs : gs.state ≤ 5) : TensionOk gs := by
  unfold TensionOk
  rw [ht, hv]
  exact ⟨le_refl _, by norm_num, by norm_num, by norm_num, hs⟩

theorem TensionOk.clamp (gs : GameState) (v : Int) (h : TensionOk gs) :
    TensionOk { gs with tension := lutClamp16 v 0 1000 } := by
  have hc := lutClamp16_range v 0 1000 (by norm_num)
  exact ⟨hc.1, hc.2, h.2.2.1, h.2.2.2.1, h.2.2.2.2⟩

theorem TensionOk.range (gs : GameState) (t : Int) (h : TensionOk gs) (h0 : 0 ≤ t)
    (h1 : t ≤ 1000) : TensionOk { gs with tension := t } :=
  ⟨h0, h1, h.2.2.1, h.2.2.2.1, h.2.2.2.2⟩

theorem stepIdle_ok (env : StepEnv) (s : LogicState) (h : TensionOk s.gs) :
    TensionOk (stepIdle env s).gs := by
  unfold stepIdle
  by_cases c1 : s.gs.activeBiter ≥ 0
  · rw [if_pos c1]
    by_cases c2 : env.nowMs < s.ls.s_blockBitesUntilMs
    · rw [if_pos c2]
      exact h
    · rw [if_neg c2]
      exact TensionOk.reset _ rfl rfl (Nat.le_of_ble_eq_true rfl)
  · rw [if_neg c1]
    by_cases c3 : env.nowMs &&& 15 = 0
    · rw [if_pos c3]
      exact TensionOk.clamp s.gs _ h
    · rw [if_neg c3]
      exact h

theorem biteTension_range (nowMs biteStart : Nat) (tension : Int) :
    0 ≤ biteTension nowMs biteStart tension ∧ biteTension nowMs biteStart tension ≤ 1000 := by
  unfold biteTension
  exact lutClamp16_range _ 0 1000 (by norm_num)

theorem stepBite_ok (env : StepEnv) (tap hold : Bool) (s : LogicState) (h : TensionOk s.gs) :
    TensionOk (stepBite env tap hold s).gs := by
  unfold stepBite
  by_cases c1 : tap = true ∨ hold = true
  · rw [if_pos c1]
    refine ⟨?_, ?_, ?_, ?_, ?_⟩
    · show (0 : Int) ≤ 520
      norm_num
    · show (520 : Int) ≤ 1000
      norm_num
    · show (-50 : Int) ≤ 0
      norm_num
    · show (0 : Int) ≤ 46
      norm_num
    · show GS_REEL ≤ 5
      decide
  · rw [if_neg c1]
    by_cases c2 : sub32 env.nowMs s.gs.biteStart > 4500
    · rw [if_pos c2]
      exact TensionOk.reset _ rfl rfl (Nat.le_of_ble_eq_true rfl)
    · rw [if_neg c2]
      have hb := biteTension_range env.nowMs s.gs.biteStart s.gs.tension
      exact TensionOk.range s.gs _ h hb.1 hb.2

theorem reelFinish_ok (env : StepEnv) (tReel : Nat) (s : LogicState) (h : TensionOk s.gs) :
    TensionOk (reelFinish env tReel s).gs := by
  unfold reelFinish
  dsimp only
  by_cases c1 : s.gs.tension > 950 ∧
      decide (env.nowMs2 ≥ (1100 + s.gs.reelStart) % 4294967296) = true
  · rw [if_pos c1]
    exact TensionOk.reset _ rfl rfl (Nat.le_of_ble_eq_true rfl)
  · rw [if_neg c1]
    by_cases c2 : tReel ≥ 4200 ∧ s.ls.s_inBandMs ≥ 2400
    · rw [if_pos c2]
      exact TensionOk.reset _ rfl rfl (Nat.le_of_ble_eq_true rfl)
    · rw [if_neg c2]
      by_cases c3 : tReel > 11000 ∧ s.ls.s_inBandMs < 1600
      · rw [if_pos c3]
        exact TensionOk.reset _ rfl rfl (Nat.le_of_ble_eq_true rfl)
      · rw [if_neg c3]
        exact h

theorem reelOutcome_ok (env : StepEnv) (s : LogicState) (h : TensionOk s.gs) :
    TensionOk (reelOutcome env s).gs := by
  unfold reelOutcome
  exact reelFinish_ok env _ _ h

theorem reelTap_state (nowMs2 : Nat) (tap : Bool) (s : LogicState) :
    (reelTap nowMs2 tap s).gs.state = s.gs.state := by
  unfold reelTap
  split_ifs <;> rfl

theorem reelIntegrate_ok (nowMs2 : Nat) (easing recentTap : Bool) (gs : GameState)
    (ls : LogicStatics) (h : gs.state ≤ 5) :
    TensionOk (reelIntegrate nowMs2 easing recentTap gs ls) := by
  unfold reelIntegrate
  dsimp only
  have hv := capVelocity_range (reelVelocity nowMs2 easing recentTap gs ls)
  generalize capVelocity (reelVelocity nowMs2 easing recentTap gs ls) = v at hv ⊢
  have ht := lutClamp16_range (wrap16 (gs.tension + v)) 0 1000 (by norm_num)
  generalize lutClamp16 (wrap16 (gs.tension + v)) 0 1000 = t at ht ⊢
  exact ⟨ht.1, ht.2, hv.1, hv.2, h⟩

theorem stepReel_ok (env : StepEnv) (tap : Bool) (s : LogicState) (h : s.gs.state ≤ 5) :
    TensionOk (stepReel env tap s).gs := by
  unfold stepReel
  apply reelOutcome_ok
  apply reelIntegrate_ok
  rw [reelTap_state]
  exact h

theorem step_ok (env : StepEnv) (s : LogicState) (h : TensionOk s.gs) :
    TensionOk (step env s).gs := by
  have h1 := stepTransition_ok env.nowMs _ (stepPrologue_ok env.nowMs s h)
  have h2 := readTouch_ok env.down env.touchMs _ h1
  unfold step
  dsimp only
  generalize readTouch env.down env.touchMs (stepTransition env.nowMs (stepPrologue env.nowMs s)).gs
    = touch at h2 ⊢
  generalize (stepTransition env.nowMs (stepPrologue env.nowMs s)).ls = ls1
  by_cases c1 : touch.2.2.state = GS_IDLE ∨ touch.2.2.state = GS_DRIFT
  · rw [if_pos c1]
    exact stepIdle_ok env _ h2.1
  · rw [if_neg c1]
    by_cases c2 : touch.2.2.state = GS_BITE
    · rw [if_pos c2]
      exact stepBite_ok env _ _ _ h2.1
    · rw [if_neg c2]
      by_cases c3 : touch.2.2.state = GS_REEL
      · rw [if_pos c3]
        exact stepReel_ok env _ _ h2.1.2.2.2.2
      · rw [if_neg c3]
        by_cases c4 : touch.2.2.state = GS_CATCH ∨ touch.2.2.state = GS_FAIL
        · rw [if_pos c4]
          obtain ⟨a1, a2, a3, a4, _⟩ := h2.1
          exact ⟨a1, a2, a3, a4, Nat.le_of_ble_eq_true rfl⟩
        · rw [if_neg c4]
          exact h2.1

/-! ## Animation lemmas -/

theorem frameAt_spec (a : Anim4) (startMs nowMs : Nat)
    (hc : a.count ≤ 255) (hs : startMs < 4294967296) (hn : nowMs < 4294967296)
    (_hf : 0 < a.frameMs) :
    (0 < a.count →
      frameAt a startMs nowMs < a.count ∧
      frameAt a startMs nowMs =
        if a.loop then ((((nowMs : Int) - startMs) % 4294967296).toNat / a.frameMs) % a.count
        else min ((((nowMs : Int) - startMs) % 4294967296).toNat / a.frameMs) (a.count - 1)) ∧
    (a.count = 0 → frameAt a startMs nowMs = 0) := by
  have ht : (4294967296 + nowMs - startMs) % 4294967296 =
      (((nowMs : Int) - startMs) % 4294967296).toNat := by omega
  refine ⟨fun hpos => ?_, fun h0 => ?_⟩
  · unfold frameAt
    rw [if_neg (by omega)]
    dsimp only
    rw [ht]
    generalize (((nowMs : Int) - startMs) % 4294967296).toNat / a.frameMs = idx
    have hm : idx % a.count < a.count := Nat.mod_lt _ hpos
    cases hl : a.loop
    · by_cases hi : idx ≥ a.count
      · rw [if_pos ⟨rfl, hi⟩]
        simp only [Bool.false_eq_true, if_false]
        rw [Nat.min_eq_right (by omega)]
        omega
      · rw [if_neg (fun h => hi h.2)]
        simp only [Bool.false_eq_true, if_false]
        rw [Nat.mod_eq_of_lt (by omega : idx < a.count), Nat.min_eq_left (by omega)]
        omega
    · rw [if_neg (by simp)]
      simp only [if_true]
      omega
  · unfold frameAt
    rw [if_pos h0]

/-! ## Formatter lemmas -/

theorem digitChar_toNat (d : Nat) (h : d < 10) : (Nat.digitChar d).toNat = 48 + d := by
  interval_cases d <;> rfl

theorem toDigitsCore_succ (f n : Nat) (ds : List Char) :
    Nat.toDigitsCore 10 (f + 1) n ds =
      if n / 10 = 0 then Nat.digitChar (n % 10) :: ds
      else Nat.toDigitsCore 10 f (n / 10) (Nat.digitChar (n % 10) :: ds) := by
  rw [Nat.toDigitsCore]

theorem toDigits_lt10 (n : Nat) (h : n < 10) : Nat.toDigits 10 n = [Nat.digitChar n] := by
  unfold Nat.toDigits
  rw [toDigitsCore_succ, if_pos (by omega), Nat.mod_eq_of_lt h]

theorem toDigits_lt100 (n : Nat) (h0 : 10 ≤ n) (h : n < 100) :
    Nat.toDigits 10 n = [Nat.digitChar (n / 10), Nat.digitChar (n % 10)] := by
  unfold Nat.toDigits
  obtain ⟨m, rfl⟩ : ∃ m, n = m + 1 := ⟨n - 1, by omega⟩
  rw [toDigitsCore_succ, if_neg (by omega), toDigitsCore_succ, if_pos (by omega),
    Nat.mod_eq_of_lt (by omega : (m + 1) / 10 < 10)]

theorem toDigits_lt1000 (n : Nat) (h0 : 100 ≤ n) (h : n < 1000) :
    Nat.toDigits 10 n =
      [Nat.digitChar (n / 100), Nat.digitChar (n / 10 % 10), Nat.digitChar (n % 10)] := by
  unfold Nat.toDigits
  obtain ⟨m, rfl⟩ : ∃ m, n = m + 2 := ⟨n - 2, by omega⟩
  rw [toDigitsCore_succ, if_neg (by omega), toDigitsCore_succ, if_neg (by omega),
    toDigitsCore_succ, if_pos (by omega),
    Nat.mod_eq_of_lt (by omega : (m + 2) / 10 / 10 < 10), Nat.div_div_eq_div_mul]

theorem update_far (f : Nat → Nat) (a v i : Nat) (h : a < i) : Function.update f a v i = f i :=
  Function.update_noteq (by omega) _ _

theorem writeCaughtLabel_far (buf : Nat → Nat) (i : Nat) (h : 8 ≤ i) :
    writeCaughtLabel buf i = buf i := by
  unfold writeCaughtLabel
  rw [update_far _ _ _ _ (by omega), update_far _ _ _ _ (by omega),
    update_far _ _ _ _ (by omega), update_far _ _ _ _ (by omega),
    update_far _ _ _ _ (by omega), update_far _ _ _ _ (by omega),
    update_far _ _ _ _ (by omega), update_far _ _ _ _ (by omega)]

theorem copyText_terminated (t rest : List Nat) (h : ∀ c ∈ t, c ≠ 0) (hl : t.length ≤ 23) :
    copyText (t ++ 0 :: rest) = t := by
  unfold copyText
  have e : List.takeWhile (fun c => decide (c ≠ 0)) (t ++ 0 :: rest) = t := by
    induction t with
    | nil => simp
    | cons a t ih =>
      have ha : a ≠ 0 := h a (List.mem_cons_self _ _)
      simp only [List.cons_append, List.takeWhile_cons, ha, ne_eq, not_false_eq_true,
        decide_True, if_true]
      rw [ih (fun c hc => h c (List.mem_cons_of_mem _ hc))
        (by simp only [List.length_cons] at hl; omega)]
  rw [e]
  exact List.take_of_length_le hl

theorem formatted_ok (out buf : Nat → Nat) (text tail : List Nat) (n : Nat)
    (hn : text.length = n) (hr : List.range 16 = List.range n ++ n :: tail)
    (h1 : (List.range n).map out = text) (h2 : out n = 0) (h3 : ∀ c ∈ text, c ≠ 0)
    (h4 : n + 1 ≤ 13) (h5 : ∀ i, n < i → out i = buf i) :
    (List.range text.length).map out = text ∧ out text.length = 0 ∧ (∀ c ∈ text, c ≠ 0) ∧
      text.length + 1 ≤ 13 ∧ (∀ i, text.length < i → out i = buf i) ∧
      copyText ((List.range 16).map out) = text := by
  rw [hn]
  refine ⟨h1, h2, h3, h4, h5, ?_⟩
  rw [hr, List.map_append, List.map_cons, h1, h2]
  exact copyText_terminated text _ h3 (by omega)

theorem caughtLabel_nonzero : ∀ c ∈ caughtLabel, c ≠ 0 := by decide

theorem formatter_writes_text (buf : Nat → Nat) (count : Nat) :
    (List.range (fishCountText count).length).map (fastFormatFishCount buf count) =
      fishCountText count ∧
    fastFormatFishCount buf count (fishCountText count).length = 0 ∧
    (∀ c ∈ fishCountText count, c ≠ 0) ∧
    (fishCountText count).length + 1 ≤ 13 ∧
    (∀ i, (fishCountText count).length < i → fastFormatFishCount buf count i = buf i) ∧
    copyText ((List.range 16).map (fastFormatFishCount buf count)) = fishCountText count := by
  by_cases h1 : count < 10
  · have e : fastFormatFishCount buf count =
        Function.update (Function.update (writeCaughtLabel buf) 8 ((48 + count) % 256)) 9 0 := by
      unfold fastFormatFishCount
      rw [if_pos h1]
    have et : fishCountText count = caughtLabel ++ [(48 + count) % 256] := by
      unfold fishCountText
      rw [if_pos (by omega), toDigits_lt10 count h1, List.map_cons, List.map_nil,
        digitChar_toNat count h1, Nat.mod_eq_of_lt (by omega)]
    rw [e, et]
    refine formatted_ok _ buf _ [10, 11, 12, 13, 14, 15] 9 rfl rfl rfl rfl ?_ (by norm_num) ?_
    · intro c hc
      rcases List.mem_append.mp hc with hc | hc
      · exact caughtLabel_nonzero c hc
      · rw [List.mem_singleton.mp hc]
        omega
    · intro i hi
      rw [update_far _ _ _ _ (by omega), update_far _ _ _ _ (by omega),
        writeCaughtLabel_far _ _ (by omega)]
  by_cases h2 : count < 100
  · have e : fastFormatFishCount buf count =
        Function.update (Function.update (Function.update (writeCaughtLabel buf)
          8 ((48 + count / 10) % 256)) 9 ((48 + count % 10) % 256)) 10 0 := by
      unfold fastFormatFishCount
      rw [if_neg h1, if_pos h2]
    have et : fishCountText count =
        caughtLabel ++ [(48 + count / 10) % 256, (48 + count % 10) % 256] := by
      unfold fishCountText
      rw [if_pos (by omega), toDigits_lt100 count (by omega) h2, List.map_cons, List.map_cons,
        List.map_nil, digitChar_toNat _ (by omega), digitChar_toNat _ (by omega),
        Nat.mod_eq_of_lt (by omega : 48 + count / 10 < 256),
        Nat.mod_eq_of_lt (by omega : 48 + count % 10 < 256)]
    rw [e, et]
    refine formatted_ok _ buf _ [11, 12, 13, 14, 15] 10 rfl rfl rfl rfl ?_ (by norm_num) ?_
    · intro c hc
      rcases List.mem_append.mp hc with hc | hc
      · exact caughtLabel_nonzero c hc
      · simp only [List.mem_cons, List.mem_singleton, List.not_mem_nil, or_false] at hc
        rcases hc with hc | hc <;> rw [hc] <;> omega
    · intro i hi
      rw [update_far _ _ _ _ (by omega), update_far _ _ _ _ (by omega),
        update_far _ _ _ _ (by omega), writeCaughtLabel_far _ _ (by omega)]
  by_cases h3 : count < 1000
  · have e : fastFormatFishCount buf count =
        Function.update (Function.update (Function.update (Function.update
          (writeCaughtLabel buf) 8 ((48 + count / 100) % 256))
          9 ((48 + (count / 10) % 10) % 256)) 10 ((48 + count % 10) % 256)) 11 0 := by
      unfold fastFormatFishCount
      rw [if_neg h1, if_neg h2, if_pos h3]
    have et : fishCountText count =
        caughtLabel ++ [(48 + count / 100) % 256, (48 + (count / 10) % 10) % 256,
          (48 + count % 10) % 256] := by
      unfold fishCountText
      rw [if_pos h3, toDigits_lt1000 count (by omega) h3, List.map_cons, List.map_cons,
        List.map_cons, List.map_nil, digitChar_toNat _ (by omega), digitChar_toNat _ (by omega),
        digitChar_toNat _ (by omega),
        Nat.mod_eq_of_lt (by omega : 48 + count / 100 < 256),
        Nat.mod_eq_of_lt (by omega : 48 + count / 10 % 10 < 256),
        Nat.mod_eq_of_lt (by omega : 48 + count % 10 < 256)]
    rw [e, et]
    refine formatted_ok _ buf _ [12, 13, 14, 15] 11 rfl rfl rfl rfl ?_ (by norm_num) ?_
    · intro c hc
      rcases List.mem_append.mp hc with hc | hc
      · exact caughtLabel_nonzero c hc
      · simp only [List.mem_cons, List.mem_singleton, List.not_mem_nil, or_false] at hc
        rcases hc with hc | hc | hc <;> rw [hc] <;> omega
    · intro i hi
      rw [update_far _ _ _ _ (by omega), update_far _ _ _ _ (by omega),
        update_far _ _ _ _ (by omega), update_far _ _ _ _ (by omega),
        writeCaughtLabel_far _ _ (by omega)]
  · have e : fastFormatFishCount buf count =
        Function.update (Function.update (Function.update (Function.update (Function.update
          (writeCaughtLabel buf) 8 57) 9 57) 10 57) 11 43) 12 0 := by
      unfold fastFormatFishCount
      rw [if_neg h1, if_neg h2, if_neg h3]
    have et : fishCountText count = caughtLabel ++ [57, 57, 57, 43] := by
      unfold fishCountText
      rw [if_neg h3]
    rw [e, et]
    refine formatted_ok _ buf _ [13, 14, 15] 12 rfl rfl rfl rfl (by decide) (by norm_num) ?_
    intro i hi
    rw [update_far _ _ _ _ (by omega), update_far _ _ _ _ (by omega),
      update_far _ _ _ _ (by omega), update_far _ _ _ _ (by omega),
      update_far _ _ _ _ (by omega), writeCaughtLabel_far _ _ (by omega)]

/-! ## Claim C31 -/

/-- C31: for all 16-bit RGB565 colours `a` and `b`, `blend565 a b` is the 16-bit colour whose
red (bits 11-15), green (bits 5-10) and blue (bits 0-4) channels are each
`floor((channel of a + channel of b) / 2)`; the blend is commutative, `blend565 a a = a`, and
each result channel lies between the two input channels. -/
theorem blend565_is_channel_average (a b : Nat) (ha : a < 65536) (_hb : b < 65536) :
    blend565 a b < 65536 ∧
    blend565 a b / 2048 % 32 = (a / 2048 % 32 + b / 2048 % 32) / 2 ∧
    blend565 a b / 32 % 64 = (a / 32 % 64 + b / 32 % 64) / 2 ∧
    blend565 a b % 32 = (a % 32 + b % 32) / 2 ∧
    blend565 a b = blend565 b a ∧
    blend565 a a = a ∧
    (min (a / 2048 % 32) (b / 2048 % 32) ≤ blend565 a b / 2048 % 32 ∧
      blend565 a b / 2048 % 32 ≤ max (a / 2048 % 32) (b / 2048 % 32)) ∧
    (min (a / 32 % 64) (b / 32 % 64) ≤ blend565 a b / 32 % 64 ∧
      blend565 a b / 32 % 64 ≤ max (a / 32 % 64) (b / 32 % 64)) ∧
    (min (a % 32) (b % 32) ≤ blend565 a b % 32 ∧
      blend565 a b % 32 ≤ max (a % 32) (b % 32)) := by
  obtain ⟨c0, c1, c2, c3⟩ := blend565_channels a b
  refine ⟨c0, c1, c2, c3, blend565_comm a b, blend565_idem a ha, ?_, ?_, ?_⟩
  · rw [c1]; exact chan_avg_between _ _
  · rw [c2]; exact chan_avg_between _ _
  · rw [c3]; exact chan_avg_between _ _

/-- Witness for C31: pure red `0xF800` blended with pure blue `0x001F` gives `0x780F`, and the
red channel of the result is `floor((31 + 0) / 2)`. -/
theorem blend565_is_channel_average_witness :
    (63488 : Nat) < 65536 ∧ (31 : Nat) < 65536 ∧ blend565 63488 31 = 30735 ∧
      blend565 63488 31 / 2048 % 32 = (63488 / 2048 % 32 + 31 / 2048 % 32) / 2 ∧
      blend565 63488 31 = blend565 31 63488 ∧ blend565 63488 63488 = 63488 :=
  ⟨by decide, by decide, by decide,
    (blend565_is_channel_average 63488 31 (by decide) (by decide)).2.1,
    (blend565_is_channel_average 63488 31 (by decide) (by decide)).2.2.2.2.1,
    (blend565_is_channel_average 63488 31 (by decide) (by decide)).2.2.2.2.2.1⟩

/-! ## Claim C32 -/

set_option maxRecDepth 1000000 in
/-- C32 as stated fails when two samples share a column and a row, which the generator does
not exclude.  On a 320x240 screen with the palette `bgPal[i] = i`, the 29th regeneration
from the seed `0xBADC0FFE` (174 frames one second apart) draws the samples
`(210, row 2, colour 54)` and `(210, row 2, colour 248)`; the band is rows 164..168.  On row
168 with the window `(208, 4)` over a zeroed line, entry 2 is stored twice:
`blend565(0, 54) = 11`, then `blend565(11, 248) = 113`.  The blend of the previous content 0
with a sample colour is one of 46, 11, 79, 10, 108, 41, never 113. -/
theorem shimmer_coinciding_samples_counterexample :
    (shimmerRun (fun i => i) 174).samples.map (fun s => (s.shX, s.shRow, s.shCol)) =
      [(318, 2, 93), (210, 2, 54), (134, 1, 158), (152, 2, 21), (210, 2, 248),
        (226, 2, 83)] ∧
    (shimmerRun (fun i => i) 174).shimmerY0 = 164 ∧
    (shimmerRun (fun i => i) 174).shimmerH = 5 ∧
    applyShimmerLine (shimmerRun (fun i => i) 174) 168 208 4 (fun _ => 0) 2 = 113 ∧
    (shimmerRun (fun i => i) 174).samples.map (fun s => shimmerBlend 0 s.shCol) =
      [46, 11, 79, 10, 108, 41] := by
  decide

/-- C32 (amended): for every shimmer state, every row `y` and every window `(x0, w)` with
`0 ≤ w` (the only call passes `W > 0`; 16-bit values), `applyShimmerLine` changes no
line-buffer entry outside `[0, w)`; it changes nothing when `y` is outside the band
`[shimmerY0, shimmerY0 + shimmerH)`; every entry is either left as it was or becomes its
previous content blended (`blend565`), in sample order, with the colours of exactly the
samples that store into it (`shimmerHits`), which is the blend of its previous content with
one sample colour whenever at most one sample stores into it; every single store replaces
the entry by the blend of its content with the colour of the sample; and the dirty boxes do
not depend on the shimmer state: `renderFrame` leaves the same renderer and opens the same
windows whatever the shimmer state is. -/
theorem shimmer_line_stays_in_window (st : Statics) (y x0 w : Int) (buf : LineBuf)
    (hw : 0 ≤ w) (hw' : w ≤ 32767) (hy : y ≤ 32767) (hY0 : -32768 ≤ st.shimmerY0) :
    (∀ i, ¬ (0 ≤ i ∧ i < w) → applyShimmerLine st y x0 w buf i = buf i) ∧
    ((y < st.shimmerY0 ∨ y ≥ st.shimmerY0 + st.shimmerH) →
      applyShimmerLine st y x0 w buf = buf) ∧
    (∀ i, applyShimmerLine st y x0 w buf i = buf i ∨
      applyShimmerLine st y x0 w buf i =
        ((st.samples.filter
            (shimmerHits ((wrap16 (y - st.shimmerY0) / 2) % 256).toNat x0 w i)).map
          ShimmerSample.shCol).foldl shimmerBlend (buf i)) ∧
    (∀ i, (st.samples.filter
          (shimmerHits ((wrap16 (y - st.shimmerY0) / 2) % 256).toNat x0 w i)).length ≤ 1 →
      applyShimmerLine st y x0 w buf i = buf i ∨
        ∃ s ∈ st.samples, applyShimmerLine st y x0 w buf i = shimmerBlend (buf i) s.shCol) ∧
    (∀ (row2x : Nat) (b : LineBuf) (s : ShimmerSample) (i : Int),
      shimmerSample row2x x0 w b s i =
        if shimmerHits row2x x0 w i s = true then shimmerBlend (b i) s.shCol else b i) ∧
    (∀ (env : FrameEnv) (r : Renderer) (st2 : Statics),
      (renderFrame env r st).renderer = (renderFrame env r st2).renderer ∧
      (renderFrame env r st).trace.filter DisplayCall.isSetAddrWindow =
        (renderFrame env r st2).trace.filter DisplayCall.isSetAddrWindow) := by
  have hval : ∀ i, applyShimmerLine st y x0 w buf i = buf i ∨
      applyShimmerLine st y x0 w buf i =
        ((st.samples.filter
            (shimmerHits ((wrap16 (y - st.shimmerY0) / 2) % 256).toNat x0 w i)).map
          ShimmerSample.shCol).foldl shimmerBlend (buf i) := by
    intro i
    unfold applyShimmerLine
    split_ifs
    · left; rfl
    · left; rfl
    · right; exact shimmerFold_apply _ x0 w i _ buf
  refine ⟨fun i hi => ?_, fun hout => ?_, hval, fun i hlen => ?_,
    fun row2x b s i => shimmerSample_apply row2x x0 w b s i, fun env r st2 => ?_⟩
  · unfold applyShimmerLine
    split_ifs
    · rfl
    · rfl
    · exact shimmerFold_outside _ x0 w hw hw' i hi _ buf
  · unfold applyShimmerLine
    by_cases h0 : st.samples.length = 0
    · rw [if_pos h0]
    · rw [if_neg h0]
      have hb : y < st.shimmerY0 ∨ y ≥ wrap16 (st.shimmerY0 + st.shimmerH) := by
        rcases hout with h | h
        · left; exact h
        · right
          rw [wrap16_id (by omega) (by omega)]
          exact h
      rw [if_pos hb]
  · rcases hval i with h | h
    · left; exact h
    · generalize hf : st.samples.filter
          (shimmerHits ((wrap16 (y - st.shimmerY0) / 2) % 256).toNat x0 w i) = f at h hlen
      match f, hf, hlen with
      | [], _, _ => left; exact h
      | [s], hf, _ =>
        right
        have hs : s ∈ st.samples :=
          (List.mem_filter.mp (by rw [hf]; exact List.mem_singleton_self s)).1
        exact ⟨s, hs, h⟩
      | _ :: _ :: _, _, hlen => simp at hlen
  · exact ⟨renderFrame_renderer_indep env r st st2,
      by rw [renderFrame_windows, renderFrame_windows]⟩

/-- Witness for C32: the one-sample state on row 0 with the window `(0, 4)`: entry 7 is
outside the window and keeps its value, entry 0 becomes `blend565(0, 0x001F) = 15`. -/
theorem shimmer_line_stays_in_window_witness :
    (0 : Int) ≤ 4 ∧ ¬ ((0 : Int) ≤ 7 ∧ (7 : Int) < 4) ∧
      applyShimmerLine shimmerDemo 0 0 4 (fun _ => 0) 7 = (fun _ => 0 : LineBuf) 7 ∧
      applyShimmerLine shimmerDemo 0 0 4 (fun _ => 0) 0 = 15 :=
  ⟨by decide, by decide,
    (shimmer_line_stays_in_window shimmerDemo 0 0 4 (fun _ => 0) (by decide) (by decide)
      (by decide) (by decide)).1 7 (by decide),
    by decide⟩

/-! ## Claim C33 -/

set_option maxRecDepth 100000 in
/-- C33 as stated fails on a 320x480 screen: `cfg.screenH * 72` is 34560, which does not fit
the 16-bit `int` and wraps to -30976, so the waterline is computed as -309 and the band is
clamped to row 0 (rows 0..4), while 8 rows above 72 % of 480 is row 337; the sample set is
regenerated all the same (7 samples).  With a negative height (-1) the band height is 255. -/
theorem shimmer_tall_screen_counterexample :
    (maybeUpdateShimmer 320 480 (fun _ => 0) 0 shimmerDue).shimmerY0 = 0 ∧
    (maybeUpdateShimmer 320 480 (fun _ => 0) 0 shimmerDue).shimmerH = 5 ∧
    (maybeUpdateShimmer 320 480 (fun _ => 0) 0 shimmerDue).samples.length = 7 ∧
    max ((480 : Int) * 72 / 100 - 8) 0 = 337 ∧
    (maybeUpdateShimmer 320 (-1) (fun _ => 0) 0 shimmerDue).shimmerH = 255 := by
  decide

/-- C33 (amended): on a screen with `0 < screenW ≤ 32767` and `0 < screenH ≤ 455` (so that
`screenH * 72` fits 16 bits), for every generator state and palette, when
`maybeUpdateShimmer` regenerates (sixth call, `now` not before `nextShimmerMs`) the number
of samples is between 5 and 8, every sample column is even and within `[0, screenW)`, every
sample row index is below `ceil(h/2)`, the band height `h` is between 1 and 5, the band
starts at `max(floor(72 screenH / 100) - 8, 0)` and ends on the screen. -/
theorem shimmer_regeneration_bounds (screenW screenH : Int) (bgPal : Int → Int) (now : Nat)
    (st : Statics) (hW : 0 < screenW) (hW' : screenW ≤ 32767)
    (hH : 0 < screenH) (hH' : screenH ≤ 455)
    (hcnt : 6 ≤ (st.shimmerFrameCounter + 1) % 256) (hnow : st.nextShimmerMs ≤ now) :
    5 ≤ (maybeUpdateShimmer screenW screenH bgPal now st).samples.length ∧
    (maybeUpdateShimmer screenW screenH bgPal now st).samples.length ≤ 8 ∧
    (∀ s ∈ (maybeUpdateShimmer screenW screenH bgPal now st).samples,
      s.shX % 2 = 0 ∧ 0 ≤ s.shX ∧ s.shX < screenW ∧
      s.shRow < ((maybeUpdateShimmer screenW screenH bgPal now st).shimmerH + 1) / 2) ∧
    1 ≤ (maybeUpdateShimmer screenW screenH bgPal now st).shimmerH ∧
    (maybeUpdateShimmer screenW screenH bgPal now st).shimmerH ≤ 5 ∧
    (maybeUpdateShimmer screenW screenH bgPal now st).shimmerY0 =
      max (screenH * 72 / 100 - 8) 0 ∧
    (maybeUpdateShimmer screenW screenH bgPal now st).shimmerY0 +
      (maybeUpdateShimmer screenW screenH bgPal now st).shimmerH ≤ screenH :=
  shimmer_regen_fields screenW screenH bgPal now st hW hW' hH hH' hcnt hnow

/-- Witness for C33: the 320x240 screen at time 0, sixth call from the initial statics. -/
theorem shimmer_regeneration_bounds_witness :
    (0 : Int) < 320 ∧ (0 : Int) < 240 ∧ (240 : Int) ≤ 455 ∧
    5 ≤ (maybeUpdateShimmer 320 240 (fun _ => 0) 0 shimmerDue).samples.length ∧
    (maybeUpdateShimmer 320 240 (fun _ => 0) 0 shimmerDue).samples.length ≤ 8 ∧
    (maybeUpdateShimmer 320 240 (fun _ => 0) 0 shimmerDue).shimmerY0 =
      max ((240 : Int) * 72 / 100 - 8) 0 :=
  ⟨by decide, by decide, by decide,
    (shimmer_regeneration_bounds 320 240 (fun _ => 0) 0 shimmerDue (by decide) (by decide)
      (by decide) (by decide) (by decide) (by decide)).1,
    (shimmer_regeneration_bounds 320 240 (fun _ => 0) 0 shimmerDue (by decide) (by decide)
      (by decide) (by decide) (by decide) (by decide)).2.1,
    (shimmer_regeneration_bounds 320 240 (fun _ => 0) 0 shimmerDue (by decide) (by decide)
      (by decide) (by decide) (by decide) (by decide)).2.2.2.2.2.1⟩

/-! ## Claim C34 -/

set_option maxRecDepth 100000 in
/-- C34 fails on `uiLostState`: the world set holds 28 boxes of which `wbox[0]` lies off
screen (the first clamp invalidates it), and one UI box `[100, 116) x [100, 116)` is on the
320x240 screen and intersects no world box.  The fallback of the merge unions it into the
invalid `wbox[0]`: after the merge no valid world box contains the pixel (100, 100), and no
window `renderFrame` opens contains it. -/
theorem ui_box_lost_on_full_world_set (env : FrameEnv) (st : Statics) :
    uiLostState.wbox.length = 28 ∧ uiLostState.ui = [⟨true, 100, 100, 116, 116⟩] ∧
    uiLostState.fgNeedsFullPass = false ∧
    (mergedBoxes 320 240 false [] { wbox := uiLostState.wbox, ui := uiLostState.ui }).all
      (fun b => !(b.valid && decide (b.minX ≤ 100 ∧ 100 < b.maxX ∧ b.minY ≤ 100 ∧ 100 < b.maxY)))
      = true ∧
    (renderFrame env uiLostState st).trace.any (DisplayCall.coversPixel 100 100) = false := by
  refine ⟨by decide, by decide, by decide, by decide, ?_⟩
  rw [any_coversPixel, renderFrame_windows]
  decide

/-! ## Claim C35 -/

set_option maxRecDepth 100000 in
/-- C35 as stated fails for a background of logical width 20000 (the box `[0, 4)` lies
within `[0, 2 * 20000)`): `(int16_t)w160 << 1` wraps to -25536, the composer writes only the
columns `[0, 2)` of the window, and the cache copies whatever the line buffer held.  After
row 0 (a sprite of colour 101 drawn over it) the cached copy for row 1 puts 0 at index 2
where composing row 1 directly leaves 101; and after row 2 the cache itself holds the
sprite pixel 101. -/
theorem bg_cache_wide_image_counterexample :
    (bgStep wideBackground wideBackground.pal565 1 0 4
      (rowLoop true wideBackground wideBackground.pal565 Statics.initial 0 4
        [demoSprite 100 0] [] [] [] [] 1 0 freshRowState)).s_back 2 = 0 ∧
    composeBGLine_160to320_quads_P wideBackground.q0 wideBackground.q1 wideBackground.q2
      wideBackground.q3 wideBackground.W wideBackground.H wideBackground.cw wideBackground.ch
      wideBackground.pal565 1 0 4
      (rowLoop true wideBackground wideBackground.pal565 Statics.initial 0 4
        [demoSprite 100 0] [] [] [] [] 1 0 freshRowState).s_back 2 = 101 ∧
    (rowLoop true wideBackground wideBackground.pal565 Statics.initial 0 4
        [demoSprite 100 0] [] [] [] [] 3 0 freshRowState).bgLineCache 2 = 101 := by
  decide

/-- C35 (amended): for a well-formed background whose doubled width fits 16 bits
(`2 * W0 ≤ 32767`, `cw ≤ W0`, `ch ≤ H0`, `1 ≤ H0`), a box window `(minX, W)` within the
columns `[0, 2 * W0)` and rows `minY + i` in `[0, 32767]`, in the state the row loop has
reached after `i` rows (from a start state with the cache invalid, as `renderFrame` sets it
for each box): the background row obtained by the background step (the cached copy when
`y >> 1` equals the previous row's source row, a fresh composition otherwise) equals, over
`[0, W)`, the row `composeBGLine_160to320_quads_P` composes directly for that `y` over any
buffer; both equal the background pixel `palette[img[y>>1][(minX+k)>>1]]`, and so does the
cache after the step, so the cache holds no shimmer, sprite or UI pixel; and rows `2j` and
`2j+1` compose identically. -/
theorem bg_cache_matches_direct_compose (fastBlit : Bool) (bg : Background)
    (bgPal : Int → Int) (st : Statics) (minX W : Int) (visW visF : List Sprite)
    (rects : List Rect) (bars : List HBar) (texts : List Text) (hbg : bg.wellFormed)
    (hx0 : 0 ≤ minX) (hW : 0 < W) (hxw : minX + W ≤ 2 * bg.W) (minY : Int) (hy0 : 0 ≤ minY)
    (rs0 : RowState) (h0 : rs0.bgCachedValid = false) (i : Nat) (hi : minY + i ≤ 32767)
    (k : Int) (hk : 0 ≤ k ∧ k < W) (buf : LineBuf) :
    (bgStep bg bgPal (minY + i) minX W
      (rowLoop fastBlit bg bgPal st minX W visW visF rects bars texts i minY rs0)).s_back k =
      composeBGLine_160to320_quads_P bg.q0 bg.q1 bg.q2 bg.q3 bg.W bg.H bg.cw bg.ch bgPal
        (minY + i) minX W buf k ∧
    composeBGLine_160to320_quads_P bg.q0 bg.q1 bg.q2 bg.q3 bg.W bg.H bg.cw bg.ch bgPal
        (minY + i) minX W buf k = refBGPixel bg bgPal (minY + i) (minX + k) ∧
    (bgStep bg bgPal (minY + i) minX W
      (rowLoop fastBlit bg bgPal st minX W visW visF rects bars texts i minY rs0)).bgLineCache k =
      refBGPixel bg bgPal (minY + i) (minX + k) ∧
    (∀ j : Int, composeBGLine_160to320_quads_P bg.q0 bg.q1 bg.q2 bg.q3 bg.W bg.H bg.cw bg.ch
        bgPal (2 * j) minX W buf =
      composeBGLine_160to320_quads_P bg.q0 bg.q1 bg.q2 bg.q3 bg.W bg.H bg.cw bg.ch
        bgPal (2 * j + 1) minX W buf) := by
  have hinv0 : CacheInv bg bgPal minX W rs0 := by
    intro h
    rw [h0] at h
    exact absurd h (by decide)
  have hinv := rowLoop_cacheInv fastBlit bg bgPal st minX W visW visF rects bars texts hbg
    hx0 hW hxw i minY rs0 ⟨hy0, by omega⟩ hinv0
  have hb := (bgStep_background bg bgPal hbg (minY + i) minX W _ ⟨by omega, hi⟩ hx0 hW hxw
    hinv).1 k hk.1 hk.2
  have hp := composeBGLine_pixel bg bgPal hbg (minY + i) minX W buf ⟨by omega, hi⟩ hx0 hW hxw
    k hk
  refine ⟨hb.1.trans hp.symm, hp, hb.2, fun j => ?_⟩
  apply composeBGLine_row_congr
  have e : (2 * j + 1) / 2 = 2 * j / 2 := by omega
  rw [e]

/-- Witness for C35: the 160x120 background of `blankEnv`, the window `(0, 4)` from row 0,
the state after one row: row 1 takes the cached copy, which equals the direct
composition. -/
theorem bg_cache_matches_direct_compose_witness :
    freshRowState.bgCachedValid = false ∧ (0 : Int) + 4 ≤ 2 * blankEnv.bg.W ∧
    (bgStep blankEnv.bg blankEnv.bg.pal565 ((0 : Int) + (1 : Nat)) 0 4
      (rowLoop true blankEnv.bg blankEnv.bg.pal565 Statics.initial 0 4 [demoSprite 100 0] []
        [] [] [] 1 0 freshRowState)).s_back 2 =
      composeBGLine_160to320_quads_P blankEnv.bg.q0 blankEnv.bg.q1 blankEnv.bg.q2
        blankEnv.bg.q3 blankEnv.bg.W blankEnv.bg.H blankEnv.bg.cw blankEnv.bg.ch
        blankEnv.bg.pal565 ((0 : Int) + (1 : Nat)) 0 4 (fun _ => 7) 2 :=
  ⟨rfl, by decide,
    (bg_cache_matches_direct_compose true blankEnv.bg blankEnv.bg.pal565 Statics.initial 0 4
      [demoSprite 100 0] [] [] [] [] (by unfold Background.wellFormed; decide) (by decide)
      (by decide) (by decide) 0 (by decide) freshRowState rfl 1 (by decide) 2 (by decide)
      (fun _ => 7)).1⟩

/-! ## Claim C36 -/

set_option maxRecDepth 100000 in
/-- C36 as stated fails at the right edge of a 32767-wide screen: the box
`[32750, 32760) x [0, 2)` is painted, and the 16x16 sprite at `(32752, 0)` covers its
columns 32752..32759, but in `rectIntersects` the sum `ax + aw = 32768` wraps to -32768, so
the sprite is not in the visibility list; composing row 0 from the visible sprites leaves
entry 2 at 0 while composing it from all queued sprites stores the sprite colour 101 (with
the fast blit and with the plain blit). -/
theorem culling_right_edge_overflow_counterexample :
    paintedBoxes 32767 240 false []
      { wbox := ((Renderer.new 32767 240).addDirtyWorldRect 32750 0 10 2).wbox, ui := [] } =
      [⟨true, 32750, 0, 32760, 2⟩] ∧
    (visibleSprites MAX_SPR ⟨true, 32750, 0, 32760, 2⟩ 10 [edgeSprite]).length = 0 ∧
    spritePass true 0 32750 10 (visibleSprites MAX_SPR ⟨true, 32750, 0, 32760, 2⟩ 10 [edgeSprite])
      (fun _ => 0) 2 = 0 ∧
    spritePass true 0 32750 10 [edgeSprite] (fun _ => 0) 2 = 101 ∧
    spritePass false 0 32750 10 [edgeSprite] (fun _ => 0) 2 = 101 := by
  decide

/-- C36 (amended): for a box with `0 ≤ minX < maxX ≤ 32767` and rows in the 16-bit range
(every painted box is such), every row `y` of it, and queues within their capacities
(16 world sprites, 2 foreground sprites) whose sprites have extents in `0..32767` and a right
edge `vx + w ≤ 32767`: composing the row from the per-box visibility lists yields the same
line buffer (every entry, in particular those in `[0, W)`) as composing it from all queued
sprites in the same order, with the fast blit and with the plain blit. -/
theorem culling_keeps_row (fastBlit : Bool) (st : Statics) (b : Box) (q : Queues) (y : Int)
    (bgLine : LineBuf) (hspr : q.spr.length ≤ MAX_SPR) (hfg : q.fg.length ≤ MAX_FG)
    (hqs : ∀ s ∈ q.spr, s.inRange) (hqf : ∀ s ∈ q.fg, s.inRange)
    (hx0 : 0 ≤ b.minX) (hxx : b.minX < b.maxX) (hx1 : b.maxX ≤ 32767)
    (hy0 : -32768 ≤ b.minY) (hy1 : b.maxY ≤ 32767) (hy : b.minY ≤ y ∧ y < b.maxY) :
    composeLayers fastBlit st y b.minX (wrap16 (b.maxX - b.minX))
        (visibleSprites MAX_SPR b (wrap16 (b.maxX - b.minX)) q.spr)
        (visibleSprites MAX_FG b (wrap16 (b.maxX - b.minX)) q.fg) q.rec_ q.bar q.txt bgLine =
      composeLayers fastBlit st y b.minX (wrap16 (b.maxX - b.minX)) q.spr q.fg
        q.rec_ q.bar q.txt bgLine := by
  unfold composeLayers
  rw [spritePass_visible fastBlit MAX_SPR b q.spr y _ hspr hqs hx0 hxx hx1 hy0 hy1 (by omega) hy,
    spritePass_visible fastBlit MAX_FG b q.fg y _ hfg hqf hx0 hxx hx1 hy0 hy1 (by omega) hy]

/-- Witness for C36: the box `[0, 16) x [0, 16)`, row 3, one world sprite over the box and
one far to the right of it. -/
theorem culling_keeps_row_witness :
    (visibleSprites MAX_SPR ⟨true, 0, 0, 16, 16⟩ (wrap16 ((16 : Int) - 0))
      [demoSprite 100 0, { demoSprite 200 1 with vx := 100 }]).length = 1 ∧
    composeLayers true Statics.initial 3 (⟨true, 0, 0, 16, 16⟩ : Box).minX
        (wrap16 ((⟨true, 0, 0, 16, 16⟩ : Box).maxX - (⟨true, 0, 0, 16, 16⟩ : Box).minX))
        (visibleSprites MAX_SPR ⟨true, 0, 0, 16, 16⟩
          (wrap16 ((⟨true, 0, 0, 16, 16⟩ : Box).maxX - (⟨true, 0, 0, 16, 16⟩ : Box).minX))
          (Queues.mk [demoSprite 100 0, { demoSprite 200 1 with vx := 100 }] [] [] [] []).spr)
        (visibleSprites MAX_FG ⟨true, 0, 0, 16, 16⟩
          (wrap16 ((⟨true, 0, 0, 16, 16⟩ : Box).maxX - (⟨true, 0, 0, 16, 16⟩ : Box).minX))
          (Queues.mk [demoSprite 100 0, { demoSprite 200 1 with vx := 100 }] [] [] [] []).fg)
        (Queues.mk [demoSprite 100 0, { demoSprite 200 1 with vx := 100 }] [] [] [] []).rec_
        (Queues.mk [demoSprite 100 0, { demoSprite 200 1 with vx := 100 }] [] [] [] []).bar
        (Queues.mk [demoSprite 100 0, { demoSprite 200 1 with vx := 100 }] [] [] [] []).txt
        (fun _ => 0) =
      composeLayers true Statics.initial 3 (⟨true, 0, 0, 16, 16⟩ : Box).minX
        (wrap16 ((⟨true, 0, 0, 16, 16⟩ : Box).maxX - (⟨true, 0, 0, 16, 16⟩ : Box).minX))
        (Queues.mk [demoSprite 100 0, { demoSprite 200 1 with vx := 100 }] [] [] [] []).spr
        (Queues.mk [demoSprite 100 0, { demoSprite 200 1 with vx := 100 }] [] [] [] []).fg
        (Queues.mk [demoSprite 100 0, { demoSprite 200 1 with vx := 100 }] [] [] [] []).rec_
        (Queues.mk [demoSprite 100 0, { demoSprite 200 1 with vx := 100 }] [] [] [] []).bar
        (Queues.mk [demoSprite 100 0, { demoSprite 200 1 with vx := 100 }] [] [] [] []).txt
        (fun _ => 0) :=
  ⟨by decide,
    culling_keeps_row true Statics.initial ⟨true, 0, 0, 16, 16⟩
      (Queues.mk [demoSprite 100 0, { demoSprite 200 1 with vx := 100 }] [] [] [] []) 3
      (fun _ => 0) (by decide) (by decide)
      (by
        intro s hs
        simp only [List.mem_cons, List.mem_singleton, List.not_mem_nil, or_false] at hs
        rcases hs with hs | hs <;> subst hs <;> unfold Sprite.inRange demoSprite <;> decide)
      (by intro s hs; cases hs)
      (by decide) (by decide) (by decide) (by decide) (by decide) (by decide)⟩

/-! ## Claim C37 -/

/-- C37: for every game state with `0 ≤ tension ≤ 1000`, `-50 ≤ tensionVel ≤ 46` and a state
value among the six defined states (`GS_IDLE = 0` .. `GS_FAIL = 5`), and for every clock
value and touch input, after `CA_Logic::step` the tension is again in `0..1000`, the
velocity again within the caps and the state again one of the six. -/
theorem step_keeps_tension_in_range (env : StepEnv) (s : LogicState)
    (ht : 0 ≤ s.gs.tension ∧ s.gs.tension ≤ 1000)
    (hv : -50 ≤ s.gs.tensionVel ∧ s.gs.tensionVel ≤ 46) (hs : s.gs.state ≤ 5) :
    0 ≤ (step env s).gs.tension ∧ (step env s).gs.tension ≤ 1000 ∧
      -50 ≤ (step env s).gs.tensionVel ∧ (step env s).gs.tensionVel ≤ 46 ∧
      (step env s).gs.state ≤ 5 :=
  step_ok env s ⟨ht.1, ht.2, hv.1, hv.2, hs⟩

/-- Witness for C37: a reel at tension 990 with the velocity at the upper cap, stylus
down. -/
theorem step_keeps_tension_in_range_witness :
    ((0 : Int) ≤ demoFight.gs.tension ∧ demoFight.gs.tension ≤ 1000) ∧
      demoFight.gs.state = GS_REEL ∧
      0 ≤ (step demoStepEnv demoFight).gs.tension ∧
      (step demoStepEnv demoFight).gs.tension ≤ 1000 ∧
      -50 ≤ (step demoStepEnv demoFight).gs.tensionVel ∧
      (step demoStepEnv demoFight).gs.tensionVel ≤ 46 ∧
      (step demoStepEnv demoFight).gs.state ≤ 5 :=
  ⟨by decide, rfl,
    step_keeps_tension_in_range demoStepEnv demoFight (by decide) (by decide) (by decide)⟩

/-! ## Claim C38 -/

/-- C38: for every animation with `count > 0` (a `uint8_t`) and `frameMs > 0` and all 32-bit
start and now times, `frameAt` returns an index below `count`: with
`idx = floor(((now - start) mod 2^32) / frameMs)` it returns `idx mod count` for a looping
animation and `min(idx, count - 1)` for a non-looping one; for `count = 0` it returns 0. -/
theorem frameAt_below_count (a : Anim4) (startMs nowMs : Nat)
    (hc : a.count ≤ 255) (hs : startMs < 4294967296) (hn : nowMs < 4294967296)
    (hf : 0 < a.frameMs) :
    (0 < a.count →
      frameAt a startMs nowMs < a.count ∧
      frameAt a startMs nowMs =
        if a.loop then ((((nowMs : Int) - startMs) % 4294967296).toNat / a.frameMs) % a.count
        else min ((((nowMs : Int) - startMs) % 4294967296).toNat / a.frameMs) (a.count - 1)) ∧
    (a.count = 0 → frameAt a startMs nowMs = 0) :=
  frameAt_spec a startMs nowMs hc hs hn hf

/-- Witness for C38: four looping frames of 100 ms, started 296 ms before the clock wrapped
and read at 500 ms: 796 ms have passed, frame 7 mod 4 = 3. -/
theorem frameAt_below_count_witness :
    (4294967000 : Nat) < 4294967296 ∧ (500 : Nat) < 4294967296 ∧
      frameAt { count := 4, frameMs := 100, loop := true } 4294967000 500 = 3 ∧
      frameAt { count := 4, frameMs := 100, loop := true } 4294967000 500 <
        (Anim4.mk 4 100 true).count :=
  ⟨by decide, by decide, by decide,
    ((frameAt_below_count { count := 4, frameMs := 100, loop := true } 4294967000 500
      (by decide) (by decide) (by decide) (by decide)).1 (by decide)).1⟩

/-! ## Claim C39 -/

/-- C39: for every count and every buffer, `fastFormatFishCount` writes the text
`fishCountText count` (the label `Caught: ` followed by the decimal digits of a count below
1000 without leading zeros, by `999+` for a count of 1000 or more) followed by a NUL byte;
the text holds no NUL, text and terminator take at most 13 bytes, no byte after the
terminator is changed, and `copyText` (the copy into the renderer's 23-character text)
applied to the caller's 16-byte buffer returns the text untruncated. -/
theorem fish_count_text_formatted (buf : Nat → Nat) (count : Nat) :
    (List.range (fishCountText count).length).map (fastFormatFishCount buf count) =
      fishCountText count ∧
    fastFormatFishCount buf count (fishCountText count).length = 0 ∧
    (∀ c ∈ fishCountText count, c ≠ 0) ∧
    (fishCountText count).length + 1 ≤ 13 ∧
    (∀ i, (fishCountText count).length < i → fastFormatFishCount buf count i = buf i) ∧
    copyText ((List.range 16).map (fastFormatFishCount buf count)) = fishCountText count :=
  formatter_writes_text buf count

/-! ## Claim C40 -/

/-- C40 fails: the table `LUT_RECIP_Q15` has initialisers for `n < 40` only, so for
`n = 40` the entry is 0 and `lutDivU16byU8 65535 40 = 0` where `floor(65535 / 40) = 1638`;
and from `n = 19` on the entries written are not `round(32768 / n)` (1723 for 19, where the
rounded value is 1725), so that `lutDivU16byU8 65535 24 = 2747` where
`floor(65535 / 24) = 2730`.  The entries for `n = 1 .. 18` are the rounded reciprocals,
every entry from 40 on is 0, and `n = 0` gives 0. -/
theorem lutDiv_table_short_and_wrong :
    recipQ15 19 = 1723 ∧ (2 * 32768 + 19) / (2 * 19) = 1725 ∧
    lutDivU16byU8 65535 24 = 2747 ∧ 65535 / 24 = 2730 ∧
    recipQ15 40 = 0 ∧ lutDivU16byU8 65535 40 = 0 ∧ 65535 / 40 = 1638 ∧
    (∀ n, 1 ≤ n → n ≤ 18 → recipQ15 n = (2 * 32768 + n) / (2 * n)) ∧
    (∀ n, 40 ≤ n → recipQ15 n = 0) ∧
    (∀ x, lutDivU16byU8 x 0 = 0) := by
  refine ⟨by decide, by decide, by decide, by decide, by decide, by decide, by decide, ?_, ?_, ?_⟩
  · intro n h1 h2
    interval_cases n <;> decide
  · intro n hn
    unfold recipQ15
    exact List.getD_eq_default _ _ (by simpa [LUT_RECIP_Q15] using hn)
  · intro x
    rfl

end CastAway
